import Mathlib

/-!
# Level 9 interpreter (ZX Spectrum Next port): snapshot, RAM save and paging layer

A shallow embedding of `src/src/level9.c` (with `level9.h`, `memory_paging.h`).

Memory is modelled at byte level, as the C code itself treats it
(`(uint8_t *) &workspace`, `memcpy` with `sizeof`): a memory is a function from
byte addresses to cells, and every read interprets a cell modulo 256.
The target is a Z80 (little endian, structures without padding), so the fields
of `game_state_t` sit at the offsets listed below.
-/

namespace Level9

/-! ## Constants of `level9.h`, `level9.c` and `memory_paging.h` -/

@[simp] abbrev VAR_TABLE_SIZE : Nat := 256
@[simp] abbrev LIST_AREA_SIZE : Nat := 2048
@[simp] abbrev STACK_SIZE : Nat := 128
@[simp] abbrev MAX_PATH : Nat := 16
@[simp] abbrev L9_ID : Nat := 0x4C393031
@[simp] abbrev RAM_SAVE_SLOTS : Nat := 10
@[simp] abbrev WORKSPACE_BACKUP_PAGE : Nat := 2
@[simp] abbrev MMU2_ADDRESS : Nat := 0x4000
@[simp] abbrev MEMORY_BASE_PAGE : Nat := 40
@[simp] abbrev RAM_SAVE_BASE_PAGE : Nat := 36
/-- Size of one RAM page of the Spectrum Next (`0x2000` in `load_pages`). -/
@[simp] abbrev PAGE_SIZE : Nat := 0x2000

/-! Byte offsets of the fields of `game_state_t` and the two `sizeof`s. -/

@[simp] abbrev OFF_ID : Nat := 0
@[simp] abbrev OFF_CODE_PTR : Nat := 4
@[simp] abbrev OFF_STACK_PTR : Nat := 6
@[simp] abbrev OFF_LIST_AREA_SIZE : Nat := 8
@[simp] abbrev OFF_STACK_SIZE : Nat := 10
@[simp] abbrev OFF_FILENAME_SIZE : Nat := 12
@[simp] abbrev OFF_CHECKSUM : Nat := 14
@[simp] abbrev OFF_VAR_TABLE : Nat := 16
@[simp] abbrev OFF_LIST_AREA : Nat := 528
@[simp] abbrev OFF_STACK : Nat := 2576
@[simp] abbrev OFF_FILENAME : Nat := 2832
/-- The value of `sizeof(game_state_t)`. -/
@[simp] abbrev SIZEOF_GAME_STATE : Nat := 2848
/-- The value of `sizeof(save_struct_t)`: `var_table` followed by `list_area`. -/
@[simp] abbrev SIZEOF_SAVE_STRUCT : Nat := 2560

/-! ## Byte memories -/

/-- A byte memory: address to cell; a cell is read modulo 256. -/
abbrev Mem := Nat → Nat

/-- Read of a `uint8_t`. -/
def rd8 (m : Mem) (a : Nat) : Nat := m a % 256

/-- Read of a little-endian `uint16_t` (`L9WORD` on plain memory). -/
def rd16 (m : Mem) (a : Nat) : Nat := rd8 m a + 256 * rd8 m (a + 1)

/-- Read of a little-endian `uint32_t`. -/
def rd32 (m : Mem) (a : Nat) : Nat :=
  rd8 m a + 256 * rd8 m (a + 1) + 65536 * rd8 m (a + 2) + 16777216 * rd8 m (a + 3)

/-- Store of a `uint8_t`. -/
def wr8 (m : Mem) (a v : Nat) : Mem := fun i => if i = a then v % 256 else m i

/-- Store of a little-endian `uint16_t` (`L9SETWORD`). -/
def wr16 (m : Mem) (a v : Nat) : Mem := wr8 (wr8 m a v) (a + 1) (v / 256)

/-- Store of a little-endian `uint32_t` (`L9SETDWORD`). -/
def wr32 (m : Mem) (a v : Nat) : Mem :=
  wr8 (wr8 (wr8 (wr8 m a v) (a + 1) (v / 256)) (a + 2) (v / 65536)) (a + 3) (v / 16777216)

/-- The call `memcpy(dst + d, src + s, n)` between two plain memories. -/
def memcpy (dst : Mem) (d : Nat) (src : Mem) (s n : Nat) : Mem :=
  fun a => if d ≤ a ∧ a < d + n then src (s + (a - d)) else dst a

/-- The call `memset(dst + d, 0, n)`. -/
def memset0 (dst : Mem) (d n : Nat) : Mem :=
  fun a => if d ≤ a ∧ a < d + n then 0 else dst a

/-- The bytes `m[0 .. n-1]`, as handed to the host by `os_save_file(ptr, n)`. -/
def bytes_of (m : Mem) (n : Nat) : List Nat := (List.range n).map (rd8 m)

/-! ## C strings -/

/-- Number of bytes before the first NUL of the string at `m + p`, looking at most
`fuel` bytes ahead (the size of the buffer holding the string). -/
def strlen (m : Mem) (p : Nat) : Nat → Nat
  | 0 => 0
  | fuel + 1 => if rd8 m p = 0 then 0 else 1 + strlen m (p + 1) fuel

/-- The call `strcpy(dst + d, src + s)` for a source buffer of `size` bytes: the
string and its terminating NUL are copied. -/
def strcpy (dst : Mem) (d : Nat) (src : Mem) (s size : Nat) : Mem :=
  memcpy dst d src s (strlen src s size + 1)

/-- The C library `tolower` on a byte. -/
def tolower (c : Nat) : Nat := if 65 ≤ c ∧ c ≤ 90 then c + 32 else c

/-- The C library `toupper` on a byte. -/
def toupper (c : Nat) : Nat := if 97 ≤ c ∧ c ≤ 122 then c - 32 else c

/-- Truth value of `stricmp(a + pa, b + pb) != 0`: `true` when the two strings
differ when compared without regard to letter case. At most `fuel` characters are
compared (the size of the buffers); two buffers without any NUL count as different. -/
def stricmp (a : Mem) (pa : Nat) (b : Mem) (pb : Nat) : Nat → Bool
  | 0 => true
  | fuel + 1 =>
    if tolower (rd8 a pa) ≠ tolower (rd8 b pb) then true
    else if rd8 a pa = 0 then false
    else stricmp a (pa + 1) b (pb + 1) fuel

/-! ## Interpreter state -/

/-- The globals of `level9.c` used below, the physical RAM of the machine with its
MMU registers, and the host side (pending keys, printed characters, saved files). -/
structure State where
  /-- Physical RAM: page `p` is the address range `[0x2000 * p, 0x2000 * (p + 1))`. -/
  ram : Mem
  /-- Page in MMU slot 0 (Z80 addresses `0x0000 .. 0x1fff`). -/
  mmu0 : Nat
  /-- Page in MMU slot 1 (Z80 addresses `0x2000 .. 0x3fff`). -/
  mmu1 : Nat
  /-- Page in MMU slot 2 (Z80 addresses `0x4000 .. 0x5fff`). -/
  mmu2 : Nat
  current_page : Nat
  memory_size : Nat
  l9_pointers : Nat → Nat
  l9_pointers_in_ws : Nat → Bool
  /-- The pointer `list9_start_ptr`, kept as its offset from `workspace.list_area`. -/
  list9_start_ptr : Nat
  code_ptr : Nat
  code : Nat
  game_file : Mem
  /-- The bytes of the global `workspace` (a `game_state_t`). -/
  workspace : Mem
  last_char : Nat
  last_actual_char : Nat
  /-- Host: the values the coming calls of `os_read_char` return; once the list is
  used up no key is pressed any more and `os_read_char` returns 0. -/
  keys : List Nat
  /-- Host: the characters passed to `os_print_char`, oldest first. -/
  output : List Nat
  /-- Host: the byte blocks passed to `os_save_file`, oldest first. -/
  saved : List (List Nat)
  /-- Host: the picture numbers passed to `os_show_bitmap`, oldest first. -/
  bitmaps : List Nat
  acode_ptr : Nat
  running : Bool
  random_seed : Nat
  const_seed : Nat
  /-- The value of `game_type` (`L9_V1 = 1` .. `L9_V4 = 4`). -/
  game_type : Nat
  /-- The bytes of `in_buffer`. -/
  in_buffer : Mem
  /-- The pointer `in_buffer_ptr`: `none` for `NULL`, else its offset from `in_buffer`. -/
  in_buffer_ptr : Option Nat
  /-- The bytes of `out_buffer`. -/
  out_buffer : Mem
  /-- The pointer `list2_ptr`, kept as its offset from `workspace.list_area`. -/
  list2_ptr : Nat
  /-- The pointer `list3_ptr`, kept as its offset from `workspace.list_area`. -/
  list3_ptr : Nat
  gno_stack : Nat → Nat
  gno_scratch : Nat → Nat
  object : Nat
  gno_sp : Nat
  num_object_found : Nat
  search_depth : Nat
  init_hi_search_pos : Nat
  abs_data_block : Nat
  start_md : Nat
  start_md_v2 : Nat
  end_md : Nat
  word_table : Nat
  def_dict : Nat
  dict_data : Nat
  dict_data_len : Nat
  dict_ptr : Nat
  word_case : Bool
  unpack_count : Nat
  /-- The bytes of `unpack_buf`. -/
  unpack_buf : Mem
  /-- The bytes of `three_chars`. -/
  three_chars : Mem
  d5 : Nat
  /-- The static variable `mdt_mode` of `display_word_ref`. -/
  mdt_mode : Nat
  end_wdp5 : Nat
  /-- The static variable `unpack_d3` of the word unpacker. -/
  unpack_d3 : Nat
  /-- The bytes that follow the 16 entries of `exit_reversal_table` in memory: byte `i`
  is what a read of `exit_reversal_table[16 + i]` gives. -/
  exit_table_tail : Mem

/-! ### Field accessors of `workspace` -/

/-- Value of `workspace.var_table[i]`. -/
def var_table (ws : Mem) (i : Nat) : Nat := rd16 ws (OFF_VAR_TABLE + 2 * i)

/-- Value of `workspace.list_area[i]`. -/
def list_area (ws : Mem) (i : Nat) : Nat := rd8 ws (OFF_LIST_AREA + i)

/-- Value of `workspace.stack[i]`. -/
def stack (ws : Mem) (i : Nat) : Nat := rd16 ws (OFF_STACK + 2 * i)

/-- Value of `workspace.stack_ptr`. -/
def stack_ptr (ws : Mem) : Nat := rd16 ws OFF_STACK_PTR

/-- The assignment `workspace.var_table[i] = v`. -/
def set_var (ws : Mem) (i v : Nat) : Mem := wr16 ws (OFF_VAR_TABLE + 2 * i) v

/-! ## Output -/

/-- The part of the state that `print_char` reads and writes: the characters passed
to `os_print_char` so far, `last_char` and `last_actual_char`. -/
def out_state (st : State) : List Nat × Nat × Nat :=
  (st.output, st.last_char, st.last_actual_char)

/-- The state with the three components of `out_state` replaced. -/
def with_out (st : State) (o : List Nat × Nat × Nat) : State :=
  { st with output := o.1, last_char := o.2.1, last_actual_char := o.2.2 }

/-- The body of `print_char`, on the three variables it works on. -/
def put_char (o : List Nat × Nat × Nat) (c0 : Nat) : List Nat × Nat × Nat :=
  let c := c0 % 256
  let r : Nat × Nat :=
    if 128 ≤ c then (c % 128, c % 128)
    else if c ≠ 0x20 ∧ c ≠ 0x0d ∧ (c < 0x22 ∨ 0x2e ≤ c) then
      (if o.2.1 = 0x21 ∨ o.2.1 = 0x3f ∨ o.2.1 = 0x2e then (toupper c, toupper c) else (c, c))
    else (c, o.2.1)
  (if r.1 ≠ 0x0d ∨ o.2.2 ≠ 0x0d then o.1 ++ [r.1] else o.1, r.2, r.1)

/-- The function `print_char`. -/
def print_char (st : State) (c0 : Nat) : State := with_out st (put_char (out_state st) c0)

/-- The call `print_string(buf)` on a buffer holding the characters `l` before its
NUL: `print_char` on each character in turn. -/
def print_chars (st : State) (l : List Nat) : State :=
  with_out st (l.foldl put_char (out_state st))

/-- The function `print_string` on a string literal. -/
def print_string (st : State) (s : String) : State := print_chars st (s.data.map Char.toNat)

/-! ## Paging -/

/-- Physical address behind the Z80 address `a` of the paged window `0x0000 .. 0x5fff`. -/
def phys (st : State) (a : Nat) : Nat :=
  if a < PAGE_SIZE then PAGE_SIZE * st.mmu0 + a
  else if a < 2 * PAGE_SIZE then PAGE_SIZE * st.mmu1 + (a - PAGE_SIZE)
  else PAGE_SIZE * st.mmu2 + (a - 2 * PAGE_SIZE)

/-- Byte read through a pointer into the paged window. -/
def peek (st : State) (a : Nat) : Nat := rd8 st.ram (phys st a)

/-- Byte store through a pointer into the paged window. -/
def poke (st : State) (a v : Nat) : State := { st with ram := wr8 st.ram (phys st a) v }

/-- The macro call `L9WORD(x)` for a pointer `x` into the paged window: an unaligned
16-bit load of the Z80, low byte at `x`, high byte at `x + 1`. -/
def L9WORD (st : State) (x : Nat) : Nat := peek st x + 256 * peek st (x + 1)

/-- The RAM after the call `memcpy(dst, src + s, n)` with `dst` a pointer into the
paged window, byte after byte. -/
def window_copy (st : State) (dst : Nat) (src : Mem) (s : Nat) : Nat → Mem
  | 0 => st.ram
  | n + 1 => wr8 (window_copy st dst src s n) (phys st (dst + n)) (rd8 src (s + n))

/-- The call `memcpy(dst, src + s, n)` with `dst` a pointer into the paged window. -/
def memcpy_to_window (st : State) (dst : Nat) (src : Mem) (s n : Nat) : State :=
  { st with ram := window_copy st dst src s n }

/-- The call `memcpy(dst + d, src, n)` with `src` a pointer into the paged window. -/
def memcpy_from_window (dst : Mem) (d : Nat) (st : State) (src n : Nat) : Mem :=
  fun a => if d ≤ a ∧ a < d + n then peek st (src + (a - d)) else dst a

/-- The macro call `ZXN_WRITE_MMU2(page)`. -/
def ZXN_WRITE_MMU2 (st : State) (page : Nat) : State := { st with mmu2 := page }

/-- Modelled from the spec: the assembly routine `page_in_game` is not part of the
sources; by `memory_paging.h` it pages the current and the next game page into MMU
slots 0 and 1. -/
def page_in_game (st : State) : State :=
  { st with mmu0 := st.current_page, mmu1 := st.current_page + 1 }

/-- Modelled from the spec: the assembly routine `effective` is not part of the
sources. By `memory_paging.h` it converts a virtual pointer into a pointer into a
game page in MMU slot 0, with the next game page in MMU slot 1, and sets
`current_page` to the page in slot 0; by `load_pages` the story byte `p` lies in
page `MEMORY_BASE_PAGE + p / 0x2000` at offset `p % 0x2000`. The result is the
pointer and the new state. -/
def effective (st : State) (ptr : Nat) : Nat × State :=
  let p := ptr % 65536
  let page := MEMORY_BASE_PAGE + p / PAGE_SIZE
  (p % PAGE_SIZE, { st with current_page := page, mmu0 := page, mmu1 := page + 1 })

/-- Modelled from the spec: the assembly routine `effective_ram_save` is not part
of the sources. By `memory_paging.h` and the comment above `ram_save` the RAM SAVE
area is `10 x sizeof(save_struct_t)` bytes starting at page `RAM_SAVE_BASE_PAGE`;
the routine returns a pointer to slot `slot` inside the page in MMU slot 0, with
the next page in MMU slot 1, and sets `current_page` to the page in slot 0. -/
def effective_ram_save (st : State) (slot : Nat) : Nat × State :=
  let off := slot * SIZEOF_SAVE_STRUCT
  let page := RAM_SAVE_BASE_PAGE + off / PAGE_SIZE
  (off % PAGE_SIZE, { st with current_page := page, mmu0 := page, mmu1 := page + 1 })

/-- The story byte at virtual address `q`, where `load_pages` has put it. -/
def story_byte (st : State) (q : Nat) : Nat :=
  rd8 st.ram (PAGE_SIZE * MEMORY_BASE_PAGE + q)

/-- Physical address of byte `j` of RAM save slot `slot`. -/
def ram_save_addr (slot j : Nat) : Nat :=
  PAGE_SIZE * RAM_SAVE_BASE_PAGE + slot * SIZEOF_SAVE_STRUCT + j

/-! ## Snapshot: `save`, `check_file`, `normal_restore`, `restore` -/

/-- The loop `for (i = 0; i < n; i++) checksum += bytes[i];` on a `uint16_t`. -/
def checksum_add (m : Mem) : Nat → Nat → Nat
  | 0, c => c
  | n + 1, c => (checksum_add m n c + rd8 m n) % 65536

/-- The loop `for (i = 0; i < n; i++) checksum -= bytes[i];` on a `uint16_t`. -/
def checksum_sub (m : Mem) : Nat → Nat → Nat
  | 0, c => c
  | n + 1, c => (checksum_sub m n c + 65536 - rd8 m n) % 65536

/-- The function `save`; `host_ok` is the result of `os_save_file`. -/
def save (st : State) (host_ok : Bool) : State :=
  let ws1 := wr32 st.workspace OFF_ID L9_ID
  let ws2 := wr16 ws1 OFF_CODE_PTR st.code_ptr
  let ws3 := wr16 ws2 OFF_LIST_AREA_SIZE LIST_AREA_SIZE
  let ws4 := wr16 ws3 OFF_STACK_SIZE STACK_SIZE
  let ws5 := wr16 ws4 OFF_FILENAME_SIZE MAX_PATH
  let ws6 := wr16 ws5 OFF_CHECKSUM 0
  let ws7 := strcpy ws6 OFF_FILENAME st.game_file 0 MAX_PATH
  let checksum := checksum_add ws7 SIZEOF_GAME_STATE 0
  let ws8 := wr16 ws7 OFF_CHECKSUM checksum
  let st1 := { st with workspace := ws8, saved := st.saved ++ [bytes_of ws8 SIZEOF_GAME_STATE] }
  if host_ok then print_string st1 "\rGame saved.\r"
  else print_string st1 "\rUnable to save game.\r"

/-- Host: outcome of one call of `os_load_file`: the result and the bytes the host
stores at `ptr` (at most `max_size` of them are taken). -/
structure LoadResult where
  ok : Bool
  data : List Nat

/-- Effect of `os_load_file((uint8_t *) &workspace, &size, max_size)` on the workspace. -/
def os_load_file (ws : Mem) (r : LoadResult) (max_size : Nat) : Mem :=
  fun a => if a < min r.data.length max_size then r.data.getD a 0 else ws a

/-- The loop `while (c is none of y, Y, n, N) c = os_read_char(20);` of `check_file`:
the answer and the keys left over, or `none` when the host never delivers one of
the four keys (the loop then runs for ever). -/
def read_answer : List Nat → Option (Nat × List Nat)
  | [] => none
  | k :: rest =>
    if k % 256 = 0x79 ∨ k % 256 = 0x59 ∨ k % 256 = 0x6e ∨ k % 256 = 0x4e then some (k % 256, rest)
    else read_answer rest

/-- The function `check_file`, applied to `&workspace` as in every call of it. The
result is `none` when the function does not return. -/
def check_file (st : State) : Option Bool × State :=
  if rd32 st.workspace OFF_ID ≠ L9_ID then (some false, st)
  else
    let checksum := rd16 st.workspace OFF_CHECKSUM
    let st1 := { st with workspace := wr16 st.workspace OFF_CHECKSUM 0 }
    if checksum_sub st1.workspace SIZEOF_GAME_STATE checksum ≠ 0 then (some false, st1)
    else if stricmp st1.workspace OFF_FILENAME st1.game_file 0 MAX_PATH then
      let st2 := print_string st1
        "\rWarning: Game path name does not match, you may be about to load this position file into the wrong story file.\r"
      let st3 := print_string st2 "Are you sure you want to restore? (Y/N)"
      match read_answer st3.keys with
      | none => (none, { st3 with keys := [] })
      | some (c, rest) => (some (decide (c = 0x79 ∨ c = 0x59)), { st3 with keys := rest })
    else (some true, st1)

/-- The statements that save the workspace to the backup page:
`ZXN_WRITE_MMU2(WORKSPACE_BACKUP_PAGE); memcpy(MMU2_ADDRESS, &workspace, sizeof(game_state_t)); ZXN_WRITE_MMU2(10);` -/
def backup_workspace (st : State) : State :=
  let st1 := ZXN_WRITE_MMU2 st WORKSPACE_BACKUP_PAGE
  let st2 := memcpy_to_window st1 MMU2_ADDRESS st1.workspace 0 SIZEOF_GAME_STATE
  ZXN_WRITE_MMU2 st2 10

/-- The statements that bring the backup back:
`ZXN_WRITE_MMU2(WORKSPACE_BACKUP_PAGE); memcpy(&workspace, MMU2_ADDRESS, sizeof(game_state_t)); ZXN_WRITE_MMU2(10);` -/
def restore_backup (st : State) : State :=
  let st1 := ZXN_WRITE_MMU2 st WORKSPACE_BACKUP_PAGE
  let st2 := { st1 with
    workspace := memcpy_from_window st1.workspace 0 st1 MMU2_ADDRESS SIZEOF_GAME_STATE }
  ZXN_WRITE_MMU2 st2 10

/-- The first statements of `normal_restore` and of `restore`: the workspace is
copied to the backup page, then `os_load_file((uint8_t *) &workspace, &size,
sizeof(game_state_t))` stores what the host delivers. -/
def load_workspace (st : State) (r : LoadResult) : State :=
  let st1 := backup_workspace st
  { st1 with workspace := os_load_file st1.workspace r SIZEOF_GAME_STATE }

/-- The statements of `normal_restore` that follow the message `Game restored.`:
`ZXN_WRITE_MMU2(WORKSPACE_BACKUP_PAGE);
memcpy(((game_state_t *) MMU2_ADDRESS)->var_table, workspace.var_table, sizeof(save_struct_t));
memcpy(&workspace, MMU2_ADDRESS, sizeof(game_state_t)); ZXN_WRITE_MMU2(10);` -/
def merge_loaded (st4 : State) : State :=
  let st5 := ZXN_WRITE_MMU2 st4 WORKSPACE_BACKUP_PAGE
  let st6 := memcpy_to_window st5 (MMU2_ADDRESS + OFF_VAR_TABLE) st5.workspace
    OFF_VAR_TABLE SIZEOF_SAVE_STRUCT
  let st7 := { st6 with
    workspace := memcpy_from_window st6.workspace 0 st6 MMU2_ADDRESS SIZEOF_GAME_STATE }
  ZXN_WRITE_MMU2 st7 10

/-- The function `normal_restore`; `r` is the outcome of `os_load_file`. The result
is `none` when the function does not return. -/
def normal_restore (st : State) (r : LoadResult) : Option State :=
  let st2 := load_workspace st r
  if r.ok then
    match check_file st2 with
    | (none, _) => none
    | (some true, st3) => some (merge_loaded (print_string st3 "\rGame restored.\r"))
    | (some false, st3) =>
      some (restore_backup (print_string st3 "\rSorry, unrecognised format. Unable to restore.\r"))
  else
    some (restore_backup (print_string st2 "\rUnable to restore game.\r"))

/-- The function `restore`; `r` is the outcome of `os_load_file`. The result is
`none` when the function does not return. -/
def restore (st : State) (r : LoadResult) : Option State :=
  let st2 := load_workspace st r
  if r.ok then
    match check_file st2 with
    | (none, _) => none
    | (some true, st3) =>
      let st4 := print_string st3 "\rGame restored.\r"
      some { st4 with code_ptr := rd16 st4.workspace OFF_CODE_PTR }
    | (some false, st3) =>
      some (restore_backup (print_string st3 "\rSorry, unrecognised format. Unable to restore.\r"))
  else
    some (restore_backup (print_string st2 "\rUnable to restore game.\r"))

/-! ## RAM save slots and the driver gateway -/

/-- The function `ram_save`. -/
def ram_save (st : State) (i : Nat) : State :=
  let memory_page := st.current_page
  let r := effective_ram_save st i
  let st1 := memcpy_to_window r.2 r.1 r.2.workspace OFF_VAR_TABLE SIZEOF_SAVE_STRUCT
  page_in_game { st1 with current_page := memory_page }

/-- The function `ram_load`. -/
def ram_load (st : State) (i : Nat) : State :=
  let memory_page := st.current_page
  let r := effective_ram_save st i
  let st1 := { r.2 with
    workspace := memcpy_from_window r.2.workspace OFF_VAR_TABLE r.2 r.1 SIZEOF_SAVE_STRUCT }
  page_in_game { st1 with current_page := memory_page }

/-- What `call_driver` takes from outside the interpreter core during one call. -/
structure DriverEnv where
  /-- The value the C library `rand()` returns. -/
  rand : Nat
  /-- The branch `d0 == 0x0b` (next game part: `os_get_game_file` or
  `os_set_file_number`, then `int_load_game`), which works on the host's files. -/
  next_part : State → State

/-- The function `driver` with the handlers it dispatches to; `a6` is the pointer
argument as a byte offset into `workspace`. -/
def driver (env : DriverEnv) (d0 a6 : Nat) (st : State) : State :=
  if d0 = 0x0c then { st with workspace := wr16 st.workspace a6 env.rand }
  else if d0 = 0x03 then
    { st with workspace := wr8 st.workspace a6 st.keys.headI, keys := st.keys.tail }
  else if d0 = 0x19 then
    let st1 := print_string st "\rLenslok code is "
    let st2 := print_char st1 (rd8 st.workspace a6)
    let st3 := print_char st2 (rd8 st.workspace (a6 + 1))
    print_char st3 0x0d
  else if d0 = 0x0e then { st with workspace := wr8 st.workspace a6 0 }
  else if d0 = 0x20 then { st with bitmaps := st.bitmaps ++ [rd8 st.workspace (a6 + 1)] }
  else if d0 = 0x22 then
    let ws1 := wr8 st.workspace a6 0
    { st with workspace := wr8 ws1 (OFF_LIST_AREA + st.list9_start_ptr + 2) 0 }
  else st

/-- The function `call_driver`. -/
def call_driver (env : DriverEnv) (st : State) : State :=
  let list9 := OFF_LIST_AREA + st.list9_start_ptr
  let d0 := rd8 st.workspace list9
  let a6 := list9 + 1
  if d0 = 0x16 ∨ d0 = 0x17 then
    let d1 := rd8 st.workspace a6
    let st1 :=
      if d1 > 0xfa then { st with workspace := wr8 st.workspace a6 1 }
      else if d1 + 1 ≥ RAM_SAVE_SLOTS then { st with workspace := wr8 st.workspace a6 0xff }
      else
        let st0 := { st with workspace := wr8 st.workspace a6 0 }
        if d0 = 0x16 then ram_save st0 (d1 + 1) else ram_load st0 (d1 + 1)
    { st1 with workspace := wr8 st1.workspace list9 (rd8 st1.workspace a6) }
  else if d0 = 0x0b then env.next_part st
  else driver env d0 a6 st

/-! ## Operand fetch and the list handler -/

/-- The expression `*effective(code_ptr++)`: the fetched byte and the new state. -/
def fetch (st : State) : Nat × State :=
  let r := effective st st.code_ptr
  (peek r.2 r.1, { r.2 with code_ptr := (st.code_ptr + 1) % 65536 })

/-- The function `get_var`: the index of the variable pointed to, and the new state. -/
def get_var (st : State) : Nat × State := fetch st

/-- The function `get_var_val`. -/
def get_var_val (st : State) : Nat × State :=
  let r := fetch st
  (var_table r.2.workspace r.1, r.2)

/-- The expression `a4_in_ws ? *(workspace.list_area + a4) : *effective(a4)`. -/
def list_read (st : State) (a4_in_ws : Bool) (a4 : Nat) : Nat × State :=
  if a4_in_ws then (list_area st.workspace a4, st)
  else
    let r := effective st a4
    (peek r.2 r.1, r.2)

/-- The statement
`if (a4_in_ws) *(workspace.list_area + a4) = (uint8_t) val; else *effective(a4) = (uint8_t) val;` -/
def list_write (st : State) (a4_in_ws : Bool) (a4 val : Nat) : State :=
  if a4_in_ws then { st with workspace := wr8 st.workspace (OFF_LIST_AREA + a4) val }
  else
    let r := effective st a4
    poke r.2 r.1 val

/-- The function `list_handler` (build without `CODEFOLLOW` and `L9DEBUG`). -/
def list_handler (st : State) : State :=
  let a4_index := (st.code + 1) % 32
  let a4_in_ws := st.l9_pointers_in_ws a4_index
  let a4 := st.l9_pointers a4_index
  let max_access := if a4_in_ws then LIST_AREA_SIZE else st.memory_size
  if 0xe0 ≤ st.code then
    let r1 := get_var_val st
    let a4 := (a4 + r1.1) % 65536
    let r2 := get_var_val r1.2
    if a4 < max_access then list_write r2.2 a4_in_ws a4 r2.1 else r2.2
  else if 0xc0 ≤ st.code then
    let r1 := fetch st
    let a4 := (a4 + r1.1) % 65536
    let r2 := get_var r1.2
    if a4 < max_access then
      let v := list_read r2.2 a4_in_ws a4
      { v.2 with workspace := set_var v.2.workspace r2.1 v.1 }
    else { r2.2 with workspace := set_var r2.2.workspace r2.1 0 }
  else if 0xa0 ≤ st.code then
    let r1 := get_var_val st
    let a4 := (a4 + r1.1) % 65536
    let r2 := get_var r1.2
    if a4 < max_access then
      let v := list_read r2.2 a4_in_ws a4
      { v.2 with workspace := set_var v.2.workspace r2.1 v.1 }
    else { r2.2 with workspace := set_var r2.2.workspace r2.1 0 }
  else
    let r1 := fetch st
    let a4 := (a4 + r1.1) % 65536
    let r2 := get_var_val r1.2
    if a4 < max_access then list_write r2.2 a4_in_ws a4 r2.1 else r2.2

/-! ## Operand decoding and the simple instructions -/

/-- The character codes of a string literal. -/
def str_bytes (s : String) : List Nat := s.data.map Char.toNat

/-- The function `error` on an already formatted text: every character goes straight
to `os_print_char`. -/
def error (st : State) (text : List Nat) : State := { st with output := st.output ++ text }

/-- The text `vsprintf` builds for a format `pre%upost` and the argument `n`. -/
def format_u (pre : String) (n : Nat) (post : String) : List Nat :=
  str_bytes pre ++ str_bytes (toString n) ++ str_bytes post

/-- The function `get_addr`; the bit test `code & 0x20` is `code / 32 % 2 = 1`, and
`diff` is the fetched byte read as an `int8_t`. -/
def get_addr (st : State) : Nat × State :=
  if st.code / 32 % 2 = 1 then
    let r := fetch st
    let diff := if r.1 < 128 then r.1 else r.1 + 65536 - 256
    ((r.2.code_ptr + diff + 65535) % 65536, r.2)
  else
    let r := effective st st.code_ptr
    ((st.acode_ptr + L9WORD r.2 r.1) % 65536, { r.2 with code_ptr := (st.code_ptr + 2) % 65536 })

/-- The function `get_con`; the bit test `code & 64` is `code / 64 % 2 = 1`. -/
def get_con (st : State) : Nat × State :=
  if st.code / 64 % 2 = 1 then fetch st
  else
    let r := effective st st.code_ptr
    (L9WORD r.2 r.1, { r.2 with code_ptr := (st.code_ptr + 2) % 65536 })

/-- The function `int_goto` (build without `L9DEBUG`). -/
def int_goto (st : State) : State :=
  let r := get_addr st
  { r.2 with code_ptr := r.1 }

/-- The function `int_gosub`; `l9debug` tells whether the build defines `L9DEBUG`. -/
def int_gosub (l9debug : Bool) (st : State) : State :=
  if l9debug = true ∧ stack_ptr st.workspace = STACK_SIZE then
    { error st (str_bytes "\rStack overflow error\r") with running := false }
  else
    let r := get_addr st
    let sp := stack_ptr r.2.workspace
    let ws1 := wr16 r.2.workspace (OFF_STACK + 2 * sp) r.2.code_ptr
    { r.2 with workspace := wr16 ws1 OFF_STACK_PTR (sp + 1), code_ptr := r.1 }

/-- The function `int_return`; `l9debug` tells whether the build defines `L9DEBUG`. -/
def int_return (l9debug : Bool) (st : State) : State :=
  if l9debug = true ∧ stack_ptr st.workspace = 0 then
    { error st (str_bytes "\rStack underflow error\r") with running := false }
  else
    let sp := (stack_ptr st.workspace + 65535) % 65536
    let ws1 := wr16 st.workspace OFF_STACK_PTR sp
    { st with workspace := ws1, code_ptr := stack ws1 sp }

/-- The function `var_con`. -/
def var_con (st : State) : State :=
  let r := get_con st
  let v := get_var r.2
  { v.2 with workspace := set_var v.2.workspace v.1 r.1 }

/-- The function `var_var`. -/
def var_var (st : State) : State :=
  let r := get_var_val st
  let v := get_var r.2
  { v.2 with workspace := set_var v.2.workspace v.1 r.1 }

/-- The function `add`. -/
def add (st : State) : State :=
  let r := get_var_val st
  let v := get_var r.2
  { v.2 with workspace := set_var v.2.workspace v.1 (var_table v.2.workspace v.1 + r.1) }

/-- The function `sub`. -/
def sub (st : State) : State :=
  let r := get_var_val st
  let v := get_var r.2
  { v.2 with
    workspace := set_var v.2.workspace v.1 (var_table v.2.workspace v.1 + 65536 - r.1) }

/-- The function `jump`. -/
def jump (st : State) : State :=
  let r := effective st st.code_ptr
  let d0 := L9WORD r.2 r.1
  let st1 := { r.2 with code_ptr := (st.code_ptr + 2) % 65536 }
  let v := get_var_val st1
  let a0 := (st.acode_ptr + (d0 + v.1 * 2 % 65536) % 65536) % 65536
  let r2 := effective v.2 a0
  { r2.2 with code_ptr := (st.acode_ptr + L9WORD r2.2 r2.1) % 65536 }

/-- The function `random`, in `uint16_t` arithmetic. -/
def random (st : State) : State :=
  let s := st.random_seed % 65536
  let seed := (((s * 256 % 65536 + 0x0a + 65536 - s) % 65536 * 4) % 65536 + s + 1) % 65536
  let r := get_var { st with random_seed := seed }
  { r.2 with workspace := set_var r.2.workspace r.1 (seed % 256) }

/-- The function `clear_workspace`. -/
def clear_workspace (st : State) : State :=
  { st with workspace := memset0 st.workspace OFF_VAR_TABLE (2 * VAR_TABLE_SIZE) }

/-- The function `clear_stack`. -/
def clear_stack (st : State) : State :=
  { st with workspace := wr16 st.workspace OFF_STACK_PTR 0 }

/-- The function `ilins`. -/
def ilins (st : State) (d0 : Nat) : State :=
  { error st (format_u "\rIllegal instruction: " d0 "\r") with running := false }

/-- The function `stop_game`. -/
def stop_game (st : State) : State := { st with running := false }

/-- The table `exit_reversal_table`. -/
def exit_reversal_table : List Nat :=
  [0x00, 0x04, 0x06, 0x07, 0x01, 0x08, 0x02, 0x03, 0x05, 0x0a, 0x09, 0x0c, 0x0b, 0xff, 0xff, 0x0f]

/-! ## Header pointers (`init_game`) -/

/-- One round of the loop `for (uint8_t i = 0; i < 12; i++)` of `init_game`, with
`header_ptr` and `hd_offset` as computed before the loop. -/
def init_pointer (header_ptr hd_offset : Nat) (st : State) (i : Nat) : State :=
  let d0 := L9WORD st (header_ptr + hd_offset + i * 2)
  let in_ws := decide (i ≠ 11 ∧ d0 ≥ 0x8000 ∧ d0 ≤ 0x9000)
  { st with
    l9_pointers := fun j => if j = i then (if in_ws then d0 - 0x8000 else d0) else st.l9_pointers j
    l9_pointers_in_ws := fun j => if j = i then in_ws else st.l9_pointers_in_ws j }

/-- The statements of `init_game` from `hd_offset = ...` to `acode_ptr = l9_pointers[11]`:
the header is read through `effective(0)` and the twelve pointers are classified. -/
def init_game_pointers (st : State) : State :=
  let hd_offset := if st.game_type = 2 then 0x04 else 0x12
  let r := effective st 0
  let st1 := (List.range 12).foldl (init_pointer r.1 hd_offset) r.2
  { st1 with
    list2_ptr := st1.l9_pointers 3
    list3_ptr := st1.l9_pointers 4
    list9_start_ptr := st1.l9_pointers 10
    acode_ptr := st1.l9_pointers 11 }

/-! ## Conditional jumps -/

/-- The functions `if_eq_vt`, `if_ne_vt`, `if_lt_vt`, `if_gt_vt`, which differ in the
comparison `cmp` only. -/
def if_vt (cmp : Nat → Nat → Bool) (st : State) : State :=
  let r0 := get_var_val st
  let r1 := get_var_val r0.2
  let a0 := get_addr r1.2
  if cmp r0.1 r1.1 then { a0.2 with code_ptr := a0.1 } else a0.2

/-- The functions `if_eq_ct`, `if_ne_ct`, `if_lt_ct`, `if_gt_ct`, which differ in the
comparison `cmp` only. -/
def if_ct (cmp : Nat → Nat → Bool) (st : State) : State :=
  let r0 := get_var_val st
  let r1 := get_con r0.2
  let a0 := get_addr r1.2
  if cmp r0.1 r1.1 then { a0.2 with code_ptr := a0.1 } else a0.2

/-! ## Player input and the meta commands -/

@[simp] abbrev IN_BUFFER_SIZE : Nat := 500

/-- What one instruction takes from outside the functions embedded in this file: the
answers of the host, and the routines that work on the dictionary, the message
tables and the screen. -/
structure Env where
  /-- What `call_driver` needs. -/
  driver : DriverEnv
  /-- The result of `os_save_file`. -/
  save_ok : Bool
  /-- The outcome of `os_load_file`. -/
  load : LoadResult
  /-- The line that `script_input` or else `os_input` leaves in `in_buffer` (its
  characters before the NUL) and whether it came from the script file; `none` when
  both return false. -/
  line : Option (Bool × List Nat)
  /-- Whether `os_open_script_file` opens a script file (`errno` stays 0). -/
  script_opens : Bool
  /-- The call `sscanf(in_buffer + k, "%u", &n)`: the number read, if the result is 1. -/
  scan_u : Mem → Nat → Option Nat
  /-- The part of `corrupting_input` from `a2 = out_buffer;` on (word lookup in the
  dictionary); `none` when it does not return. -/
  words : State → Option (Bool × State)
  /-- The part of `input_v2` after `os_print_char(last_actual_char);` (word lookup),
  which returns true: the word count and the state; `none` when it does not return. -/
  words_v2 : State → Option (Nat × State)
  /-- The handlers `print_number`, `messagev`, `messagec`, `int_exit`, `screen`,
  `clear_tg`, `picture`, `print_input` (by opcode number) and
  `print_string_and_advance` (number 250); `none` when one does not return. -/
  other : Nat → State → Option State

/-- The bytes of a C string literal, NUL included, as a memory. -/
def str_mem (s : String) : Mem := fun i => (str_bytes s).getD i 0

/-- Truth value of `strnicmp(a + pa, b + pb, n) != 0`. -/
def strnicmp (a : Mem) (pa : Nat) (b : Mem) (pb : Nat) : Nat → Bool
  | 0 => false
  | n + 1 =>
    if tolower (rd8 a pa) ≠ tolower (rd8 b pb) then true
    else if rd8 a pa = 0 then false
    else strnicmp a (pa + 1) b (pb + 1) n

/-- The function `strcmp_hash` on a string literal. -/
def strcmp_hash (st : State) (command : String) : Bool :=
  if stricmp st.in_buffer 0 (str_mem command) 0 IN_BUFFER_SIZE = false then true
  else
    let length := strlen (str_mem command) 0 IN_BUFFER_SIZE % 256
    if strnicmp st.in_buffer 0 (str_mem command) 0 length = false ∧
        rd8 st.in_buffer length = 0x20 then true
    else false

/-- The function `playback`; the handle `script_file` belongs to the host side. -/
def playback (env : Env) (st : State) : State :=
  if env.script_opens then print_string st "\rPlaying back input from script file.\r"
  else print_string st "\rUnable to play back script file.\r"

/-- The function `check_hash`; `putchar` writes to the screen like `os_print_char`.
The result is `none` when the function does not return. -/
def check_hash (env : Env) (st : State) : Option (Bool × State) :=
  if strcmp_hash st "#save" then
    some (true, save { st with output := st.output ++ [0x0a] } env.save_ok)
  else if strcmp_hash st "#restore" then
    (restore { st with output := st.output ++ [0x0a] } env.load).map (fun t => (true, t))
  else if strcmp_hash st "#quit" then
    some (true, print_string (stop_game st) "\rGame Terminated\r")
  else if strcmp_hash st "#play" then some (true, playback env st)
  else if strnicmp st.in_buffer 0 (str_mem "#picture ") 0 9 = false then
    let st1 := match env.scan_u st.in_buffer 9 with
      | some pic => { st with bitmaps := st.bitmaps ++ [pic % 65536] }
      | none => st
    some (true, print_char { st1 with last_actual_char := 0 } 0x0d)
  else if strnicmp st.in_buffer 0 (str_mem "#seed ") 0 6 = false then
    let st1 := match env.scan_u st.in_buffer 6 with
      | some seed => { st with const_seed := seed % 65536, random_seed := seed % 65536 }
      | none => st
    some (true, print_char { st1 with last_actual_char := 0 } 0x0d)
  else some (false, st)

/-- What `os_input` or `script_input` leaves in `in_buffer` for the line `l`: at most
`IN_BUFFER_SIZE - 1` characters, then a NUL. -/
def set_line (buf : Mem) (l : List Nat) : Mem :=
  let t := l.take (IN_BUFFER_SIZE - 1)
  fun i => if i < t.length then t.getD i 0 else if i = t.length then 0 else buf i

/-- The C library `isalnum` on a byte. -/
def isalnum (c : Nat) : Bool :=
  decide ((48 ≤ c ∧ c ≤ 57) ∨ (65 ≤ c ∧ c ≤ 90) ∨ (97 ≤ c ∧ c ≤ 122))

/-- The function `is_input_char`. -/
def is_input_char (st : State) (c : Nat) : Bool :=
  if c = 0x2d ∨ c = 0x27 then true
  else if st.game_type ≥ 3 ∧ (c = 0x2e ∨ c = 0x2c) then true
  else isalnum c

/-- The statements with which both `corrupting_input` and `input_v2` fetch a line:
from `os_flush()` to `os_print_char(last_actual_char)`. The result is `none` when
they do not return, `some (false, _)` when the caller returns false at once (no line,
or a meta command ran), `some (true, _)` when the line goes on to the word lookup. -/
def fetch_line (env : Env) (st : State) : Option (Bool × State) :=
  let st1 := { st with last_char := 0x2e, last_actual_char := 0x2e }
  match env.line with
  | none => some (false, st1)
  | some (from_script, l) =>
    let st2 := { st1 with in_buffer := set_line st1.in_buffer l }
    let st3 :=
      if from_script then
        { print_chars st2 (l.take (IN_BUFFER_SIZE - 1)) with
          last_char := 0x2e, last_actual_char := 0x2e }
      else st2
    match check_hash env st3 with
    | none => none
    | some (true, st4) => some (false, st4)
    | some (false, st4) =>
      let n := strlen st4.in_buffer 0 IN_BUFFER_SIZE
      let buf : Mem := fun i =>
        if i < n ∧ is_input_char st4 (rd8 st4.in_buffer i) = false then 0x20
        else st4.in_buffer i
      some (true, { st4 with in_buffer := buf, last_actual_char := 0x0d,
                             output := st4.output ++ [0x0d] })

/-- The function `corrupting_input`. The pointer `list9_ptr`, which only the word
lookup uses, is not part of the state. -/
def corrupting_input (env : Env) (st : State) : Option (Bool × State) :=
  match st.in_buffer_ptr with
  | none =>
    match fetch_line env st with
    | none => none
    | some (false, st1) => some (false, st1)
    | some (true, st1) => env.words { st1 with in_buffer_ptr := some 0 }
  | some _ => env.words st

/-- The function `input_v2`: the result, the word count and the state. -/
def input_v2 (env : Env) (st : State) : Option (Bool × Nat × State) :=
  match fetch_line env st with
  | none => none
  | some (false, st1) => some (false, 0, st1)
  | some (true, st1) => (env.words_v2 st1).map (fun r => (true, r.1, r.2))

/-- The statement `*get_var() = v;`. -/
def store_var (st : State) (v : Nat) : State :=
  let r := get_var st
  { r.2 with workspace := set_var r.2.workspace r.1 v }

/-- The statements of `input` that follow a successful `input_v2`: `code_ptr++;` and
the four stores of `out_buffer[0]`, `out_buffer[1]`, `out_buffer[2]` and `word_count`. -/
def store_words_v2 (st1 : State) (word_count : Nat) : State :=
  let st2 := { st1 with code_ptr := (st1.code_ptr + 1) % 65536 }
  let st3 := store_var st2 (rd8 st2.out_buffer 0)
  let st4 := store_var st3 (rd8 st3.out_buffer 1)
  let st5 := store_var st4 (rd8 st4.out_buffer 2)
  store_var st5 word_count

/-- The function `input`. The result is `none` when the function does not return. -/
def input (env : Env) (st : State) : Option State :=
  let st0 := { st with code_ptr := (st.code_ptr + 65535) % 65536 }
  if st0.game_type ≤ 2 then
    match input_v2 env st0 with
    | none => none
    | some (false, _, st1) => some st1
    | some (true, word_count, st1) => some (store_words_v2 st1 word_count)
  else
    match corrupting_input env st0 with
    | none => none
    | some (false, st1) => some st1
    | some (true, st1) => some { st1 with code_ptr := (st1.code_ptr + 5) % 65536 }

/-! ## Object search (`get_next_object`)

The result of a routine below is `none` when the C code does not come back with a
result: a loop runs for ever (here: the fuel runs out), or an array is accessed
outside its bounds. -/

/-- The function `init_get_obj`. -/
def init_get_obj (st : State) : State :=
  { st with num_object_found := 0, object := 0,
            gno_scratch := fun i => if i < 32 then 0 else st.gno_scratch i }

/-- The statement `gno_stack[--gno_sp] = v;` (`gno_sp` is a `uint8_t`, `gno_stack` has
128 entries). -/
def gno_push (st : State) (v : Nat) : Option State :=
  let sp := (st.gno_sp + 255) % 256
  if sp < 128 then
    some { st with gno_sp := sp, gno_stack := fun i => if i = sp then v % 65536 else st.gno_stack i }
  else none

/-- The expression `gno_stack[gno_sp++]`. -/
def gno_pop (st : State) : Option (Nat × State) :=
  if st.gno_sp < 128 then
    some (st.gno_stack st.gno_sp % 65536, { st with gno_sp := (st.gno_sp + 1) % 256 })
  else none

/-- How the loop `gnonext` ends. -/
inductive ScanResult where
  /-- An object was found (label `gnofound`), with the value of `d3` at that point. -/
  | found (d3 : Nat) (st : State)
  /-- The loop ended with `object > d2`. -/
  | not_found (st : State)

/-- The loop `do { if (d4 == list2_ptr[++object]) ... } while (object <= d2);`.
The bytes `list2_ptr[object]` and `list3_ptr[object]` are read relative to
`workspace.list_area`; cells of the memory `workspace` beyond `sizeof(game_state_t)`
stand for what follows the workspace in RAM. -/
def gno_scan (d2 d3 d4 : Nat) : Nat → State → Option ScanResult
  | 0, _ => none
  | fuel + 1, st =>
    let object := (st.object + 1) % 65536
    let st1 := { st with object := object }
    if d4 = rd8 st1.workspace (OFF_LIST_AREA + st1.list2_ptr + object) then
      let d6 := rd8 st1.workspace (OFF_LIST_AREA + st1.list3_ptr + object) % 32
      if d6 ≠ d3 then
        if d6 = 0 ∨ d3 = 0 then
          if object ≤ d2 then gno_scan d2 d3 d4 fuel st1 else some (ScanResult.not_found st1)
        else if d3 ≠ 0x1f then
          let st2 := { st1 with gno_scratch := fun i => if i = d6 then d6 else st1.gno_scratch i }
          if object ≤ d2 then gno_scan d2 d3 d4 fuel st2 else some (ScanResult.not_found st2)
        else some (ScanResult.found d6 st1)
      else some (ScanResult.found d3 st1)
    else if object ≤ d2 then gno_scan d2 d3 d4 fuel st1 else some (ScanResult.not_found st1)

/-- The three statements `*get_var() = object; *get_var() = num_object_found;
*get_var() = search_depth;`. -/
def gno_return (st : State) : State :=
  let v0 := get_var st
  let st1 := { v0.2 with workspace := set_var v0.2.workspace v0.1 v0.2.object }
  let v1 := get_var st1
  let st2 := { v1.2 with workspace := set_var v1.2.workspace v1.1 v1.2.num_object_found }
  let v2 := get_var st2
  { v2.2 with workspace := set_var v2.2.workspace v2.1 v2.2.search_depth }

/-- The statements at the label `gnofound`; `hi` and `sp` are the indices of the
variables `hi_search_pos_var` and `search_pos_var` point to. -/
def gno_found (d3 d4 hi sp : Nat) (st : State) : Option State :=
  let st1 := { st with num_object_found := (st.num_object_found + 1) % 65536 }
  match gno_push st1 st1.object with
  | none => none
  | some st2 =>
    match gno_push st2 0x1f with
    | none => none
    | some st3 =>
      let ws1 := set_var st3.workspace hi d3
      some (gno_return { st3 with workspace := set_var ws1 sp d4 })

/-- The statements from the label `gnofinish` to the end of the function. -/
def gno_finish (hi sp : Nat) (st : State) : State :=
  let ws1 := set_var st.workspace hi 0
  gno_return { st with workspace := set_var ws1 sp 0, object := 0 }

/-- The first `n` rounds of the loop at the label `gnoloop`: `d3 = 0, 1, ..., n - 1`
(the loop itself runs `0x1f` rounds). -/
def gno_loop (d4 : Nat) : Nat → State → Option State
  | 0, st => some st
  | n + 1, st =>
    match gno_loop d4 n st with
    | none => none
    | some s =>
      if s.gno_scratch n % 256 ≠ 0 then
        match gno_push s d4 with
        | none => none
        | some s1 => gno_push s1 n
      else some s

/-- The statements between the end of the loop `gnonext` and `init_get_obj()`: the
new values of `d3` and `d4` and the state. -/
def gno_new_level (d3 d4 : Nat) (st : State) : Option (Nat × Nat × State) :=
  let pushed : Option State :=
    if st.init_hi_search_pos = 0x1f then
      if d3 < 32 then
        gno_loop d4 0x1f { st with gno_scratch := fun i => if i = d3 then 0 else st.gno_scratch i }
      else none
    else some st
  match pushed with
  | none => none
  | some st1 =>
    let popped : Option (Nat × Nat × State) :=
      if st1.gno_sp ≠ 128 then
        match gno_pop st1 with
        | none => none
        | some (d3n, st2) =>
          match gno_pop st2 with
          | none => none
          | some (d4n, st3) => some (d3n, d4n, st3)
      else some (0, 0, st1)
    match popped with
    | none => none
    | some (d3n, d4n, st2) =>
      let st3 := { st2 with num_object_found := 0 }
      let st4 :=
        if d3n = 0x1f then { st3 with search_depth := (st3.search_depth + 1) % 65536 } else st3
      some (d3n, d4n, st4)

/-- The outer loop `do { ... } while (d4);` at the label `gnoabs`, followed by the
rest of the function. -/
def gno_levels (d2 hi sp inner : Nat) : Nat → Nat → Nat → State → Option State
  | 0, _, _, _ => none
  | fuel + 1, d3, d4, st =>
    if d3 = 0 ∧ d4 = 0 then
      some (gno_finish hi sp (init_get_obj { st with gno_sp := 128, search_depth := 0 }))
    else
      let st1 := if st.num_object_found = 0 then { st with init_hi_search_pos := d3 } else st
      match gno_scan d2 d3 d4 inner st1 with
      | none => none
      | some (ScanResult.found d3f st2) => gno_found d3f d4 hi sp st2
      | some (ScanResult.not_found st2) =>
        match gno_new_level d3 d4 st2 with
        | none => none
        | some (d3n, d4n, st3) =>
          if d4n ≠ 0 then gno_levels d2 hi sp inner fuel d3n d4n (init_get_obj st3)
          else some (gno_finish hi sp (init_get_obj st3))

/-- The function `get_next_object`; each of its loops may run `fuel` rounds. -/
def get_next_object (fuel : Nat) (st : State) : Option State :=
  let r0 := get_var_val st
  let h := get_var r0.2
  let s := get_var h.2
  let d3 := var_table s.2.workspace h.1
  let d4 := var_table s.2.workspace s.1
  gno_levels r0.1 h.1 s.1 fuel fuel d3 d4 s.2

/-! ## The instruction loop -/

/-- The function `function`. The result is `none` when it does not return. -/
def function (env : Env) (st : State) : Option State :=
  let r := fetch st
  if r.1 = 1 then some (call_driver env.driver r.2)
  else if r.1 = 2 then some (random r.2)
  else if r.1 = 3 then some (save r.2 env.save_ok)
  else if r.1 = 4 then normal_restore r.2 env.load
  else if r.1 = 5 then some (clear_workspace r.2)
  else if r.1 = 6 then some (clear_stack r.2)
  else if r.1 = 250 then env.other 250 r.2
  else some (ilins r.2 r.1)

/-- The function `execute_instruction` (build without `CODEFOLLOW` and `L9DEBUG`);
the bit test `code & 0x80` is `code / 128 % 2 = 1` and `code & 0x1f` is `code % 32`.
The result is `none` when the function does not return. -/
def execute_instruction (env : Env) (fuel : Nat) (st : State) : Option State :=
  let op := st.code % 32
  if st.code / 128 % 2 = 1 then some (list_handler st)
  else if op = 0 then some (int_goto st)
  else if op = 1 then some (int_gosub false st)
  else if op = 2 then some (int_return false st)
  else if op = 6 then function env st
  else if op = 7 then input env st
  else if op = 8 then some (var_con st)
  else if op = 9 then some (var_var st)
  else if op = 10 then some (add st)
  else if op = 11 then some (sub st)
  else if op = 12 ∨ op = 13 then some (ilins st op)
  else if op = 14 then some (jump st)
  else if op = 16 then some (if_vt (fun a b => decide (a = b)) st)
  else if op = 17 then some (if_vt (fun a b => decide (a ≠ b)) st)
  else if op = 18 then some (if_vt (fun a b => decide (a < b)) st)
  else if op = 19 then some (if_vt (fun a b => decide (a > b)) st)
  else if op = 23 then get_next_object fuel st
  else if op = 24 then some (if_ct (fun a b => decide (a = b)) st)
  else if op = 25 then some (if_ct (fun a b => decide (a ≠ b)) st)
  else if op = 26 then some (if_ct (fun a b => decide (a < b)) st)
  else if op = 27 then some (if_ct (fun a b => decide (a > b)) st)
  else if op = 29 ∨ op = 30 ∨ op = 31 then some (ilins st op)
  else env.other op st

/-- The function `run_game`: the value returned and the new state. -/
def run_game (env : Env) (fuel : Nat) (st : State) : Option (Bool × State) :=
  let r := fetch st
  (execute_instruction env fuel { r.2 with code := r.1 }).map (fun t => (t.running, t))

/-! ## Auxiliary definitions used in the statements -/

/-- Sum of the bytes `m[0 .. n-1]`, without wrap-around. -/
def byte_sum (m : Mem) : Nat → Nat
  | 0 => 0
  | n + 1 => byte_sum m n + rd8 m n

/-- The workspace in `save` at the moment the checksum loop runs: header fields
and file name written, `checksum` still 0. -/
def save_header (st : State) : Mem :=
  let ws1 := wr32 st.workspace OFF_ID L9_ID
  let ws2 := wr16 ws1 OFF_CODE_PTR st.code_ptr
  let ws3 := wr16 ws2 OFF_LIST_AREA_SIZE LIST_AREA_SIZE
  let ws4 := wr16 ws3 OFF_STACK_SIZE STACK_SIZE
  let ws5 := wr16 ws4 OFF_FILENAME_SIZE MAX_PATH
  let ws6 := wr16 ws5 OFF_CHECKSUM 0
  strcpy ws6 OFF_FILENAME st.game_file 0 MAX_PATH

/-- A state with every memory cell 0, an idle host, a running V3 game and an empty
object search. -/
def zero_state : State :=
  { ram := fun _ => 0, mmu0 := 0, mmu1 := 0, mmu2 := 0, current_page := 0, memory_size := 0,
    l9_pointers := fun _ => 0, l9_pointers_in_ws := fun _ => false, list9_start_ptr := 0,
    code_ptr := 0, code := 0, game_file := fun _ => 0, workspace := fun _ => 0,
    last_char := 0, last_actual_char := 0, keys := [], output := [], saved := [], bitmaps := [],
    acode_ptr := 0, running := true, random_seed := 0, const_seed := 0, game_type := 3,
    in_buffer := fun _ => 0, in_buffer_ptr := none, out_buffer := fun _ => 0,
    list2_ptr := 0, list3_ptr := 0, gno_stack := fun _ => 0, gno_scratch := fun _ => 0,
    object := 0, gno_sp := 128, num_object_found := 0, search_depth := 0,
    init_hi_search_pos := 0, abs_data_block := 0, start_md := 0, start_md_v2 := 0,
    end_md := 0, word_table := 0, def_dict := 0, dict_data := 0, dict_data_len := 0,
    dict_ptr := 0, word_case := false, unpack_count := 0, unpack_buf := fun _ => 0,
    three_chars := fun _ => 0, d5 := 0, mdt_mode := 0, end_wdp5 := 0, unpack_d3 := 0,
    exit_table_tail := fun _ => 0 }

/-- The state after `os_load_file((uint8_t *) &workspace, &size, sizeof(game_state_t))`
has delivered `data`. -/
def loaded (t : State) (ok : Bool) (data : List Nat) : State :=
  { t with workspace := os_load_file t.workspace ⟨ok, data⟩ SIZEOF_GAME_STATE }

/-- Byte offset in `workspace` of the byte `list9_start_ptr` points to. -/
def list9 (st : State) : Nat := OFF_LIST_AREA + st.list9_start_ptr

/-- The state in which `call_driver` has executed `*a6 = 0;`. -/
def slot_cleared (st : State) : State :=
  { st with workspace := wr8 st.workspace (list9 st + 1) 0 }

/-- A state in which the list9 area asks for a RAM load (0x17) from slot 1 (slot
byte 0), and the RAM of slot 1 holds 5 where `list9[1]` is kept. -/
def stale_slot_state : State :=
  { zero_state with
    ram := fun x => if x = 297985 then 5 else 0
    workspace := fun a => if a = 528 then 0x17 else 0 }

/-- A state in which the list9 area asks for a RAM save (0x16) with slot byte 0xFB,
the first byte of `var_table` is 7 and the RAM is all 0. -/
def slot_fb_state : State :=
  { zero_state with
    workspace := fun a => if a = 528 then 0x16 else if a = 529 then 0xfb else if a = 16 then 7 else 0 }

/-- The base of the list an opcode of `list_handler` works on: `l9_pointers[a4_index]`. -/
def list_base (st : State) : Nat := st.l9_pointers ((st.code + 1) % 32)

/-- Whether that list lies in the workspace: `l9_pointers_in_ws[a4_index]`. -/
def list_in_ws (st : State) : Bool := st.l9_pointers_in_ws ((st.code + 1) % 32)

/-- The limit `max_access` of `list_handler`. -/
def list_limit (st : State) : Nat := if list_in_ws st then LIST_AREA_SIZE else st.memory_size

/-- The offset operand of a list opcode: the value of the variable named by the
first operand byte in the modes 0xA0..0xBF and 0xE0..0xFF, the first operand byte
itself in the modes 0x80..0x9F and 0xC0..0xDF. -/
def list_offset (st : State) : Nat :=
  if 0xe0 ≤ st.code ∨ (0xa0 ≤ st.code ∧ st.code < 0xc0) then (get_var_val st).1 else (fetch st).1

/-- The effective index of a list opcode: `a4` after `a4 += offset` on a `uint16_t`. -/
def list_index (st : State) : Nat := (list_base st + list_offset st) % 65536

/-- The second operand byte of a list opcode: the number of the source variable
(write modes) or of the destination variable (read modes). -/
def list_var (st : State) : Nat := (fetch (fetch st).2).1

/-- The state once the two operand bytes of a list opcode have been fetched. -/
def operands_fetched (st : State) : State := (fetch (fetch st).2).2

/-- A state about to run the list read opcode 0xA0 on the workspace list 1 with
base 1: both operand bytes are 0, variable 0 holds 0xFFFF and `list_area[0]` is 9. -/
def wrap_read_state : State :=
  { zero_state with
    code := 0xa0
    l9_pointers := fun i => if i = 1 then 1 else 0
    l9_pointers_in_ws := fun i => decide (i = 1)
    workspace := fun a => if a = 16 ∨ a = 17 then 0xff else if a = 528 then 9 else 0 }

/-- The little-endian 16-bit word of the story at virtual address `p`. -/
def word_le (st : State) (p : Nat) : Nat := story_byte st p + 256 * story_byte st (p + 1)

/-- The new `code_ptr` as claim C12 words it: `acode_ptr + word_le(T + 2 * i)` with
`T = code_ptr + con()`, `con()` being decoded by `get_con` and `i` the value of the
variable named by the operand byte that follows the constant. -/
def jump_as_claimed (st : State) : Nat :=
  let c := get_con st
  let i := (get_var_val c.2).1
  st.acode_ptr + word_le st (st.code_ptr + c.1 + 2 * i)

/-- A state about to run `jump` (opcode 0x0E at address 0): the constant at address 1
is 0x0010, the operand byte at address 3 names variable 0, which holds 0, and the
story holds the word 0x3020 at address 0x10; `acode_ptr` is 0. -/
def jump_state : State :=
  { zero_state with
    code := 0x0e
    code_ptr := 1
    ram := fun x =>
      if x = 327681 then 0x10 else if x = 327696 then 0x20 else if x = 327697 then 0x30 else 0 }

/-- An environment in which the host delivers nothing: no line, a failing load, and
word lookups and other handlers that return at once. -/
def idle_env : Env :=
  { driver := ⟨0, id⟩, save_ok := true, load := ⟨false, []⟩, line := none, script_opens := false,
    scan_u := fun _ _ => none, words := fun s => some (true, s),
    words_v2 := fun s => some (0, s), other := fun _ s => some s }

/-- A state whose next opcode byte (at address 0) is 0x4C: bit 7 clear, bit 6 set,
low five bits 12. -/
def illegal_state : State :=
  { zero_state with ram := fun x => if x = 327680 then 0x4c else 0 }

/-- A state with a full VM stack (`stack_ptr = 128`) about to run `gosub` in its long
form (opcode 0x01) with the address operand at address 0. -/
def full_stack_state : State :=
  { zero_state with code := 1, workspace := fun a => if a = 6 then 128 else 0 }

/-- The `i`-th 16-bit value of the pointer table in the header of the story: the
little-endian word at offset `0x04 + 2 * i` (V2) or `0x12 + 2 * i` (V3, V4). -/
def header_word (st : State) (i : Nat) : Nat :=
  word_le st ((if st.game_type = 2 then 0x04 else 0x12) + 2 * i)

/-- A V3 story whose header holds 0x8000 as its twelfth pointer (index 11, at
offset 0x28) and 0 in the other eleven. -/
def header_state : State :=
  { zero_state with ram := fun x => if x = 327721 then 0x80 else 0 }

/-- The line in `buf` is `#quit` in any letter case, followed by the end of the line
or by a space (and then anything). -/
def quit_line (buf : Mem) : Prop :=
  tolower (rd8 buf 0) = 0x23 ∧ tolower (rd8 buf 1) = 0x71 ∧ tolower (rd8 buf 2) = 0x75 ∧
  tolower (rd8 buf 3) = 0x69 ∧ tolower (rd8 buf 4) = 0x74 ∧ (rd8 buf 5 = 0 ∨ rd8 buf 5 = 0x20)

/-- An environment in which the player types `#QuIt`. -/
def quit_env : Env :=
  { idle_env with line := some (false, [0x23, 0x51, 0x75, 0x49, 0x74]) }

/-- A V3 state whose next opcode byte (at address 0) is 7, the `input` opcode, with
no line pending. -/
def input_state : State :=
  { zero_state with ram := fun x => if x = 327680 then 7 else 0 }

/-- A state whose input line is `#quit` followed by a TAB character. -/
def tab_quit_state : State :=
  { zero_state with
    in_buffer := set_line zero_state.in_buffer [0x23, 0x71, 0x75, 0x69, 0x74, 0x09] }

/-- The state a run of the loop `gnonext` ends in. -/
def ScanResult.state : ScanResult → State
  | ScanResult.found _ st => st
  | ScanResult.not_found st => st

/-- A state about to run `get_next_object` with operand bytes 0, 1, 2 (at addresses
0, 1, 2): variable 0 (the highest object number `d2`) holds 0xFFFF, variable 1 (the
high search position `d3`) holds 0 and variable 2 (the search position `d4`) holds
256; the object search is idle. -/
def search_state : State :=
  { zero_state with
    ram := fun x => if x = 327681 then 1 else if x = 327682 then 2 else 0
    workspace := fun a => if a = 16 ∨ a = 17 then 0xff else if a = 21 then 1 else 0 }


/-- The value `get_next_object` reads into `d2`. -/
def gno_d2 (st : State) : Nat := (get_var_val st).1

/-- The value `get_next_object` reads into `d3`. -/
def gno_d3 (st : State) : Nat :=
  let r0 := get_var_val st
  let h := get_var r0.2
  let s := get_var h.2
  var_table s.2.workspace h.1

/-! ## File names (`main.c`) -/

/-- The function `isdigit`. -/
def isdigit (c : Nat) : Bool := decide (48 ≤ c ∧ c ≤ 57)

/-- The loop `for (i = ...; i > 0; i--)` of `os_set_file_number` from the index `i`
on, on the characters `new_name` holds before its NUL. -/
def set_file_number_from (new_name : List Nat) (num : Nat) : Nat → List Nat
  | 0 => new_name
  | i + 1 =>
    if isdigit (new_name.getD (i + 1) 0) then new_name.set (i + 1) ((48 + num) % 256)
    else set_file_number_from new_name num i

/-- The function `os_set_file_number` of `main.c`, on the characters `new_name` holds
before its NUL (`strlen` is their number). The result is `none` for the empty name,
where `i` starts at `0xFFFF` and the loop reads outside the string. -/
def os_set_file_number (new_name : List Nat) (_size : Nat) (num : Nat) : Option (List Nat) :=
  if new_name.length = 0 then none
  else some (set_file_number_from new_name num ((new_name.length - 1) % 65536))

/-! ## The dictionary -/

/-- The function `init_dict`. -/
def init_dict (st : State) (ptr : Nat) : State :=
  { st with dict_ptr := ptr % 65536, unpack_count := 8 }

/-- The function `get_dictionary_code`: the code and the new state. The five bytes
`b0 .. b4` are the values `d1, d2, d1, d2, d1` reads through `effective_ptr`; a shift
`x >> k` is `x / 2^k`, `x << k` is `x * 2^k` and `& 0x1f` is `% 32`. -/
def get_dictionary_code (st : State) : Nat × State :=
  if st.unpack_count ≠ 8 then
    (rd8 st.unpack_buf st.unpack_count, { st with unpack_count := (st.unpack_count + 1) % 256 })
  else
    let r := effective st st.dict_ptr
    let b0 := peek r.2 r.1
    let b1 := peek r.2 (r.1 + 1)
    let b2 := peek r.2 (r.1 + 2)
    let b3 := peek r.2 (r.1 + 3)
    let b4 := peek r.2 (r.1 + 4)
    let buf : Mem := fun i =>
      if i = 0 then b0 / 8
      else if i = 1 then (b1 / 64 + b0 * 4) % 32
      else if i = 2 then b1 / 2 % 32
      else if i = 3 then (b2 / 16 + b1 * 16) % 32
      else if i = 4 then (b2 * 2 + b3 / 128) % 32
      else if i = 5 then b3 / 4 % 32
      else if i = 6 then (b3 * 8 + b4 / 32) % 32
      else if i = 7 then b4 % 32
      else st.unpack_buf i
    (b0 / 8, { r.2 with unpack_buf := buf, dict_ptr := (st.dict_ptr + 5) % 65536,
                        unpack_count := 1 })

/-- The value `0x80 | ((d0 << 5) & 0xe0) | (d1 & 0x1f)`. -/
def long_code (d0 d1 : Nat) : Nat := 0x80 ||| ((d0 <<< 5) &&& 0xe0) ||| (d1 &&& 0x1f)

/-- The function `get_dictionary`, with the body of `get_long_code` in the place of
its call; `fuel` bounds the number of nested calls of `get_long_code`, and the result
is `none` when that number is exceeded. -/
def get_dictionary : Nat → State → Nat → Option (Nat × State)
  | 0, st, d0 => if 0x1a ≤ d0 then none else some (d0 + 0x61, st)
  | fuel + 1, st, d0 =>
    if 0x1a ≤ d0 then
      let r0 := get_dictionary_code st
      if r0.1 = 0x10 then
        let r1 := get_dictionary_code { r0.2 with word_case := true }
        get_dictionary fuel r1.2 r1.1
      else
        let r1 := get_dictionary_code r0.2
        some (long_code r0.1 r1.1, r1.2)
    else some (d0 + 0x61, st)

/-- The function `get_long_code`; `fuel` bounds the number of nested calls of
`get_long_code` after this one. -/
def get_long_code (fuel : Nat) (st : State) : Option (Nat × State) :=
  let r0 := get_dictionary_code st
  if r0.1 = 0x10 then
    let r1 := get_dictionary_code { r0.2 with word_case := true }
    get_dictionary fuel r1.2 r1.1
  else
    let r1 := get_dictionary_code r0.2
    some (long_code r0.1 r1.1, r1.2)

/-! ### Auxiliary definitions for the dictionary -/

/-- The result of call number `n` (counted from 0) of a row of calls of
`get_dictionary_code`. -/
def nth_dictionary_code (st : State) : Nat → Nat × State
  | 0 => get_dictionary_code st
  | n + 1 => get_dictionary_code (nth_dictionary_code st n).2

/-- The 40-bit big-endian value of the five story bytes at `q`. -/
def group40 (st : State) (q : Nat) : Nat :=
  story_byte st q * 2 ^ 32 + story_byte st (q + 1) * 2 ^ 24 + story_byte st (q + 2) * 2 ^ 16 +
    story_byte st (q + 3) * 2 ^ 8 + story_byte st (q + 4)

/-- The 5-bit group number `i` (0 the most significant) of a 40-bit value. -/
def group5 (v i : Nat) : Nat := v / 32 ^ (7 - i) % 32

/-- A state whose unpack buffer holds the code `0x10` in every place. -/
def case_state : State := { zero_state with unpack_buf := fun _ => 0x10 }

/-! ## Words and messages -/

/-- The function `print_auto_case`; the bit test `d0 & 128` is `d0 / 128 % 2 = 1`. -/
def print_auto_case (st : State) (d0 : Nat) : State :=
  if d0 / 128 % 2 = 1 then print_char st d0
  else if st.word_case then print_char st (toupper d0)
  else if st.d5 < 6 then print_char st d0
  else print_char { st with word_case := false } (toupper d0)

/-- The loop `while (d2 && off >= L9WORD(effective(a0 + 2)))` at the label `dwr02`,
with `d2` rounds left: the new value of `a0` and the new state. -/
def dwr02 (off : Nat) : Nat → Nat → State → Nat × State
  | 0, a0, st => (a0, st)
  | d2 + 1, a0, st =>
    let r := effective st (a0 + 2)
    if L9WORD r.2 r.1 ≤ off then dwr02 off d2 ((a0 + 4) % 65536) r.2 else (a0, r.2)

/-- The statements at the label `dwr04`: the new values of `a0` and `off` and the new
state; `a0` is the value the loop `dwr02` has left. -/
def dwr04 (st : State) (a0 off : Nat) : Nat × Nat × State :=
  if a0 = st.dict_data then (st.def_dict, off, st)
  else
    let a1 := (a0 + 65536 - 4) % 65536
    let e := effective st (a1 + 2)
    let e2 := effective e.2 a1
    (L9WORD e2.2 e2.1, (off + 65536 - L9WORD e.2 e.1) % 65536, e2.2)

/-- The loop at the label `dwr05`; `a3` is the offset of the pointer `a3` from
`three_chars`. The result is the last value of `d0` and the new state, or `none` when
the loop does not end within `fuel` rounds or stores outside `three_chars`. -/
def dwr05 : Nat → State → Nat → Nat → Option (Nat × State)
  | 0, _, _, _ => none
  | fuel + 1, st, off, a3 =>
    let r := get_dictionary_code st
    if r.1 < 0x1c then
      let c : Option (Nat × State) :=
        if 0x1a ≤ r.1 then get_long_code fuel r.2 else some (r.1 + 0x61, r.2)
      match c with
      | none => none
      | some (d0, st1) =>
        if a3 < 34 then
          dwr05 fuel { st1 with three_chars := wr8 st1.three_chars a3 d0 } off (a3 + 1)
        else none
    else
      let off1 := (off + 65535) % 65536
      if off1 = 0 then some (r.1 % 4, r.2) else dwr05 fuel r.2 off1 (r.1 % 4)

/-- The loop `for (i = 0; i < d0; i++) print_auto_case(three_chars[i]);`. -/
def print_three_chars (st : State) : Nat → State
  | 0 => st
  | n + 1 =>
    print_auto_case (print_three_chars st n) (rd8 (print_three_chars st n).three_chars n)

/-- The loop at the label `dwr10`; `none` when it does not end within `fuel` rounds. -/
def dwr10 : Nat → State → Option State
  | 0, _ => none
  | fuel + 1, st =>
    let r := get_dictionary_code st
    if 0x1b ≤ r.1 then some r.2
    else
      match get_dictionary fuel r.2 r.1 with
      | none => none
      | some (c, s) => dwr10 fuel (print_auto_case s c)

/-- The branch `off < 0xf80` of `display_word_ref`, from the label `dwr01` on. -/
def dwr01 (fuel : Nat) (st : State) (off : Nat) : Option State :=
  let st2 := if st.mdt_mode = 1 then print_char st 0x20 else st
  let st3 := { st2 with mdt_mode := 1 }
  let r := dwr02 off st3.dict_data_len st3.dict_data st3
  let q := dwr04 r.2 r.1 off
  match dwr05 fuel (init_dict q.2.2 q.1) ((q.2.1 + 1) % 65536) 0 with
  | none => none
  | some (d0, st5) => dwr10 fuel (print_three_chars st5 d0)

/-- The function `display_word_ref`; `(off >> 12) & 7` is `off / 4096 % 8`,
`off & 0xfff` is `off % 4096`, `d5 & 2` is `d5 / 2 % 2 = 1` and `d5 & 1` is
`d5 % 2 = 1`. The result is `none` when a loop of the dictionary branch does not end
within `fuel` rounds. -/
def display_word_ref (fuel : Nat) (st : State) (off : Nat) : Option State :=
  let st1 := { st with word_case := false, d5 := off / 4096 % 8 }
  if off % 4096 < 0xf80 then dwr01 fuel st1 (off % 4096)
  else
    let st2 := if st1.d5 / 2 % 2 = 1 then print_char st1 0x20 else st1
    let st3 := { st2 with mdt_mode := 2 }
    let st4 := if off % 4096 % 128 ≠ 0x7e then print_char st3 (off % 4096 % 128) else st3
    some (if st4.d5 % 2 = 1 then print_char st4 0x20 else st4)

/-- The loop of `get_md_length` with the sum `tot` so far; `(b - 1) & 0x3f` on the
`int` value of a byte `b` is `(b + 65535) % 65536 % 64`. The result is the sum, the new
value of `*ptr` and the new state, or `none` when the loop does not end within `fuel`
rounds. -/
def get_md_length_loop : Nat → State → Nat → Nat → Option (Nat × Nat × State)
  | 0, _, _, _ => none
  | fuel + 1, st, ptr, tot =>
    let r := effective st ptr
    let len := (peek r.2 r.1 + 65535) % 65536 % 64
    if len = 0x3f then get_md_length_loop fuel r.2 ((ptr + 1) % 65536) ((tot + len) % 65536)
    else some ((tot + len) % 65536, (ptr + 1) % 65536, r.2)

/-- The function `get_md_length`: the length, the new value of `*ptr` and the new
state. -/
def get_md_length (fuel : Nat) (st : State) (ptr : Nat) : Option (Nat × Nat × State) :=
  get_md_length_loop fuel st ptr 0

/-- The first loop of `print_message`: the values of `msg` and `msg_ptr` it leaves
and the new state. -/
def md_walk : Nat → State → Nat → Nat → Option (Nat × Nat × State)
  | 0, _, _, _ => none
  | fuel + 1, st, msg, msg_ptr =>
    if 0 < msg ∧ msg < 0x8000 ∧ msg_ptr ≤ st.end_md then
      let r := effective st msg_ptr
      if peek r.2 r.1 / 128 % 2 = 1 then
        md_walk fuel r.2 ((msg + 65536 - peek r.2 r.1 % 128 + 65535) % 65536)
          ((msg_ptr + 1) % 65536)
      else
        match get_md_length fuel r.2 msg_ptr with
        | none => none
        | some (len, p, s) => md_walk fuel s ((msg + 65535) % 65536) ((p + len) % 65536)
    else some (msg, msg_ptr, st)

/-- The loop `while (len)` of `print_message`. -/
def md_words : Nat → State → Nat → Nat → Option State
  | 0, _, _, _ => none
  | fuel + 1, st, msg_ptr, len =>
    if len = 0 then some st
    else
      let r := effective st msg_ptr
      let data := peek r.2 r.1
      if data / 128 % 2 = 1 then
        let r2 := effective r.2 (msg_ptr + 1)
        let off := (data * 256 + peek r2.2 r2.1) % 65536
        if off = 0x8f80 then some r2.2
        else
          match display_word_ref fuel r2.2 off with
          | none => none
          | some s => md_words fuel s ((msg_ptr + 2) % 65536) ((len + 65534) % 65536)
      else
        let w := effective r.2 r.2.word_table
        let off := (peek w.2 (w.1 + data * 2 % 256) * 256 +
          peek w.2 (w.1 + data * 2 % 256 + 1)) % 65536
        if off = 0x8f80 then some w.2
        else
          match display_word_ref fuel w.2 off with
          | none => none
          | some s => md_words fuel s ((msg_ptr + 1) % 65536) ((len + 65535) % 65536)

/-- The function `print_message`; `none` when one of its loops does not end within
`fuel` rounds. -/
def print_message (fuel : Nat) (st : State) (msg : Nat) : Option State :=
  match md_walk fuel st msg st.start_md with
  | none => none
  | some (m, p, s) =>
    if m / 32768 % 2 = 1 then some s
    else
      let r := effective s p
      if peek r.2 r.1 / 128 % 2 = 1 then some r.2
      else
        match get_md_length fuel r.2 p with
        | none => none
        | some (len, p1, s1) => md_words fuel s1 p1 len

/-- The loop of `msg_len_v2` with the value of `i` so far: the result, the new value
of `*ptr` and the new state. -/
def msg_len_v2_loop : Nat → State → Nat → Nat → Option (Nat × Nat × State)
  | 0, _, _, _ => none
  | fuel + 1, st, ptr, i =>
    let r := effective st ptr
    if peek r.2 r.1 = 0 then
      if st.memory_size ≤ (ptr + 1) % 65536 then some (0, (ptr + 1) % 65536, r.2)
      else msg_len_v2_loop fuel r.2 ((ptr + 1) % 65536) ((i + 255) % 65536)
    else some ((i + peek r.2 r.1) % 65536, ptr, r.2)

/-- The function `msg_len_v2`. -/
def msg_len_v2 (fuel : Nat) (st : State) (ptr : Nat) : Option (Nat × Nat × State) :=
  if st.memory_size ≤ ptr then some (0, ptr, st) else msg_len_v2_loop fuel st ptr 0

/-- The function `print_char_v2`. -/
def print_char_v2 (st : State) (c : Nat) : State :=
  print_auto_case st (if c = 0x25 then 0xd else if c = 0x5f then 0x20 else c)

/-- The loop `while (--msg) ptr += msg_len_v2(&ptr);` with `k` rounds left. -/
def skip_v2 (fuel : Nat) : Nat → State → Nat → Option (Nat × State)
  | 0, st, ptr => some (ptr, st)
  | k + 1, st, ptr =>
    match msg_len_v2 fuel st ptr with
    | none => none
    | some (n, p, s) => skip_v2 fuel k s ((p + n) % 65536)

/-- The loop `while (--n)` of `display_word_v2` with `k` rounds left; `display` is
the nested call of `display_word_v2`. -/
def words_v2 (display : State → Nat → Nat → Option State) : Nat → State → Nat → Option State
  | 0, st, _ => some st
  | k + 1, st, ptr =>
    let r := effective st (ptr + 1)
    if peek r.2 r.1 < 3 then some r.2
    else if 0x5e ≤ peek r.2 r.1 then
      match display r.2 ((r.2.start_md_v2 + 65535) % 65536) (peek r.2 r.1 - 0x5d) with
      | none => none
      | some s => words_v2 display k s ((ptr + 1) % 65536)
    else words_v2 display k (print_char_v2 r.2 ((peek r.2 r.1 + 0x1d) % 256)) ((ptr + 1) % 65536)

/-- The function `display_word_v2`; `fuel` bounds the depth of the nested calls and
the rounds of the loop of `msg_len_v2`. -/
def display_word_v2 : Nat → State → Nat → Nat → Option State
  | 0, _, _, _ => none
  | fuel + 1, st, ptr, msg =>
    if msg = 0 then some st
    else
      match skip_v2 (fuel + 1) ((msg + 65535) % 65536) st ptr with
      | none => none
      | some (p, s) =>
        match msg_len_v2 (fuel + 1) s p with
        | none => none
        | some (n, p2, s2) =>
          if n = 0 then some s2
          else words_v2 (display_word_v2 fuel) ((n + 65535) % 65536) s2 p2

/-! ### Auxiliary definitions for the messages -/

/-- The length as the specification words it: the sum of the successive groups
`byte & 0x3f` from `a` on, while each group equals `0x3f` (at most `fuel` groups). -/
def md_length_as_claimed (st : State) : Nat → Nat → Nat
  | 0, _ => 0
  | fuel + 1, a =>
    if story_byte st a % 64 = 0x3f then 0x3f + md_length_as_claimed st fuel (a + 1)
    else story_byte st a % 64

/-- The group `(b - 1) & 0x3f` of the story byte at `a`. -/
def md_group (st : State) (a : Nat) : Nat := (story_byte st (a % 65536) + 65535) % 65536 % 64

/-- A state whose story starts with the byte 5. -/
def md_state : State :=
  { zero_state with ram := fun x => if x = 327680 then 5 else 0 }

/-- The characters a literal word reference `ref` stands for: a space when bit 1 of
`(ref >> 12) & 7` is set, the character `ref & 0x7f` unless it is `0x7e`, a space
when bit 0 is set. -/
def literal_chars (ref : Nat) : List Nat :=
  (if ref / 4096 % 8 / 2 % 2 = 1 then [0x20] else []) ++
  (if ref % 4096 % 128 ≠ 0x7e then [ref % 4096 % 128] else []) ++
  (if ref / 4096 % 8 % 2 = 1 then [0x20] else [])

/-- The word reference of a message at the address `p`: two story bytes, high byte
first, when the byte at `p` has its top bit set, else the entry of the word table
with that number. -/
def message_ref (st : State) (p : Nat) : Nat :=
  if 128 ≤ story_byte st (p % 65536) then
    story_byte st (p % 65536) * 256 + story_byte st ((p + 1) % 65536)
  else
    story_byte st (st.word_table % 65536 + 2 * story_byte st (p % 65536)) * 256 +
      story_byte st (st.word_table % 65536 + 2 * story_byte st (p % 65536) + 1)

/-- A state whose story starts with the word reference `0x8f80` in its long form. -/
def end_ref_state : State :=
  { zero_state with ram := fun x => if x = 327680 then 0x8f else if x = 327681 then 0x80 else 0 }

/-- The state `s` differs from `t` at most in the paging (the MMU slots and
`current_page`). -/
def same_but_paging (s t : State) : Prop :=
  ∃ page m0 m1 : Nat, s = { t with current_page := page, mmu0 := m0, mmu1 := m1 }

/-- A state whose story holds a record of length 1 at the address 0, where `start_md`
and `end_md` point, and at the address 2 a record with the literal word reference
`0x8fc1`. -/
def walk_state : State :=
  { zero_state with
    ram := fun x =>
      if x = 327680 then 2 else if x = 327682 then 3 else if x = 327683 then 0x8f
      else if x = 327684 then 0xc1 else 0 }

/-- A state with a story of 16 bytes, all 0 but the byte 7 at the address 2. -/
def v2_state : State :=
  { zero_state with memory_size := 16, ram := fun x => if x = 327682 then 7 else 0 }

/-- A state with a story of 16 bytes, all 0. -/
def v2_zero_state : State := { zero_state with memory_size := 16 }

/-- The value of a byte read as an `int8_t`. -/
def int8 (b : Nat) : Int := if b < 128 then (b : Int) else (b : Int) - 256

/-- The short-form target as the specification words it: `code_ptr + delta - 1`
(mod 2^16), with `delta` the byte at `code_ptr` read as a signed 8-bit value. -/
def addr_as_claimed (st : State) : Int :=
  ((st.code_ptr : Int) + int8 (story_byte st st.code_ptr) - 1) % 65536

/-- A state with `code = 0x20` (bit 5 set), `code_ptr = 10` and the story byte 5 at
the address 10. -/
def addr_state : State :=
  { zero_state with code := 0x20, code_ptr := 10, ram := fun x => if x = 327690 then 5 else 0 }

/-! ## Exits -/

/-- How the first loop of `do_exit` ends. -/
inductive SkipResult where
  /-- The loop ended with `a0` at the first record of the group of the room. -/
  | at_group (a0 : Nat)
  /-- The loop was left by `goto notfn4`. -/
  | notfn4

/-- The loop `do { d0 = *a0; ... a0 += 2; } while ((d0 & 0x80) == 0 || --d1);` of
`do_exit`; `a0` is a pointer into the paged window, `(d0 & 0x80) == 0` is
`d0 / 128 % 2 = 0` and `L9_V4` is 4. -/
def exit_skip (st : State) : Nat → Nat → Nat → Option SkipResult
  | 0, _, _ => none
  | fuel + 1, a0, d1 =>
    if st.game_type = 4 ∧ peek st a0 = 0 ∧ peek st ((a0 + 1) % 65536) = 0 then
      some SkipResult.notfn4
    else if peek st a0 / 128 % 2 = 0 then exit_skip st fuel ((a0 + 2) % 65536) d1
    else if (d1 + 255) % 256 ≠ 0 then exit_skip st fuel ((a0 + 2) % 65536) ((d1 + 255) % 256)
    else some (SkipResult.at_group ((a0 + 2) % 65536))

/-- The loop `do { *d4 = *a0++; if (((*d4) & 0xf) == d6) { *d5 = *a0; return; } a0++; }
while (((*d4) & 0x80) == 0);` of `do_exit`: `some (some (d4, d5))` when the function
returns from inside the loop, `some none` when the loop ends. -/
def exit_own (st : State) (d6 : Nat) : Nat → Nat → Option (Option (Nat × Nat))
  | 0, _ => none
  | fuel + 1, a0 =>
    if peek st a0 % 16 = d6 then some (some (peek st a0, peek st ((a0 + 1) % 65536)))
    else if peek st a0 / 128 % 2 = 0 then exit_own st d6 fuel ((a0 + 2) % 65536)
    else some none

/-- The last loop of `do_exit` with the statement `*d5 = 0;` after it: the values of
`*d4` and `*d5` at the return; `(*d4) & 0x10` is `d4 / 16 % 2`. -/
def exit_reverse (st : State) (d6 d7 : Nat) : Nat → Nat → Nat → Option (Nat × Nat)
  | 0, _, _ => none
  | fuel + 1, a0, d5 =>
    if peek st a0 / 16 % 2 = 1 ∧ peek st a0 % 16 = d6 ∧ peek st ((a0 + 1) % 65536) = d7 then
      some (peek st a0, d5)
    else if peek st a0 ≠ 0 then
      exit_reverse st d6 d7 fuel ((a0 + 2) % 65536)
        (if peek st a0 / 128 % 2 = 1 then (d5 + 1) % 256 else d5)
    else some (peek st a0, 0)

/-- The value of the expression `exit_reversal_table[d6]` for a `uint8_t d6`: the
code reads it without a bound check, so that for `d6 >= 16` the read goes past the 16
entries of the table, to byte `d6 - 16` of what follows it in memory. -/
def exit_reversed (st : State) (d6 : Nat) : Nat :=
  if d6 < 16 then exit_reversal_table.getD d6 0 else rd8 st.exit_table_tail (d6 - 16)

/-- The statements of `do_exit` from the label `notfn4` on. -/
def notfn4 (fuel : Nat) (st : State) (d6 d7 : Nat) : Option (Nat × Nat × State) :=
  let e := effective st st.abs_data_block
  match exit_reverse e.2 (exit_reversed st d6) d7 fuel e.1 1 with
  | none => none
  | some r => some (r.1, r.2, e.2)

/-- The function `do_exit`: the values it leaves in `*d4` and `*d5` and the new state;
`none` when one of its loops does not end within `fuel` rounds. -/
def do_exit (fuel : Nat) (st : State) (d6 d7 : Nat) : Option (Nat × Nat × State) :=
  let e := effective st st.abs_data_block
  let skipped : Option SkipResult :=
    if (d7 + 255) % 256 ≠ 0 then exit_skip e.2 fuel e.1 ((d7 + 255) % 256)
    else some (SkipResult.at_group e.1)
  match skipped with
  | none => none
  | some SkipResult.notfn4 => notfn4 fuel e.2 d6 d7
  | some (SkipResult.at_group a0) =>
    match exit_own e.2 d6 fuel a0 with
    | none => none
    | some (some r) => some (r.1, r.2, e.2)
    | some none => notfn4 fuel e.2 d6 d7

/-- The two statements `*get_var() = (d4 & 0x70) >> 4; *get_var() = d5;` of `int_exit`;
`(d4 & 0x70) >> 4` is `d4 / 16 % 8`. -/
def exit_store (st : State) (d4 d5 : Nat) : State :=
  let v1 := get_var st
  let s1 := { v1.2 with workspace := set_var v1.2.workspace v1.1 (d4 / 16 % 8) }
  let v2 := get_var s1
  { v2.2 with workspace := set_var v2.2.workspace v2.1 d5 }

/-- The function `int_exit` (build without `CODEFOLLOW`). -/
def int_exit (fuel : Nat) (st : State) : Option State :=
  let r7 := get_var_val st
  let r6 := get_var_val r7.2
  match do_exit fuel r6.2 (r6.1 % 256) (r7.1 % 256) with
  | none => none
  | some r => some (exit_store r.2.2 r.1 r.2.1)

/-! ### Auxiliary definitions for the exits -/

/-- The flags byte of record `k` of the exit data block. -/
def exit_flags (st : State) (k : Nat) : Nat :=
  story_byte st (st.abs_data_block % 65536 + 2 * k)

/-- The target byte of record `k` of the exit data block. -/
def exit_target (st : State) (k : Nat) : Nat :=
  story_byte st (st.abs_data_block % 65536 + 2 * k + 1)

/-- The number of records among the first `n` whose flags byte has its top bit set:
the number of groups that end before record `n`. -/
def group_ends (flags : Nat → Nat) : Nat → Nat
  | 0 => 0
  | n + 1 => group_ends flags n + (if 128 ≤ flags n then 1 else 0)

/-- The room number `int_exit` reads into `d7`. -/
def exit_room (st : State) : Nat := (get_var_val st).1 % 256

/-- The direction `int_exit` reads into `d6`. -/
def exit_dir (st : State) : Nat := (get_var_val (get_var_val st).2).1 % 256

/-- The state in which `int_exit` calls `do_exit`. -/
def exit_operands (st : State) : State := (get_var_val (get_var_val st).2).2

/-- A state for the exit opcode: the operand bytes name the variables 0 (the room, 2),
1 (the direction, `dir`), 2 and 3 (the results); the exit data block at the address
16 holds the group of room 1, `(0x81, 9)`, the group of room 2, `(0x02, 7)`,
`(0x33, 8)`, `(0x80, 0)`, and the zero flags byte that ends the block. -/
def exit_state (dir : Nat) : State :=
  { zero_state with
    abs_data_block := 16
    ram := fun x =>
      if x = 327681 then 1 else if x = 327682 then 2 else if x = 327683 then 3
      else if x = 327696 then 0x81 else if x = 327697 then 9
      else if x = 327698 then 0x02 else if x = 327699 then 7
      else if x = 327700 then 0x33 else if x = 327701 then 8
      else if x = 327702 then 0x80 else 0
    workspace := fun a => if a = 16 then 2 else if a = 18 then dir else 0 }

/-- The target of the gosub that `run_game` fetches and executes in the state `st`. -/
def gosub_target (st : State) : Nat := (get_addr { (fetch st).2 with code := (fetch st).1 }).1

/-- A state for a gosub and a return: the story holds at the address 0 a gosub in the
long form with the offset 5 and at the address 5 a return; two entries are on the
stack. -/
def gosub_state : State :=
  { zero_state with
    ram := fun x => if x = 327680 then 1 else if x = 327681 then 5 else if x = 327685 then 2
      else 0
    workspace := fun a => if a = 6 then 2 else if a = 2576 then 7 else if a = 2578 then 9
      else 0 }

/-- A state in which the list9 area asks for sub-function 0x0E and holds 7 in its
second byte. -/
def driver14_state : State :=
  { zero_state with workspace := fun a => if a = 528 then 0x0e else if a = 529 then 7 else 0 }

/-- The exit opcode as the specification words it: the direction is read from the
first operand variable and the room from the second. -/
def int_exit_as_claimed (fuel : Nat) (st : State) : Option State :=
  let r6 := get_var_val st
  let r7 := get_var_val r6.2
  match do_exit fuel r7.2 (r6.1 % 256) (r7.1 % 256) with
  | none => none
  | some r => some (exit_store r.2.2 r.1 r.2.1)

/-- A state for the exit opcode: the operand bytes name the variables 0 (value 1),
1 (value 2), 2 and 3; the exit data block at the address 16 holds the group of room
1, `(0x82, 5)`, and the group of room 2, `(0x81, 6)`. -/
def order_state : State :=
  { zero_state with
    abs_data_block := 16
    ram := fun x =>
      if x = 327681 then 1 else if x = 327682 then 2 else if x = 327683 then 3
      else if x = 327696 then 0x82 else if x = 327697 then 5
      else if x = 327698 then 0x81 else if x = 327699 then 6 else 0
    workspace := fun a => if a = 16 then 1 else if a = 18 then 2 else 0 }

/-! ## Word lookup (`check_number`, `find_msg_equiv`, `corrupting_input`) -/

/-- The size of `out_buffer`. -/
abbrev OUT_BUFFER_SIZE : Nat := 34

/-- The digit run of `atol`: the decimal value of the digits from the index `p` on,
after the value `acc` of the digits before them; at most `fuel` digits are read. -/
def atol_run (m : Mem) : Nat → Nat → Nat → Nat
  | 0, _, acc => acc
  | fuel + 1, p, acc =>
    if isdigit (rd8 m p) then atol_run m fuel (p + 1) (10 * acc + (rd8 m p - 48)) else acc

/-- The C library `atol` on a buffer of the size of `out_buffer` that begins with a
digit: the value of its leading digit run. A value of 2^31 or more does not fit the
`long` that `atol` returns; the stores below take the value mod 2^16 or 2^32. -/
def atol (m : Mem) : Nat := atol_run m OUT_BUFFER_SIZE 0 0

/-- The function `check_number`; `list9_ptr` is the pointer of that name as its offset
from `workspace.list_area`. -/
def check_number (st : State) (list9_ptr : Nat) : State :=
  if 0x30 ≤ rd8 st.out_buffer 0 ∧ rd8 st.out_buffer 0 < 0x3a then
    if st.game_type = 4 then
      let ws1 := wr8 st.workspace (OFF_LIST_AREA + list9_ptr) 1
      let ws2 := wr16 ws1 (OFF_LIST_AREA + list9_ptr + 1) (atol st.out_buffer)
      { st with workspace := wr16 ws2 (OFF_LIST_AREA + list9_ptr + 3) 0 }
    else
      let ws1 := wr32 st.workspace (OFF_LIST_AREA + list9_ptr) (atol st.out_buffer)
      { st with workspace := wr16 ws1 (OFF_LIST_AREA + list9_ptr + 4) 0 }
  else
    let ws1 := wr16 st.workspace (OFF_LIST_AREA + list9_ptr) 0x8000
    { st with workspace := wr16 ws1 (OFF_LIST_AREA + list9_ptr + 2) 0 }

/-- The decimal value of a list of digits, most significant first. -/
def decimal (ds : List Nat) : Nat := ds.foldl (fun a d => 10 * a + d) 0

/-- The buffer `m` holds the digits `ds` from the index 0 on, and no digit after them. -/
def holds_number (m : Mem) (ds : List Nat) : Prop :=
  (∀ i, i < ds.length → ds.getD i 0 < 10 ∧ rd8 m i = 48 + ds.getD i 0) ∧
  isdigit (rd8 m ds.length) = false

/-- A state whose `out_buffer` holds the word `x`. -/
def unknown_word_state : State :=
  { zero_state with out_buffer := fun i => if i = 0 then 0x78 else 0x20 }

/-- A state of the given game type whose `out_buffer` holds the word `1234`. -/
def number_state (game_type : Nat) : State :=
  { zero_state with
    game_type := game_type
    out_buffer := fun i =>
      if i = 0 then 0x31 else if i = 1 then 0x32 else if i = 2 then 0x33
      else if i = 3 then 0x34 else 0x20 }

/-- The value `((d0 << 1) & 0xe000) | d4` that `find_msg_equiv` packs. -/
def msg_equiv (d0 d4 : Nat) : Nat := ((d0 <<< 1) &&& 0xe000) ||| d4

/-- The value of the expression `*effective(a)`. -/
def read_story (st : State) (a : Nat) : Nat := peek (effective st a).2 (effective st a).1

/-- The stores `list9_ptr[1] = (uint8_t) d0; list9_ptr[0] = (uint8_t) (d0 >> 8);`;
`list9_ptr` is the pointer of that name as its offset from `workspace.list_area`. -/
def store_equiv (st : State) (list9_ptr d0 : Nat) : State :=
  { st with
    workspace := wr8 (wr8 st.workspace (OFF_LIST_AREA + list9_ptr + 1) d0)
      (OFF_LIST_AREA + list9_ptr) (d0 / 256) }

/-- The inner loop `do { if (d6 == 0) break; ... } while (true);` of `find_msg_equiv`
in a record with the message index `d4`. The result tells whether the function
returned from inside the loop (the list9 window is full), and gives the new values of
`a2` and `list9_ptr` and the new state; `none` when the loop does not end within
`fuel` rounds. -/
def fme_refs (d7 d4 : Nat) : Nat → State → Nat → Nat → Nat → Option (Bool × Nat × Nat × State)
  | 0, _, _, _, _ => none
  | fuel + 1, st, a2, d6, list9_ptr =>
    if d6 = 0 then some (false, a2, list9_ptr, st)
    else if read_story st a2 / 128 % 2 = 1 then
      if read_story st a2 < 0x90 then
        fme_refs d7 d4 fuel (effective st a2).2 ((a2 + 2) % 65536) ((d6 + 65534) % 65536)
          list9_ptr
      else if d7 = (read_story st a2 * 256 + read_story (effective st a2).2 (a2 + 1))
          % 65536 % 4096 then
        if st.list9_start_ptr + 0x20 ≤ list9_ptr + 2 then
          some (true, (a2 + 2) % 65536, list9_ptr + 2,
            store_equiv (effective (effective st a2).2 (a2 + 1)).2 list9_ptr
              (msg_equiv ((read_story st a2 * 256 + read_story (effective st a2).2 (a2 + 1))
                % 65536) d4))
        else
          fme_refs d7 d4 fuel
            (store_equiv (effective (effective st a2).2 (a2 + 1)).2 list9_ptr
              (msg_equiv ((read_story st a2 * 256 + read_story (effective st a2).2 (a2 + 1))
                % 65536) d4))
            ((a2 + 2) % 65536) ((d6 + 65534) % 65536) (list9_ptr + 2)
      else
        fme_refs d7 d4 fuel (effective (effective st a2).2 (a2 + 1)).2 ((a2 + 2) % 65536)
          ((d6 + 65534) % 65536) list9_ptr
    else
      fme_refs d7 d4 fuel (effective st a2).2 ((a2 + 1) % 65536) ((d6 + 65535) % 65536)
        list9_ptr

/-- The outer loop of `find_msg_equiv`, entered with the values `a2`, `d4` and
`list9_ptr`: the new value of `list9_ptr` and the new state. -/
def fme_loop (d7 : Nat) : Nat → State → Nat → Nat → Nat → Option (Nat × State)
  | 0, _, _, _, _ => none
  | fuel + 1, st, a2, d4, list9_ptr =>
    if st.end_md < a2 then some (list9_ptr, st)
    else if read_story st a2 / 128 % 2 = 1 then
      fme_loop d7 fuel (effective st a2).2 ((a2 + 1) % 65536)
        (((d4 + 1) % 65536 + read_story st a2 % 128) % 65536) list9_ptr
    else if read_story st a2 / 64 % 2 = 1 then
      match get_md_length fuel (effective st a2).2 a2 with
      | none => none
      | some (d6, p, s) =>
        match fme_refs d7 ((d4 + 1) % 65536) fuel s p d6 list9_ptr with
        | none => none
        | some (true, _, l9, s1) => some (l9, s1)
        | some (false, p1, l9, s1) => fme_loop d7 fuel s1 p1 ((d4 + 1) % 65536) l9
    else
      match get_md_length fuel (effective st a2).2 a2 with
      | none => none
      | some (len, p, s) => fme_loop d7 fuel s ((p + len) % 65536) ((d4 + 1) % 65536) list9_ptr

/-- The function `find_msg_equiv`; `list9_ptr` is the pointer of that name on entry,
and the result gives it on return. -/
def find_msg_equiv (fuel : Nat) (st : State) (d7 list9_ptr : Nat) : Option (Nat × State) :=
  fme_loop d7 fuel st st.start_md 0xffff list9_ptr

/-! ### The message block as the specification reads it -/

/-- The story behind a RAM: byte `q` of the story. -/
def story_of (ram : Mem) : Mem := fun q => rd8 ram (PAGE_SIZE * MEMORY_BASE_PAGE + q)

/-- The length of a record whose length bytes start at `p`, after the sum `tot` of the
groups before: the length and the address after the last length byte. -/
def md_len (m : Mem) : Nat → Nat → Nat → Option (Nat × Nat)
  | 0, _, _ => none
  | fuel + 1, p, tot =>
    if (m p + 65535) % 65536 % 64 = 0x3f then md_len m fuel (p + 1) (tot + 0x3f)
    else some (tot + (m p + 65535) % 65536 % 64, p + 1)

/-- The word references of a body of `len` bytes at `p`: a byte below `0x80` is a
short reference, a byte from `0x80` on starts a long-form reference of two bytes, high
byte first. The result lists the long-form references; it is `none` when one of them
would end behind the body. -/
def body_refs (m : Mem) : Nat → Nat → Nat → Option (List Nat)
  | 0, _, _ => none
  | fuel + 1, p, len =>
    if len = 0 then some []
    else if m p < 128 then body_refs m fuel (p + 1) (len - 1)
    else if len < 2 then none
    else (body_refs m fuel (p + 2) (len - 2)).map (fun l => (m p * 256 + m (p + 1)) :: l)

/-- A record of a message block. -/
structure MdRecord where
  /-- The address of its first byte. -/
  addr : Nat
  /-- Its message index: the records before it span that many indices. -/
  index : Nat
  /-- Its first byte. -/
  first : Nat
  /-- Its long-form word references; `none` for a skip record. -/
  refs : Option (List Nat)

/-- The records of the message block from `p` up to `end_md`, when all of them are
well formed and lie inside the block; `idx` is the message index of the record at `p`.
A skip record (top bit set) with the low 7 bits `n` spans `n + 1` indices, a body
record one. -/
def md_records (m : Mem) (end_md : Nat) : Nat → Nat → Nat → Option (List MdRecord)
  | 0, _, _ => none
  | fuel + 1, p, idx =>
    if end_md < p then some []
    else if 128 ≤ m p then
      (md_records m end_md fuel (p + 1) (idx + m p % 128 + 1)).map
        (fun l => ⟨p, idx, m p, none⟩ :: l)
    else
      match md_len m fuel p 0 with
      | none => none
      | some (len, q) =>
        if end_md + 1 < q + len then none
        else
          match body_refs m fuel q len with
          | none => none
          | some refs =>
            (md_records m end_md fuel (q + len) (idx + 1)).map
              (fun l => ⟨p, idx, m p, some refs⟩ :: l)

/-- The values `find_msg_equiv` packs for the word `w` in a body with the message
index `idx`: one for each long-form reference from `0x9000` on with
`ref & 0xfff = w`. -/
def body_equivs (w idx : Nat) : List Nat → List Nat
  | [] => []
  | r :: l =>
    if 0x9000 ≤ r ∧ w = r % 4096 then msg_equiv r idx :: body_equivs w idx l
    else body_equivs w idx l

/-- The values `find_msg_equiv` packs for the word `w` in a list of records: those of
the body records whose first byte has bit `0x40` set. -/
def equivs (w : Nat) : List MdRecord → List Nat
  | [] => []
  | r :: l =>
    (match r.refs with
      | some refs =>
        if r.first / 64 % 2 = 1 then body_equivs w (r.index % 65536) refs else []
      | none => []) ++ equivs w l

/-- The values as the specification words them: one for every long-form reference
with `ref & 0xfff = w` of every body record. -/
def equivs_as_claimed (w : Nat) : List MdRecord → List Nat
  | [] => []
  | r :: l =>
    (match r.refs with
      | some refs =>
        (refs.filter (fun x => decide (w = x % 4096))).map
          (fun x => msg_equiv x (r.index % 65536))
      | none => []) ++ equivs_as_claimed w l

/-- The memory after the 16-bit values `l` are stored from `a` on, high byte first. -/
def write_entries (ws : Mem) (a : Nat) : List Nat → Mem
  | [] => ws
  | v :: l => write_entries (wr8 (wr8 ws (a + 1) v) a (v / 256)) (a + 2) l

/-- A RAM whose story holds the bytes `l` from the address 0 on, and 0 elsewhere. -/
def story_ram (l : List Nat) : Mem :=
  fun x => if PAGE_SIZE * MEMORY_BASE_PAGE ≤ x then l.getD (x - PAGE_SIZE * MEMORY_BASE_PAGE) 0 else 0

/-- A state whose message block holds three body records of length 2, each with one
long-form reference to the word `0x123`: the record 0 with the first byte `0x03`
(bit `0x40` clear) and the reference `0x9123`, the record 1 with the first byte `0x43`
and the reference `0x8123`, and the record 2 with the first byte `0x43` and the
reference `0x9123`. -/
def equiv_state : State :=
  { zero_state with
    ram := story_ram [0x03, 0x91, 0x23, 0x43, 0x81, 0x23, 0x43, 0x91, 0x23],
    start_md := 0, end_md := 8 }

/-- The records of the message block of `equiv_state`. -/
def equiv_records : List MdRecord :=
  [⟨0, 0, 0x03, some [0x9123]⟩, ⟨3, 1, 0x43, some [0x8123]⟩, ⟨6, 2, 0x43, some [0x9123]⟩]

/-- A state whose message block holds 256 skip records `0xff`, which span 128 indices
each, and then at the address 256 a body record of length 2 with the first byte `0x43`
and the long-form reference `0x9123`. -/
def far_state : State :=
  { zero_state with
    ram := story_ram (List.replicate 256 0xff ++ [0x43, 0x91, 0x23]),
    start_md := 0, end_md := 258 }

/-! ## The word lookup of `corrupting_input` -/

/-- The loop of `unpack_word`, with the pointer `a3` as its offset in `three_chars`:
the result of the function and the new state. It is `none` when the loop does not end
within `fuel` rounds, or stores outside `three_chars`. -/
def unpack_loop : Nat → State → Nat → Option (Bool × State)
  | 0, _, _ => none
  | fuel + 1, st, a3 =>
    let r := get_dictionary_code st
    if r.2.end_wdp5 ≤ r.2.dict_ptr then some (true, r.2)
    else if 0x1b ≤ r.1 then
      if OUT_BUFFER_SIZE ≤ a3 then none
      else some (false, { r.2 with three_chars := wr8 r.2.three_chars a3 0, unpack_d3 := r.1 % 256 })
    else
      match get_dictionary fuel r.2 r.1 with
      | none => none
      | some (c, s) =>
        if OUT_BUFFER_SIZE ≤ a3 then none
        else unpack_loop fuel { s with three_chars := wr8 s.three_chars a3 c } (a3 + 1)

/-- The function `unpack_word`: its result and the new state. -/
def unpack_word (fuel : Nat) (st : State) : Option (Bool × State) :=
  if st.unpack_d3 = 0x1b then some (true, st)
  else unpack_loop fuel st (st.unpack_d3 % 4)

/-- The function `init_unpack`: its result and the new state. -/
def init_unpack (fuel : Nat) (st : State) (ptr : Nat) : Option (Bool × State) :=
  unpack_word fuel { init_dict st ptr with unpack_d3 := 0x1c }

/-- The function `part_word`. -/
def part_word (c : Nat) : Bool :=
  if tolower c = 0x27 ∨ tolower c = 0x2d then false
  else if tolower c < 0x30 then true
  else if tolower c < 0x3a then false
  else if tolower c < 0x61 then true
  else if tolower c < 0x7b then false
  else true

/-- How the loop `ip05` of `corrupting_input` ends. -/
inductive Ip05Result where
  /-- The function has returned true, in this state. -/
  | returned (st : State)
  /-- The loop was left by `break`, with this value of `a6`. -/
  | word (a6 : Nat)

/-- The loop `ip05`: `a6` is the pointer of that name as its offset in `in_buffer`,
and `a2` points to `out_buffer[0]`. The result is `none` when the loop does not end
within `fuel` rounds. -/
def ip05 : Nat → State → Nat → Nat → Option Ip05Result
  | 0, _, _, _ => none
  | fuel + 1, st, a6, list9_ptr =>
    if rd8 st.in_buffer a6 = 0 then
      some (.returned { st with
        in_buffer_ptr := none,
        workspace := wr16 st.workspace (OFF_LIST_AREA + list9_ptr) 0 })
    else if part_word (rd8 st.in_buffer a6) = false then some (.word (a6 + 1))
    else if rd8 st.in_buffer a6 ≠ 0x20 then
      some (.returned { st with
        in_buffer_ptr := some (a6 + 1),
        workspace := wr8 (wr16 (wr16 st.workspace (OFF_LIST_AREA + list9_ptr) 0)
          (OFF_LIST_AREA + list9_ptr + 2) 0) (OFF_LIST_AREA + list9_ptr + 1)
          (rd8 st.in_buffer a6),
        out_buffer := wr8 st.out_buffer 0 0x20 })
    else ip05 fuel st (a6 + 1) list9_ptr

/-- The loop `ip06loop`, which runs its body at most `0x1f` times: `n` bounds the
number of rounds still to run, and the result gives `out_buffer` and the values of
`a6` and of `a2` (as its offset in `out_buffer`) after the loop. -/
def ip06loop (in_buffer : Mem) : Nat → Mem → Nat → Nat → Mem × Nat × Nat
  | 0, out, a6, a2 => (out, a6, a2)
  | n + 1, out, a6, a2 =>
    if part_word (rd8 in_buffer a6) then (out, a6 + 1, a2)
    else ip06loop in_buffer n (wr8 out a2 (tolower (rd8 in_buffer a6))) (a6 + 1) (a2 + 1)

/-- The loop `ip15`, which compares `three_chars` with `out_buffer` from the index
`i` on: the values of `d6`, `d0` and `d2` after the loop. It is `none` when the two
agree up to the end of the buffers, of `n` more bytes. -/
def ip15 (three_chars out_buffer : Mem) : Nat → Nat → Option (Nat × Nat × Nat)
  | 0, _ => none
  | n + 1, i =>
    if tolower (rd8 three_chars i % 128) = rd8 out_buffer i then
      ip15 three_chars out_buffer n (i + 1)
    else some (i, tolower (rd8 three_chars i % 128), rd8 out_buffer i)

/-- What a round of the loop `ip14` of `corrupting_input` does after the comparison. -/
inductive WordStep where
  /-- The statement `continue`, with this value of `abrev_word`. -/
  | next (abrev_word : Nat)
  /-- The statement `break`, which leads to `ip22`. -/
  | stop
  /-- The label `ip18b`. -/
  | found

/-- The branches of the loop `ip14` after the comparison loop `ip15`. -/
def word_step (d0 d2 d6 d1 abrev_word : Nat) : WordStep :=
  if d2 ≠ 0x20 then
    if abrev_word = 0xffff then .next abrev_word else .found
  else if d0 = 0 then .found
  else if abrev_word ≠ 0xffff then .stop
  else if 4 ≤ d6 then .found
  else .next d1

/-- The statements from the label `ip18b` to the end of the loop body: `some (true, _)`
when the function returns (true), `some (false, _)` when the loop goes on, each with
the value of `list9_ptr`. -/
def ip18b (fuel : Nat) (st : State) (d1 list9_ptr : Nat) : Option (Bool × Nat × State) :=
  match find_msg_equiv fuel st d1 list9_ptr with
  | none => none
  | some (l9, s) =>
    if l9 ≠ s.list9_start_ptr then
      some (true, l9, { s with workspace := wr16 s.workspace (OFF_LIST_AREA + l9) 0 })
    else some (false, l9, s)

/-- The loop `ip14` of `corrupting_input` and the statements after it, entered with
the values `d1`, `abrev_word` and `list9_ptr`: the state in which the function
returns (true). -/
def ip14 : Nat → State → Nat → Nat → Nat → Option State
  | 0, _, _, _, _ => none
  | fuel + 1, st, d1, abrev_word, list9_ptr =>
    match unpack_word fuel st with
    | none => none
    | some (true, s) =>
      if abrev_word = 0xffff then some (check_number s list9_ptr)
      else
        match ip18b fuel s ((d1 + 1) % 65536) list9_ptr with
        | none => none
        | some (true, _, s1) => some s1
        | some (false, l9, s1) => ip14 fuel s1 ((d1 + 1) % 65536) 0xffff l9
    | some (false, s) =>
      match ip15 s.three_chars s.out_buffer OUT_BUFFER_SIZE 0 with
      | none => none
      | some (d6, d0, d2) =>
        match word_step d0 d2 d6 ((d1 + 1) % 65536) abrev_word with
        | .next a => ip14 fuel s ((d1 + 1) % 65536) a list9_ptr
        | .stop => some (check_number s list9_ptr)
        | .found =>
          match ip18b fuel s ((d1 + 1) % 65536) list9_ptr with
          | none => none
          | some (true, _, s1) => some s1
          | some (false, l9, s1) => ip14 fuel s1 ((d1 + 1) % 65536) 0xffff l9

/-- The value of `d1` after the label `ip10`, from the first two bytes of
`out_buffer`: `d0` is `*out_buffer - 0x61` as a `uint16_t`. -/
def ip10 (out_buffer : Mem) (d0 : Nat) : Nat :=
  if d0 < 0x1a then
    if rd8 out_buffer 1 ≠ 0x20 then
      (d0 * 4 % 65536 + (rd8 out_buffer 1 + 65536 - 0x61) % 65536 / 8 % 4) % 65536
    else d0 * 4 % 65536
  else 0x67

/-- The statements of `corrupting_input` from the label `setindex` on, with
`abrev_word = 0xffff` and `list9_ptr = list9_start_ptr`: the state in which the
function returns (true). -/
def setindex (fuel : Nat) (st : State) : Option State :=
  let a0 := effective st st.dict_data
  let d0 := (rd8 st.out_buffer 0 + 65536 - 0x61) % 65536
  if d0 / 32768 % 2 = 1 then
    match init_unpack fuel a0.2 a0.2.def_dict with
    | none => none
    | some (_, s) => ip14 fuel s 65535 0xffff st.list9_start_ptr
  else if st.dict_data_len ≤ ip10 st.out_buffer d0 then
    some (check_number a0.2 st.list9_start_ptr)
  else
    match init_unpack fuel a0.2 (L9WORD a0.2 (a0.1 + ip10 st.out_buffer d0 * 4)) with
    | none => none
    | some (_, s) =>
      ip14 fuel s ((L9WORD a0.2 (a0.1 + ip10 st.out_buffer d0 * 4 + 2) + 65535) % 65536)
        0xffff st.list9_start_ptr

/-- The statements of `corrupting_input` from `a2 = out_buffer;` on, after
`list9_ptr = list9_start_ptr`: the word lookup. The result is `none` when it does
not return within `fuel` rounds of each of its loops, and when `in_buffer_ptr` is
`NULL`, which it is not at this place. -/
def word_lookup (fuel : Nat) (st : State) : Option (Bool × State) :=
  match st.in_buffer_ptr with
  | none => none
  | some a6 =>
    match ip05 fuel st a6 st.list9_start_ptr with
    | none => none
    | some (.returned s) => some (true, s)
    | some (.word a) =>
      let r := ip06loop st.in_buffer 0x1f st.out_buffer (a - 1) 0
      (setindex fuel { st with
        out_buffer := wr8 r.1 r.2.2 0x20,
        in_buffer_ptr := some (r.2.1 - 1) }).map (fun s => (true, s))

/-- The environment `env` with the word lookup of `corrupting_input` in the place of
`words`. -/
def word_env (env : Env) (fuel : Nat) : Env := { env with words := word_lookup fuel }

/-- The bytes of `n` long-form references `0x9005`. -/
def long_refs : Nat → List Nat
  | 0 => []
  | n + 1 => 0x90 :: 0x05 :: long_refs n

/-- A state with an unconsumed input line `a`; a dictionary at the address `0x110`
that holds the word `a` (the codes `0x1c, 0x00, 0x1c`), with the word number 5, to which the
entry 0 of the table at `dict_data = 0x100` leads; and a message block of one body
record of length 32, with the first byte `0x61`, that holds 16 times the long-form
reference `0x9005` to the word 5. Every byte of the workspace is `0xff`. -/
def lookup_state : State :=
  { zero_state with
    ram := story_ram ([0x61] ++ long_refs 16 ++ List.replicate 223 0 ++
      [0x10, 0x01, 0x05, 0x00] ++ List.replicate 12 0 ++ [0xe0, 0x38]),
    start_md := 0, end_md := 32, dict_data := 0x100, dict_data_len := 1, end_wdp5 := 0xffff,
    in_buffer := fun i => if i = 0 then 0x61 else 0, in_buffer_ptr := some 0,
    workspace := fun _ => 0xff }

/-- The result of `corrupting_input` in `lookup_state`, with the word lookup bounded
by 40 rounds of each loop. -/
def lookup_result : Bool × State :=
  (corrupting_input (word_env idle_env 40) lookup_state).getD (false, lookup_state)

/-- The state `s` has the workspace and the pointer `list9_start_ptr` of `t`. -/
def same_ws (s t : State) : Prop :=
  s.workspace = t.workspace ∧ s.list9_start_ptr = t.list9_start_ptr

/-- The state `s` has the pointer `list9_start_ptr` of `t`, and every byte of its
workspace outside the window of `n` bytes at the list9 base is as in `t`. -/
def ws_window (n : Nat) (s t : State) : Prop :=
  s.list9_start_ptr = t.list9_start_ptr ∧
    ∀ a, (a < list9 t ∨ list9 t + n ≤ a) → s.workspace a = t.workspace a

/-- A state of a V4 game for the exit opcode: the operand bytes name the variables 0
(the room, 2), 1 (the direction, `dir`), 2 and 3 (the results); the exit data block at
the address 16 holds the group of room 1, `(0x00, 0)`, `(0x80, 0)`, and the group of
room 2, `(0xb3, 9)`. -/
def exit_v4_state (dir : Nat) : State :=
  { zero_state with
    game_type := 4
    abs_data_block := 16
    ram := fun x =>
      if x = 327681 then 1 else if x = 327682 then 2 else if x = 327683 then 3
      else if x = 327698 then 0x80 else if x = 327700 then 0xb3 else if x = 327701 then 9
      else 0
    workspace := fun a => if a = 16 then 2 else if a = 18 then dir else 0 }

/-- A state for the exit opcode whose exit data block starts at the address `0x3ffe`,
two bytes before the end of a page: the operand bytes name the variables 0 (the room,
1), 1 (the direction, 3), 2 and 3 (the results); the records 0 to 4096 of the block
are `(0x01, 0)`, the record 4097, at the address `0x6000`, is `(flags, target)`, and a
zero flags byte follows. MMU slot 2 holds page 0, which starts with the bytes `0x83,
9`. -/
def exit_far_state (flags target : Nat) : State :=
  { zero_state with
    abs_data_block := 0x3ffe
    ram := fun x =>
      if x = 0 then 0x83 else if x = 1 then 9
      else if x = 327681 then 1 else if x = 327682 then 2 else if x = 327683 then 3
      else if 344062 ≤ x ∧ x < 352256 then (if x % 2 = 0 then 1 else 0)
      else if x = 352256 then flags else if x = 352257 then target
      else 0
    workspace := fun a => if a = 16 then 1 else if a = 18 then 3 else 0 }

/-- A state about to run `get_next_object` with operand bytes 0, 1, 2: variable 0 (the
highest object number `d2`) holds 0, variable 1 (the high search position `d3`) holds
`d3` and variable 2 (the search position `d4`) holds 5, which is not the byte of
object 1 in the list; the search carries over the stack pointer `sp`, the number
`found` of objects found, the initial high search position `hi`, and the value
`scratch` in every entry of `gno_scratch`. -/
def carried_state (d3 sp found hi scratch : Nat) : State :=
  { zero_state with
    ram := fun x => if x = 327681 then 1 else if x = 327682 then 2 else 0
    workspace := fun a => if a = 18 then d3 else if a = 20 then 5 else 0
    gno_sp := sp
    num_object_found := found
    init_hi_search_pos := hi
    gno_scratch := fun _ => scratch }

/-- A state about to run `get_next_object` with operand bytes 0, 1, 2: `d2 = 3`,
`d3 = 5`, `d4 = 5`, and the list holds 5 at object 2 (the lists of `list2_ptr` and
`list3_ptr` are the same bytes); the object search is idle. -/
def find_state : State :=
  { zero_state with
    ram := fun x => if x = 327681 then 1 else if x = 327682 then 2 else 0
    workspace := fun a =>
      if a = 16 then 3 else if a = 18 then 5 else if a = 20 then 5
      else if a = 530 then 5 else 0 }

/-- A state about to run `get_next_object` with operand bytes 0, 1, 2: `d2 = 1`,
`d3 = 5`, `d4 = 9`, a list of zero bytes, and a work stack that holds the one pair
`0x1f`, 7. -/
def level_state : State :=
  { zero_state with
    ram := fun x => if x = 327681 then 1 else if x = 327682 then 2 else 0
    workspace := fun a => if a = 16 then 1 else if a = 18 then 5 else if a = 20 then 9 else 0
    gno_sp := 126
    gno_stack := fun i => if i = 126 then 0x1f else if i = 127 then 7 else 0 }

/-! ## The word lookup of `input_v2` -/

/-- The value `get_next_object` reads into `d4`. -/
def gno_d4 (st : State) : Nat :=
  let r0 := get_var_val st
  let h := get_var r0.2
  let s := get_var h.2
  var_table s.2.workspace s.1

/-- The state in which `get_next_object` enters the loop `gnonext` for the first time,
when `d3` and `d4` are not both 0: the operands are read, and `init_hi_search_pos` is
set to `d3` when no object has been found. -/
def gno_entry (st : State) : State :=
  let s := (get_var (get_var (get_var_val st).2).2).2
  if s.num_object_found = 0 then { s with init_hi_search_pos := gno_d3 st } else s

/-! ## Basic facts about byte memories -/

theorem rd8_lt (m : Mem) (a : Nat) : rd8 m a < 256 := Nat.mod_lt _ (by decide)

theorem rd8_mod (m : Mem) (a : Nat) : rd8 m a % 256 = rd8 m a := Nat.mod_eq_of_lt (rd8_lt m a)

theorem rd16_lt (m : Mem) (a : Nat) : rd16 m a < 65536 := by
  have h0 := rd8_lt m a
  have h1 := rd8_lt m (a + 1)
  unfold rd16
  omega

theorem rd8_wr8 (m : Mem) (a v i : Nat) :
    rd8 (wr8 m a v) i = if i = a then v % 256 else rd8 m i := by
  unfold rd8 wr8
  split <;> simp

theorem rd8_wr16 (m : Mem) (a v i : Nat) :
    rd8 (wr16 m a v) i =
      if i = a + 1 then v / 256 % 256 else if i = a then v % 256 else rd8 m i := by
  unfold wr16
  rw [rd8_wr8, rd8_wr8]

theorem rd8_wr32 (m : Mem) (a v i : Nat) :
    rd8 (wr32 m a v) i =
      if i = a + 3 then v / 16777216 % 256 else if i = a + 2 then v / 65536 % 256
      else if i = a + 1 then v / 256 % 256 else if i = a then v % 256 else rd8 m i := by
  unfold wr32
  rw [rd8_wr8, rd8_wr8, rd8_wr8, rd8_wr8]

theorem rd16_wr16_same (m : Mem) (a v : Nat) : rd16 (wr16 m a v) a = v % 65536 := by
  unfold rd16
  rw [rd8_wr16, rd8_wr16]
  simp
  omega

theorem rd8_memcpy (dst : Mem) (d : Nat) (src : Mem) (s n a : Nat) :
    rd8 (memcpy dst d src s n) a =
      if d ≤ a ∧ a < d + n then rd8 src (s + (a - d)) else rd8 dst a := by
  unfold rd8 memcpy
  split <;> rfl

theorem rd8_os_load_file_bytes (ws m : Mem) (n a : Nat) (ok : Bool) :
    rd8 (os_load_file ws ⟨ok, bytes_of m n⟩ n) a = if a < n then rd8 m a else rd8 ws a := by
  have hlen : (bytes_of m n).length = n := by simp [bytes_of]
  by_cases h : a < n
  · have hget : (bytes_of m n).getD a 0 = rd8 m a := by
      simp [bytes_of, List.getD_eq_getElem?_getD, h]
    show (os_load_file ws ⟨ok, bytes_of m n⟩ n) a % 256 = _
    simp only [os_load_file, hlen, Nat.min_self, h, if_true, hget]
    exact rd8_mod m a
  · show (os_load_file ws ⟨ok, bytes_of m n⟩ n) a % 256 = _
    simp only [os_load_file, hlen, Nat.min_self, h, if_false]
    rfl

/-! ## Facts about C strings -/

theorem strlen_le (m : Mem) (fuel : Nat) : ∀ p, strlen m p fuel ≤ fuel := by
  induction fuel with
  | zero => intro p; simp [strlen]
  | succ k ih =>
    intro p
    unfold strlen
    split
    · omega
    · have := ih (p + 1)
      omega

theorem strlen_nul (m : Mem) (fuel : Nat) :
    ∀ p, strlen m p fuel < fuel → rd8 m (p + strlen m p fuel) = 0 := by
  induction fuel with
  | zero => intro p h; simp [strlen] at h
  | succ k ih =>
    intro p h
    unfold strlen at h ⊢
    split
    · simpa using ‹rd8 m p = 0›
    · rename_i hne
      rw [if_neg hne] at h
      have := ih (p + 1) (by omega)
      rw [← this]
      congr 1
      omega

theorem strlen_lt_of_nul (m : Mem) (fuel : Nat) :
    ∀ p n, n < fuel → rd8 m (p + n) = 0 → strlen m p fuel < fuel := by
  induction fuel with
  | zero => intro p n h; omega
  | succ k ih =>
    intro p n hn h0
    unfold strlen
    split
    · omega
    · rename_i hne
      cases n with
      | zero => simp at h0; exact absurd h0 hne
      | succ j =>
        have := ih (p + 1) j (by omega) (by rw [← h0]; congr 1; omega)
        omega

theorem stricmp_same (a b : Mem) (fuel : Nat) :
    ∀ pa pb n, n < fuel → (∀ i, i ≤ n → rd8 a (pa + i) = rd8 b (pb + i)) →
      rd8 b (pb + n) = 0 → stricmp a pa b pb fuel = false := by
  induction fuel with
  | zero => intro pa pb n h; omega
  | succ k ih =>
    intro pa pb n hn heq h0
    have e0 : rd8 a pa = rd8 b pb := by simpa using heq 0 (Nat.zero_le _)
    unfold stricmp
    rw [e0]
    simp only [ne_eq, not_true_eq_false, if_false]
    split
    · rfl
    · rename_i hne
      cases n with
      | zero => simp at h0; exact absurd h0 hne
      | succ j =>
        apply ih (pa + 1) (pb + 1) j (by omega)
        · intro i hi
          have := heq (i + 1) (by omega)
          rw [show pa + 1 + i = pa + (i + 1) by omega, show pb + 1 + i = pb + (i + 1) by omega]
          exact this
        · rw [← h0]; congr 1; omega

/-! ## Facts about output -/

/-- The characters of a list go through `print_char` one after the other. -/
theorem print_chars_eq_foldl (st : State) (l : List Nat) :
    print_chars st l = l.foldl print_char st := by
  induction l generalizing st with
  | nil => rfl
  | cons c l ih =>
    rw [List.foldl_cons, ← ih]
    rfl

@[simp] theorem print_string_workspace (st : State) (s : String) :
    (print_string st s).workspace = st.workspace := rfl

@[simp] theorem print_string_ram (st : State) (s : String) :
    (print_string st s).ram = st.ram := rfl

@[simp] theorem print_string_mmu0 (st : State) (s : String) :
    (print_string st s).mmu0 = st.mmu0 := rfl

@[simp] theorem print_string_mmu1 (st : State) (s : String) :
    (print_string st s).mmu1 = st.mmu1 := rfl

@[simp] theorem print_string_mmu2 (st : State) (s : String) :
    (print_string st s).mmu2 = st.mmu2 := rfl

@[simp] theorem print_string_current_page (st : State) (s : String) :
    (print_string st s).current_page = st.current_page := rfl

@[simp] theorem print_string_code_ptr (st : State) (s : String) :
    (print_string st s).code_ptr = st.code_ptr := rfl

@[simp] theorem print_string_game_file (st : State) (s : String) :
    (print_string st s).game_file = st.game_file := rfl

@[simp] theorem print_string_keys (st : State) (s : String) :
    (print_string st s).keys = st.keys := rfl

@[simp] theorem print_string_saved (st : State) (s : String) :
    (print_string st s).saved = st.saved := rfl

@[simp] theorem print_string_running (st : State) (s : String) :
    (print_string st s).running = st.running := rfl

theorem print_char_out (s t : State) (c : Nat) (h : out_state s = out_state t) :
    out_state (print_char s c) = out_state (print_char t c) := by
  show put_char (out_state s) c = put_char (out_state t) c
  rw [h]

theorem print_string_out (s t : State) (str : String) (h : out_state s = out_state t) :
    out_state (print_string s str) = out_state (print_string t str) := by
  show (str.data.map Char.toNat).foldl put_char (out_state s) =
    (str.data.map Char.toNat).foldl put_char (out_state t)
  rw [h]

/-! ## Facts about the checksum loops -/

theorem checksum_add_eq (m : Mem) (n c : Nat) (hc : c < 65536) :
    checksum_add m n c = (c + byte_sum m n) % 65536 := by
  induction n with
  | zero => simp [checksum_add, byte_sum]; omega
  | succ k ih =>
    simp only [checksum_add, byte_sum, ih]
    omega

theorem checksum_sub_lt (m : Mem) (n c : Nat) (hc : c < 65536) :
    checksum_sub m n c < 65536 := by
  cases n with
  | zero => simpa [checksum_sub] using hc
  | succ k => simp only [checksum_sub]; omega

theorem checksum_sub_add (m : Mem) (n c : Nat) (hc : c < 65536) :
    (checksum_sub m n c + byte_sum m n) % 65536 = c := by
  induction n with
  | zero => simp [checksum_sub, byte_sum]; omega
  | succ k ih =>
    have hb := rd8_lt m k
    have hx := checksum_sub_lt m k c hc
    simp only [checksum_sub, byte_sum]
    omega

theorem checksum_sub_eq_zero_iff (m : Mem) (n c : Nat) (hc : c < 65536) :
    checksum_sub m n c = 0 ↔ c = byte_sum m n % 65536 := by
  have h1 := checksum_sub_add m n c hc
  have h2 := checksum_sub_lt m n c hc
  constructor
  · intro h
    rw [h] at h1
    omega
  · intro h
    omega

theorem byte_sum_congr (m m2 : Mem) (n : Nat) (h : ∀ j, j < n → rd8 m j = rd8 m2 j) :
    byte_sum m n = byte_sum m2 n := by
  induction n with
  | zero => rfl
  | succ k ih =>
    simp only [byte_sum]
    rw [ih (fun j hj => h j (by omega)), h k (by omega)]

theorem byte_sum_update (m m2 : Mem) (n i : Nat) (hi : i < n)
    (h : ∀ j, j ≠ i → rd8 m2 j = rd8 m j) :
    byte_sum m2 n + rd8 m i = byte_sum m n + rd8 m2 i := by
  induction n with
  | zero => omega
  | succ k ih =>
    simp only [byte_sum]
    by_cases hk : i = k
    · subst hk
      have := byte_sum_congr m2 m i (fun j hj => h j (by omega))
      omega
    · have := ih (by omega)
      have := h k (fun e => hk e.symm)
      omega

/-! ## Facts about the paged window -/

theorem memcpy_to_window_eq (st : State) (dst : Nat) (src : Mem) (s n : Nat) :
    memcpy_to_window st dst src s n =
      { st with ram := (memcpy_to_window st dst src s n).ram } := rfl

theorem phys_memcpy_to_window (st : State) (dst : Nat) (src : Mem) (s n a : Nat) :
    phys (memcpy_to_window st dst src s n) a = phys st a := rfl

theorem rd8_memcpy_to_window (st : State) (dst : Nat) (src : Mem) (s base : Nat) (n : Nat)
    (h : ∀ j, j < n → phys st (dst + j) = base + j) (x : Nat) :
    rd8 (memcpy_to_window st dst src s n).ram x =
      if base ≤ x ∧ x < base + n then rd8 src (s + (x - base)) else rd8 st.ram x := by
  show rd8 (window_copy st dst src s n) x = _
  induction n with
  | zero => rw [if_neg (by omega)]; rfl
  | succ k ih =>
    have ih2 := ih (fun j hj => h j (by omega))
    simp only [window_copy]
    rw [rd8_wr8, h k (by omega), ih2, rd8_mod]
    by_cases hx : x = base + k
    · subst hx
      simp
    · rw [if_neg hx]
      by_cases hr : base ≤ x ∧ x < base + k
      · rw [if_pos hr, if_pos (by omega)]
      · rw [if_neg hr, if_neg (by omega)]

@[simp] theorem memcpy_to_window_workspace (st : State) (dst : Nat) (src : Mem) (s n : Nat) :
    (memcpy_to_window st dst src s n).workspace = st.workspace := rfl

@[simp] theorem memcpy_to_window_mmu0 (st : State) (dst : Nat) (src : Mem) (s n : Nat) :
    (memcpy_to_window st dst src s n).mmu0 = st.mmu0 := rfl

@[simp] theorem memcpy_to_window_mmu1 (st : State) (dst : Nat) (src : Mem) (s n : Nat) :
    (memcpy_to_window st dst src s n).mmu1 = st.mmu1 := rfl

@[simp] theorem memcpy_to_window_mmu2 (st : State) (dst : Nat) (src : Mem) (s n : Nat) :
    (memcpy_to_window st dst src s n).mmu2 = st.mmu2 := rfl

@[simp] theorem memcpy_to_window_current_page (st : State) (dst : Nat) (src : Mem) (s n : Nat) :
    (memcpy_to_window st dst src s n).current_page = st.current_page := rfl

@[simp] theorem memcpy_to_window_code_ptr (st : State) (dst : Nat) (src : Mem) (s n : Nat) :
    (memcpy_to_window st dst src s n).code_ptr = st.code_ptr := rfl

@[simp] theorem memcpy_to_window_game_file (st : State) (dst : Nat) (src : Mem) (s n : Nat) :
    (memcpy_to_window st dst src s n).game_file = st.game_file := rfl

@[simp] theorem memcpy_to_window_keys (st : State) (dst : Nat) (src : Mem) (s n : Nat) :
    (memcpy_to_window st dst src s n).keys = st.keys := rfl

@[simp] theorem memcpy_to_window_out (st : State) (dst : Nat) (src : Mem) (s n : Nat) :
    out_state (memcpy_to_window st dst src s n) = out_state st := rfl

theorem print_string_output_congr (s t : State) (str : String) (h : out_state s = out_state t) :
    (print_string s str).output = (print_string t str).output :=
  congrArg Prod.fst (print_string_out s t str h)

theorem print_string_output_ws (s t : State) (w : Mem) (str : String)
    (h : out_state s = out_state t) :
    (print_string ({ s with workspace := w }) str).output = (print_string t str).output :=
  print_string_output_congr _ _ _ h

attribute [irreducible] print_string

/-! ## Facts about `save` and `check_file` -/

theorem save_workspace (st : State) (ok : Bool) :
    (save st ok).workspace =
      wr16 (save_header st) OFF_CHECKSUM (checksum_add (save_header st) SIZEOF_GAME_STATE 0) := by
  unfold save
  cases ok <;> simp only [print_string_workspace, if_true, Bool.false_eq_true, if_false] <;> rfl

theorem save_saved (st : State) (ok : Bool) :
    (save st ok).saved = st.saved ++ [bytes_of (save st ok).workspace SIZEOF_GAME_STATE] := by
  unfold save
  cases ok <;> simp only [print_string_workspace, print_string_saved, if_true,
    Bool.false_eq_true, if_false]

theorem rd8_save_header (st : State) (a : Nat) :
    rd8 (save_header st) a =
      if 2832 ≤ a ∧ a < 2832 + (strlen st.game_file 0 16 + 1) then rd8 st.game_file (a - 2832)
      else if a = 15 then 0 else if a = 14 then 0
      else if a = 13 then 0 else if a = 12 then 16
      else if a = 11 then 0 else if a = 10 then 128
      else if a = 9 then 8 else if a = 8 then 0
      else if a = 5 then st.code_ptr / 256 % 256 else if a = 4 then st.code_ptr % 256
      else if a = 3 then 0x4c else if a = 2 then 0x39
      else if a = 1 then 0x30 else if a = 0 then 0x31
      else rd8 st.workspace a := by
  simp only [save_header, strcpy, rd8_memcpy, rd8_wr16, rd8_wr32, OFF_ID, OFF_CODE_PTR,
    OFF_LIST_AREA_SIZE, OFF_STACK_SIZE, OFF_FILENAME_SIZE, OFF_CHECKSUM, OFF_FILENAME, L9_ID,
    LIST_AREA_SIZE, STACK_SIZE, MAX_PATH]
  norm_num

theorem rd8_save (st : State) (ok : Bool) (a : Nat) :
    rd8 (save st ok).workspace a =
      if a = 15 then byte_sum (save_header st) 2848 % 65536 / 256
      else if a = 14 then byte_sum (save_header st) 2848 % 256
      else rd8 (save_header st) a := by
  rw [save_workspace, rd8_wr16, checksum_add_eq _ _ _ (by decide)]
  simp only [OFF_CHECKSUM, SIZEOF_GAME_STATE, Nat.zero_add]
  split
  · omega
  · split <;> omega

theorem check_file_reject_id (st : State) (h : rd32 st.workspace OFF_ID ≠ L9_ID) :
    (check_file st).1 = some false := by
  unfold check_file
  rw [if_pos h]

theorem check_file_reject_sum (st : State)
    (h : rd16 st.workspace OFF_CHECKSUM ≠
      byte_sum (wr16 st.workspace OFF_CHECKSUM 0) SIZEOF_GAME_STATE % 65536) :
    (check_file st).1 = some false := by
  unfold check_file
  split
  · rfl
  · have hne : checksum_sub (wr16 st.workspace OFF_CHECKSUM 0) SIZEOF_GAME_STATE
        (rd16 st.workspace OFF_CHECKSUM) ≠ 0 := by
      rw [Ne, checksum_sub_eq_zero_iff _ _ _ (rd16_lt _ _)]
      exact h
    simp only []
    rw [if_pos hne]

theorem check_file_accept (st : State) (h1 : rd32 st.workspace OFF_ID = L9_ID)
    (h2 : rd16 st.workspace OFF_CHECKSUM =
      byte_sum (wr16 st.workspace OFF_CHECKSUM 0) SIZEOF_GAME_STATE % 65536)
    (h3 : stricmp (wr16 st.workspace OFF_CHECKSUM 0) OFF_FILENAME st.game_file 0 MAX_PATH = false) :
    check_file st = (some true, { st with workspace := wr16 st.workspace OFF_CHECKSUM 0 }) := by
  have hz : checksum_sub (wr16 st.workspace OFF_CHECKSUM 0) SIZEOF_GAME_STATE
      (rd16 st.workspace OFF_CHECKSUM) = 0 :=
    (checksum_sub_eq_zero_iff _ _ _ (rd16_lt _ _)).2 h2
  unfold check_file
  rw [if_neg (by simpa using h1)]
  simp only []
  rw [if_neg (by simpa using hz), h3]
  rfl

theorem rd8_save_header_checksum (st : State) :
    rd8 (save_header st) 14 = 0 ∧ rd8 (save_header st) 15 = 0 := by
  constructor <;> rw [rd8_save_header] <;> simp

theorem rd8_save_id (st : State) (ok : Bool) :
    rd8 (save st ok).workspace 0 = 0x31 ∧ rd8 (save st ok).workspace 1 = 0x30 ∧
    rd8 (save st ok).workspace 2 = 0x39 ∧ rd8 (save st ok).workspace 3 = 0x4c := by
  refine ⟨?_, ?_, ?_, ?_⟩ <;> rw [rd8_save, rd8_save_header] <;> simp

theorem rd16_save_checksum (st : State) (ok : Bool) :
    rd8 (save st ok).workspace 14 + 256 * rd8 (save st ok).workspace 15 =
      byte_sum (save_header st) 2848 % 65536 := by
  rw [rd8_save, rd8_save]
  simp
  omega

/-- Zeroing the checksum field of a record that agrees with a saved snapshot
outside that field gives back the bytes over which `save` computed the sum. -/
theorem zeroed_eq_header (st : State) (ok : Bool) (m : Mem)
    (h : ∀ a, a < 2848 → a ≠ 14 → a ≠ 15 → rd8 m a = rd8 (save st ok).workspace a) :
    ∀ j, j < 2848 → rd8 (wr16 m OFF_CHECKSUM 0) j = rd8 (save_header st) j := by
  intro j hj
  have hz := rd8_save_header_checksum st
  rw [rd8_wr16]
  simp only [OFF_CHECKSUM]
  by_cases h15 : j = 15
  · subst h15; simp [hz.2]
  · by_cases h14 : j = 14
    · subst h14; simp [hz.1]
    · rw [if_neg (by omega), if_neg h14, h j hj h14 h15, rd8_save, if_neg h15, if_neg h14]

theorem rd8_save_filename (st : State) (i : Nat) (hi : i ≤ strlen st.game_file 0 16) :
    rd8 (save_header st) (2832 + i) = rd8 st.game_file i := by
  rw [rd8_save_header, if_pos (by omega), Nat.add_sub_cancel_left]

theorem check_file_saved (st t : State) (ok : Bool)
    (hname : ∃ n, n < MAX_PATH ∧ rd8 st.game_file n = 0)
    (hgf : t.game_file = st.game_file)
    (hws : ∀ a, a < 2848 → rd8 t.workspace a = rd8 (save st ok).workspace a) :
    check_file t = (some true, { t with workspace := wr16 t.workspace OFF_CHECKSUM 0 }) := by
  have hid := rd8_save_id st ok
  have hz := zeroed_eq_header st ok t.workspace (fun a ha _ _ => hws a ha)
  apply check_file_accept
  · unfold rd32
    simp only [OFF_ID, Nat.zero_add, L9_ID]
    rw [hws 0 (by omega), hws 1 (by omega), hws 2 (by omega), hws 3 (by omega),
      hid.1, hid.2.1, hid.2.2.1, hid.2.2.2]
  · rw [byte_sum_congr _ _ _ hz]
    unfold rd16
    simp only [OFF_CHECKSUM, SIZEOF_GAME_STATE]
    rw [hws 14 (by omega), hws 15 (by omega)]
    exact rd16_save_checksum st ok
  · obtain ⟨n, hn, h0⟩ := hname
    have hlt : strlen st.game_file 0 16 < 16 :=
      strlen_lt_of_nul st.game_file 16 0 n hn (by simpa using h0)
    have hnul := strlen_nul st.game_file 16 0 hlt
    rw [hgf]
    apply stricmp_same _ _ _ _ _ (strlen st.game_file 0 16) hlt
    · intro i hi
      simp only [OFF_FILENAME]
      rw [hz (2832 + i) (by omega), rd8_save_filename st i hi, Nat.zero_add]
    · exact hnul

/-! ## Facts about the backup page -/

theorem backup_workspace_eq (st : State) :
    backup_workspace st = { st with ram := (backup_workspace st).ram, mmu2 := 10 } := by
  unfold backup_workspace ZXN_WRITE_MMU2
  simp only []
  rw [memcpy_to_window_eq]

theorem rd8_backup_workspace (st : State) (x : Nat) :
    rd8 (backup_workspace st).ram x =
      if 16384 ≤ x ∧ x < 16384 + 2848 then rd8 st.workspace (x - 16384) else rd8 st.ram x := by
  unfold backup_workspace ZXN_WRITE_MMU2
  simp only []
  rw [rd8_memcpy_to_window _ _ _ _ 16384 _ _ x]
  · simp
  · intro j hj
    simp only [phys, MMU2_ADDRESS, PAGE_SIZE, WORKSPACE_BACKUP_PAGE, SIZEOF_GAME_STATE] at hj ⊢
    rw [if_neg (by omega), if_neg (by omega)]
    omega

theorem load_workspace_eq (st : State) (r : LoadResult) :
    load_workspace st r =
      { st with ram := (backup_workspace st).ram, mmu2 := 10,
                workspace := os_load_file st.workspace r SIZEOF_GAME_STATE } := by
  unfold load_workspace
  simp only []
  rw [backup_workspace_eq]

/-- The bytes of a workspace into which a complete saved snapshot has been loaded. -/
theorem rd8_load_saved (st t : State) (ok b : Bool) (a : Nat) (ha : a < 2848) :
    rd8 (load_workspace t ⟨b, bytes_of (save st ok).workspace SIZEOF_GAME_STATE⟩).workspace a =
      rd8 (save st ok).workspace a := by
  rw [load_workspace_eq]
  simp only [SIZEOF_GAME_STATE]
  rw [rd8_os_load_file_bytes, if_pos ha]

/-- Where `save` leaves the workspace as it found it. -/
theorem rd8_save_frame (st : State) (ok : Bool) (a : Nat)
    (ha : a = 6 ∨ a = 7 ∨ (16 ≤ a ∧ a < 2832)) :
    rd8 (save st ok).workspace a = rd8 st.workspace a := by
  rw [rd8_save, rd8_save_header, if_neg (by omega), if_neg (by omega), if_neg (by omega)]
  repeat' rw [if_neg (by omega)]

theorem rd16_save_code_ptr (st : State) (ok : Bool) (hcp : st.code_ptr < 65536) :
    rd16 (save st ok).workspace OFF_CODE_PTR = st.code_ptr := by
  unfold rd16
  rw [rd8_save, rd8_save, rd8_save_header, rd8_save_header]
  simp
  omega

theorem rd16_congr (m m2 : Mem) (a : Nat) (h0 : rd8 m a = rd8 m2 a)
    (h1 : rd8 m (a + 1) = rd8 m2 (a + 1)) : rd16 m a = rd16 m2 a := by
  unfold rd16
  rw [h0, h1]

theorem restore_accept (st t : State) (r : LoadResult) (hok : r.ok = true)
    (h : check_file (load_workspace st r) = (some true, t)) :
    ∃ st3, restore st r = some st3 ∧ st3.workspace = t.workspace ∧
      st3.code_ptr = rd16 t.workspace OFF_CODE_PTR ∧ st3.keys = t.keys ∧
      st3.output = (print_string t "\rGame restored.\r").output := by
  refine ⟨{ print_string t "\rGame restored.\r" with
      code_ptr := rd16 (print_string t "\rGame restored.\r").workspace OFF_CODE_PTR }, ?_, ?_, ?_, ?_, ?_⟩
  · unfold restore
    simp only [hok, if_true]
    rw [h]
  · simp only [print_string_workspace]
  · simp only [print_string_workspace]
  · simp only [print_string_keys]
  · simp only []

/-! ## C1: snapshot round trip -/

/-- Claim C1. Let `B` be the 2848 bytes `save` hands to `os_save_file` (for any
workspace, any 16-bit code pointer and any NUL-terminated game file name). If the
full `restore` later loads `B`, in any state whose `game_file` is still the one
recorded at save time, then `restore` returns, reads no key and prints nothing but
"Game restored." (no prompt), and afterwards `code_ptr`, `stack_ptr`, every entry of
`var_table`, every byte of `list_area` and every entry of `stack` have the values
they had at the moment of the save. -/
theorem C1_snapshot_round_trip (st st2 : State) (host_ok : Bool)
    (hcp : st.code_ptr < 65536)
    (hname : ∃ n, n < MAX_PATH ∧ rd8 st.game_file n = 0)
    (hfile : st2.game_file = st.game_file) :
    (save st host_ok).saved =
        st.saved ++ [bytes_of (save st host_ok).workspace SIZEOF_GAME_STATE] ∧
    ∃ st3, restore st2 ⟨true, bytes_of (save st host_ok).workspace SIZEOF_GAME_STATE⟩ = some st3 ∧
      st3.keys = st2.keys ∧
      st3.output = (print_string st2 "\rGame restored.\r").output ∧
      st3.code_ptr = st.code_ptr ∧
      stack_ptr st3.workspace = stack_ptr st.workspace ∧
      (∀ i, i < VAR_TABLE_SIZE → var_table st3.workspace i = var_table st.workspace i) ∧
      (∀ i, i < LIST_AREA_SIZE → list_area st3.workspace i = list_area st.workspace i) ∧
      (∀ i, i < STACK_SIZE → stack st3.workspace i = stack st.workspace i) := by
  refine ⟨save_saved st host_ok, ?_⟩
  have hload := rd8_load_saved st st2 host_ok true
  have hgf : (load_workspace st2
      ⟨true, bytes_of (save st host_ok).workspace SIZEOF_GAME_STATE⟩).game_file = st.game_file := by
    rw [load_workspace_eq]; exact hfile
  have hkeys : (load_workspace st2
      ⟨true, bytes_of (save st host_ok).workspace SIZEOF_GAME_STATE⟩).keys = st2.keys := by
    rw [load_workspace_eq]
  have hout : out_state (load_workspace st2
      ⟨true, bytes_of (save st host_ok).workspace SIZEOF_GAME_STATE⟩) = out_state st2 := by
    rw [load_workspace_eq]; rfl
  obtain ⟨st3, hres, hw3, hc3, hk3, ho3⟩ :=
    restore_accept st2 _ ⟨true, bytes_of (save st host_ok).workspace SIZEOF_GAME_STATE⟩
      rfl (check_file_saved st _ host_ok hname hgf hload)
  generalize load_workspace st2
    ⟨true, bytes_of (save st host_ok).workspace SIZEOF_GAME_STATE⟩ = L
    at hload hgf hkeys hout hres hw3 hc3 hk3 ho3
  simp only [] at hw3 hc3 hk3
  -- the bytes of the workspace once `check_file` has zeroed the checksum field
  have hfin : ∀ a, a < 2848 → a ≠ 14 → a ≠ 15 →
      rd8 st3.workspace a = rd8 (save st host_ok).workspace a := by
    intro a ha h14 h15
    rw [hw3, rd8_wr16, if_neg (by simpa using h15), if_neg (by simpa using h14), hload a ha]
  have hkeep : ∀ a, (a = 6 ∨ a = 7 ∨ (16 ≤ a ∧ a < 2832)) →
      rd8 st3.workspace a = rd8 st.workspace a := by
    intro a ha
    rw [hfin a (by omega) (by omega) (by omega), rd8_save_frame st host_ok a ha]
  refine ⟨st3, hres, ?_, ?_, ?_, ?_, ?_, ?_, ?_⟩
  · rw [hk3, hkeys]
  · exact ho3.trans (print_string_output_ws L st2 _ _ hout)
  · rw [hc3, ← hw3, rd16_congr _ (save st host_ok).workspace OFF_CODE_PTR
      (hfin 4 (by omega) (by omega) (by omega)) (hfin 5 (by omega) (by omega) (by omega))]
    exact rd16_save_code_ptr st host_ok hcp
  · exact rd16_congr _ _ _ (hkeep 6 (by omega)) (hkeep 7 (by omega))
  · intro i hi
    simp only [VAR_TABLE_SIZE] at hi
    exact rd16_congr _ _ _ (hkeep _ (by simp only [OFF_VAR_TABLE]; omega))
      (hkeep _ (by simp only [OFF_VAR_TABLE]; omega))
  · intro i hi
    simp only [LIST_AREA_SIZE] at hi
    exact hkeep _ (by simp only [OFF_LIST_AREA]; omega)
  · intro i hi
    simp only [STACK_SIZE] at hi
    exact rd16_congr _ _ _ (hkeep _ (by simp only [OFF_STACK]; omega))
      (hkeep _ (by simp only [OFF_STACK]; omega))

theorem C1_snapshot_round_trip_witness :
    zero_state.code_ptr < 65536 ∧ (∃ n, n < MAX_PATH ∧ rd8 zero_state.game_file n = 0) ∧
    ∃ st3, restore zero_state
        ⟨true, bytes_of (save zero_state true).workspace SIZEOF_GAME_STATE⟩ = some st3 ∧
      st3.code_ptr = zero_state.code_ptr :=
  ⟨by decide, ⟨0, by decide, rfl⟩,
    (C1_snapshot_round_trip zero_state zero_state true (by decide) ⟨0, by decide, rfl⟩ rfl).2.elim
      (fun st3 h => ⟨st3, h.1, h.2.2.2.1⟩)⟩

/-! ## C2: checksum integrity -/

/-- The bytes of a workspace into which a saved snapshot with one byte replaced has
been loaded. -/
theorem rd8_os_load_file_set (ws m : Mem) (ok : Bool) (n i v a : Nat) (ha : a < n) :
    rd8 (os_load_file ws ⟨ok, (bytes_of m n).set i v⟩ n) a =
      if a = i then v % 256 else rd8 m a := by
  have hlen : ((bytes_of m n).set i v).length = n := by simp [bytes_of]
  show (os_load_file ws ⟨ok, (bytes_of m n).set i v⟩ n) a % 256 = _
  simp only [os_load_file, hlen, Nat.min_self, ha, if_true]
  by_cases hai : a = i
  · subst hai
    simp [List.getD_eq_getElem?_getD, bytes_of, ha]
  · have hne : i ≠ a := fun e => hai e.symm
    simp [List.getD_eq_getElem?_getD, bytes_of, ha, hai, hne, List.getElem?_set_ne, rd8_mod]

theorem byte_sum_update_lt (m m2 : Mem) (n i : Nat) (hi : i < n)
    (h : ∀ j, j < n → j ≠ i → rd8 m2 j = rd8 m j) :
    byte_sum m2 n + rd8 m i = byte_sum m n + rd8 m2 i := by
  induction n with
  | zero => omega
  | succ k ih =>
    simp only [byte_sum]
    by_cases hk : i = k
    · subst hk
      have := byte_sum_congr m2 m i (fun j hj => h j (by omega) (by omega))
      omega
    · have := ih (by omega) (fun j hj hji => h j (by omega) hji)
      have := h k (by omega) (fun e => hk e.symm)
      omega

theorem getD_bytes_of (m : Mem) (n a : Nat) (h : a < n) :
    (bytes_of m n).getD a 0 = rd8 m a := by
  simp [bytes_of, List.getD_eq_getElem?_getD, h]

/-- Claim C2. Let `B` be the 2848 bytes `save` writes. If one byte of `B`, at any
position `i < 2848`, is replaced by a different byte value `v` and the result is
loaded into the workspace, then `check_file` returns false, whatever keys the host
has ready for a prompt. -/
theorem C2_checksum_integrity (st t : State) (host_ok ok : Bool) (i v : Nat)
    (hi : i < SIZEOF_GAME_STATE) (hv : v < 256)
    (hne : v ≠ (bytes_of (save st host_ok).workspace SIZEOF_GAME_STATE).getD i 0) :
    (check_file (loaded t ok
      ((bytes_of (save st host_ok).workspace SIZEOF_GAME_STATE).set i v))).1 = some false := by
  simp only [SIZEOF_GAME_STATE, loaded] at hi hne ⊢
  have hne2 : v ≠ rd8 (save st host_ok).workspace i := by
    simpa [bytes_of, List.getD_eq_getElem?_getD, hi] using hne
  clear hne
  generalize hm : os_load_file t.workspace
    ⟨ok, (bytes_of (save st host_ok).workspace 2848).set i v⟩ 2848 = m
  have hrd : ∀ a, a < 2848 → rd8 m a = if a = i then v else rd8 (save st host_ok).workspace a := by
    intro a ha
    rw [← hm, rd8_os_load_file_set _ _ _ _ _ _ _ ha, Nat.mod_eq_of_lt hv]
  have hid := rd8_save_id st host_ok
  have hsum := rd16_save_checksum st host_ok
  by_cases h4 : i < 4
  · apply check_file_reject_id
    simp only [rd32, OFF_ID, L9_ID, Nat.zero_add]
    have h0 := hrd 0 (by omega)
    have h1 := hrd 1 (by omega)
    have h2 := hrd 2 (by omega)
    have h3 := hrd 3 (by omega)
    have b0 := rd8_lt m 0
    have b1 := rd8_lt m 1
    have b2 := rd8_lt m 2
    have b3 := rd8_lt m 3
    show rd8 m 0 + 256 * rd8 m 1 + 65536 * rd8 m 2 + 16777216 * rd8 m 3 ≠ _
    rcases (by omega : i = 0 ∨ i = 1 ∨ i = 2 ∨ i = 3) with e | e | e | e <;> subst e <;>
      simp at h0 h1 h2 h3 <;> omega
  · apply check_file_reject_sum
    show rd16 m OFF_CHECKSUM ≠ byte_sum (wr16 m OFF_CHECKSUM 0) SIZEOF_GAME_STATE % 65536
    simp only [rd16, OFF_CHECKSUM, SIZEOF_GAME_STATE]
    show rd8 m 14 + 256 * rd8 m 15 ≠ byte_sum (wr16 m 14 0) 2848 % 65536
    have hz := rd8_save_header_checksum st
    by_cases h14 : i = 14 ∨ i = 15
    · -- the stored checksum is hit, the summed bytes are those of the saved snapshot
      have hcongr : byte_sum (wr16 m 14 0) 2848 = byte_sum (save_header st) 2848 := by
        apply byte_sum_congr
        intro j hj
        rw [rd8_wr16]
        by_cases h15 : j = 15
        · subst h15; simp [hz.2]
        · by_cases h14b : j = 14
          · subst h14b; simp [hz.1]
          · rw [if_neg (by omega), if_neg h14b, hrd j hj, if_neg (by omega), rd8_save,
              if_neg h15, if_neg h14b]
      rw [hcongr]
      have h14r := hrd 14 (by omega)
      have h15r := hrd 15 (by omega)
      have b14 := rd8_lt (save st host_ok).workspace 14
      have b15 := rd8_lt (save st host_ok).workspace 15
      rcases h14 with e | e <;> subst e <;> simp at h14r h15r <;> omega
    · -- the stored checksum is intact, the sum moves by `v - B[i]`
      have h14r := hrd 14 (by omega)
      have h15r := hrd 15 (by omega)
      rw [if_neg (by omega)] at h14r h15r
      rw [h14r, h15r, hsum]
      have hupd := byte_sum_update_lt (save_header st) (wr16 m 14 0) 2848 i hi (by
        intro j hj2 hj
        rw [rd8_wr16]
        by_cases h15 : j = 15
        · subst h15; simp [hz.2]
        · by_cases h14b : j = 14
          · subst h14b; simp [hz.1]
          · rw [if_neg (by omega), if_neg h14b, hrd j hj2, if_neg hj, rd8_save,
              if_neg h15, if_neg h14b])
      have hvi : rd8 (wr16 m 14 0) i = v := by
        rw [rd8_wr16, if_neg (by omega), if_neg (by omega), hrd i hi, if_pos rfl]
      have hsi : rd8 (save_header st) i = rd8 (save st host_ok).workspace i := by
        rw [rd8_save, if_neg (by omega), if_neg (by omega)]
      rw [hvi, hsi] at hupd
      have b := rd8_lt (save st host_ok).workspace i
      omega

theorem C2_checksum_integrity_witness :
    0 < SIZEOF_GAME_STATE ∧ 0 < 256 ∧
    0 ≠ (bytes_of (save zero_state true).workspace SIZEOF_GAME_STATE).getD 0 0 ∧
    (check_file (loaded zero_state true
      ((bytes_of (save zero_state true).workspace SIZEOF_GAME_STATE).set 0 0))).1 = some false := by
  have h : 0 ≠ (bytes_of (save zero_state true).workspace SIZEOF_GAME_STATE).getD 0 0 := by
    rw [getD_bytes_of _ _ _ (by decide), (rd8_save_id zero_state true).1]
    decide
  exact ⟨by decide, by decide, h,
    C2_checksum_integrity zero_state zero_state true true 0 0 (by decide) (by decide) h⟩

/-! ## C3: a failed restore leaves the workspace as it was -/

theorem check_file_frame (s : State) :
    (check_file s).2.ram = s.ram ∧ (check_file s).2.code_ptr = s.code_ptr ∧
    ∀ a, 16 ≤ a → rd8 (check_file s).2.workspace a = rd8 s.workspace a := by
  have hw : ∀ a, 16 ≤ a → rd8 (wr16 s.workspace OFF_CHECKSUM 0) a = rd8 s.workspace a := by
    intro a ha
    rw [rd8_wr16]
    simp only [OFF_CHECKSUM]
    rw [if_neg (by omega), if_neg (by omega)]
  have key : ∀ p : State, p.ram = s.ram → p.code_ptr = s.code_ptr →
      p.workspace = wr16 s.workspace OFF_CHECKSUM 0 → ∀ x : Option (Nat × List Nat),
      (match x with
        | none => ((none : Option Bool), { p with keys := [] })
        | some (c, rest) => (some (decide (c = 0x79 ∨ c = 0x59)), { p with keys := rest })).2.ram
          = s.ram ∧
      (match x with
        | none => ((none : Option Bool), { p with keys := [] })
        | some (c, rest) => (some (decide (c = 0x79 ∨ c = 0x59)), { p with keys := rest })).2.code_ptr
          = s.code_ptr ∧
      ∀ a, 16 ≤ a → rd8 (match x with
        | none => ((none : Option Bool), { p with keys := [] })
        | some (c, rest) => (some (decide (c = 0x79 ∨ c = 0x59)), { p with keys := rest })).2.workspace a
          = rd8 s.workspace a := by
    intro p h1 h2 h3 x
    cases x with
    | none => exact ⟨h1, h2, fun a ha => by rw [← hw a ha, ← h3]⟩
    | some v => exact ⟨h1, h2, fun a ha => by rw [← hw a ha, ← h3]⟩
  unfold check_file
  split
  · exact ⟨rfl, rfl, fun _ _ => rfl⟩
  · simp only []
    split
    · exact ⟨rfl, rfl, hw⟩
    · split
      · exact key _ (by simp only [print_string_ram]) (by simp only [print_string_code_ptr])
          (by simp only [print_string_workspace]) _
      · exact ⟨rfl, rfl, hw⟩

theorem rd8_os_load_file_ge (ws : Mem) (r : LoadResult) (n a : Nat) (ha : n ≤ a) :
    rd8 (os_load_file ws r n) a = rd8 ws a := by
  show (os_load_file ws r n) a % 256 = _
  simp only [os_load_file]
  rw [if_neg (by omega)]
  rfl

/-- Copying the backup page back gives the workspace that was backed up. -/
theorem rd8_restore_backup (st s : State) (hram : s.ram = (backup_workspace st).ram)
    (hws : ∀ a, 2848 ≤ a → rd8 s.workspace a = rd8 st.workspace a) (a : Nat) :
    rd8 (restore_backup s).workspace a = rd8 st.workspace a := by
  unfold restore_backup ZXN_WRITE_MMU2
  simp only []
  show (memcpy_from_window _ _ _ _ _) a % 256 = _
  simp only [memcpy_from_window, SIZEOF_GAME_STATE, Nat.zero_le, true_and, Nat.zero_add]
  by_cases ha : a < 2848
  · rw [if_pos ha]
    simp only [peek, phys, MMU2_ADDRESS, PAGE_SIZE, WORKSPACE_BACKUP_PAGE]
    rw [if_neg (by omega), if_neg (by omega), rd8_mod, hram, rd8_backup_workspace,
      if_pos (by omega)]
    exact congrArg (rd8 st.workspace) (by omega)
  · rw [if_neg ha]
    exact hws a (by omega)

theorem restore_backup_code_ptr (s : State) : (restore_backup s).code_ptr = s.code_ptr := rfl

/-- After a rejected or failed load, followed by any message, the backup comes back. -/
theorem rollback (st : State) (s : State) (msg : String)
    (hram : s.ram = (backup_workspace st).ram) (hcp : s.code_ptr = st.code_ptr)
    (hws : ∀ a, 2848 ≤ a → rd8 s.workspace a = rd8 st.workspace a) :
    (∀ a, rd8 (restore_backup (print_string s msg)).workspace a = rd8 st.workspace a) ∧
    (restore_backup (print_string s msg)).code_ptr = st.code_ptr := by
  constructor
  · intro a
    apply rd8_restore_backup st
    · rw [print_string_ram, hram]
    · intro b hb
      rw [print_string_workspace]
      exact hws b hb
  · rw [restore_backup_code_ptr, print_string_code_ptr, hcp]

theorem load_workspace_frame (st : State) (r : LoadResult) :
    (load_workspace st r).ram = (backup_workspace st).ram ∧
    (load_workspace st r).code_ptr = st.code_ptr ∧
    ∀ a, 2848 ≤ a → rd8 (load_workspace st r).workspace a = rd8 st.workspace a := by
  rw [load_workspace_eq]
  exact ⟨rfl, rfl, fun a ha => rd8_os_load_file_ge _ _ _ _ ha⟩

/-- Claim C3. If the host load fails, or `check_file` rejects the loaded record
(wrong id, wrong checksum, or a file name mismatch answered with N or n), then both
`restore` and `normal_restore` return with every byte of the workspace as it was
before the call, and with `code_ptr` unchanged. -/
theorem C3_restore_atomic (st : State) (r : LoadResult)
    (hfail : r.ok = false ∨ (check_file (load_workspace st r)).1 = some false) :
    (∃ st2, restore st r = some st2 ∧ (∀ a, rd8 st2.workspace a = rd8 st.workspace a) ∧
      st2.code_ptr = st.code_ptr) ∧
    (∃ st2, normal_restore st r = some st2 ∧ (∀ a, rd8 st2.workspace a = rd8 st.workspace a) ∧
      st2.code_ptr = st.code_ptr) := by
  obtain ⟨lr, lc, lw⟩ := load_workspace_frame st r
  obtain ⟨cr, cc, cw⟩ := check_file_frame (load_workspace st r)
  have hbad := rollback st (load_workspace st r) "\rUnable to restore game.\r" lr lc lw
  have hrej := rollback st (check_file (load_workspace st r)).2
    "\rSorry, unrecognised format. Unable to restore.\r" (cr.trans lr) (cc.trans lc)
    (fun a ha => (cw a (by omega)).trans (lw a ha))
  unfold restore normal_restore
  simp only []
  by_cases hok : r.ok = true
  · have hrejd : (check_file (load_workspace st r)).1 = some false := by
      rcases hfail with h | h
      · rw [hok] at h; cases h
      · exact h
    simp only [hok, ↓reduceIte]
    generalize hcf : check_file (load_workspace st r) = c at hrejd hrej ⊢
    obtain ⟨c1, c2⟩ := c
    simp only [] at hrejd
    subst hrejd
    exact ⟨⟨_, rfl, hrej⟩, ⟨_, rfl, hrej⟩⟩
  · simp only [hok, ↓reduceIte]
    exact ⟨⟨_, rfl, hbad⟩, ⟨_, rfl, hbad⟩⟩

theorem C3_restore_atomic_witness :
    ((⟨false, []⟩ : LoadResult).ok = false ∨
      (check_file (load_workspace zero_state ⟨false, []⟩)).1 = some false) ∧
    ∃ st2, restore zero_state ⟨false, []⟩ = some st2 ∧ st2.code_ptr = zero_state.code_ptr :=
  ⟨Or.inl rfl, (C3_restore_atomic zero_state ⟨false, []⟩ (Or.inl rfl)).1.elim
    (fun st2 h => ⟨st2, h.1, h.2.2⟩)⟩

/-! ## C4: what a successful normal restore takes from the snapshot -/

theorem rd8_memcpy_from_window (dst : Mem) (d : Nat) (st : State) (src n a : Nat) :
    rd8 (memcpy_from_window dst d st src n) a =
      if d ≤ a ∧ a < d + n then peek st (src + (a - d)) else rd8 dst a := by
  show (memcpy_from_window dst d st src n) a % 256 = _
  simp only [memcpy_from_window]
  split
  · simp only [peek, rd8_mod]
  · rfl

theorem rd8_merge_loaded (st p : State) (hram : p.ram = (backup_workspace st).ram) (a : Nat) :
    rd8 (merge_loaded p).workspace a =
      if 16 ≤ a ∧ a < 2576 then rd8 p.workspace a
      else if a < 2848 then rd8 st.workspace a else rd8 p.workspace a := by
  unfold merge_loaded ZXN_WRITE_MMU2
  simp only []
  rw [rd8_memcpy_from_window]
  simp only [SIZEOF_GAME_STATE, Nat.zero_le, true_and, Nat.zero_add, Nat.sub_zero,
    memcpy_to_window_workspace]
  by_cases ha : a < 2848
  · rw [if_pos ha]
    simp only [peek, phys, memcpy_to_window_mmu0, memcpy_to_window_mmu1, memcpy_to_window_mmu2,
      MMU2_ADDRESS, PAGE_SIZE, WORKSPACE_BACKUP_PAGE]
    rw [if_neg (by omega), if_neg (by omega)]
    rw [rd8_memcpy_to_window _ _ _ _ (16384 + 16) _ _ _]
    · simp only [SIZEOF_SAVE_STRUCT, OFF_VAR_TABLE]
      by_cases hr : 16 ≤ a ∧ a < 2576
      · rw [if_pos (by omega), if_pos hr]
        exact congrArg (rd8 p.workspace) (by omega)
      · rw [if_neg (by omega), if_neg hr, if_pos ha, hram, rd8_backup_workspace,
          if_pos (by omega)]
        exact congrArg (rd8 st.workspace) (by omega)
    · intro j hj
      simp only [phys, MMU2_ADDRESS, PAGE_SIZE, SIZEOF_SAVE_STRUCT, OFF_VAR_TABLE] at hj ⊢
      rw [if_neg (by omega), if_neg (by omega)]
      omega
  · rw [if_neg ha, if_neg (by omega), if_neg ha]

theorem merge_loaded_code_ptr (p : State) : (merge_loaded p).code_ptr = p.code_ptr := by
  unfold merge_loaded ZXN_WRITE_MMU2
  simp only [memcpy_to_window_code_ptr]

/-- Claim C4. When the host load succeeds and `check_file` accepts the record `S`
now in the workspace, `normal_restore` returns, and afterwards the bytes of
`var_table` and `list_area` (offsets 16 to 2575) are those of `S`, while every other
byte of the workspace (id, `code_ptr` field, `stack_ptr`, size fields, checksum,
stack, file name) and the register `code_ptr` are as before the call. -/
theorem C4_normal_restore_frame (st : State) (r : LoadResult) (hok : r.ok = true)
    (hacc : (check_file (load_workspace st r)).1 = some true) :
    ∃ st2, normal_restore st r = some st2 ∧ st2.code_ptr = st.code_ptr ∧
      (∀ i, i < VAR_TABLE_SIZE →
        var_table st2.workspace i = var_table (load_workspace st r).workspace i) ∧
      (∀ i, i < LIST_AREA_SIZE →
        list_area st2.workspace i = list_area (load_workspace st r).workspace i) ∧
      stack_ptr st2.workspace = stack_ptr st.workspace ∧
      (∀ i, i < STACK_SIZE → stack st2.workspace i = stack st.workspace i) ∧
      (∀ a, a < OFF_VAR_TABLE ∨ OFF_STACK ≤ a → rd8 st2.workspace a = rd8 st.workspace a) := by
  obtain ⟨lr, lc, lw⟩ := load_workspace_frame st r
  obtain ⟨cr, cc, cw⟩ := check_file_frame (load_workspace st r)
  have hm := rd8_merge_loaded st
    (print_string (check_file (load_workspace st r)).2 "\rGame restored.\r")
    (by rw [print_string_ram, cr, lr])
  have hcp := merge_loaded_code_ptr
    (print_string (check_file (load_workspace st r)).2 "\rGame restored.\r")
  rw [print_string_code_ptr, cc, lc] at hcp
  simp only [print_string_workspace] at hm
  have hin : ∀ a, 16 ≤ a → a < 2576 →
      rd8 (merge_loaded (print_string (check_file (load_workspace st r)).2
        "\rGame restored.\r")).workspace a = rd8 (load_workspace st r).workspace a := by
    intro a h1 h2
    rw [hm, if_pos ⟨h1, h2⟩, cw a h1]
  have hout : ∀ a, a < 16 ∨ 2576 ≤ a →
      rd8 (merge_loaded (print_string (check_file (load_workspace st r)).2
        "\rGame restored.\r")).workspace a = rd8 st.workspace a := by
    intro a h
    rw [hm, if_neg (by omega)]
    by_cases h2 : a < 2848
    · rw [if_pos h2]
    · rw [if_neg h2, cw a (by omega), lw a (by omega)]
  have hres : normal_restore st r = some (merge_loaded
      (print_string (check_file (load_workspace st r)).2 "\rGame restored.\r")) := by
    unfold normal_restore
    simp only [hok, ↓reduceIte]
    generalize check_file (load_workspace st r) = c at hacc
    obtain ⟨c1, c2⟩ := c
    simp only [] at hacc
    subst hacc
    rfl
  generalize merge_loaded (print_string (check_file (load_workspace st r)).2
    "\rGame restored.\r") = st2 at hcp hin hout hres
  refine ⟨st2, hres, hcp, ?_, ?_, ?_, ?_, ?_⟩
  · intro i hi
    simp only [VAR_TABLE_SIZE] at hi
    exact rd16_congr _ _ _ (hin _ (by simp only [OFF_VAR_TABLE]; omega)
      (by simp only [OFF_VAR_TABLE]; omega)) (hin _ (by simp only [OFF_VAR_TABLE]; omega)
      (by simp only [OFF_VAR_TABLE]; omega))
  · intro i hi
    simp only [LIST_AREA_SIZE] at hi
    exact hin _ (by simp only [OFF_LIST_AREA]; omega) (by simp only [OFF_LIST_AREA]; omega)
  · exact rd16_congr _ _ _ (hout _ (by simp only [OFF_STACK_PTR]; omega))
      (hout _ (by simp only [OFF_STACK_PTR]; omega))
  · intro i hi
    simp only [STACK_SIZE] at hi
    exact rd16_congr _ _ _ (hout _ (by simp only [OFF_STACK]; omega))
      (hout _ (by simp only [OFF_STACK]; omega))
  · intro a ha
    simp only [OFF_VAR_TABLE, OFF_STACK] at ha
    exact hout a ha

theorem C4_normal_restore_frame_witness :
    (check_file (load_workspace zero_state
      ⟨true, bytes_of (save zero_state true).workspace SIZEOF_GAME_STATE⟩)).1 = some true ∧
    ∃ st2, normal_restore zero_state
        ⟨true, bytes_of (save zero_state true).workspace SIZEOF_GAME_STATE⟩ = some st2 ∧
      st2.code_ptr = zero_state.code_ptr := by
  have hacc : (check_file (load_workspace zero_state
      ⟨true, bytes_of (save zero_state true).workspace SIZEOF_GAME_STATE⟩)).1 = some true := by
    rw [check_file_saved zero_state _ true ⟨0, by decide, rfl⟩ (by rw [load_workspace_eq])
      (rd8_load_saved zero_state zero_state true true)]
  exact ⟨hacc, (C4_normal_restore_frame zero_state _ rfl hacc).elim
    (fun st2 h => ⟨st2, h.1, h.2.1⟩)⟩

/-! ## C5, C6: RAM save slots -/

theorem phys_ram_save (st : State) (i j : Nat) (hj : j < SIZEOF_SAVE_STRUCT) :
    phys (effective_ram_save st i).2 ((effective_ram_save st i).1 + j) = ram_save_addr i j := by
  simp only [SIZEOF_SAVE_STRUCT] at hj
  simp only [phys, effective_ram_save, ram_save_addr, PAGE_SIZE, SIZEOF_SAVE_STRUCT,
    RAM_SAVE_BASE_PAGE]
  split
  · omega
  · rw [if_pos (by omega)]
    omega

theorem rd8_ram_save_ram (st : State) (i : Nat) (x : Nat) :
    rd8 (ram_save st i).ram x =
      if ram_save_addr i 0 ≤ x ∧ x < ram_save_addr i 0 + SIZEOF_SAVE_STRUCT
      then rd8 st.workspace (OFF_VAR_TABLE + (x - ram_save_addr i 0)) else rd8 st.ram x := by
  unfold ram_save page_in_game
  simp only []
  rw [rd8_memcpy_to_window _ _ _ _ (ram_save_addr i 0) _ _ x]
  · rfl
  · intro j hj
    rw [phys_ram_save st i j hj]
    simp only [ram_save_addr]
    omega

theorem rd8_ram_load_workspace (t : State) (i : Nat) (a : Nat) :
    rd8 (ram_load t i).workspace a =
      if OFF_VAR_TABLE ≤ a ∧ a < OFF_VAR_TABLE + SIZEOF_SAVE_STRUCT
      then rd8 t.ram (ram_save_addr i (a - OFF_VAR_TABLE)) else rd8 t.workspace a := by
  unfold ram_load page_in_game
  simp only []
  rw [rd8_memcpy_from_window]
  split
  · rename_i h
    simp only [peek]
    rw [phys_ram_save t i _ (by omega)]
    rfl
  · rfl

/-- Claim C5. For every slot number `s` (so for 0..9): `ram_save(s)` leaves the workspace and
`code_ptr` as they are; if afterwards the workspace is changed in any way while the
RAM stays as the save left it, `ram_load(s)` makes every byte of `var_table` and
`list_area` (offsets 16 to 2575) equal to its value at the time of the save, and
leaves every other byte of the workspace (so `stack_ptr` and the stack) and
`code_ptr` as they are. -/
theorem C5_ram_save_load (st t : State) (s : Nat)
    (hram : t.ram = (ram_save st s).ram) :
    (ram_save st s).workspace = st.workspace ∧ (ram_save st s).code_ptr = st.code_ptr ∧
    (ram_load t s).code_ptr = t.code_ptr ∧
    (∀ i, i < VAR_TABLE_SIZE → var_table (ram_load t s).workspace i = var_table st.workspace i) ∧
    (∀ i, i < LIST_AREA_SIZE → list_area (ram_load t s).workspace i = list_area st.workspace i) ∧
    (∀ a, a < OFF_VAR_TABLE ∨ OFF_STACK ≤ a →
      rd8 (ram_load t s).workspace a = rd8 t.workspace a) ∧
    stack_ptr (ram_load t s).workspace = stack_ptr t.workspace ∧
    (∀ i, i < STACK_SIZE → stack (ram_load t s).workspace i = stack t.workspace i) := by
  have hin : ∀ a, 16 ≤ a → a < 2576 → rd8 (ram_load t s).workspace a = rd8 st.workspace a := by
    intro a h1 h2
    rw [rd8_ram_load_workspace t s, if_pos (by simp only [OFF_VAR_TABLE, SIZEOF_SAVE_STRUCT]; omega),
      hram, rd8_ram_save_ram st s,
      if_pos (by simp only [ram_save_addr, OFF_VAR_TABLE, SIZEOF_SAVE_STRUCT]; omega)]
    exact congrArg (rd8 st.workspace) (by simp only [ram_save_addr, OFF_VAR_TABLE]; omega)
  have hout : ∀ a, a < 16 ∨ 2576 ≤ a → rd8 (ram_load t s).workspace a = rd8 t.workspace a := by
    intro a h
    rw [rd8_ram_load_workspace t s,
      if_neg (by simp only [OFF_VAR_TABLE, SIZEOF_SAVE_STRUCT]; omega)]
  refine ⟨rfl, rfl, rfl, ?_, ?_, ?_, ?_, ?_⟩
  · intro i hi
    simp only [VAR_TABLE_SIZE] at hi
    exact rd16_congr _ _ _ (hin _ (by simp only [OFF_VAR_TABLE]; omega)
      (by simp only [OFF_VAR_TABLE]; omega)) (hin _ (by simp only [OFF_VAR_TABLE]; omega)
      (by simp only [OFF_VAR_TABLE]; omega))
  · intro i hi
    simp only [LIST_AREA_SIZE] at hi
    exact hin _ (by simp only [OFF_LIST_AREA]; omega) (by simp only [OFF_LIST_AREA]; omega)
  · intro a ha
    simp only [OFF_VAR_TABLE, OFF_STACK] at ha
    exact hout a ha
  · exact rd16_congr _ _ _ (hout _ (by simp only [OFF_STACK_PTR]; omega))
      (hout _ (by simp only [OFF_STACK_PTR]; omega))
  · intro i hi
    simp only [STACK_SIZE] at hi
    exact rd16_congr _ _ _ (hout _ (by simp only [OFF_STACK]; omega))
      (hout _ (by simp only [OFF_STACK]; omega))

theorem C5_ram_save_load_witness :
    (ram_save zero_state 1).ram = (ram_save zero_state 1).ram ∧
    (ram_save zero_state 1).workspace = zero_state.workspace ∧
    var_table (ram_load (ram_save zero_state 1) 1).workspace 0 = var_table zero_state.workspace 0 :=
  ⟨rfl, (C5_ram_save_load zero_state (ram_save zero_state 1) 1 rfl).1,
    (C5_ram_save_load zero_state (ram_save zero_state 1) 1 rfl).2.2.2.1 0 (by decide)⟩

/-- Claim C6. For every slot number `s` (so for 0..9), `ram_load(s)` followed by `ram_save(s)` leaves
every byte of the RAM, and so every byte of each of the ten RAM save slots, as it
was before the pair. -/
theorem C6_ram_load_save (st : State) (s : Nat) :
    (∀ x, rd8 (ram_save (ram_load st s) s).ram x = rd8 st.ram x) ∧
    ∀ slot j, slot < RAM_SAVE_SLOTS → j < SIZEOF_SAVE_STRUCT →
      rd8 (ram_save (ram_load st s) s).ram (ram_save_addr slot j) =
        rd8 st.ram (ram_save_addr slot j) := by
  have h : ∀ x, rd8 (ram_save (ram_load st s) s).ram x = rd8 st.ram x := by
    intro x
    rw [rd8_ram_save_ram _ s]
    split
    · rename_i hx
      simp only [ram_save_addr, SIZEOF_SAVE_STRUCT, PAGE_SIZE, RAM_SAVE_BASE_PAGE] at hx
      rw [rd8_ram_load_workspace st s, if_pos (by
        simp only [OFF_VAR_TABLE, SIZEOF_SAVE_STRUCT, ram_save_addr, PAGE_SIZE, RAM_SAVE_BASE_PAGE]
        omega)]
      exact congrArg (rd8 st.ram) (by
        simp only [OFF_VAR_TABLE, SIZEOF_SAVE_STRUCT, ram_save_addr, PAGE_SIZE, RAM_SAVE_BASE_PAGE]
        omega)
    · rfl
  exact ⟨h, fun slot j _ _ => h _⟩

theorem C6_ram_load_save_witness :
    1 < RAM_SAVE_SLOTS ∧ 0 < SIZEOF_SAVE_STRUCT ∧
    rd8 (ram_save (ram_load zero_state 1) 1).ram (ram_save_addr 1 0) =
      rd8 zero_state.ram (ram_save_addr 1 0) :=
  ⟨by decide, by decide, (C6_ram_load_save zero_state 1).2 1 0 (by decide) (by decide)⟩

/-! ## C7, C8: the RAM slot requests of `call_driver` -/

theorem ram_save_workspace (st : State) (i : Nat) : (ram_save st i).workspace = st.workspace := rfl

theorem ram_load_ram (st : State) (i : Nat) : (ram_load st i).ram = st.ram := rfl

/-- The theorem of claim C7: the outcomes of sub-functions 0x16 and 0x17 for a slot
byte `d1 = list9[1]` of at most 0xFA. If `d1 + 1 > 9`, `call_driver` stores 0xFF in
`list9[1]` and `list9[0]` and changes nothing else (no slot, no variable). Otherwise
it sets `list9[1]` to 0 and then, for 0x16, performs `ram_save` on slot `d1 + 1` and
leaves status 0 in `list9[0]`; for 0x17, performs `ram_load` on slot `d1 + 1` and
copies the resulting `list9[1]` to `list9[0]`: that is the byte the slot holds for
`list9[1]` when `list9[1]` lies in the list area. -/
theorem C7_driver_slot_status (env : DriverEnv) (st : State)
    (hd0 : rd8 st.workspace (list9 st) = 0x16 ∨ rd8 st.workspace (list9 st) = 0x17)
    (hd1 : rd8 st.workspace (list9 st + 1) ≤ 0xfa) :
    (rd8 st.workspace (list9 st + 1) + 1 > 9 →
      call_driver env st =
        { st with workspace := wr8 (wr8 st.workspace (list9 st + 1) 0xff) (list9 st) 0xff }) ∧
    (rd8 st.workspace (list9 st + 1) + 1 ≤ 9 → rd8 st.workspace (list9 st) = 0x16 →
      call_driver env st =
        { ram_save (slot_cleared st) (rd8 st.workspace (list9 st + 1) + 1) with
          workspace := wr8 (slot_cleared st).workspace (list9 st) 0 }) ∧
    (rd8 st.workspace (list9 st + 1) + 1 ≤ 9 → rd8 st.workspace (list9 st) = 0x17 →
      call_driver env st =
        { ram_load (slot_cleared st) (rd8 st.workspace (list9 st + 1) + 1) with
          workspace :=
            wr8 (ram_load (slot_cleared st) (rd8 st.workspace (list9 st + 1) + 1)).workspace
              (list9 st)
              (rd8 (ram_load (slot_cleared st) (rd8 st.workspace (list9 st + 1) + 1)).workspace
                (list9 st + 1)) } ∧
      (st.list9_start_ptr + 1 < LIST_AREA_SIZE →
        rd8 (call_driver env st).workspace (list9 st) =
          rd8 st.ram (ram_save_addr (rd8 st.workspace (list9 st + 1) + 1)
            (list9 st + 1 - OFF_VAR_TABLE)))) := by
  simp only [list9, slot_cleared] at hd0 hd1 ⊢
  have hlt : ¬ rd8 st.workspace (OFF_LIST_AREA + st.list9_start_ptr + 1) > 0xfa := by omega
  refine ⟨?_, ?_, ?_⟩
  · intro h
    unfold call_driver
    simp only []
    rw [if_pos hd0, if_neg hlt, if_pos (by simp only [RAM_SAVE_SLOTS]; omega)]
    simp only [rd8_wr8, if_true]
  · intro h h16
    unfold call_driver
    simp only []
    rw [if_pos hd0, if_neg hlt, if_neg (by simp only [RAM_SAVE_SLOTS]; omega), if_pos h16]
    simp only [ram_save_workspace, rd8_wr8, if_true]
  · intro h h17
    have hne : ¬ rd8 st.workspace (OFF_LIST_AREA + st.list9_start_ptr) = 0x16 := by omega
    have hcall : call_driver env st =
        { ram_load { st with workspace := wr8 st.workspace (OFF_LIST_AREA + st.list9_start_ptr + 1) 0 }
            (rd8 st.workspace (OFF_LIST_AREA + st.list9_start_ptr + 1) + 1) with
          workspace :=
            wr8 (ram_load
                { st with workspace := wr8 st.workspace (OFF_LIST_AREA + st.list9_start_ptr + 1) 0 }
                (rd8 st.workspace (OFF_LIST_AREA + st.list9_start_ptr + 1) + 1)).workspace
              (OFF_LIST_AREA + st.list9_start_ptr)
              (rd8 (ram_load
                { st with workspace := wr8 st.workspace (OFF_LIST_AREA + st.list9_start_ptr + 1) 0 }
                (rd8 st.workspace (OFF_LIST_AREA + st.list9_start_ptr + 1) + 1)).workspace
                (OFF_LIST_AREA + st.list9_start_ptr + 1)) } := by
      unfold call_driver
      simp only []
      rw [if_pos hd0, if_neg hlt, if_neg (by simp only [RAM_SAVE_SLOTS]; omega), if_neg hne]
    refine ⟨hcall, ?_⟩
    intro hin
    rw [hcall]
    simp only [LIST_AREA_SIZE] at hin
    simp only [rd8_wr8, if_true, rd8_mod]
    rw [rd8_ram_load_workspace, if_pos (by
      simp only [OFF_LIST_AREA, OFF_VAR_TABLE, SIZEOF_SAVE_STRUCT]; omega)]

theorem C7_driver_slot_status_witness :
    (rd8 stale_slot_state.workspace (list9 stale_slot_state) = 0x16 ∨
      rd8 stale_slot_state.workspace (list9 stale_slot_state) = 0x17) ∧
    rd8 stale_slot_state.workspace (list9 stale_slot_state + 1) ≤ 0xfa ∧
    rd8 (call_driver ⟨0, id⟩ stale_slot_state).workspace (list9 stale_slot_state) =
      rd8 stale_slot_state.ram
        (ram_save_addr (rd8 stale_slot_state.workspace (list9 stale_slot_state + 1) + 1)
          (list9 stale_slot_state + 1 - OFF_VAR_TABLE)) :=
  ⟨Or.inr (by decide), by decide,
    ((C7_driver_slot_status ⟨0, id⟩ stale_slot_state (Or.inr (by decide)) (by decide)).2.2
      (by decide) (by decide)).2 (by decide)⟩

/-- Counterexample to claim C7 as stated: sub-function 0x17 with slot byte 0 (slot 1
is in range), where the RAM of slot 1 holds 5 at the place of `list9[1]`: the status
left in `list9[0]` is 5, not 0. -/
theorem C7_counterexample :
    rd8 stale_slot_state.workspace (list9 stale_slot_state) = 0x17 ∧
    rd8 stale_slot_state.workspace (list9 stale_slot_state + 1) = 0 ∧
    rd8 (call_driver ⟨0, id⟩ stale_slot_state).workspace (list9 stale_slot_state) = 5 := by
  refine ⟨by decide, by decide, by decide⟩

/-- The theorem of claim C8: for sub-functions 0x16 and 0x17 with a slot byte above
0xFA, `call_driver` stores 1 in `list9[1]` and in `list9[0]` and changes nothing
else: no RAM save and no RAM load takes place. -/
theorem C8_driver_slot_above_fa (env : DriverEnv) (st : State)
    (hd0 : rd8 st.workspace (list9 st) = 0x16 ∨ rd8 st.workspace (list9 st) = 0x17)
    (hd1 : rd8 st.workspace (list9 st + 1) > 0xfa) :
    call_driver env st =
      { st with workspace := wr8 (wr8 st.workspace (list9 st + 1) 1) (list9 st) 1 } := by
  simp only [list9] at hd0 hd1 ⊢
  unfold call_driver
  simp only []
  rw [if_pos hd0, if_pos hd1]
  simp only [rd8_wr8, if_true]

theorem C8_driver_slot_above_fa_witness :
    (rd8 slot_fb_state.workspace (list9 slot_fb_state) = 0x16 ∨
      rd8 slot_fb_state.workspace (list9 slot_fb_state) = 0x17) ∧
    rd8 slot_fb_state.workspace (list9 slot_fb_state + 1) > 0xfa ∧
    call_driver ⟨0, id⟩ slot_fb_state =
      { slot_fb_state with
        workspace := wr8 (wr8 slot_fb_state.workspace (list9 slot_fb_state + 1) 1)
          (list9 slot_fb_state) 1 } :=
  ⟨Or.inl (by decide), by decide,
    C8_driver_slot_above_fa ⟨0, id⟩ slot_fb_state (Or.inl (by decide)) (by decide)⟩

/-- Counterexample to claim C8 as stated: sub-function 0x16 with slot byte 0xFB and
7 in the first byte of `var_table`. A RAM save on slot 1 would store 7 in the first
byte of slot 1; after `call_driver` that byte is still 0. -/
theorem C8_counterexample :
    rd8 slot_fb_state.workspace (list9 slot_fb_state) = 0x16 ∧
    rd8 slot_fb_state.workspace (list9 slot_fb_state + 1) = 0xfb ∧
    rd8 (ram_save slot_fb_state 1).ram (ram_save_addr 1 0) = 7 ∧
    rd8 (call_driver ⟨0, id⟩ slot_fb_state).ram (ram_save_addr 1 0) = 0 := by
  refine ⟨by decide, by decide, ?_, by decide⟩
  rw [rd8_ram_save_ram, if_pos (by decide)]
  decide

/-! ## C9: paging transparency -/

theorem peek_effective (st : State) (q : Nat) (hq : q < 65536) :
    peek (effective st q).2 (effective st q).1 = story_byte st q := by
  simp only [peek, effective, phys, story_byte, PAGE_SIZE, MEMORY_BASE_PAGE]
  rw [Nat.mod_eq_of_lt hq, if_pos (by omega)]
  exact congrArg (rd8 st.ram) (by omega)

theorem peek_effective_succ (st : State) (q : Nat) (hq : q < 65536) :
    peek (effective st q).2 ((effective st q).1 + 1) = story_byte st (q + 1) := by
  simp only [peek, effective, phys, story_byte, PAGE_SIZE, MEMORY_BASE_PAGE]
  rw [Nat.mod_eq_of_lt hq]
  split
  · exact congrArg (rd8 st.ram) (by omega)
  · rw [if_pos (by omega)]
    exact congrArg (rd8 st.ram) (by omega)

/-- Claim C9. For every state (whatever pages are paged in) and every virtual address
`p` with `p + 1` a 16-bit address too, the byte read through `effective(q)` is the
story byte `q` for `q = p` and `q = p + 1`, and the word `L9WORD(effective(p))` is
`byte(p) + 256 * byte(p + 1)`, for even and odd `p` alike. -/
theorem C9_paging_transparency (st : State) (p : Nat) (hp : p + 1 < 65536) :
    peek (effective st p).2 (effective st p).1 = story_byte st p ∧
    peek (effective st (p + 1)).2 (effective st (p + 1)).1 = story_byte st (p + 1) ∧
    L9WORD (effective st p).2 (effective st p).1 =
      story_byte st p + 256 * story_byte st (p + 1) := by
  refine ⟨peek_effective st p (by omega), peek_effective st (p + 1) hp, ?_⟩
  unfold L9WORD
  rw [peek_effective st p (by omega), peek_effective_succ st p (by omega)]

theorem C9_paging_transparency_witness :
    8191 + 1 < 65536 ∧
    L9WORD (effective zero_state 8191).2 (effective zero_state 8191).1 =
      story_byte zero_state 8191 + 256 * story_byte zero_state (8191 + 1) :=
  ⟨by decide, (C9_paging_transparency zero_state 8191 (by decide)).2.2⟩

/-! ## C10, C11: bounds of the list handler -/

theorem list_handler_read (st : State) (h1 : 0xa0 ≤ st.code) (h2 : st.code < 0xe0) :
    list_handler st =
      if list_index st < list_limit st then
        { (list_read (operands_fetched st) (list_in_ws st) (list_index st)).2 with
          workspace := set_var
            (list_read (operands_fetched st) (list_in_ws st) (list_index st)).2.workspace
            (list_var st) (list_read (operands_fetched st) (list_in_ws st) (list_index st)).1 }
      else
        { operands_fetched st with
          workspace := set_var (operands_fetched st).workspace (list_var st) 0 } := by
  unfold list_handler
  simp only []
  by_cases h3 : 0xc0 ≤ st.code
  · have ho : list_offset st = (fetch st).1 := if_neg (by omega)
    rw [if_neg (by omega), if_pos h3]
    unfold list_index
    rw [ho]
    rfl
  · have ho : list_offset st = (get_var_val st).1 := if_pos (by omega)
    rw [if_neg (by omega), if_neg h3, if_pos h1]
    unfold list_index
    rw [ho]
    rfl

theorem list_handler_write (st : State) (h : st.code < 0xa0 ∨ 0xe0 ≤ st.code) :
    list_handler st =
      if list_index st < list_limit st then
        list_write (operands_fetched st) (list_in_ws st) (list_index st)
          (var_table st.workspace (list_var st))
      else operands_fetched st := by
  unfold list_handler
  simp only []
  by_cases h1 : 0xe0 ≤ st.code
  · have ho : list_offset st = (get_var_val st).1 := if_pos (by omega)
    rw [if_pos h1]
    unfold list_index
    rw [ho]
    rfl
  · have ho : list_offset st = (fetch st).1 := if_neg (by omega)
    rw [if_neg h1, if_neg (by omega), if_neg (by omega)]
    unfold list_index
    rw [ho]
    rfl

theorem phys_effective (st : State) (q : Nat) (hq : q < 65536) :
    phys (effective st q).2 (effective st q).1 = PAGE_SIZE * MEMORY_BASE_PAGE + q := by
  simp only [effective, phys, PAGE_SIZE, MEMORY_BASE_PAGE]
  rw [Nat.mod_eq_of_lt hq, if_pos (by omega)]
  omega

theorem list_index_lt (st : State) : list_index st < 65536 := Nat.mod_lt _ (by decide)

/-- The theorem of claim C10: a list read opcode (modes 0xA0..0xDF) whose offset is
at least the limit (2048 for a workspace list, `memory_size` for a story list), and
whose base plus offset does not exceed 0xFFFF, stores 0 in the destination variable
and does nothing else after fetching its two operand bytes: neither the list area
nor the story memory is accessed. -/
theorem C10_list_read_bounds (st : State) (h1 : 0xa0 ≤ st.code) (h2 : st.code < 0xe0)
    (hoff : list_limit st ≤ list_offset st) (hwrap : list_base st + list_offset st ≤ 0xffff) :
    list_handler st =
      { operands_fetched st with workspace := set_var st.workspace (list_var st) 0 } := by
  have hidx : ¬ list_index st < list_limit st := by
    unfold list_index
    rw [Nat.mod_eq_of_lt (by omega)]
    omega
  rw [list_handler_read st h1 h2, if_neg hidx]
  rfl

theorem C10_list_read_bounds_witness :
    0xa0 ≤ ({ zero_state with code := 0xa0 } : State).code ∧
    ({ zero_state with code := 0xa0 } : State).code < 0xe0 ∧
    list_limit { zero_state with code := 0xa0 } ≤ list_offset { zero_state with code := 0xa0 } ∧
    list_base { zero_state with code := 0xa0 } + list_offset { zero_state with code := 0xa0 }
      ≤ 0xffff ∧
    list_handler { zero_state with code := 0xa0 } =
      { operands_fetched { zero_state with code := 0xa0 } with
        workspace := set_var ({ zero_state with code := 0xa0 } : State).workspace
          (list_var { zero_state with code := 0xa0 }) 0 } :=
  ⟨by decide, by decide, by decide, by decide,
    C10_list_read_bounds { zero_state with code := 0xa0 } (by decide) (by decide) (by decide)
      (by decide)⟩

/-- Counterexample to claim C10 as stated: the read opcode 0xA0 on a workspace list
with base 1 and offset 0xFFFF (at least 2048). The index wraps to 0, and the
destination variable receives `list_area[0] = 9`, not 0. -/
theorem C10_counterexample :
    0xa0 ≤ wrap_read_state.code ∧ wrap_read_state.code < 0xe0 ∧
    list_in_ws wrap_read_state = true ∧ LIST_AREA_SIZE ≤ list_offset wrap_read_state ∧
    var_table (list_handler wrap_read_state).workspace (list_var wrap_read_state) = 9 := by
  decide

/-- Claim C11. With the effective index `e = (base + offset) mod 2^16` and the limit
`L` (2048 for a workspace list, `memory_size` for a story list): a list write opcode
(modes 0x80..0x9F and 0xE0..0xFF) with `e >= L` leaves the whole workspace (so
`list_area` and `var_table`) and the whole RAM (so the story memory) unchanged; with
`e < L` it stores the low byte of the source variable at index `e` of the list (in
`list_area`, or in the story memory) and changes no other byte. A list read opcode
(modes 0xA0..0xDF) never changes the RAM; with `e >= L` it sets the destination
variable to 0, with `e < L` to the byte at index `e` of the list. -/
theorem C11_list_access (st : State) :
    ((st.code < 0xa0 ∨ 0xe0 ≤ st.code) →
      (list_limit st ≤ list_index st →
        (list_handler st).workspace = st.workspace ∧ (list_handler st).ram = st.ram) ∧
      (list_index st < list_limit st → list_in_ws st = true →
        (list_handler st).workspace =
          wr8 st.workspace (OFF_LIST_AREA + list_index st) (var_table st.workspace (list_var st)) ∧
        (list_handler st).ram = st.ram) ∧
      (list_index st < list_limit st → list_in_ws st = false →
        (list_handler st).workspace = st.workspace ∧
        (list_handler st).ram =
          wr8 st.ram (PAGE_SIZE * MEMORY_BASE_PAGE + list_index st)
            (var_table st.workspace (list_var st)))) ∧
    ((0xa0 ≤ st.code ∧ st.code < 0xe0) →
      (list_handler st).ram = st.ram ∧
      (list_limit st ≤ list_index st →
        (list_handler st).workspace = set_var st.workspace (list_var st) 0) ∧
      (list_index st < list_limit st → list_in_ws st = true →
        (list_handler st).workspace =
          set_var st.workspace (list_var st) (list_area st.workspace (list_index st))) ∧
      (list_index st < list_limit st → list_in_ws st = false →
        (list_handler st).workspace =
          set_var st.workspace (list_var st) (story_byte st (list_index st)))) := by
  have hlt := list_index_lt st
  constructor
  · intro hw
    rw [list_handler_write st hw]
    refine ⟨?_, ?_, ?_⟩
    · intro h
      rw [if_neg (by omega)]
      exact ⟨rfl, rfl⟩
    · intro h hin
      rw [if_pos h, hin]
      exact ⟨rfl, rfl⟩
    · intro h hin
      rw [if_pos h, hin]
      refine ⟨rfl, ?_⟩
      show wr8 st.ram (phys (effective (operands_fetched st) (list_index st)).2
        (effective (operands_fetched st) (list_index st)).1) _ = _
      rw [phys_effective _ _ hlt]
  · intro hr
    rw [list_handler_read st hr.1 hr.2]
    refine ⟨?_, ?_, ?_, ?_⟩
    · split
      · unfold list_read
        split <;> rfl
      · rfl
    · intro h
      rw [if_neg (by omega)]
      rfl
    · intro h hin
      rw [if_pos h, hin]
      rfl
    · intro h hin
      rw [if_pos h, hin]
      show set_var st.workspace (list_var st)
        (peek (effective (operands_fetched st) (list_index st)).2
          (effective (operands_fetched st) (list_index st)).1) = _
      rw [peek_effective _ _ hlt]
      rfl

theorem C11_list_access_witness :
    (0xa0 ≤ wrap_read_state.code ∧ wrap_read_state.code < 0xe0) ∧
    list_index wrap_read_state < list_limit wrap_read_state ∧
    list_in_ws wrap_read_state = true ∧
    (list_handler wrap_read_state).workspace =
      set_var wrap_read_state.workspace (list_var wrap_read_state)
        (list_area wrap_read_state.workspace (list_index wrap_read_state)) :=
  ⟨by decide, by decide, by decide,
    ((C11_list_access wrap_read_state).2 (by decide)).2.2.1 (by decide) (by decide)⟩

/-! ## C12: the jump opcode -/

theorem L9WORD_effective (st : State) (p : Nat) (hp : p < 65536) :
    L9WORD (effective st p).2 (effective st p).1 = word_le st p := by
  unfold L9WORD word_le
  rw [peek_effective st p hp, peek_effective_succ st p hp]

theorem fetch_fst (st : State) (h : st.code_ptr < 65536) :
    (fetch st).1 = story_byte st st.code_ptr :=
  peek_effective st st.code_ptr h

/-- The theorem of claim C12: `jump` sets `code_ptr` to
`(acode_ptr + word_le(T + 2 * i)) mod 2^16`, where `T = acode_ptr + d0`, `d0` is the
16-bit little-endian constant at `code_ptr` (two bytes, whatever bit 6 of the opcode
is), `i` is the value of the variable named by the operand byte after the constant,
and `d0 + 2 * i` and `T + ...` are taken mod 2^16. -/
theorem C12_jump (st : State) (hcp : st.code_ptr + 2 < 65536) :
    (jump st).code_ptr =
      (st.acode_ptr + word_le st ((st.acode_ptr +
        (word_le st st.code_ptr +
          2 * var_table st.workspace (story_byte st (st.code_ptr + 2))) % 65536) % 65536))
        % 65536 := by
  unfold jump
  simp only []
  rw [L9WORD_effective _ _ (Nat.mod_lt _ (by decide))]
  simp only [get_var_val]
  rw [fetch_fst _ (Nat.mod_lt _ (by decide))]
  rw [L9WORD_effective st _ (by omega)]
  simp only [Nat.mod_eq_of_lt hcp]
  have e : ∀ a b : Nat, (a + b * 2 % 65536) % 65536 = (a + 2 * b) % 65536 := by
    intro a b
    omega
  rw [e]
  rfl

theorem C12_jump_witness :
    jump_state.code_ptr + 2 < 65536 ∧ (jump jump_state).code_ptr = 0x3020 :=
  ⟨by decide, (C12_jump jump_state (by decide)).trans (by decide)⟩

/-- Counterexample to claim C12 as stated: with the constant 0x0010 at address 1 and
index 0, `jump` reads its target from the table at `acode_ptr + 0x10 = 0x10` and
sets `code_ptr` to 0x3020; the claim takes the table at `code_ptr + 0x10 = 0x11`
and gives 0x0030. -/
theorem C12_counterexample :
    (jump jump_state).code_ptr = 0x3020 ∧ jump_as_claimed jump_state = 0x30 := by
  decide

/-! ## C13: the random function -/

theorem var_table_set_var (ws : Mem) (i v j : Nat) :
    var_table (set_var ws i v) j = if j = i then v % 65536 else var_table ws j := by
  unfold var_table set_var rd16
  rw [rd8_wr16, rd8_wr16]
  simp only [OFF_VAR_TABLE]
  by_cases h : j = i
  · subst h
    rw [if_neg (by omega), if_pos rfl, if_pos rfl, if_pos rfl]
    omega
  · rw [if_neg (by omega), if_neg (by omega), if_neg (by omega), if_neg (by omega), if_neg h]

/-- Claim C13. For a 16-bit seed `s`, `random` sets `random_seed` to
`((((s << 8) + 10 - s) << 2) + s + 1) mod 2^16 = (1021 * s + 41) mod 65536`, stores
the low 8 bits of the new seed in the variable named by the operand byte, changes
no other variable, and advances `code_ptr` by the one operand byte. -/
theorem C13_random (st : State) (hs : st.random_seed < 65536) :
    (random st).random_seed =
      ((((st.random_seed <<< 8) + 10 - st.random_seed) <<< 2) + st.random_seed + 1) % 65536 ∧
    (random st).random_seed = (1021 * st.random_seed + 41) % 65536 ∧
    var_table (random st).workspace (fetch st).1 = (random st).random_seed % 256 ∧
    (∀ j, j ≠ (fetch st).1 → var_table (random st).workspace j = var_table st.workspace j) ∧
    (random st).code_ptr = (st.code_ptr + 1) % 65536 := by
  have hseed : (random st).random_seed =
      (((st.random_seed % 65536 * 256 % 65536 + 0x0a + 65536 - st.random_seed % 65536) % 65536 * 4)
        % 65536 + st.random_seed % 65536 + 1) % 65536 := rfl
  have h1021 : (random st).random_seed = (1021 * st.random_seed + 41) % 65536 := by
    rw [hseed]
    omega
  refine ⟨?_, h1021, ?_, ?_, rfl⟩
  · rw [h1021, Nat.shiftLeft_eq, Nat.shiftLeft_eq]
    norm_num
    omega
  · show var_table (set_var st.workspace (fetch st).1 ((random st).random_seed % 256))
      (fetch st).1 = _
    rw [var_table_set_var, if_pos rfl]
    omega
  · intro j hj
    show var_table (set_var st.workspace (fetch st).1 ((random st).random_seed % 256)) j = _
    rw [var_table_set_var, if_neg hj]

theorem C13_random_witness :
    ({ zero_state with random_seed := 1000 } : State).random_seed < 65536 ∧
    (random { zero_state with random_seed := 1000 }).random_seed = 38001 :=
  ⟨by decide, (C13_random { zero_state with random_seed := 1000 } (by decide)).2.1⟩

/-! ## C14: the exit reversal table -/

/-- Claim C14. The table `exit_reversal_table` is
`[0, 4, 6, 7, 1, 8, 2, 3, 5, 10, 9, 12, 11, 0xff, 0xff, 15]`, and for every `d` in
0..15 other than 13 and 14 the entry at the index given by entry `d` is `d` again. -/
theorem C14_reversal_involution (d : Nat) (hd : d < 16) (h13 : d ≠ 13) (h14 : d ≠ 14) :
    exit_reversal_table.getD (exit_reversal_table.getD d 0) 0 = d ∧
    exit_reversal_table = [0, 4, 6, 7, 1, 8, 2, 3, 5, 10, 9, 12, 11, 0xff, 0xff, 15] := by
  refine ⟨?_, rfl⟩
  have h : d = 0 ∨ d = 1 ∨ d = 2 ∨ d = 3 ∨ d = 4 ∨ d = 5 ∨ d = 6 ∨ d = 7 ∨ d = 8 ∨ d = 9 ∨
      d = 10 ∨ d = 11 ∨ d = 12 ∨ d = 15 := by omega
  rcases h with h | h | h | h | h | h | h | h | h | h | h | h | h | h <;> subst h <;> rfl

theorem C14_reversal_involution_witness :
    1 < 16 ∧ 1 ≠ 13 ∧ 1 ≠ 14 ∧
    exit_reversal_table.getD (exit_reversal_table.getD 1 0) 0 = 1 :=
  ⟨by decide, by decide, by decide,
    (C14_reversal_involution 1 (by decide) (by decide) (by decide)).1⟩

/-! ## C18: illegal opcodes -/

theorem execute_instruction_ilins (env : Env) (fuel : Nat) (st : State)
    (h7 : st.code < 128)
    (hop : st.code % 32 = 12 ∨ st.code % 32 = 13 ∨ st.code % 32 = 29 ∨ st.code % 32 = 30 ∨
      st.code % 32 = 31) :
    execute_instruction env fuel st = some (ilins st (st.code % 32)) := by
  have hb : ¬ st.code / 128 % 2 = 1 := by omega
  unfold execute_instruction
  simp only []
  rw [if_neg hb]
  rcases hop with h | h | h | h | h <;> rw [h] <;> simp

/-- Claim C18. When the opcode byte fetched by `run_game` has bit 7 clear and low
five bits 12, 13, 29, 30 or 31 (whatever bits 5 and 6 are), `run_game` prints the
diagnostic `Illegal instruction: n` (with `n` the low five bits, between two carriage
returns), sets `running` to false and returns false; the workspace (so `var_table`,
`list_area`, `stack` and `stack_ptr`) is unchanged. -/
theorem C18_illegal_opcode (env : Env) (fuel : Nat) (st : State)
    (h7 : (fetch st).1 < 128)
    (hop : (fetch st).1 % 32 = 12 ∨ (fetch st).1 % 32 = 13 ∨ (fetch st).1 % 32 = 29 ∨
      (fetch st).1 % 32 = 30 ∨ (fetch st).1 % 32 = 31) :
    ∃ st2, run_game env fuel st = some (false, st2) ∧ st2.running = false ∧
      st2.output = st.output ++ format_u "\rIllegal instruction: " ((fetch st).1 % 32) "\r" ∧
      st2.workspace = st.workspace := by
  refine ⟨ilins { (fetch st).2 with code := (fetch st).1 } ((fetch st).1 % 32), ?_, rfl, rfl, rfl⟩
  unfold run_game
  simp only []
  rw [execute_instruction_ilins env fuel _ h7 hop]
  rfl

theorem C18_illegal_opcode_witness :
    (fetch illegal_state).1 < 128 ∧
    ((fetch illegal_state).1 % 32 = 12 ∨ (fetch illegal_state).1 % 32 = 13 ∨
      (fetch illegal_state).1 % 32 = 29 ∨ (fetch illegal_state).1 % 32 = 30 ∨
      (fetch illegal_state).1 % 32 = 31) ∧
    ∃ st2, run_game idle_env 0 illegal_state = some (false, st2) ∧ st2.running = false ∧
      st2.output = illegal_state.output ++ str_bytes "\rIllegal instruction: 12\r" :=
  ⟨by decide, Or.inl (by decide),
    (C18_illegal_opcode idle_env 0 illegal_state (by decide) (Or.inl (by decide))).elim
      (fun st2 h => ⟨st2, h.1, h.2.1, h.2.2.1.trans (by decide)⟩)⟩

/-! ## C19: overflow and underflow of the VM stack -/

theorem get_addr_workspace (st : State) : (get_addr st).2.workspace = st.workspace := by
  unfold get_addr
  split <;> rfl

theorem stack_ptr_lt (ws : Mem) : stack_ptr ws < 65536 := rd16_lt ws OFF_STACK_PTR

theorem rd8_int_gosub (st : State) (a : Nat) (h : stack_ptr st.workspace ≤ STACK_SIZE)
    (h6 : a ≠ OFF_STACK_PTR) (h7 : a ≠ OFF_STACK_PTR + 1)
    (hs : a < OFF_STACK ∨ OFF_STACK + 2 * STACK_SIZE ≤ a) :
    rd8 (int_gosub true st).workspace a = rd8 st.workspace a := by
  simp only [OFF_STACK_PTR, OFF_STACK, STACK_SIZE] at h h6 h7 hs
  unfold int_gosub
  split
  · rfl
  · rename_i hn
    have hlt : stack_ptr st.workspace < 128 := by
      simp only [STACK_SIZE, true_and] at hn
      omega
    simp only []
    rw [rd8_wr16, rd8_wr16, get_addr_workspace]
    simp only [OFF_STACK_PTR, OFF_STACK]
    rw [if_neg h7, if_neg h6, if_neg (by omega), if_neg (by omega)]

/-- The theorem of claim C19, for a build that defines `L9DEBUG`: `gosub` at
`stack_ptr = 128` and `return` at `stack_ptr = 0` print their diagnostic, set
`running` to false and change nothing else (no stack entry is written or read);
`gosub` and `return` keep `stack_ptr` within 0..128, and `gosub` writes no byte of
the workspace outside `stack_ptr` and `stack[0..127]`. -/
theorem C19_stack_checks (st : State) :
    (stack_ptr st.workspace = STACK_SIZE →
      int_gosub true st =
        { error st (str_bytes "\rStack overflow error\r") with running := false }) ∧
    (stack_ptr st.workspace = 0 →
      int_return true st =
        { error st (str_bytes "\rStack underflow error\r") with running := false }) ∧
    (stack_ptr st.workspace ≤ STACK_SIZE →
      stack_ptr (int_gosub true st).workspace ≤ STACK_SIZE ∧
      stack_ptr (int_return true st).workspace ≤ STACK_SIZE ∧
      ∀ a, a ≠ OFF_STACK_PTR → a ≠ OFF_STACK_PTR + 1 →
        a < OFF_STACK ∨ OFF_STACK + 2 * STACK_SIZE ≤ a →
        rd8 (int_gosub true st).workspace a = rd8 st.workspace a) := by
  refine ⟨?_, ?_, ?_⟩
  · intro h
    unfold int_gosub
    rw [if_pos ⟨rfl, h⟩]
  · intro h
    unfold int_return
    rw [if_pos ⟨rfl, h⟩]
  · intro h
    refine ⟨?_, ?_, fun a h6 h7 hs => rd8_int_gosub st a h h6 h7 hs⟩
    · unfold int_gosub
      split
      · exact h
      · rename_i hn
        simp only [STACK_SIZE, true_and] at hn h ⊢
        unfold stack_ptr at hn h ⊢
        rw [rd16_wr16_same, get_addr_workspace]
        omega
    · unfold int_return
      split
      · exact h
      · rename_i hn
        simp only [STACK_SIZE, true_and] at hn h ⊢
        unfold stack_ptr at hn h ⊢
        rw [rd16_wr16_same]
        omega

theorem C19_stack_checks_witness :
    stack_ptr full_stack_state.workspace = STACK_SIZE ∧
    int_gosub true full_stack_state =
      { error full_stack_state (str_bytes "\rStack overflow error\r") with running := false } :=
  ⟨by decide, (C19_stack_checks full_stack_state).1 (by decide)⟩

/-- Counterexample to claim C19 as stated: in the default build (no `L9DEBUG`),
`gosub` at `stack_ptr = 128` prints nothing and does not stop the game; it stores the
return address 2 in `stack[128]`, which is the first two bytes of
`workspace.filename`, and leaves `stack_ptr` at 129. -/
theorem C19_counterexample :
    stack_ptr full_stack_state.workspace = 128 ∧
    (int_gosub false full_stack_state).running = true ∧
    (int_gosub false full_stack_state).output = full_stack_state.output ∧
    stack_ptr (int_gosub false full_stack_state).workspace = 129 ∧
    rd8 (int_gosub false full_stack_state).workspace OFF_FILENAME = 2 := by
  decide

/-! ## C20: classification of the header pointers -/

theorem foldl_init_pointer_frame (hp ho : Nat) (l : List Nat) (s : State) :
    (l.foldl (init_pointer hp ho) s).ram = s.ram ∧
    (l.foldl (init_pointer hp ho) s).mmu0 = s.mmu0 ∧
    (l.foldl (init_pointer hp ho) s).mmu1 = s.mmu1 ∧
    (l.foldl (init_pointer hp ho) s).mmu2 = s.mmu2 := by
  induction l generalizing s with
  | nil => exact ⟨rfl, rfl, rfl, rfl⟩
  | cons i l ih =>
    rw [List.foldl_cons]
    exact ih (init_pointer hp ho s i)

theorem L9WORD_congr (s t : State) (x : Nat) (h0 : s.ram = t.ram) (h1 : s.mmu0 = t.mmu0)
    (h2 : s.mmu1 = t.mmu1) (h3 : s.mmu2 = t.mmu2) : L9WORD s x = L9WORD t x := by
  simp only [L9WORD, peek, phys, h0, h1, h2, h3]

theorem foldl_init_pointer_notin (hp ho : Nat) (l : List Nat) (s : State) (j : Nat)
    (hj : j ∉ l) :
    (l.foldl (init_pointer hp ho) s).l9_pointers j = s.l9_pointers j ∧
    (l.foldl (init_pointer hp ho) s).l9_pointers_in_ws j = s.l9_pointers_in_ws j := by
  induction l generalizing s with
  | nil => exact ⟨rfl, rfl⟩
  | cons i l ih =>
    rw [List.foldl_cons]
    have hji : j ≠ i := fun e => hj (e ▸ List.mem_cons_self _ _)
    have hjl : j ∉ l := fun e => hj (List.mem_cons_of_mem _ e)
    obtain ⟨a, b⟩ := ih (init_pointer hp ho s i) hjl
    rw [a, b]
    simp only [init_pointer, if_neg hji]
    exact ⟨trivial, trivial⟩

theorem foldl_init_pointer_mem (hp ho : Nat) (l : List Nat) (s : State) (j : Nat)
    (hj : j ∈ l) (hnd : l.Nodup) :
    (l.foldl (init_pointer hp ho) s).l9_pointers j =
      (if j ≠ 11 ∧ L9WORD s (hp + ho + j * 2) ≥ 0x8000 ∧ L9WORD s (hp + ho + j * 2) ≤ 0x9000
        then L9WORD s (hp + ho + j * 2) - 0x8000 else L9WORD s (hp + ho + j * 2)) ∧
    (l.foldl (init_pointer hp ho) s).l9_pointers_in_ws j =
      decide (j ≠ 11 ∧ L9WORD s (hp + ho + j * 2) ≥ 0x8000 ∧
        L9WORD s (hp + ho + j * 2) ≤ 0x9000) := by
  induction l generalizing s with
  | nil => cases hj
  | cons i l ih =>
    rw [List.foldl_cons]
    rw [List.nodup_cons] at hnd
    by_cases hji : j = i
    · subst hji
      obtain ⟨a, b⟩ := foldl_init_pointer_notin hp ho l (init_pointer hp ho s j) j hnd.1
      rw [a, b]
      simp only [init_pointer, if_true, decide_eq_true_eq]
      exact ⟨trivial, trivial⟩
    · have hjl : j ∈ l := by
        rcases List.mem_cons.1 hj with e | e
        · exact absurd e hji
        · exact e
      have hw : ∀ x, L9WORD (init_pointer hp ho s i) x = L9WORD s x :=
        fun x => L9WORD_congr _ _ x rfl rfl rfl rfl
      obtain ⟨a, b⟩ := ih (init_pointer hp ho s i) hjl hnd.2
      rw [a, b, hw]
      exact ⟨rfl, rfl⟩

theorem L9WORD_header (st : State) (x : Nat) (hx : x + 1 < 0x2000) :
    L9WORD (effective st 0).2 ((effective st 0).1 + x) = word_le st x := by
  simp only [L9WORD, peek, phys, effective, word_le, story_byte, PAGE_SIZE, MEMORY_BASE_PAGE,
    Nat.zero_mod, Nat.zero_div, Nat.add_zero, Nat.zero_add]
  rw [if_pos (by omega), if_pos (by omega)]

theorem init_game_pointers_spec (st : State) (i : Nat) (hi : i < 12) :
    (init_game_pointers st).l9_pointers i =
      (if i ≠ 11 ∧ header_word st i ≥ 0x8000 ∧ header_word st i ≤ 0x9000
        then header_word st i - 0x8000 else header_word st i) ∧
    (init_game_pointers st).l9_pointers_in_ws i =
      decide (i ≠ 11 ∧ header_word st i ≥ 0x8000 ∧ header_word st i ≤ 0x9000) := by
  have hmem : i ∈ List.range 12 := List.mem_range.2 hi
  have hw : L9WORD (effective st 0).2
      ((effective st 0).1 + (if st.game_type = 2 then 0x04 else 0x12) + i * 2) =
      header_word st i := by
    rw [Nat.add_assoc, L9WORD_header st _ (by split <;> omega)]
    unfold header_word
    rw [Nat.mul_comm]
  obtain ⟨a, b⟩ := foldl_init_pointer_mem (effective st 0).1
    (if st.game_type = 2 then 0x04 else 0x12) (List.range 12) (effective st 0).2 i hmem
    (List.nodup_range 12)
  rw [hw] at a b
  exact ⟨a, b⟩

/-- The theorem of claim C20: `init_game` reads twelve little-endian 16-bit values
from header offset 0x04 (V2) or 0x12 (V3, V4). For each index `i` below 11 with
value `v`: if `0x8000 <= v <= 0x9000` the pointer is flagged as in-workspace and
stored as `v - 0x8000`, otherwise it is flagged as a story address and stored as
`v`. The pointer of index 11 (the code start) is always flagged as a story address
and stored as `v`. -/
theorem C20_header_pointers (st : State) (i : Nat) (hi : i < 12) :
    (i ≠ 11 → 0x8000 ≤ header_word st i → header_word st i ≤ 0x9000 →
      (init_game_pointers st).l9_pointers_in_ws i = true ∧
      (init_game_pointers st).l9_pointers i = header_word st i - 0x8000) ∧
    (i ≠ 11 → (header_word st i < 0x8000 ∨ 0x9000 < header_word st i) →
      (init_game_pointers st).l9_pointers_in_ws i = false ∧
      (init_game_pointers st).l9_pointers i = header_word st i) ∧
    (i = 11 →
      (init_game_pointers st).l9_pointers_in_ws i = false ∧
      (init_game_pointers st).l9_pointers i = header_word st i) := by
  obtain ⟨a, b⟩ := init_game_pointers_spec st i hi
  refine ⟨?_, ?_, ?_⟩
  · intro h1 h2 h3
    rw [a, b, if_pos ⟨h1, h2, h3⟩]
    exact ⟨decide_eq_true ⟨h1, h2, h3⟩, rfl⟩
  · intro h1 h2
    have hn : ¬ (i ≠ 11 ∧ header_word st i ≥ 0x8000 ∧ header_word st i ≤ 0x9000) := by omega
    rw [a, b, if_neg hn]
    exact ⟨decide_eq_false hn, rfl⟩
  · intro h1
    have hn : ¬ (i ≠ 11 ∧ header_word st i ≥ 0x8000 ∧ header_word st i ≤ 0x9000) := by omega
    rw [a, b, if_neg hn]
    exact ⟨decide_eq_false hn, rfl⟩

theorem C20_header_pointers_witness :
    11 < 12 ∧ (init_game_pointers header_state).l9_pointers_in_ws 11 = false ∧
    (init_game_pointers header_state).l9_pointers 11 = header_word header_state 11 :=
  ⟨by decide, (C20_header_pointers header_state 11 (by decide)).2.2 rfl⟩

/-- Counterexample to claim C20 as stated: a V3 header whose value of index 11 is
0x8000, inside the range 0x8000..0x9000. The pointer is flagged as a story address
and stored as 0x8000, not flagged as in-workspace and stored as 0. -/
theorem C20_counterexample :
    header_word header_state 11 = 0x8000 ∧
    (init_game_pointers header_state).l9_pointers_in_ws 11 = false ∧
    (init_game_pointers header_state).l9_pointers 11 = 0x8000 := by
  decide

/-! ## C16: the meta command `#quit` -/

theorem tolower_ne_zero (c v : Nat) (h : tolower c = v) (hv : v ≠ 0) : c ≠ 0 := by
  intro e
  subst e
  exact hv h.symm

theorem stricmp_differ_at1 (a b : Mem) (n : Nat)
    (h0 : tolower (rd8 a 0) = tolower (rd8 b 0)) (hn : rd8 a 0 ≠ 0)
    (h1 : tolower (rd8 a 1) ≠ tolower (rd8 b 1)) : stricmp a 0 b 0 (n + 2) = true := by
  unfold stricmp
  rw [if_neg (by simpa using h0), if_neg hn]
  unfold stricmp
  rw [if_pos h1]

theorem strnicmp_differ_at1 (a b : Mem) (n : Nat)
    (h0 : tolower (rd8 a 0) = tolower (rd8 b 0)) (hn : rd8 a 0 ≠ 0)
    (h1 : tolower (rd8 a 1) ≠ tolower (rd8 b 1)) : strnicmp a 0 b 0 (n + 2) = true := by
  unfold strnicmp
  rw [if_neg (by simpa using h0), if_neg hn]
  unfold strnicmp
  rw [if_pos h1]

theorem stricmp_ci_eq (a b : Mem) (fuel : Nat) :
    ∀ pa pb n, n < fuel →
      (∀ i, i ≤ n → tolower (rd8 a (pa + i)) = tolower (rd8 b (pb + i))) →
      (∀ i, i < n → rd8 a (pa + i) ≠ 0) → rd8 a (pa + n) = 0 →
      stricmp a pa b pb fuel = false := by
  induction fuel with
  | zero => intro pa pb n h; omega
  | succ k ih =>
    intro pa pb n hn heq hnz h0
    have e0 : tolower (rd8 a pa) = tolower (rd8 b pb) := by simpa using heq 0 (Nat.zero_le _)
    unfold stricmp
    rw [if_neg (by simpa using e0)]
    cases n with
    | zero =>
      rw [if_pos (by simpa using h0)]
    | succ m =>
      rw [if_neg (by simpa using hnz 0 (Nat.succ_pos _))]
      apply ih (pa + 1) (pb + 1) m (by omega)
      · intro i hi
        have := heq (i + 1) (by omega)
        rw [Nat.add_assoc, Nat.add_assoc, Nat.add_comm 1 i]
        exact this
      · intro i hi
        have := hnz (i + 1) (by omega)
        rw [Nat.add_assoc, Nat.add_comm 1 i]
        exact this
      · rw [Nat.add_assoc, Nat.add_comm 1 m]
        exact h0

theorem strnicmp_ci_eq (a b : Mem) (n : Nat) :
    ∀ pa pb, (∀ i, i < n → tolower (rd8 a (pa + i)) = tolower (rd8 b (pb + i))) →
      strnicmp a pa b pb n = false := by
  induction n with
  | zero => intro pa pb _; rfl
  | succ k ih =>
    intro pa pb heq
    have e0 : tolower (rd8 a pa) = tolower (rd8 b pb) := by simpa using heq 0 (Nat.succ_pos _)
    unfold strnicmp
    rw [if_neg (by simpa using e0)]
    split
    · rfl
    · apply ih (pa + 1) (pb + 1)
      intro i hi
      have := heq (i + 1) (by omega)
      rw [Nat.add_assoc, Nat.add_assoc, Nat.add_comm 1 i]
      exact this

theorem strcmp_hash_differ_at1 (st : State) (cmd : String) (k : Nat)
    (hlen : strlen (str_mem cmd) 0 IN_BUFFER_SIZE % 256 = k + 2)
    (h0 : tolower (rd8 st.in_buffer 0) = tolower (rd8 (str_mem cmd) 0))
    (hn : rd8 st.in_buffer 0 ≠ 0)
    (h1 : tolower (rd8 st.in_buffer 1) ≠ tolower (rd8 (str_mem cmd) 1)) :
    strcmp_hash st cmd = false := by
  have hs : stricmp st.in_buffer 0 (str_mem cmd) 0 IN_BUFFER_SIZE = true :=
    stricmp_differ_at1 _ _ 498 h0 hn h1
  unfold strcmp_hash
  simp only []
  rw [hs, hlen, strnicmp_differ_at1 _ _ _ h0 hn h1]
  simp

theorem strcmp_hash_quit (st : State) (h : quit_line st.in_buffer) :
    strcmp_hash st "#quit" = true := by
  obtain ⟨h0, h1, h2, h3, h4, h5⟩ := h
  have n0 := tolower_ne_zero _ _ h0 (by decide)
  have n1 := tolower_ne_zero _ _ h1 (by decide)
  have n2 := tolower_ne_zero _ _ h2 (by decide)
  have n3 := tolower_ne_zero _ _ h3 (by decide)
  have n4 := tolower_ne_zero _ _ h4 (by decide)
  have c0 : tolower (rd8 (str_mem "#quit") 0) = 0x23 := by decide
  have c1 : tolower (rd8 (str_mem "#quit") 1) = 0x71 := by decide
  have c2 : tolower (rd8 (str_mem "#quit") 2) = 0x75 := by decide
  have c3 : tolower (rd8 (str_mem "#quit") 3) = 0x69 := by decide
  have c4 : tolower (rd8 (str_mem "#quit") 4) = 0x74 := by decide
  have c5 : tolower (rd8 (str_mem "#quit") 5) = 0 := by decide
  have hlen : strlen (str_mem "#quit") 0 IN_BUFFER_SIZE % 256 = 5 := by decide
  have heq : ∀ i, i < 5 →
      tolower (rd8 st.in_buffer (0 + i)) = tolower (rd8 (str_mem "#quit") (0 + i)) := by
    intro i hi
    rw [Nat.zero_add]
    have : i = 0 ∨ i = 1 ∨ i = 2 ∨ i = 3 ∨ i = 4 := by omega
    rcases this with e | e | e | e | e <;> subst e
    · rw [h0, c0]
    · rw [h1, c1]
    · rw [h2, c2]
    · rw [h3, c3]
    · rw [h4, c4]
  have hnz : ∀ i, i < 5 → rd8 st.in_buffer (0 + i) ≠ 0 := by
    intro i hi
    rw [Nat.zero_add]
    have : i = 0 ∨ i = 1 ∨ i = 2 ∨ i = 3 ∨ i = 4 := by omega
    rcases this with e | e | e | e | e <;> subst e <;> assumption
  unfold strcmp_hash
  simp only []
  rw [hlen]
  rcases h5 with e | e
  · have hs : stricmp st.in_buffer 0 (str_mem "#quit") 0 IN_BUFFER_SIZE = false := by
      apply stricmp_ci_eq _ _ _ 0 0 5 (by decide) _ hnz (by rw [Nat.zero_add]; exact e)
      intro i hi
      by_cases h5i : i = 5
      · subst h5i
        rw [Nat.zero_add, e, c5]
        rfl
      · exact heq i (by omega)
    rw [if_pos hs]
  · rw [strnicmp_ci_eq _ _ 5 0 0 heq, e]
    simp

theorem check_hash_quit (env : Env) (st : State) (h : quit_line st.in_buffer) :
    check_hash env st = some (true, print_string (stop_game st) "\rGame Terminated\r") := by
  have h0 := h.1
  have h1 := h.2.1
  have n0 := tolower_ne_zero _ _ h0 (by decide)
  have hsave : strcmp_hash st "#save" = false :=
    strcmp_hash_differ_at1 st "#save" 3 (by decide) (by rw [h0]; decide) n0 (by rw [h1]; decide)
  have hrest : strcmp_hash st "#restore" = false :=
    strcmp_hash_differ_at1 st "#restore" 6 (by decide) (by rw [h0]; decide) n0
      (by rw [h1]; decide)
  unfold check_hash
  rw [hsave, hrest, strcmp_hash_quit st h]
  simp

theorem execute_instruction_input (env : Env) (fuel : Nat) (st : State)
    (h7 : st.code < 128) (hop : st.code % 32 = 7) :
    execute_instruction env fuel st = input env st := by
  have hb : ¬ st.code / 128 % 2 = 1 := by omega
  unfold execute_instruction
  simp only []
  rw [if_neg hb, hop]
  simp

theorem corrupting_input_none (env : Env) (s : State) (h : s.in_buffer_ptr = none) :
    corrupting_input env s =
      match fetch_line env s with
      | none => none
      | some (false, st1) => some (false, st1)
      | some (true, st1) => env.words { st1 with in_buffer_ptr := some 0 } := by
  delta corrupting_input
  split
  · rfl
  · rename_i x hx
    rw [h] at hx
    cases hx

/-- When the line read is `#quit`, the line fetch of both tokenizers ends with
"return false", with the game stopped and nothing else of the VM changed. -/
theorem fetch_line_quit (env : Env) (st : State) (fs : Bool) (l : List Nat)
    (hline : env.line = some (fs, l)) (hq : quit_line (set_line st.in_buffer l)) :
    ∃ s, fetch_line env st = some (false, s) ∧ s.running = false ∧
      s.code_ptr = st.code_ptr ∧ s.workspace = st.workspace := by
  unfold fetch_line
  simp only []
  rw [hline]
  simp only []
  cases fs with
  | false =>
    simp only [Bool.false_eq_true, if_false]
    rw [check_hash_quit env _ hq]
    refine ⟨_, rfl, ?_, ?_, ?_⟩
    · rw [print_string_running]; rfl
    · rw [print_string_code_ptr]; rfl
    · rw [print_string_workspace]; rfl
  | true =>
    simp only [if_true]
    rw [check_hash_quit env _ hq]
    refine ⟨_, rfl, ?_, ?_, ?_⟩
    · rw [print_string_running]; rfl
    · rw [print_string_code_ptr]; rfl
    · rw [print_string_workspace]; rfl

theorem input_quit (env : Env) (st : State) (fs : Bool) (l : List Nat)
    (hline : env.line = some (fs, l)) (hq : quit_line (set_line st.in_buffer l))
    (hptr : st.game_type ≤ 2 ∨ st.in_buffer_ptr = none) :
    ∃ s, input env st = some s ∧ s.running = false ∧
      s.code_ptr = (st.code_ptr + 65535) % 65536 ∧ s.workspace = st.workspace := by
  obtain ⟨s, hs, hr, hc, hw⟩ := fetch_line_quit env
    { st with code_ptr := (st.code_ptr + 65535) % 65536 } fs l hline hq
  refine ⟨s, ?_, hr, hc, hw⟩
  by_cases hv : st.game_type ≤ 2
  · have h2 : input_v2 env { st with code_ptr := (st.code_ptr + 65535) % 65536 } =
        some (false, 0, s) := by
      unfold input_v2
      rw [hs]
    unfold input
    simp only []
    rw [if_pos hv, h2]
  · have hnone : st.in_buffer_ptr = none := hptr.resolve_left hv
    have h3 : corrupting_input env { st with code_ptr := (st.code_ptr + 65535) % 65536 } =
        some (false, s) := by
      have h := corrupting_input_none env
        { st with code_ptr := (st.code_ptr + 65535) % 65536 } hnone
      rw [hs] at h
      exact h
    unfold input
    simp only []
    rw [if_neg hv, h3]

/-- The theorem of claim C16: for every input line that is `#quit` in any letter
case, alone or followed by a space character and anything: `check_hash` returns true with `running` set to
false; and when the next opcode is `input` (bit 7 clear, low five bits 7) and the
tokenizer reads a line (V2 always, V3/V4 when `in_buffer_ptr` is `NULL`) which is
such a line, `run_game` returns false, with `running` false, `code_ptr` back at the
address of the input opcode and no byte of the workspace changed. -/
theorem C16_quit (env : Env) (fuel : Nat) (st : State) (fs : Bool) (l : List Nat)
    (hcp : st.code_ptr < 65536)
    (h7 : (fetch st).1 < 128) (hop : (fetch st).1 % 32 = 7)
    (hline : env.line = some (fs, l)) (hq : quit_line (set_line st.in_buffer l))
    (hptr : st.game_type ≤ 2 ∨ st.in_buffer_ptr = none) :
    (∀ s : State, quit_line s.in_buffer →
      ∃ s2, check_hash env s = some (true, s2) ∧ s2.running = false) ∧
    ∃ st2, run_game env fuel st = some (false, st2) ∧ st2.running = false ∧
      st2.code_ptr = st.code_ptr ∧ st2.workspace = st.workspace := by
  constructor
  · intro s hs
    exact ⟨_, check_hash_quit env s hs, by rw [print_string_running]; rfl⟩
  · obtain ⟨s, hs, hr, hc, hw⟩ := input_quit env { (fetch st).2 with code := (fetch st).1 }
      fs l hline hq hptr
    refine ⟨s, ?_, hr, ?_, hw⟩
    · unfold run_game
      simp only []
      rw [execute_instruction_input env fuel _ h7 hop, hs]
      show some (s.running, s) = some (false, s)
      rw [hr]
    · rw [hc]
      show ((st.code_ptr + 1) % 65536 + 65535) % 65536 = st.code_ptr
      omega

theorem C16_quit_witness :
    input_state.code_ptr < 65536 ∧ (fetch input_state).1 < 128 ∧
    (fetch input_state).1 % 32 = 7 ∧
    quit_env.line = some (false, [0x23, 0x51, 0x75, 0x49, 0x74]) ∧
    quit_line (set_line input_state.in_buffer [0x23, 0x51, 0x75, 0x49, 0x74]) ∧
    (input_state.game_type ≤ 2 ∨ input_state.in_buffer_ptr = none) ∧
    ∃ st2, run_game quit_env 0 input_state = some (false, st2) ∧ st2.running = false ∧
      st2.code_ptr = input_state.code_ptr := by
  have hq : quit_line (set_line input_state.in_buffer [0x23, 0x51, 0x75, 0x49, 0x74]) := by
    unfold quit_line
    decide
  exact ⟨by decide, by decide, by decide, rfl, hq, Or.inr rfl,
    (C16_quit quit_env 0 input_state false [0x23, 0x51, 0x75, 0x49, 0x74] (by decide)
      (by decide) (by decide) rfl hq (Or.inr rfl)).2.elim
      (fun st2 h => ⟨st2, h.1, h.2.1, h.2.2.1⟩)⟩

/-- Counterexample to claim C16 as stated: for the line `#quit` followed by a TAB
(a whitespace character), `check_hash` returns false and `running` stays true. -/
theorem C16_counterexample :
    (check_hash idle_env tab_quit_state).map (fun r => (r.1, r.2.running)) =
      some (false, true) := by
  decide

/-! ## C17: what `input` does to `code_ptr` -/

theorem store_var_code_ptr (s : State) (v : Nat) :
    (store_var s v).code_ptr = (s.code_ptr + 1) % 65536 := rfl

/-- The loop `gnonext` touches only `object` and `gno_scratch`, and with
`d3 = 0x1f` not even `gno_scratch`. -/
theorem gno_scan_frame (d2 d3 d4 : Nat) (fuel : Nat) :
    ∀ (st : State) (r : ScanResult), gno_scan d2 d3 d4 fuel st = some r →
      r.state.gno_sp = st.gno_sp ∧ r.state.init_hi_search_pos = st.init_hi_search_pos ∧
      (d3 = 0x1f → r.state.gno_scratch = st.gno_scratch) := by
  induction fuel with
  | zero => intro st r h; cases h
  | succ k ih =>
    intro st r h
    unfold gno_scan at h
    simp only [] at h
    split at h
    · split at h
      · split at h
        · split at h
          · have h3 := ih _ _ h
            exact h3
          · simp only [Option.some.injEq] at h
            subst h
            exact ⟨rfl, rfl, fun _ => rfl⟩
        · split at h
          · rename_i hne
            split at h
            · obtain ⟨a, b, c⟩ := ih _ _ h
              exact ⟨a, b, fun e => absurd e hne⟩
            · simp only [Option.some.injEq] at h
              subst h
              exact ⟨rfl, rfl, fun e => absurd e hne⟩
          · simp only [Option.some.injEq] at h
            subst h
            exact ⟨rfl, rfl, fun _ => rfl⟩
      · simp only [Option.some.injEq] at h
        subst h
        exact ⟨rfl, rfl, fun _ => rfl⟩
    · split at h
      · have h3 := ih _ _ h
        exact h3
      · simp only [Option.some.injEq] at h
        subst h
        exact ⟨rfl, rfl, fun _ => rfl⟩

/-- From an object number `<= d2 < 0xFFFF` the loop `gnonext` ends within
`d2 - object + 1` rounds. -/
theorem gno_scan_terminates_le (d2 d3 d4 : Nat) (hd2 : d2 < 65535) (fuel : Nat) :
    ∀ st : State, st.object ≤ d2 → d2 - st.object < fuel →
      ∃ r, gno_scan d2 d3 d4 fuel st = some r := by
  induction fuel with
  | zero => intro st _ h; omega
  | succ k ih =>
    intro st ho hf
    have hobj : (st.object + 1) % 65536 = st.object + 1 := Nat.mod_eq_of_lt (by omega)
    unfold gno_scan
    simp only []
    rw [hobj]
    split
    · split
      · split
        · split
          · rename_i hle
            exact ih _ hle (by show d2 - (st.object + 1) < k; omega)
          · exact ⟨_, rfl⟩
        · split
          · split
            · rename_i hle
              exact ih _ hle (by show d2 - (st.object + 1) < k; omega)
            · exact ⟨_, rfl⟩
          · exact ⟨_, rfl⟩
      · exact ⟨_, rfl⟩
    · split
      · rename_i hle
        exact ih _ hle (by show d2 - (st.object + 1) < k; omega)
      · exact ⟨_, rfl⟩

/-- For `d2 < 0xFFFF` the loop `gnonext` ends within `d2 + 2` rounds, whatever the
object number it starts from. -/
theorem gno_scan_terminates (d2 d3 d4 : Nat) (hd2 : d2 < 65535) (fuel : Nat)
    (hf : d2 + 2 ≤ fuel) (st : State) : ∃ r, gno_scan d2 d3 d4 fuel st = some r := by
  obtain ⟨k, rfl⟩ : ∃ k, fuel = k + 1 := ⟨fuel - 1, by omega⟩
  have hlt : (st.object + 1) % 65536 < 65536 := Nat.mod_lt _ (by decide)
  unfold gno_scan
  simp only []
  split
  · split
    · split
      · split
        · rename_i hle
          exact gno_scan_terminates_le d2 d3 d4 hd2 k _ hle
            (by show d2 - (st.object + 1) % 65536 < k; omega)
        · exact ⟨_, rfl⟩
      · split
        · split
          · rename_i hle
            exact gno_scan_terminates_le d2 d3 d4 hd2 k _ hle
              (by show d2 - (st.object + 1) % 65536 < k; omega)
          · exact ⟨_, rfl⟩
        · exact ⟨_, rfl⟩
    · exact ⟨_, rfl⟩
  · split
    · rename_i hle
      exact gno_scan_terminates_le d2 d3 d4 hd2 k _ hle
        (by show d2 - (st.object + 1) % 65536 < k; omega)
    · exact ⟨_, rfl⟩


theorem gno_push_spec (st : State) (v : Nat) (h1 : 1 ≤ st.gno_sp) (h2 : st.gno_sp ≤ 128) :
    ∃ r, gno_push st v = some r ∧ r.gno_sp + 1 = st.gno_sp ∧
      r.gno_scratch = st.gno_scratch ∧ r.num_object_found = st.num_object_found := by
  unfold gno_push
  simp only []
  have e : (st.gno_sp + 255) % 256 = st.gno_sp - 1 := by omega
  rw [e, if_pos (by omega)]
  exact ⟨_, rfl, by show st.gno_sp - 1 + 1 = st.gno_sp; omega, rfl, rfl⟩

theorem gno_pop_spec (st : State) (h : st.gno_sp < 128) :
    ∃ v r, gno_pop st = some (v, r) ∧ r.gno_sp = st.gno_sp + 1 ∧
      r.num_object_found = st.num_object_found := by
  unfold gno_pop
  rw [if_pos h]
  exact ⟨_, _, rfl, by show (st.gno_sp + 1) % 256 = st.gno_sp + 1; omega, rfl⟩

theorem gno_return_gno_sp (st : State) : (gno_return st).gno_sp = st.gno_sp := rfl

theorem gno_finish_gno_sp (hi sp : Nat) (st : State) :
    (gno_finish hi sp st).gno_sp = st.gno_sp := rfl

theorem gno_found_spec (d3 d4 hi sp : Nat) (st : State) (h1 : 2 ≤ st.gno_sp)
    (h2 : st.gno_sp ≤ 128) :
    ∃ r, gno_found d3 d4 hi sp st = some r ∧ r.gno_sp ≤ 128 := by
  obtain ⟨a, ha, ha1, _, _⟩ := gno_push_spec
    { st with num_object_found := (st.num_object_found + 1) % 65536 }
    ((st.object)) (by show 1 ≤ st.gno_sp; omega) h2
  have ha2 : a.gno_sp + 1 = st.gno_sp := ha1
  obtain ⟨b, hb, hb1, _, _⟩ := gno_push_spec a 0x1f (by omega) (by omega)
  unfold gno_found
  simp only []
  rw [ha]
  simp only []
  rw [hb]
  refine ⟨_, rfl, ?_⟩
  show b.gno_sp ≤ 128
  omega

/-- The rounds of `gnoloop` push at most two entries each, and none at all when the
scratch bytes they look at are 0. -/
theorem gno_loop_spec (d4 : Nat) (n : Nat) :
    ∀ st : State, 2 * n ≤ st.gno_sp → st.gno_sp ≤ 128 →
      ∃ r, gno_loop d4 n st = some r ∧ r.gno_sp ≤ st.gno_sp ∧
        st.gno_sp ≤ r.gno_sp + 2 * n ∧ r.gno_sp % 2 = st.gno_sp % 2 ∧
        r.num_object_found = st.num_object_found ∧ r.gno_scratch = st.gno_scratch := by
  induction n with
  | zero =>
    intro st _ _
    exact ⟨st, rfl, Nat.le_refl _, by omega, rfl, rfl, rfl⟩
  | succ k ih =>
    intro st h1 h2
    obtain ⟨s, hs, a1, a2, a3, a4, a5⟩ := ih st (by omega) h2
    unfold gno_loop
    rw [hs]
    simp only []
    split
    · obtain ⟨p, hp, p1, p2, p3⟩ := gno_push_spec s d4 (by omega) (by omega)
      obtain ⟨q, hq, q1, q2, q3⟩ := gno_push_spec p k (by omega) (by omega)
      rw [hp]
      simp only []
      rw [hq]
      exact ⟨q, rfl, by omega, by omega, by omega, by rw [q3, p3, a4], by rw [q2, p2, a5]⟩
    · exact ⟨s, rfl, a1, by omega, a3, a4, a5⟩

theorem gno_loop_zero (d4 : Nat) (n : Nat) :
    ∀ st : State, (∀ i, i < n → st.gno_scratch i % 256 = 0) → gno_loop d4 n st = some st := by
  induction n with
  | zero => intro st _; rfl
  | succ k ih =>
    intro st h
    unfold gno_loop
    rw [ih st (fun i hi => h i (by omega))]
    simp only []
    rw [if_neg (by simpa using h k (by omega))]


/-- The statements at `gnonewlevel`: they return when the stack has room for the
entries `gnoloop` pushes, and leave an even stack pointer between 2 and 128. -/
theorem gno_new_level_spec (d3 d4 : Nat) (st : State)
    (hfault : st.init_hi_search_pos = 0x1f → d3 < 32)
    (heven : st.gno_sp % 2 = 0) (hle : st.gno_sp ≤ 128)
    (hroom : 62 ≤ st.gno_sp ∨
      (st.init_hi_search_pos = 0x1f →
        ∀ i, i < 0x1f → (if i = d3 then 0 else st.gno_scratch i) % 256 = 0)) :
    ∃ d3n d4n r, gno_new_level d3 d4 st = some (d3n, d4n, r) ∧ r.gno_sp % 2 = 0 ∧
      2 ≤ r.gno_sp ∧ r.gno_sp ≤ 128 ∧ r.num_object_found = 0 ∧
      ((st.init_hi_search_pos = 0x1f →
        ∀ i, i < 0x1f → (if i = d3 then 0 else st.gno_scratch i) % 256 = 0) →
        d4n ≠ 0 → r.gno_sp = st.gno_sp + 2) := by
  have hpush : ∃ s, (if st.init_hi_search_pos = 0x1f then
        if d3 < 32 then
          gno_loop d4 0x1f
            { st with gno_scratch := fun i => if i = d3 then 0 else st.gno_scratch i }
        else none
      else some st) = some s ∧ s.gno_sp % 2 = 0 ∧ s.gno_sp ≤ 128 ∧
      ((st.init_hi_search_pos = 0x1f →
        ∀ i, i < 0x1f → (if i = d3 then 0 else st.gno_scratch i) % 256 = 0) →
        s.gno_sp = st.gno_sp) := by
    by_cases hi : st.init_hi_search_pos = 0x1f
    · rw [if_pos hi, if_pos (hfault hi)]
      rcases hroom with h62 | hz
      · obtain ⟨r, hr, r1, r2, r3, _, _⟩ := gno_loop_spec d4 0x1f
          { st with gno_scratch := fun i => if i = d3 then 0 else st.gno_scratch i }
          (by show 2 * 0x1f ≤ st.gno_sp; omega) hle
        have r1b : r.gno_sp ≤ st.gno_sp := r1
        have r3b : r.gno_sp % 2 = st.gno_sp % 2 := r3
        refine ⟨r, hr, by omega, by omega, fun hz => ?_⟩
        have e := gno_loop_zero d4 0x1f
          { st with gno_scratch := fun i => if i = d3 then 0 else st.gno_scratch i } (hz hi)
        rw [e] at hr
        cases hr
        rfl
      · have e := gno_loop_zero d4 0x1f
          { st with gno_scratch := fun i => if i = d3 then 0 else st.gno_scratch i } (hz hi)
        exact ⟨_, e, heven, hle, fun _ => rfl⟩
    · rw [if_neg hi]
      exact ⟨st, rfl, heven, hle, fun _ => rfl⟩
  obtain ⟨s, hs, s1, s2, s3⟩ := hpush
  unfold gno_new_level
  simp only []
  rw [hs]
  simp only []
  by_cases h128 : s.gno_sp = 128
  · rw [if_neg (by simpa using h128)]
    refine ⟨0, 0, _, rfl, ?_, ?_, ?_, ?_, fun _ h => absurd rfl h⟩
    · show s.gno_sp % 2 = 0
      exact s1
    · show 2 ≤ s.gno_sp
      omega
    · show s.gno_sp ≤ 128
      exact s2
    · rfl
  · obtain ⟨v, p, hp, p1, _⟩ := gno_pop_spec s (by omega)
    obtain ⟨w, q, hq, q1, _⟩ := gno_pop_spec p (by omega)
    rw [if_pos h128, hp]
    simp only []
    rw [hq]
    simp only []
    have hq2 : q.gno_sp = s.gno_sp + 2 := by omega
    refine ⟨v, w, _, rfl, ?_, ?_, ?_, ?_, fun hz _ => ?_⟩
    · show (if v = 0x1f then _ else _ : State).gno_sp % 2 = 0
      split
      · show q.gno_sp % 2 = 0
        omega
      · show q.gno_sp % 2 = 0
        omega
    · show 2 ≤ (if v = 0x1f then _ else _ : State).gno_sp
      split
      · show 2 ≤ q.gno_sp
        omega
      · show 2 ≤ q.gno_sp
        omega
    · show (if v = 0x1f then _ else _ : State).gno_sp ≤ 128
      split
      · show q.gno_sp ≤ 128
        omega
      · show q.gno_sp ≤ 128
        omega
    · show (if v = 0x1f then _ else _ : State).num_object_found = 0
      split
      · rfl
      · rfl
    · show (if v = 0x1f then _ else _ : State).gno_sp = st.gno_sp + 2
      have := s3 hz
      split
      · show q.gno_sp = st.gno_sp + 2
        omega
      · show q.gno_sp = st.gno_sp + 2
        omega


theorem init_get_obj_scratch (st : State) (i : Nat) (h : i < 0x1f) :
    (init_get_obj st).gno_scratch i = 0 := by
  show (if i < 32 then 0 else st.gno_scratch i) = 0
  rw [if_pos (by omega)]

/-- The rounds of the outer loop after the first one: the search state was reset by
`init_get_obj`, nothing is pushed, and every round that does not leave the loop pops
two entries. -/
theorem gno_levels_later (d2 hi sp inner : Nat) (hd2 : d2 < 65535) (hinner : d2 + 2 ≤ inner)
    (fuel : Nat) :
    ∀ (d3 d4 : Nat) (st : State), st.num_object_found = 0 →
      (∀ i, i < 0x1f → st.gno_scratch i = 0) → st.gno_sp % 2 = 0 → 2 ≤ st.gno_sp →
      st.gno_sp ≤ 128 → 130 ≤ st.gno_sp + 2 * fuel →
      ∃ r, gno_levels d2 hi sp inner fuel d3 d4 st = some r ∧ r.gno_sp ≤ 128 := by
  induction fuel with
  | zero =>
    intro d3 d4 st _ _ _ _ h1 h2
    omega
  | succ k ih =>
    intro d3 d4 st hnf hz heven h2 h128 hfuel
    unfold gno_levels
    by_cases h0 : d3 = 0 ∧ d4 = 0
    · rw [if_pos h0]
      exact ⟨_, rfl, Nat.le_refl 128⟩
    · rw [if_neg h0, if_pos hnf]
      obtain ⟨r, hr⟩ := gno_scan_terminates d2 d3 d4 hd2 inner hinner
        { st with init_hi_search_pos := d3 }
      obtain ⟨f1, f2, f3⟩ := gno_scan_frame d2 d3 d4 inner _ r hr
      simp only []
      rw [hr]
      cases r with
      | found d3f s2 =>
        simp only []
        have g1 : s2.gno_sp = st.gno_sp := f1
        exact gno_found_spec d3f d4 hi sp s2 (by omega) (by omega)
      | not_found s2 =>
        simp only []
        have g1 : s2.gno_sp = st.gno_sp := f1
        have g2 : s2.init_hi_search_pos = d3 := f2
        have g3 : d3 = 0x1f → s2.gno_scratch = st.gno_scratch := f3
        have hzero : s2.init_hi_search_pos = 0x1f →
            ∀ i, i < 0x1f → (if i = d3 then 0 else s2.gno_scratch i) % 256 = 0 := by
          intro e i hi
          rw [g3 (g2.symm.trans e), hz i hi]
          split
          · rfl
          · rfl
        obtain ⟨d3n, d4n, t, ht, t1, t2, t3, t4, t5⟩ := gno_new_level_spec d3 d4 s2
          (fun e => by omega) (by omega) (by omega) (Or.inr hzero)
        rw [ht]
        simp only []
        by_cases hd4 : d4n = 0
        · rw [if_neg (by simpa using hd4)]
          exact ⟨_, rfl, t3⟩
        · rw [if_pos hd4]
          have t6 := t5 hzero hd4
          exact ih d3n d4n (init_get_obj t) rfl (init_get_obj_scratch t)
            (by show t.gno_sp % 2 = 0; exact t1) (by show 2 ≤ t.gno_sp; exact t2)
            (by show t.gno_sp ≤ 128; exact t3) (by show 130 ≤ t.gno_sp + 2 * k; omega)

/-- The outer loop from an arbitrary carried-over search state. -/
theorem gno_levels_first (d2 hi sp inner : Nat) (hd2 : d2 < 65535) (hinner : d2 + 2 ≤ inner)
    (fuel : Nat) (hfuel : 66 ≤ fuel) (d3 d4 : Nat) (st : State)
    (hd3 : d3 < 32 ∨ st.num_object_found = 0 ∨ st.init_hi_search_pos ≠ 0x1f)
    (heven : st.gno_sp % 2 = 0) (h62 : 62 ≤ st.gno_sp) (h128 : st.gno_sp ≤ 128) :
    ∃ r, gno_levels d2 hi sp inner fuel d3 d4 st = some r ∧ r.gno_sp ≤ 128 := by
  obtain ⟨k, rfl⟩ : ∃ k, fuel = k + 1 := ⟨fuel - 1, by omega⟩
  unfold gno_levels
  by_cases h0 : d3 = 0 ∧ d4 = 0
  · rw [if_pos h0]
    exact ⟨_, rfl, Nat.le_refl 128⟩
  · rw [if_neg h0]
    have hst1 : ∃ s1 : State, (if st.num_object_found = 0 then
        { st with init_hi_search_pos := d3 } else st) = s1 ∧ s1.gno_sp = st.gno_sp ∧
        (s1.init_hi_search_pos = 0x1f → d3 < 32) := by
      by_cases hn : st.num_object_found = 0
      · rw [if_pos hn]
        refine ⟨_, rfl, rfl, fun e => ?_⟩
        have e2 : d3 = 0x1f := e
        omega
      · rw [if_neg hn]
        refine ⟨_, rfl, rfl, fun e => ?_⟩
        rcases hd3 with h | h | h
        · exact h
        · exact absurd h hn
        · exact absurd e h
    obtain ⟨s1, hs1, hsp, hhi⟩ := hst1
    simp only []
    rw [hs1]
    obtain ⟨r, hr⟩ := gno_scan_terminates d2 d3 d4 hd2 inner hinner s1
    obtain ⟨f1, f2, f3⟩ := gno_scan_frame d2 d3 d4 inner _ r hr
    rw [hr]
    cases r with
    | found d3f s2 =>
      simp only []
      have g1 : s2.gno_sp = s1.gno_sp := f1
      exact gno_found_spec d3f d4 hi sp s2 (by omega) (by omega)
    | not_found s2 =>
      simp only []
      have g1 : s2.gno_sp = s1.gno_sp := f1
      have g2 : s2.init_hi_search_pos = s1.init_hi_search_pos := f2
      obtain ⟨d3n, d4n, t, ht, t1, t2, t3, t4, t5⟩ := gno_new_level_spec d3 d4 s2
        (fun e => hhi (g2.symm.trans e)) (by omega) (by omega) (Or.inl (by omega))
      rw [ht]
      simp only []
      by_cases hd4 : d4n = 0
      · rw [if_neg (by simpa using hd4)]
        exact ⟨_, rfl, t3⟩
      · rw [if_pos hd4]
        exact gno_levels_later d2 hi sp inner hd2 hinner k d3n d4n (init_get_obj t) rfl
          (init_get_obj_scratch t) (by show t.gno_sp % 2 = 0; exact t1)
          (by show 2 ≤ t.gno_sp; exact t2) (by show t.gno_sp ≤ 128; exact t3)
          (by show 130 ≤ t.gno_sp + 2 * k; omega)


theorem gno_scan_none (d3 d4 : Nat) (hd4 : 256 ≤ d4) (fuel : Nat) :
    ∀ st : State, gno_scan 65535 d3 d4 fuel st = none := by
  induction fuel with
  | zero => intro st; rfl
  | succ k ih =>
    intro st
    unfold gno_scan
    simp only []
    have hlt := rd8_lt st.workspace (OFF_LIST_AREA + st.list2_ptr + (st.object + 1) % 65536)
    rw [if_neg (by omega), if_pos (by omega)]
    exact ih _

theorem gno_levels_none (hi sp inner d3 d4 : Nat) (hd4 : 256 ≤ d4) (fuel : Nat) (st : State) :
    gno_levels 65535 hi sp inner fuel d3 d4 st = none := by
  cases fuel with
  | zero => rfl
  | succ k =>
    unfold gno_levels
    rw [if_neg (by omega)]
    simp only []
    rw [gno_scan_none d3 d4 hd4]

/-- A round of the loop `gnonext` that finds no match at the last object. -/
theorem gno_scan_past (d2 d3 d4 fuel : Nat) (st : State)
    (hobj : d2 < (st.object + 1) % 65536)
    (hne : d4 ≠ rd8 st.workspace (OFF_LIST_AREA + st.list2_ptr + (st.object + 1) % 65536)) :
    gno_scan d2 d3 d4 (fuel + 1) st =
      some (ScanResult.not_found { st with object := (st.object + 1) % 65536 }) := by
  unfold gno_scan
  simp only []
  rw [if_neg hne, if_neg (by omega)]

set_option maxRecDepth 100000 in
/-- C15 (the claim fails), for each of the things the claim lets vary. With the
maximum object index `d2 = 0xFFFF` and the search position `d4 = 256`, which no byte
of the list equals, the loop `gnonext` never ends. The other four states have
`d2 = 0` and `d4 = 5`, so that the first scan ends after one round without a find.
From a carried-over stack pointer of 127 the first pop at `gnonewlevel` leaves the
stack pointer at 128, and the second pop reads `gno_stack[128]`, outside the 128
entries, and leaves it at 129. From a carried-over stack pointer of 60, with
`d3 = 0x1f` and the 31 entries of `gno_scratch` that `gnoloop` reads not zero, the
loop `gnoloop` has the stack pointer at 0 after 30 rounds, and its next round stores
to `gno_stack[--gno_sp]` with the stack pointer at 255. From a carried-over stack
pointer of 130 the run reaches the pops at `gnonewlevel` with the stack pointer at
130. With `d3 = 32` and an initial high search position of `0x1f` carried over from
a find, the run reaches the statement `gno_scratch[d3] = 0`, which stores outside the
32 entries of `gno_scratch`. -/
theorem C15_counterexample :
    (gno_d2 search_state = 0xFFFF ∧ gno_d4 search_state = 256 ∧
      ¬ ∃ (fuel : Nat) (st : State), get_next_object fuel search_state = some st) ∧
    (gno_d2 (carried_state 0 127 0 0 0) = 0 ∧ gno_d3 (carried_state 0 127 0 0 0) = 0 ∧
      gno_d4 (carried_state 0 127 0 0 0) = 5 ∧
      ∃ s, gno_scan 0 0 5 1 (gno_entry (carried_state 0 127 0 0 0)) =
          some (ScanResult.not_found s) ∧
        s.init_hi_search_pos = 0 ∧ s.gno_sp = 127 ∧
        (gno_pop s).map (fun r => r.2.gno_sp) = some 128) ∧
    (gno_d2 (carried_state 0x1f 60 0 0 1) = 0 ∧ gno_d3 (carried_state 0x1f 60 0 0 1) = 0x1f ∧
      gno_d4 (carried_state 0x1f 60 0 0 1) = 5 ∧
      ∃ s, gno_scan 0 0x1f 5 1 (gno_entry (carried_state 0x1f 60 0 0 1)) =
          some (ScanResult.not_found s) ∧
        s.init_hi_search_pos = 0x1f ∧ s.gno_sp = 60 ∧
        (gno_loop 5 30
          { s with gno_scratch := fun i => if i = 0x1f then 0 else s.gno_scratch i }).map
          (fun t => (t.gno_sp, t.gno_scratch 30)) = some (0, 1)) ∧
    (gno_d2 (carried_state 0 130 0 0 0) = 0 ∧ gno_d3 (carried_state 0 130 0 0 0) = 0 ∧
      gno_d4 (carried_state 0 130 0 0 0) = 5 ∧
      ∃ s, gno_scan 0 0 5 1 (gno_entry (carried_state 0 130 0 0 0)) =
          some (ScanResult.not_found s) ∧
        s.init_hi_search_pos = 0 ∧ s.gno_sp = 130) ∧
    (gno_d2 (carried_state 32 128 1 0x1f 0) = 0 ∧ gno_d3 (carried_state 32 128 1 0x1f 0) = 32 ∧
      gno_d4 (carried_state 32 128 1 0x1f 0) = 5 ∧
      ∃ s, gno_scan 0 32 5 1 (gno_entry (carried_state 32 128 1 0x1f 0)) =
          some (ScanResult.not_found s) ∧
        s.init_hi_search_pos = 0x1f ∧ s.gno_sp = 128) := by
  refine ⟨⟨by decide, by decide, ?_⟩,
    ⟨by decide, by decide, by decide, _,
      gno_scan_past 0 0 5 0 _ (by decide) (by decide), by decide, rfl, by decide⟩,
    ⟨by decide, by decide, by decide, _,
      gno_scan_past 0 0x1f 5 0 _ (by decide) (by decide), by decide, rfl, by decide⟩,
    ⟨by decide, by decide, by decide, _,
      gno_scan_past 0 0 5 0 _ (by decide) (by decide), by decide, rfl⟩,
    ⟨by decide, by decide, by decide, _,
      gno_scan_past 0 32 5 0 _ (by decide) (by decide), by decide, rfl⟩⟩
  intro ⟨fuel, st, h⟩
  revert h
  unfold get_next_object
  simp only []
  have h1 : (get_var_val search_state).1 = 65535 := by decide
  have h2 : var_table (get_var (get_var (get_var_val search_state).2).2).2.workspace
      (get_var (get_var (get_var_val search_state).2).2).1 = 256 := by decide
  rw [h1, h2]
  intro h
  rw [gno_levels_none _ _ _ _ 256 (by omega)] at h
  cases h

/-- C15 (amended): when the maximum object index `d2` is below `0xFFFF`, the
carried-over stack pointer `gno_sp` is even and between 62 and 128, and the search
position `d3` is below 32 (or the statement `gno_scratch[d3] = 0` cannot be reached
with this `d3`: no object has been found, or the initial high search position carried
over is not `0x1f`), `get_next_object` returns (every loop ends within 65536 rounds,
and no access to `gno_stack` or `gno_scratch` is out of bounds), and `gno_sp` is at
most 128 at the return. -/
theorem C15_get_next_object_terminates (st : State) (fuel : Nat) (hfuel : 65536 ≤ fuel)
    (hd2 : gno_d2 st < 65535)
    (hd3 : gno_d3 st < 32 ∨ st.num_object_found = 0 ∨ st.init_hi_search_pos ≠ 0x1f)
    (heven : st.gno_sp % 2 = 0) (h62 : 62 ≤ st.gno_sp) (h128 : st.gno_sp ≤ 128) :
    ∃ r, get_next_object fuel st = some r ∧ r.gno_sp ≤ 128 := by
  unfold get_next_object
  exact gno_levels_first _ _ _ fuel hd2 (by omega) fuel (by omega) _ _ _
    hd3 heven h62 h128

set_option maxRecDepth 100000 in
theorem C15_get_next_object_terminates_witness :
    ((∃ r, get_next_object 65536 find_state = some r ∧ r.gno_sp ≤ 128) ∧
      (get_next_object 4 find_state).map
        (fun r => (r.object, r.num_object_found, r.gno_sp, r.gno_stack 127, r.gno_stack 126)) =
        some (2, 1, 126, 2, 0x1f)) ∧
    ((∃ r, get_next_object 65536 level_state = some r ∧ r.gno_sp ≤ 128) ∧
      (get_next_object 4 level_state).map
        (fun r => (r.object, r.num_object_found, r.gno_sp, r.search_depth)) =
        some (0, 0, 128, 1)) ∧
    (gno_d3 (carried_state 40 128 0 0 0) = 40 ∧
      ∃ r, get_next_object 65536 (carried_state 40 128 0 0 0) = some r ∧ r.gno_sp ≤ 128) :=
  ⟨⟨C15_get_next_object_terminates find_state 65536 (by decide) (by decide) (by decide)
      (by decide) (by decide) (by decide), by decide⟩,
    ⟨C15_get_next_object_terminates level_state 65536 (by decide) (by decide) (by decide)
      (by decide) (by decide) (by decide), by decide⟩,
    ⟨by decide, C15_get_next_object_terminates (carried_state 40 128 0 0 0) 65536 (by decide)
      (by decide) (by decide) (by decide) (by decide) (by decide)⟩⟩


/-! ## C21: `os_set_file_number` -/

theorem set_file_number_from_spec (name : List Nat) (num i : Nat)
    (hd : isdigit (name.getD i 0) = true) (hi : 0 < i) :
    ∀ n, i ≤ n → (∀ j, j ≤ n → i < j → isdigit (name.getD j 0) = false) →
      set_file_number_from name num n = name.set i ((48 + num) % 256) := by
  intro n
  induction n with
  | zero => intro h; omega
  | succ k ih =>
    intro hik hlast
    unfold set_file_number_from
    by_cases e : i = k + 1
    · subst e
      rw [if_pos hd]
    · have hf := hlast (k + 1) (Nat.le_refl _) (by omega)
      rw [hf]
      exact ih (by omega) (fun j hj hij => hlast j (by omega) hij)

/-- C21: for a file name (at most 65535 characters) whose last decimal digit stands
at an index `i > 0`, and `num` in 0..9, `os_set_file_number` returns the name with
the character at `i` replaced by the digit for `num`: the length and every other
character are unchanged. -/
theorem C21_os_set_file_number (name : List Nat) (size num i : Nat)
    (hlen : name.length < 65536) (hnum : num ≤ 9) (hi : 0 < i) (hil : i < name.length)
    (hd : isdigit (name.getD i 0) = true)
    (hlast : ∀ j, j < name.length → i < j → isdigit (name.getD j 0) = false) :
    ∃ r, os_set_file_number name size num = some r ∧ r.length = name.length ∧
      r.getD i 0 = 48 + num ∧ ∀ j, j ≠ i → r.getD j 0 = name.getD j 0 := by
  refine ⟨name.set i ((48 + num) % 256), ?_, ?_, ?_, ?_⟩
  · unfold os_set_file_number
    rw [if_neg (by omega), Nat.mod_eq_of_lt (by omega)]
    exact congrArg some (set_file_number_from_spec name num i hd hi (name.length - 1)
      (by omega) (fun j hj hij => hlast j (by omega) hij))
  · exact List.length_set _ _ _
  · rw [Nat.mod_eq_of_lt (by omega)]
    simp [List.getD_eq_getElem?_getD, hil]
  · intro j hj
    simp [List.getD_eq_getElem?_getD, List.getElem?_set, Ne.symm hj]

theorem C21_os_set_file_number_witness :
    (∃ r, os_set_file_number (str_bytes "gamedat1.dat") 260 2 = some r ∧
      r.length = (str_bytes "gamedat1.dat").length ∧ r.getD 7 0 = 48 + 2 ∧
      ∀ j, j ≠ 7 → r.getD j 0 = (str_bytes "gamedat1.dat").getD j 0) ∧
    os_set_file_number (str_bytes "gamedat1.dat") 260 2 = some (str_bytes "gamedat2.dat") :=
  ⟨C21_os_set_file_number (str_bytes "gamedat1.dat") 260 2 7 (by decide) (by decide)
    (by decide) (by decide) (by decide) (by decide), by decide⟩


/-! ## C22: the 5-bit unpacker -/

theorem peek_effective_add (st : State) (q k : Nat) (hq : q < 65536) (hk : k < 8192) :
    peek (effective st q).2 ((effective st q).1 + k) = story_byte st (q + k) := by
  simp only [peek, effective, phys, story_byte, PAGE_SIZE, MEMORY_BASE_PAGE]
  rw [Nat.mod_eq_of_lt hq]
  split
  · exact congrArg (rd8 st.ram) (by omega)
  · rw [if_pos (by omega)]
    exact congrArg (rd8 st.ram) (by omega)

theorem unpack_digits (b0 b1 b2 b3 b4 : Nat) (h0 : b0 < 256) (h1 : b1 < 256) (h2 : b2 < 256)
    (h3 : b3 < 256) (h4 : b4 < 256) (d i : Nat) (hi : i < 8) :
    (if i = 0 then b0 / 8
      else if i = 1 then (b1 / 64 + b0 * 4) % 32
      else if i = 2 then b1 / 2 % 32
      else if i = 3 then (b2 / 16 + b1 * 16) % 32
      else if i = 4 then (b2 * 2 + b3 / 128) % 32
      else if i = 5 then b3 / 4 % 32
      else if i = 6 then (b3 * 8 + b4 / 32) % 32
      else if i = 7 then b4 % 32
      else d) =
    group5 (b0 * 2 ^ 32 + b1 * 2 ^ 24 + b2 * 2 ^ 16 + b3 * 2 ^ 8 + b4) i := by
  unfold group5
  have hc : i = 0 ∨ i = 1 ∨ i = 2 ∨ i = 3 ∨ i = 4 ∨ i = 5 ∨ i = 6 ∨ i = 7 := by omega
  rcases hc with e | e | e | e | e | e | e | e <;> subst e <;> norm_num <;> omega

theorem group5_lt (v i : Nat) : group5 v i < 32 := Nat.mod_lt _ (by decide)


theorem group40_congr (s t : State) (h : s.ram = t.ram) (q : Nat) :
    group40 s q = group40 t q := by
  unfold group40 story_byte
  rw [h]

theorem story_byte_lt (st : State) (q : Nat) : story_byte st q < 256 := rd8_lt _ _

/-- A call of `get_dictionary_code` with a used-up buffer reads the five story bytes
at `dict_ptr`. -/
theorem get_dictionary_code_refill (st : State) (h8 : st.unpack_count = 8)
    (hq : st.dict_ptr < 65536) :
    (get_dictionary_code st).1 = group5 (group40 st st.dict_ptr) 0 ∧
    (get_dictionary_code st).2.ram = st.ram ∧
    (get_dictionary_code st).2.dict_ptr = (st.dict_ptr + 5) % 65536 ∧
    (get_dictionary_code st).2.unpack_count = 1 ∧
    ∀ i, i < 8 → rd8 (get_dictionary_code st).2.unpack_buf i =
      group5 (group40 st st.dict_ptr) i := by
  have p0 := peek_effective st st.dict_ptr hq
  have p1 := peek_effective_add st st.dict_ptr 1 hq (by omega)
  have p2 := peek_effective_add st st.dict_ptr 2 hq (by omega)
  have p3 := peek_effective_add st st.dict_ptr 3 hq (by omega)
  have p4 := peek_effective_add st st.dict_ptr 4 hq (by omega)
  unfold get_dictionary_code
  rw [if_neg (by simp [h8])]
  simp only []
  rw [p0, p1, p2, p3, p4]
  refine ⟨?_, rfl, trivial, trivial, ?_⟩
  · exact unpack_digits (story_byte st st.dict_ptr) (story_byte st (st.dict_ptr + 1))
      (story_byte st (st.dict_ptr + 2)) (story_byte st (st.dict_ptr + 3))
      (story_byte st (st.dict_ptr + 4)) (story_byte_lt _ _) (story_byte_lt _ _)
      (story_byte_lt _ _) (story_byte_lt _ _) (story_byte_lt _ _) 0 0 (by omega)
  · intro i hi
    have ki := unpack_digits (story_byte st st.dict_ptr) (story_byte st (st.dict_ptr + 1))
      (story_byte st (st.dict_ptr + 2)) (story_byte st (st.dict_ptr + 3))
      (story_byte st (st.dict_ptr + 4)) (story_byte_lt _ _) (story_byte_lt _ _)
      (story_byte_lt _ _) (story_byte_lt _ _) (story_byte_lt _ _) (st.unpack_buf i) i hi
    unfold rd8
    show (if i = 0 then _ else _) % 256 = _
    rw [ki]
    exact Nat.mod_eq_of_lt (Nat.lt_trans (group5_lt _ _) (by decide))

/-- A call of `get_dictionary_code` with codes left in the buffer takes the next. -/
theorem get_dictionary_code_next (st : State) (h8 : st.unpack_count < 8) :
    get_dictionary_code st =
      (rd8 st.unpack_buf st.unpack_count, { st with unpack_count := st.unpack_count + 1 }) := by
  unfold get_dictionary_code
  rw [if_pos (by omega), Nat.mod_eq_of_lt (by omega)]


theorem nth_dictionary_code_zero (st : State) :
    nth_dictionary_code st 0 = get_dictionary_code st := rfl

theorem nth_dictionary_code_succ (st : State) (n : Nat) :
    nth_dictionary_code st (n + 1) = get_dictionary_code (nth_dictionary_code st n).2 := rfl

theorem nth_dictionary_code_spec (st : State) (p : Nat) (n : Nat) :
    (nth_dictionary_code (init_dict st p) n).1 =
      group5 (group40 st ((p + 5 * (n / 8)) % 65536)) (n % 8) ∧
    (nth_dictionary_code (init_dict st p) n).2.ram = st.ram ∧
    (nth_dictionary_code (init_dict st p) n).2.dict_ptr = (p + 5 * (n / 8 + 1)) % 65536 ∧
    (nth_dictionary_code (init_dict st p) n).2.unpack_count = n % 8 + 1 ∧
    ∀ i, i < 8 → rd8 (nth_dictionary_code (init_dict st p) n).2.unpack_buf i =
      group5 (group40 st ((p + 5 * (n / 8)) % 65536)) i := by
  induction n with
  | zero =>
    obtain ⟨a1, a2, a3, a4, a5⟩ := get_dictionary_code_refill (init_dict st p) rfl
      (Nat.mod_lt _ (by decide))
    have e : (init_dict st p).dict_ptr = p % 65536 := rfl
    have q0 : (p + 5 * (0 / 8)) % 65536 = p % 65536 := by omega
    rw [e, group40_congr (init_dict st p) st rfl] at a1 a5
    rw [e] at a3
    rw [nth_dictionary_code_zero, q0]
    exact ⟨a1, a2, by rw [a3]; omega, a4, a5⟩
  | succ k ih =>
    obtain ⟨b1, b2, b3, b4, b5⟩ := ih
    rw [nth_dictionary_code_succ]
    generalize (nth_dictionary_code (init_dict st p) k).2 = s at b2 b3 b4 b5 ⊢
    by_cases h7 : k % 8 = 7
    · have q1 : (p + 5 * ((k + 1) / 8)) % 65536 = (p + 5 * (k / 8 + 1)) % 65536 := by omega
      have m1 : (k + 1) % 8 = 0 := by omega
      have q2 : (p + 5 * ((k + 1) / 8 + 1)) % 65536 =
          ((p + 5 * (k / 8 + 1)) % 65536 + 5) % 65536 := by omega
      have c8 : s.unpack_count = 8 := by omega
      have hlt : s.dict_ptr < 65536 := by rw [b3]; exact Nat.mod_lt _ (by decide)
      rw [q1, m1, q2, ← b3]
      obtain ⟨a1, a2, a3, a4, a5⟩ := get_dictionary_code_refill s c8 hlt
      rw [group40_congr s st b2] at a1 a5
      exact ⟨a1, a2.trans b2, a3, a4, a5⟩
    · have q1 : (k + 1) / 8 = k / 8 := by omega
      have m1 : (k + 1) % 8 = k % 8 + 1 := by omega
      have c8 : s.unpack_count < 8 := by omega
      have c9 : s.unpack_count + 1 = k % 8 + 1 + 1 := by omega
      have c10 : k % 8 + 1 < 8 := by omega
      rw [get_dictionary_code_next s c8, q1, m1]
      refine ⟨?_, b2, b3, c9, b5⟩
      show rd8 s.unpack_buf s.unpack_count = _
      rw [b4]
      exact b5 _ c10

theorem group40_lt (st : State) (q : Nat) : group40 st q < 2 ^ 40 := by
  unfold group40
  have h0 := story_byte_lt st q
  have h1 := story_byte_lt st (q + 1)
  have h2 := story_byte_lt st (q + 2)
  have h3 := story_byte_lt st (q + 3)
  have h4 := story_byte_lt st (q + 4)
  norm_num
  omega

theorem group5_sum (v : Nat) (hv : v < 2 ^ 40) :
    v = group5 v 0 * 32 ^ 7 + group5 v 1 * 32 ^ 6 + group5 v 2 * 32 ^ 5 + group5 v 3 * 32 ^ 4 +
      group5 v 4 * 32 ^ 3 + group5 v 5 * 32 ^ 2 + group5 v 6 * 32 + group5 v 7 := by
  unfold group5
  norm_num at hv ⊢
  omega

/-- C22: after `init_dict(p)`, call number `n` (from 0) of `get_dictionary_code`
returns the 5-bit group number `n mod 8`, most significant first, of the 40-bit
big-endian value of the five story bytes at `p + 5 * (n div 8)` (mod 2^16); the code
is below 32; the call leaves `dict_ptr = p + 5 * (n div 8 + 1)` (mod 2^16) and
`unpack_count = n mod 8 + 1`, so that five bytes are read once every eight calls;
the story is not changed; and the eight codes of a group give back its 40 bits. -/
theorem C22_unpacker (st : State) (p n : Nat) :
    (nth_dictionary_code (init_dict st p) n).1 =
      group5 (group40 st ((p + 5 * (n / 8)) % 65536)) (n % 8) ∧
    (nth_dictionary_code (init_dict st p) n).1 < 32 ∧
    (nth_dictionary_code (init_dict st p) n).2.dict_ptr = (p + 5 * (n / 8 + 1)) % 65536 ∧
    (nth_dictionary_code (init_dict st p) n).2.unpack_count = n % 8 + 1 ∧
    (nth_dictionary_code (init_dict st p) n).2.ram = st.ram ∧
    group40 st ((p + 5 * (n / 8)) % 65536) =
      (nth_dictionary_code (init_dict st p) (8 * (n / 8))).1 * 32 ^ 7 +
      (nth_dictionary_code (init_dict st p) (8 * (n / 8) + 1)).1 * 32 ^ 6 +
      (nth_dictionary_code (init_dict st p) (8 * (n / 8) + 2)).1 * 32 ^ 5 +
      (nth_dictionary_code (init_dict st p) (8 * (n / 8) + 3)).1 * 32 ^ 4 +
      (nth_dictionary_code (init_dict st p) (8 * (n / 8) + 4)).1 * 32 ^ 3 +
      (nth_dictionary_code (init_dict st p) (8 * (n / 8) + 5)).1 * 32 ^ 2 +
      (nth_dictionary_code (init_dict st p) (8 * (n / 8) + 6)).1 * 32 +
      (nth_dictionary_code (init_dict st p) (8 * (n / 8) + 7)).1 := by
  obtain ⟨a1, a2, a3, a4, _⟩ := nth_dictionary_code_spec st p n
  refine ⟨a1, by rw [a1]; exact group5_lt _ _, a3, a4, a2, ?_⟩
  have key : ∀ i, i < 8 → (nth_dictionary_code (init_dict st p) (8 * (n / 8) + i)).1 =
      group5 (group40 st ((p + 5 * (n / 8)) % 65536)) i := by
    intro i hi
    have h := (nth_dictionary_code_spec st p (8 * (n / 8) + i)).1
    rw [show (8 * (n / 8) + i) / 8 = n / 8 by omega, show (8 * (n / 8) + i) % 8 = i by omega] at h
    exact h
  have k0 := key 0 (by omega)
  rw [Nat.add_zero] at k0
  rw [k0, key 1 (by omega), key 2 (by omega), key 3 (by omega), key 4 (by omega),
    key 5 (by omega), key 6 (by omega), key 7 (by omega)]
  exact group5_sum _ (group40_lt _ _)


/-! ## C23: dictionary character decoding -/

set_option maxRecDepth 100000 in
theorem shl_and (d0 : Nat) (h : d0 < 256) : (d0 <<< 5) &&& 0xe0 = (d0 &&& 7) <<< 5 := by
  revert d0
  decide

theorem le_lor_128 (y : Nat) : 128 ≤ 128 ||| y := by
  by_contra h
  have h1 : (128 ||| y).testBit 7 = false := Nat.testBit_lt_two_pow (by omega)
  rw [Nat.testBit_or] at h1
  simp at h1
  exact absurd h1.1 (by decide)

theorem long_code_bounds (a b : Nat) :
    128 ≤ 0x80 ||| ((a &&& 7) <<< 5) ||| (b &&& 0x1f) ∧
    0x80 ||| ((a &&& 7) <<< 5) ||| (b &&& 0x1f) < 256 := by
  constructor
  · rw [Nat.lor_assoc]
    exact le_lor_128 _
  · have h1 : a &&& 7 ≤ 7 := Nat.and_le_right
    have h2 : b &&& 0x1f ≤ 0x1f := Nat.and_le_right
    have h3 : (a &&& 7) <<< 5 < 2 ^ 8 := by rw [Nat.shiftLeft_eq]; omega
    exact Nat.or_lt_two_pow (Nat.or_lt_two_pow (by decide) h3) (by omega)

theorem get_dictionary_code_lt (st : State) : (get_dictionary_code st).1 < 256 := by
  unfold get_dictionary_code
  split
  · exact rd8_lt _ _
  · have h : peek (effective st st.dict_ptr).2 (effective st st.dict_ptr).1 < 256 := rd8_lt _ _
    show peek (effective st st.dict_ptr).2 (effective st st.dict_ptr).1 / 8 < 256
    omega

theorem get_dictionary_code_word_case (s : State) :
    (get_dictionary_code s).2.word_case = s.word_case := by
  unfold get_dictionary_code
  by_cases h : s.unpack_count ≠ 8
  · rw [if_pos h]
  · rw [if_neg h]
    rfl

theorem get_dictionary_eq (fuel : Nat) (st : State) (d0 : Nat) :
    get_dictionary (fuel + 1) st d0 =
      if 0x1a ≤ d0 then get_long_code fuel st else some (d0 + 0x61, st) := rfl

/-- C23: `get_dictionary(c)` returns `c + 0x61` (a letter `a` .. `z`) for `c < 0x1a`,
taking no code and leaving the state as it is. For `c >= 0x1a` it takes the next
code `c1`; when `c1` is not `0x10` it takes one more code `c2` and returns
`0x80 | ((c1 & 7) << 5) | (c2 & 0x1f)`, a value from 128 to 255; when `c1` is `0x10`
it sets `word_case` and returns what `get_dictionary` returns for the code after. -/
theorem C23_get_dictionary (fuel : Nat) (st : State) (c : Nat) :
    (c < 0x1a → get_dictionary fuel st c = some (c + 0x61, st) ∧
      0x61 ≤ c + 0x61 ∧ c + 0x61 ≤ 0x7a) ∧
    (0x1a ≤ c → (get_dictionary_code st).1 ≠ 0x10 →
      get_dictionary (fuel + 1) st c =
        some (0x80 ||| (((get_dictionary_code st).1 &&& 7) <<< 5) |||
            ((get_dictionary_code (get_dictionary_code st).2).1 &&& 0x1f),
          (get_dictionary_code (get_dictionary_code st).2).2) ∧
      128 ≤ 0x80 ||| (((get_dictionary_code st).1 &&& 7) <<< 5) |||
            ((get_dictionary_code (get_dictionary_code st).2).1 &&& 0x1f) ∧
      0x80 ||| (((get_dictionary_code st).1 &&& 7) <<< 5) |||
            ((get_dictionary_code (get_dictionary_code st).2).1 &&& 0x1f) < 256) ∧
    (0x1a ≤ c → (get_dictionary_code st).1 = 0x10 →
      get_dictionary (fuel + 1) st c =
        get_dictionary fuel
          (get_dictionary_code { (get_dictionary_code st).2 with word_case := true }).2
          (get_dictionary_code { (get_dictionary_code st).2 with word_case := true }).1 ∧
      (get_dictionary_code { (get_dictionary_code st).2 with word_case := true }).2.word_case
        = true) := by
  refine ⟨fun hc => ⟨?_, by omega, by omega⟩,
    fun hc h1 => ⟨?_, (long_code_bounds _ _).1, (long_code_bounds _ _).2⟩,
    fun hc h1 => ⟨?_, ?_⟩⟩
  · cases fuel with
    | zero =>
      unfold get_dictionary
      rw [if_neg (by omega)]
    | succ k =>
      unfold get_dictionary
      rw [if_neg (by omega)]
  · rw [get_dictionary_eq, if_pos hc]
    unfold get_long_code
    show (if (get_dictionary_code st).1 = 0x10 then _ else _) = _
    rw [if_neg h1, ← shl_and _ (get_dictionary_code_lt st)]
    rfl
  · rw [get_dictionary_eq, if_pos hc]
    unfold get_long_code
    show (if (get_dictionary_code st).1 = 0x10 then _ else _) = _
    rw [if_pos h1]
  · exact get_dictionary_code_word_case _


theorem C23_get_dictionary_witness :
    (get_dictionary 0 zero_state 3 = some (3 + 0x61, zero_state) ∧
      0x61 ≤ 3 + 0x61 ∧ 3 + 0x61 ≤ 0x7a) ∧
    (get_dictionary (0 + 1) zero_state 0x1a =
        some (0x80 ||| (((get_dictionary_code zero_state).1 &&& 7) <<< 5) |||
            ((get_dictionary_code (get_dictionary_code zero_state).2).1 &&& 0x1f),
          (get_dictionary_code (get_dictionary_code zero_state).2).2) ∧
      128 ≤ 0x80 ||| (((get_dictionary_code zero_state).1 &&& 7) <<< 5) |||
            ((get_dictionary_code (get_dictionary_code zero_state).2).1 &&& 0x1f) ∧
      0x80 ||| (((get_dictionary_code zero_state).1 &&& 7) <<< 5) |||
            ((get_dictionary_code (get_dictionary_code zero_state).2).1 &&& 0x1f) < 256) ∧
    (get_dictionary (1 + 1) case_state 0x1b =
        get_dictionary 1
          (get_dictionary_code { (get_dictionary_code case_state).2 with word_case := true }).2
          (get_dictionary_code { (get_dictionary_code case_state).2 with word_case := true }).1 ∧
      (get_dictionary_code
        { (get_dictionary_code case_state).2 with word_case := true }).2.word_case = true) :=
  ⟨(C23_get_dictionary 0 zero_state 3).1 (by decide),
    (C23_get_dictionary 0 zero_state 0x1a).2.1 (by decide) (by decide),
    (C23_get_dictionary 1 case_state 0x1b).2.2 (by decide) (by decide)⟩


/-! ## C24: `get_md_length` -/

theorem effective_congr (st : State) (p q : Nat) (h : p % 65536 = q % 65536) :
    effective st p = effective st q := by
  unfold effective
  simp only []
  rw [h]

theorem effective_effective (st : State) (p q : Nat) :
    (effective (effective st p).2 q) = effective st q := rfl

theorem peek_effective_mod (st : State) (q : Nat) :
    peek (effective st q).2 (effective st q).1 = story_byte st (q % 65536) := by
  rw [effective_congr st q (q % 65536) (by omega)]
  exact peek_effective st _ (Nat.mod_lt _ (by decide))

theorem md_group_effective (st : State) (p a : Nat) :
    md_group (effective st p).2 a = md_group st a := rfl

theorem get_md_length_loop_succ (fuel : Nat) (st : State) (ptr tot : Nat) :
    get_md_length_loop (fuel + 1) st ptr tot =
      if (peek (effective st ptr).2 (effective st ptr).1 + 65535) % 65536 % 64 = 0x3f then
        get_md_length_loop fuel (effective st ptr).2 ((ptr + 1) % 65536)
          ((tot + (peek (effective st ptr).2 (effective st ptr).1 + 65535) % 65536 % 64) % 65536)
      else
        some ((tot + (peek (effective st ptr).2 (effective st ptr).1 + 65535) % 65536 % 64)
          % 65536, (ptr + 1) % 65536, (effective st ptr).2) := rfl

theorem get_md_length_loop_spec (g : Nat) (hlt : g < 0x3f) (k : Nat) :
    ∀ (fuel : Nat) (st : State) (a tot : Nat), k < fuel →
      (∀ j, j < k → md_group st (a + j) = 0x3f) → md_group st (a + k) = g →
      get_md_length_loop fuel st a tot =
        some ((tot + 63 * k + g) % 65536, (a + k + 1) % 65536, (effective st (a + k)).2) := by
  induction k with
  | zero =>
    intro fuel st a tot hf _ hg
    obtain ⟨f, rfl⟩ : ∃ f, fuel = f + 1 := ⟨fuel - 1, by omega⟩
    rw [get_md_length_loop_succ, peek_effective_mod]
    have hg2 : (story_byte st (a % 65536) + 65535) % 65536 % 64 = g := hg
    rw [hg2, if_neg (by omega)]
    rfl
  | succ n ih =>
    intro fuel st a tot hf hrun hg
    obtain ⟨f, rfl⟩ : ∃ f, fuel = f + 1 := ⟨fuel - 1, by omega⟩
    rw [get_md_length_loop_succ, peek_effective_mod]
    have h0 : (story_byte st (a % 65536) + 65535) % 65536 % 64 = 0x3f := hrun 0 (by omega)
    rw [h0, if_pos rfl]
    have hm : ∀ j, md_group st ((a + 1) % 65536 + j) = md_group st (a + (j + 1)) := by
      intro j
      unfold md_group
      rw [show ((a + 1) % 65536 + j) % 65536 = (a + (j + 1)) % 65536 by omega]
    rw [ih f (effective st a).2 ((a + 1) % 65536) ((tot + 0x3f) % 65536) (by omega)
      (fun j hj => by rw [md_group_effective, hm]; exact hrun (j + 1) (by omega))
      (by rw [md_group_effective, hm]; exact hg)]
    rw [effective_effective,
      effective_congr st ((a + 1) % 65536 + n) (a + (n + 1)) (by omega)]
    rw [show ((tot + 63) % 65536 + 63 * n + g) % 65536 = (tot + 63 * (n + 1) + g) % 65536
      by omega, show ((a + 1) % 65536 + n + 1) % 65536 = (a + (n + 1) + 1) % 65536 by omega]

/-- C24 (the claim fails): for a record whose first byte is 5, `get_md_length`
returns 4, the group `(5 - 1) & 0x3f`, and not the group `5 & 0x3f = 5` the claim
sums. -/
theorem C24_counterexample :
    (get_md_length 1 md_state 0).map (fun r => (r.1, r.2.1)) = some (4, 1) ∧
    md_length_as_claimed md_state 1 0 = 5 := by
  decide

/-- C24 (amended): for a record at the address `a` whose first `k` bytes have the
group `(byte - 1) & 0x3f` equal to `0x3f` and whose next byte has a group `g` less
than `0x3f`, `get_md_length` returns the sum `63 * k + g` of these groups (mod 2^16)
and leaves the pointer just past the last length byte, at `a + k + 1`. -/
theorem C24_get_md_length (st : State) (a k g fuel : Nat) (hfuel : k < fuel)
    (hrun : ∀ j, j < k → md_group st (a + j) = 0x3f) (hg : md_group st (a + k) = g)
    (hlt : g < 0x3f) :
    get_md_length fuel st a =
      some ((63 * k + g) % 65536, (a + k + 1) % 65536, (effective st (a + k)).2) := by
  unfold get_md_length
  rw [get_md_length_loop_spec g hlt k fuel st a 0 hfuel hrun hg, Nat.zero_add]

theorem C24_get_md_length_witness :
    get_md_length 1 md_state 0 =
      some ((63 * 0 + 4) % 65536, (0 + 0 + 1) % 65536, (effective md_state (0 + 0)).2) :=
  C24_get_md_length md_state 0 0 4 1 (by decide) (by decide) (by decide) (by decide)


/-! ## C26: literal word references -/

theorem display_word_ref_literal (fuel : Nat) (st : State) (ref : Nat)
    (hlit : 0xf80 ≤ ref % 4096) :
    display_word_ref fuel st ref =
      some (with_out { st with word_case := false, d5 := ref / 4096 % 8, mdt_mode := 2 }
        ((literal_chars ref).foldl put_char (out_state st))) := by
  unfold display_word_ref literal_chars
  simp only []
  rw [if_neg (by omega)]
  by_cases h1 : ref / 4096 % 8 / 2 % 2 = 1 <;> by_cases h2 : ref % 4096 % 128 = 0x7e <;>
    by_cases h3 : ref / 4096 % 8 % 2 = 1 <;>
    simp only [h1, h2, h3, if_true, if_false, ne_eq, not_true_eq_false, not_false_eq_true,
      print_char, with_out, out_state, List.foldl, List.append_nil, List.nil_append,
      List.cons_append, List.singleton_append]


theorem peek_effective_add_mod (st : State) (q k : Nat) (hk : k < 8192) :
    peek (effective st q).2 ((effective st q).1 + k) = story_byte st (q % 65536 + k) := by
  rw [effective_congr st q (q % 65536) (by omega)]
  exact peek_effective_add st _ k (Nat.mod_lt _ (by decide)) hk

theorem md_words_succ (fuel : Nat) (st : State) (msg_ptr len : Nat) (hlen : len ≠ 0) :
    md_words (fuel + 1) st msg_ptr len =
      if peek (effective st msg_ptr).2 (effective st msg_ptr).1 / 128 % 2 = 1 then
        if (peek (effective st msg_ptr).2 (effective st msg_ptr).1 * 256 +
            peek (effective st (msg_ptr + 1)).2 (effective st (msg_ptr + 1)).1) % 65536
            = 0x8f80 then
          some (effective st (msg_ptr + 1)).2
        else
          match display_word_ref fuel (effective st (msg_ptr + 1)).2
            ((peek (effective st msg_ptr).2 (effective st msg_ptr).1 * 256 +
              peek (effective st (msg_ptr + 1)).2 (effective st (msg_ptr + 1)).1) % 65536) with
          | none => none
          | some s => md_words fuel s ((msg_ptr + 2) % 65536) ((len + 65534) % 65536)
      else
        if (peek (effective st st.word_table).2 ((effective st st.word_table).1 +
              peek (effective st msg_ptr).2 (effective st msg_ptr).1 * 2 % 256) * 256 +
            peek (effective st st.word_table).2 ((effective st st.word_table).1 +
              peek (effective st msg_ptr).2 (effective st msg_ptr).1 * 2 % 256 + 1)) % 65536
            = 0x8f80 then
          some (effective st st.word_table).2
        else
          match display_word_ref fuel (effective st st.word_table).2
            ((peek (effective st st.word_table).2 ((effective st st.word_table).1 +
              peek (effective st msg_ptr).2 (effective st msg_ptr).1 * 2 % 256) * 256 +
            peek (effective st st.word_table).2 ((effective st st.word_table).1 +
              peek (effective st msg_ptr).2 (effective st msg_ptr).1 * 2 % 256 + 1)) % 65536) with
          | none => none
          | some s => md_words fuel s ((msg_ptr + 1) % 65536) ((len + 65535) % 65536) := by
  show (if len = 0 then _ else _) = _
  rw [if_neg hlen]
  rfl

/-- The loop of `print_message` ends at the word reference `0x8f80`. -/
theorem md_words_end (fuel : Nat) (st : State) (msg_ptr len : Nat) (hlen : len ≠ 0)
    (href : message_ref st msg_ptr = 0x8f80) :
    ∃ q, md_words (fuel + 1) st msg_ptr len = some (effective st q).2 := by
  rw [md_words_succ fuel st msg_ptr len hlen, peek_effective_mod, peek_effective_mod]
  unfold message_ref at href
  have hb := story_byte_lt st (msg_ptr % 65536)
  by_cases h : 128 ≤ story_byte st (msg_ptr % 65536)
  · rw [if_pos h] at href
    rw [if_pos (by omega), href]
    exact ⟨_, rfl⟩
  · rw [if_neg h] at href
    rw [if_neg (by omega),
      show story_byte st (msg_ptr % 65536) * 2 % 256 = 2 * story_byte st (msg_ptr % 65536)
        by omega,
      peek_effective_add_mod st st.word_table (2 * story_byte st (msg_ptr % 65536)) (by omega),
      Nat.add_assoc (effective st st.word_table).1,
      peek_effective_add_mod st st.word_table (2 * story_byte st (msg_ptr % 65536) + 1)
        (by omega), ← Nat.add_assoc, href]
    exact ⟨_, rfl⟩

/-- C26: for a word reference `ref` with `ref & 0xfff >= 0xf80`, `display_word_ref`
passes to `print_char` exactly the characters of `literal_chars` (a space when bit 1
of `(ref >> 12) & 7` is set, the character `ref & 0x7f` unless it is `0x7e`, a space
when bit 0 is set) and reads no dictionary data: the story, the paging and the
unpacker are as before. In `print_message` the reference `0x8f80` ends the message:
the loop returns at once, without a call of `display_word_ref`. -/
theorem C26_literal_word_ref (fuel : Nat) (st : State) (ref msg_ptr len : Nat) :
    (0xf80 ≤ ref % 4096 →
      ∃ r, display_word_ref fuel st ref = some r ∧
        out_state r = (literal_chars ref).foldl put_char (out_state st) ∧
        r.ram = st.ram ∧ r.mmu0 = st.mmu0 ∧ r.mmu1 = st.mmu1 ∧
        r.current_page = st.current_page ∧ r.dict_ptr = st.dict_ptr ∧
        r.unpack_count = st.unpack_count ∧ r.unpack_buf = st.unpack_buf) ∧
    (len ≠ 0 → message_ref st msg_ptr = 0x8f80 →
      ∃ r, md_words (fuel + 1) st msg_ptr len = some r ∧ out_state r = out_state st ∧
        r.word_case = st.word_case ∧ r.d5 = st.d5 ∧ r.mdt_mode = st.mdt_mode) := by
  constructor
  · intro hlit
    exact ⟨_, display_word_ref_literal fuel st ref hlit, rfl, rfl, rfl, rfl, rfl, rfl, rfl, rfl⟩
  · intro hlen href
    obtain ⟨q, hq⟩ := md_words_end fuel st msg_ptr len hlen href
    exact ⟨_, hq, rfl, rfl, rfl, rfl⟩


theorem C26_literal_word_ref_witness :
    (∃ r, display_word_ref 0 zero_state 0x3fc1 = some r ∧
        out_state r = (literal_chars 0x3fc1).foldl put_char (out_state zero_state) ∧
        r.ram = zero_state.ram ∧ r.mmu0 = zero_state.mmu0 ∧ r.mmu1 = zero_state.mmu1 ∧
        r.current_page = zero_state.current_page ∧ r.dict_ptr = zero_state.dict_ptr ∧
        r.unpack_count = zero_state.unpack_count ∧ r.unpack_buf = zero_state.unpack_buf) ∧
    (∃ r, md_words (0 + 1) end_ref_state 0 2 = some r ∧
        out_state r = out_state end_ref_state ∧
        r.word_case = end_ref_state.word_case ∧ r.d5 = end_ref_state.d5 ∧
        r.mdt_mode = end_ref_state.mdt_mode) ∧
    literal_chars 0x3fc1 = [0x20, 0x41, 0x20] :=
  ⟨(C26_literal_word_ref 0 zero_state 0x3fc1 0 0).1 (by decide),
    (C26_literal_word_ref 0 end_ref_state 0 0 2).2 (by decide) (by decide), by decide⟩


/-! ## C25: `print_message` and a failed table walk -/

theorem same_but_paging_refl (s : State) : same_but_paging s s :=
  ⟨s.current_page, s.mmu0, s.mmu1, rfl⟩

theorem same_but_paging_effective (s t : State) (q : Nat) (h : same_but_paging s t) :
    same_but_paging (effective s q).2 t := by
  obtain ⟨a, b, c, rfl⟩ := h
  exact ⟨_, _, _, rfl⟩

theorem same_but_paging_trans (s t u : State) (h1 : same_but_paging s t)
    (h2 : same_but_paging t u) : same_but_paging s u := by
  obtain ⟨a, b, c, rfl⟩ := h1
  obtain ⟨d, e, f, rfl⟩ := h2
  exact ⟨_, _, _, rfl⟩

theorem same_but_paging_fields (s t : State) (h : same_but_paging s t) :
    s.ram = t.ram ∧ out_state s = out_state t ∧ s.word_case = t.word_case ∧ s.d5 = t.d5 ∧
      s.mdt_mode = t.mdt_mode ∧ s.end_md = t.end_md ∧ s.memory_size = t.memory_size := by
  obtain ⟨a, b, c, rfl⟩ := h
  exact ⟨rfl, rfl, rfl, rfl, rfl, rfl, rfl⟩

theorem get_md_length_loop_frame (fuel : Nat) :
    ∀ (st : State) (ptr tot : Nat) (r : Nat × Nat × State),
      get_md_length_loop fuel st ptr tot = some r → same_but_paging r.2.2 st := by
  induction fuel with
  | zero => intro st ptr tot r h; cases h
  | succ f ih =>
    intro st ptr tot r h
    rw [get_md_length_loop_succ] at h
    by_cases hc : (peek (effective st ptr).2 (effective st ptr).1 + 65535) % 65536 % 64 = 0x3f
    · rw [if_pos hc] at h
      have h1 := ih _ _ _ _ h
      exact same_but_paging_trans _ _ _ h1
        (same_but_paging_effective st st ptr (same_but_paging_refl st))
    · rw [if_neg hc] at h
      have e : r = ((tot + (peek (effective st ptr).2 (effective st ptr).1 + 65535) % 65536
          % 64) % 65536, (ptr + 1) % 65536, (effective st ptr).2) := (Option.some.inj h).symm
      rw [e]
      exact same_but_paging_effective st st ptr (same_but_paging_refl st)

theorem md_walk_frame (fuel : Nat) :
    ∀ (st : State) (msg ptr : Nat) (r : Nat × Nat × State),
      md_walk fuel st msg ptr = some r → same_but_paging r.2.2 st := by
  induction fuel with
  | zero => intro st msg ptr r h; cases h
  | succ f ih =>
    intro st msg ptr r h
    unfold md_walk at h
    split at h
    · simp only [] at h
      split at h
      · exact same_but_paging_trans _ _ _ (ih _ _ _ _ h)
          (same_but_paging_effective st st ptr (same_but_paging_refl st))
      · split at h
        · cases h
        · rename_i len p s hg
          exact same_but_paging_trans _ _ _ (ih _ _ _ _ h)
            (same_but_paging_trans _ _ _ (get_md_length_loop_frame _ _ _ _ _ hg)
              (same_but_paging_effective st st ptr (same_but_paging_refl st)))
    · cases h
      exact same_but_paging_refl st


/-- C25 (the claim fails): with `start_md = end_md = 0` and a record of length 1 at
the address 0, the walk of `print_message(2)` leaves the message pointer at 2, beyond
`end_md`, with `m = 1` not yet counted down to 0; the byte there has its top bit
clear, and `print_message` prints the record at 2: the letter `A`. -/
theorem C25_counterexample :
    (md_walk 3 walk_state 2 walk_state.start_md).map (fun r => (r.1, r.2.1)) = some (1, 2) ∧
    walk_state.end_md < 2 ∧
    (print_message 3 walk_state 2).map (fun r => r.output) = some [0x41] := by
  decide

/-- C25 (amended): when the walk of `print_message(msg)` leaves `m` counted down below
0 (at least `0x8000` as a 16-bit value), or stops at a byte with its top bit set,
`print_message` returns without a character printed and without a call of
`display_word_ref`: the output and the variables `word_case`, `d5` and `mdt_mode`
that `display_word_ref` sets are as before. -/
theorem C25_print_message (fuel : Nat) (st : State) (msg m p : Nat) (s : State)
    (hw : md_walk fuel st msg st.start_md = some (m, p, s))
    (hfail : (0x8000 ≤ m ∧ m < 65536) ∨ 128 ≤ story_byte st (p % 65536)) :
    ∃ r, print_message fuel st msg = some r ∧ out_state r = out_state st ∧
      r.word_case = st.word_case ∧ r.d5 = st.d5 ∧ r.mdt_mode = st.mdt_mode := by
  have hs := md_walk_frame fuel st msg st.start_md _ hw
  have hs2 := same_but_paging_effective s st p hs
  obtain ⟨f1, f2, f3, f4, f5, _, _⟩ := same_but_paging_fields _ _ hs
  obtain ⟨g1, g2, g3, g4, g5, _, _⟩ := same_but_paging_fields _ _ hs2
  unfold print_message
  rw [hw]
  simp only []
  by_cases hm : m / 32768 % 2 = 1
  · rw [if_pos hm]
    exact ⟨_, rfl, f2, f3, f4, f5⟩
  · rw [if_neg hm]
    have hb : 128 ≤ story_byte st (p % 65536) := by
      rcases hfail with h | h
      · omega
      · exact h
    have hlt := story_byte_lt st (p % 65536)
    have e : story_byte s (p % 65536) = story_byte st (p % 65536) := by
      unfold story_byte
      rw [f1]
    rw [peek_effective_mod, e, if_pos (by omega)]
    exact ⟨_, rfl, g2, g3, g4, g5⟩

theorem C25_print_message_witness :
    ∃ r, print_message 2 end_ref_state 1 = some r ∧ out_state r = out_state end_ref_state ∧
      r.word_case = end_ref_state.word_case ∧ r.d5 = end_ref_state.d5 ∧
      r.mdt_mode = end_ref_state.mdt_mode :=
  C25_print_message 2 end_ref_state 1 65521 1 (effective end_ref_state 0).2 rfl
    (Or.inl (by decide))


/-! ## C27: `msg_len_v2` -/

theorem msg_len_v2_loop_succ (fuel : Nat) (st : State) (ptr i : Nat) :
    msg_len_v2_loop (fuel + 1) st ptr i =
      if peek (effective st ptr).2 (effective st ptr).1 = 0 then
        if st.memory_size ≤ (ptr + 1) % 65536 then
          some (0, (ptr + 1) % 65536, (effective st ptr).2)
        else msg_len_v2_loop fuel (effective st ptr).2 ((ptr + 1) % 65536) ((i + 255) % 65536)
      else
        some ((i + peek (effective st ptr).2 (effective st ptr).1) % 65536, ptr,
          (effective st ptr).2) := rfl

theorem story_byte_effective (st : State) (q a : Nat) :
    story_byte (effective st q).2 a = story_byte st a := rfl

theorem msg_len_v2_loop_terminates (fuel : Nat) :
    ∀ (st : State) (ptr i : Nat), st.memory_size < 65536 → ptr < st.memory_size →
      st.memory_size - ptr ≤ fuel → ∃ r, msg_len_v2_loop fuel st ptr i = some r := by
  induction fuel with
  | zero => intro st ptr i _ h1 h2; omega
  | succ f ih =>
    intro st ptr i hms hp hf
    rw [msg_len_v2_loop_succ]
    by_cases h0 : peek (effective st ptr).2 (effective st ptr).1 = 0
    · rw [if_pos h0]
      by_cases h1 : st.memory_size ≤ (ptr + 1) % 65536
      · rw [if_pos h1]
        exact ⟨_, rfl⟩
      · rw [if_neg h1]
        have e : (ptr + 1) % 65536 = ptr + 1 := by omega
        rw [e] at h1 ⊢
        exact ih (effective st ptr).2 (ptr + 1) _ hms (by show ptr + 1 < st.memory_size; omega)
          (by show st.memory_size - (ptr + 1) ≤ f; omega)
    · rw [if_neg h0]
      exact ⟨_, rfl⟩

theorem msg_len_v2_loop_run (a : Nat) (ha : a ≠ 0) (k : Nat) :
    ∀ (fuel : Nat) (st : State) (p i : Nat), st.memory_size < 65536 →
      p + k < st.memory_size → k < fuel → (∀ j, j < k → story_byte st (p + j) = 0) →
      story_byte st (p + k) = a →
      msg_len_v2_loop fuel st p i =
        some ((i + 255 * k + a) % 65536, p + k, (effective st (p + k)).2) := by
  induction k with
  | zero =>
    intro fuel st p i hms hp hf _ hb
    obtain ⟨f, rfl⟩ : ∃ f, fuel = f + 1 := ⟨fuel - 1, by omega⟩
    rw [msg_len_v2_loop_succ, peek_effective st p (by omega)]
    rw [Nat.add_zero] at hb
    rw [hb, if_neg ha]
    rfl
  | succ n ih =>
    intro fuel st p i hms hp hf hz hb
    obtain ⟨f, rfl⟩ : ∃ f, fuel = f + 1 := ⟨fuel - 1, by omega⟩
    have h0 := hz 0 (by omega)
    rw [Nat.add_zero] at h0
    have e : (p + 1) % 65536 = p + 1 := by omega
    rw [msg_len_v2_loop_succ, peek_effective st p (by omega), h0, if_pos rfl, e,
      if_neg (by omega)]
    rw [ih f (effective st p).2 (p + 1) _ hms (by show p + 1 + n < st.memory_size; omega)
      (by omega)
      (fun j hj => by
        rw [story_byte_effective, show p + 1 + j = p + (j + 1) by omega]
        exact hz (j + 1) (by omega))
      (by rw [story_byte_effective, show p + 1 + n = p + (n + 1) by omega]; exact hb)]
    rw [effective_effective, show p + 1 + n = p + (n + 1) by omega,
      show ((i + 255) % 65536 + 255 * n + a) % 65536 = (i + 255 * (n + 1) + a) % 65536 by omega]

theorem msg_len_v2_loop_end (d : Nat) :
    ∀ (fuel : Nat) (st : State) (p i : Nat), st.memory_size < 65536 →
      p + d + 1 = st.memory_size → d < fuel →
      (∀ j, j < st.memory_size → p ≤ j → story_byte st j = 0) →
      ∃ s, msg_len_v2_loop fuel st p i = some (0, st.memory_size, s) := by
  induction d with
  | zero =>
    intro fuel st p i hms hp hf hz
    obtain ⟨f, rfl⟩ : ∃ f, fuel = f + 1 := ⟨fuel - 1, by omega⟩
    have e : (p + 1) % 65536 = st.memory_size := by omega
    rw [msg_len_v2_loop_succ, peek_effective st p (by omega), hz p (by omega) (Nat.le_refl p),
      if_pos rfl, e, if_pos (Nat.le_refl _)]
    exact ⟨_, rfl⟩
  | succ n ih =>
    intro fuel st p i hms hp hf hz
    obtain ⟨f, rfl⟩ : ∃ f, fuel = f + 1 := ⟨fuel - 1, by omega⟩
    have e : (p + 1) % 65536 = p + 1 := by omega
    rw [msg_len_v2_loop_succ, peek_effective st p (by omega), hz p (by omega) (Nat.le_refl p),
      if_pos rfl, e, if_neg (by omega)]
    exact ih f (effective st p).2 (p + 1) _ hms (by show p + 1 + n + 1 = st.memory_size; omega)
      (by omega) (fun j hj hpj => hz j hj (by omega))


theorem msg_len_v2_loop_frame (fuel : Nat) :
    ∀ (st : State) (ptr i : Nat) (r : Nat × Nat × State),
      msg_len_v2_loop fuel st ptr i = some r → same_but_paging r.2.2 st := by
  induction fuel with
  | zero => intro st ptr i r h; cases h
  | succ f ih =>
    intro st ptr i r h
    have hp := same_but_paging_effective st st ptr (same_but_paging_refl st)
    rw [msg_len_v2_loop_succ] at h
    by_cases h0 : peek (effective st ptr).2 (effective st ptr).1 = 0
    · rw [if_pos h0] at h
      by_cases h1 : st.memory_size ≤ (ptr + 1) % 65536
      · rw [if_pos h1] at h
        rw [← Option.some.inj h]
        exact hp
      · rw [if_neg h1] at h
        have h2 := ih _ _ _ _ h
        exact same_but_paging_trans _ _ _ h2 hp
    · rw [if_neg h0] at h
      rw [← Option.some.inj h]
      exact hp

theorem msg_len_v2_frame (fuel : Nat) (st : State) (ptr : Nat) (r : Nat × Nat × State)
    (h : msg_len_v2 fuel st ptr = some r) : same_but_paging r.2.2 st := by
  unfold msg_len_v2 at h
  by_cases h0 : st.memory_size ≤ ptr
  · rw [if_pos h0] at h
    rw [← Option.some.inj h]
    exact same_but_paging_refl st
  · rw [if_neg h0] at h
    exact msg_len_v2_loop_frame fuel st ptr 0 r h

theorem skip_v2_frame (fuel : Nat) (k : Nat) :
    ∀ (st : State) (ptr : Nat) (r : Nat × State),
      skip_v2 fuel k st ptr = some r → same_but_paging r.2 st := by
  induction k with
  | zero =>
    intro st ptr r h
    have e : r = (ptr, st) := (Option.some.inj h).symm
    rw [e]
    exact same_but_paging_refl st
  | succ n ih =>
    intro st ptr r h
    unfold skip_v2 at h
    split at h
    · cases h
    · rename_i len p s hm
      have h1 := msg_len_v2_frame fuel st ptr _ hm
      have h2 := ih _ _ _ h
      exact same_but_paging_trans _ _ _ h2 h1

theorem display_word_v2_succ (fuel : Nat) (st : State) (ptr msg : Nat) :
    display_word_v2 (fuel + 1) st ptr msg =
      if msg = 0 then some st
      else
        match skip_v2 (fuel + 1) ((msg + 65535) % 65536) st ptr with
        | none => none
        | some (p, s) =>
          match msg_len_v2 (fuel + 1) s p with
          | none => none
          | some (n, p2, s2) =>
            if n = 0 then some s2
            else words_v2 (display_word_v2 fuel) ((n + 65535) % 65536) s2 p2 := rfl

/-- C27: `msg_len_v2` always returns (with `memory_size` a 16-bit value, within
`memory_size` rounds of its loop). For a pointer `p` followed by `k` zero bytes and
then a non-zero byte `a` at `p + k < memory_size` it returns `255 * k + a` (mod 2^16)
and leaves the pointer at `p + k`. It returns 0 when the pointer is at least
`memory_size`, and when all the bytes from `p` to the end of the story are 0, so that
the pointer becomes `memory_size`. And when `msg_len_v2` returns 0 for the message
`display_word_v2` has skipped to, `display_word_v2` returns with nothing printed. -/
theorem C27_msg_len_v2 (fuel : Nat) (st : State) (p : Nat) (hms : st.memory_size < 65536)
    (hfuel : st.memory_size ≤ fuel) :
    (∃ r, msg_len_v2 fuel st p = some r) ∧
    (∀ k a, p + k < st.memory_size → (∀ j, j < k → story_byte st (p + j) = 0) →
      story_byte st (p + k) = a → a ≠ 0 →
      msg_len_v2 fuel st p = some ((255 * k + a) % 65536, p + k, (effective st (p + k)).2)) ∧
    (st.memory_size ≤ p → msg_len_v2 fuel st p = some (0, p, st)) ∧
    (p < st.memory_size → (∀ j, j < st.memory_size → p ≤ j → story_byte st j = 0) →
      ∃ s, msg_len_v2 fuel st p = some (0, st.memory_size, s)) ∧
    (∀ (ptr msg q q2 : Nat) (s s2 : State), msg ≠ 0 →
      skip_v2 (fuel + 1) ((msg + 65535) % 65536) st ptr = some (q, s) →
      msg_len_v2 (fuel + 1) s q = some (0, q2, s2) →
      ∃ r, display_word_v2 (fuel + 1) st ptr msg = some r ∧ out_state r = out_state st) := by
  refine ⟨?_, ?_, ?_, ?_, ?_⟩
  · unfold msg_len_v2
    by_cases h0 : st.memory_size ≤ p
    · rw [if_pos h0]
      exact ⟨_, rfl⟩
    · rw [if_neg h0]
      exact msg_len_v2_loop_terminates fuel st p 0 hms (by omega) (by omega)
  · intro k a hk hz hb ha
    unfold msg_len_v2
    rw [if_neg (by omega),
      msg_len_v2_loop_run a ha k fuel st p 0 hms hk (by omega) hz hb, Nat.zero_add]
  · intro h0
    unfold msg_len_v2
    rw [if_pos h0]
  · intro hp hz
    unfold msg_len_v2
    rw [if_neg (by omega)]
    exact msg_len_v2_loop_end (st.memory_size - p - 1) fuel st p 0 hms (by omega) (by omega) hz
  · intro ptr msg q q2 s s2 hmsg hskip hlen
    have f1 := skip_v2_frame _ _ _ _ _ hskip
    have f2 := msg_len_v2_frame _ _ _ _ hlen
    have f3 := (same_but_paging_fields _ _ (same_but_paging_trans _ _ _ f2 f1)).2.1
    rw [display_word_v2_succ, if_neg hmsg, hskip]
    simp only []
    rw [hlen]
    exact ⟨s2, rfl, f3⟩


theorem C27_msg_len_v2_witness :
    (∃ r, msg_len_v2 16 v2_state 0 = some r) ∧
    msg_len_v2 16 v2_state 0 =
      some ((255 * 2 + 7) % 65536, 0 + 2, (effective v2_state (0 + 2)).2) ∧
    msg_len_v2 16 v2_state 16 = some (0, 16, v2_state) ∧
    (∃ s, msg_len_v2 16 v2_zero_state 3 = some (0, v2_zero_state.memory_size, s)) ∧
    (∃ r, display_word_v2 (16 + 1) v2_zero_state 5 1 = some r ∧
      out_state r = out_state v2_zero_state) :=
  ⟨(C27_msg_len_v2 16 v2_state 0 (by decide) (by decide)).1,
    (C27_msg_len_v2 16 v2_state 0 (by decide) (by decide)).2.1 2 7 (by decide) (by decide)
      (by decide) (by decide),
    (C27_msg_len_v2 16 v2_state 16 (by decide) (by decide)).2.2.1 (by decide),
    (C27_msg_len_v2 16 v2_zero_state 3 (by decide) (by decide)).2.2.2.1 (by decide)
      (by decide),
    (C27_msg_len_v2 16 v2_zero_state 0 (by decide) (by decide)).2.2.2.2 5 1 5 16
      v2_zero_state (effective v2_zero_state 15).2 (by decide) rfl rfl⟩


/-! ## C28: address operands -/

/-- C28 (the claim fails): with bit 5 of the opcode set, `code_ptr = 10` and the
delta byte 5 at the address 10, `get_addr` returns 15 = 10 + 5, not 10 + 5 - 1 = 14:
`code_ptr` is advanced before the delta is added and 1 subtracted. -/
theorem C28_counterexample :
    addr_state.code / 32 % 2 = 1 ∧ addr_state.code_ptr = 10 ∧
    story_byte addr_state 10 = 5 ∧ (get_addr addr_state).1 = 15 ∧
    addr_as_claimed addr_state = 14 := by
  decide

/-- C28 (amended): when bit 5 (0x20) of the opcode is set, `get_addr` with
`code_ptr = c` pointing at the delta byte returns `c + delta` (`delta` the byte at `c`
read as a signed 8-bit value, arithmetic mod 2^16) and advances `code_ptr` to `c + 1`;
when bit 5 is clear it returns `acode_ptr` plus the little-endian word at `c`
(mod 2^16) and advances `code_ptr` to `c + 2`. -/
theorem C28_get_addr (st : State) (hc : st.code_ptr < 65536) :
    (st.code / 32 % 2 = 1 →
      ((get_addr st).1 : Int) =
        ((st.code_ptr : Int) + int8 (story_byte st st.code_ptr)) % 65536 ∧
      (get_addr st).2.code_ptr = (st.code_ptr + 1) % 65536) ∧
    (¬ st.code / 32 % 2 = 1 →
      (get_addr st).1 = (st.acode_ptr + word_le st st.code_ptr) % 65536 ∧
      (get_addr st).2.code_ptr = (st.code_ptr + 2) % 65536) := by
  constructor
  · intro h
    unfold get_addr
    rw [if_pos h]
    simp only []
    rw [fetch_fst st hc]
    have hb := story_byte_lt st st.code_ptr
    refine ⟨?_, rfl⟩
    show ((((st.code_ptr + 1) % 65536 + (if story_byte st st.code_ptr < 128 then
      story_byte st st.code_ptr else story_byte st st.code_ptr + 65536 - 256) + 65535)
      % 65536 : Nat) : Int) = _
    unfold int8
    by_cases hs : story_byte st st.code_ptr < 128
    · rw [if_pos hs, if_pos hs]
      omega
    · rw [if_neg hs, if_neg hs]
      omega
  · intro h
    unfold get_addr
    rw [if_neg h]
    simp only []
    rw [L9WORD_effective st st.code_ptr hc]
    exact ⟨rfl, trivial⟩

theorem C28_get_addr_witness :
    (((get_addr addr_state).1 : Int) =
        ((addr_state.code_ptr : Int) + int8 (story_byte addr_state addr_state.code_ptr))
          % 65536 ∧
      (get_addr addr_state).2.code_ptr = (addr_state.code_ptr + 1) % 65536) ∧
    ((get_addr zero_state).1 =
        (zero_state.acode_ptr + word_le zero_state zero_state.code_ptr) % 65536 ∧
      (get_addr zero_state).2.code_ptr = (zero_state.code_ptr + 2) % 65536) :=
  ⟨(C28_get_addr addr_state (by decide)).1 (by decide),
    (C28_get_addr zero_state (by decide)).2 (by decide)⟩


/-! ## C29 and C30: exits -/

theorem group_ends_mono (F : Nat → Nat) (a d : Nat) :
    group_ends F a ≤ group_ends F (a + d) := by
  induction d with
  | zero => exact Nat.le_refl _
  | succ n ih =>
    show group_ends F a ≤ group_ends F (a + n) + _
    omega

theorem exit_skip_succ (st : State) (fuel a0 d1 : Nat) :
    exit_skip st (fuel + 1) a0 d1 =
      if st.game_type = 4 ∧ peek st a0 = 0 ∧ peek st ((a0 + 1) % 65536) = 0 then
        some SkipResult.notfn4
      else if peek st a0 / 128 % 2 = 0 then exit_skip st fuel ((a0 + 2) % 65536) d1
      else if (d1 + 255) % 256 ≠ 0 then
        exit_skip st fuel ((a0 + 2) % 65536) ((d1 + 255) % 256)
      else some (SkipResult.at_group ((a0 + 2) % 65536)) := rfl

/-- The first loop of `do_exit` stops at the record after the `d1`-th group end. -/
theorem exit_skip_spec (E : State) (b s : Nat) (F T : Nat → Nat)
    (hF : ∀ k, k < s → peek E (b + 2 * k) = F k)
    (hT : ∀ k, k < s → peek E (b + 2 * k + 1) = T k)
    (hb : b + 2 * s < 65536) (hlast : 128 ≤ F (s - 1)) (hbyte : ∀ k, F k < 256)
    (hv4 : E.game_type = 4 → ∀ k, k < s → ¬ (F k = 0 ∧ T k = 0)) (n : Nat) :
    ∀ (fuel k d1 : Nat), k + n = s → 1 ≤ d1 → d1 ≤ 255 →
      group_ends F s = group_ends F k + d1 → n ≤ fuel →
      exit_skip E fuel (b + 2 * k) d1 = some (SkipResult.at_group (b + 2 * s)) := by
  induction n with
  | zero =>
    intro fuel k d1 hk h1 _ hg _
    have e : k = s := by omega
    rw [e] at hg
    omega
  | succ m ih =>
    intro fuel k d1 hk h1 h255 hg hf
    obtain ⟨f, rfl⟩ : ∃ f, fuel = f + 1 := ⟨fuel - 1, by omega⟩
    have e1 : (b + 2 * k + 1) % 65536 = b + 2 * k + 1 := by omega
    have e2 : (b + 2 * k + 2) % 65536 = b + 2 * (k + 1) := by omega
    have hstep : group_ends F (k + 1) = group_ends F k + (if 128 ≤ F k then 1 else 0) := rfl
    have hmono := group_ends_mono F (k + 1) (s - (k + 1))
    rw [show k + 1 + (s - (k + 1)) = s by omega] at hmono
    rw [exit_skip_succ, e1, e2, hF k (by omega), hT k (by omega)]
    have hbk := hbyte k
    rw [if_neg (fun h => hv4 h.1 k (by omega) ⟨h.2.1, h.2.2⟩)]
    by_cases htop : 128 ≤ F k
    · rw [if_pos htop] at hstep
      rw [if_neg (by omega)]
      by_cases hd : (d1 + 255) % 256 = 0
      · rw [if_neg (by simpa using hd)]
        have hd1 : d1 = 1 := by omega
        by_cases hs : k + 1 = s
        · rw [hs]
        · exfalso
          have hm2 := group_ends_mono F (k + 1) (s - 1 - (k + 1))
          rw [show k + 1 + (s - 1 - (k + 1)) = s - 1 by omega] at hm2
          have hlast2 : group_ends F (s - 1 + 1) = group_ends F (s - 1) + 1 := by
            show group_ends F (s - 1) + _ = _
            rw [if_pos hlast]
          rw [show s - 1 + 1 = s by omega] at hlast2
          omega
      · rw [if_pos hd]
        exact ih f (k + 1) ((d1 + 255) % 256) (by omega) (by omega) (by omega) (by omega)
          (by omega)
    · rw [if_neg htop] at hstep
      rw [if_pos (by omega)]
      exact ih f (k + 1) d1 (by omega) h1 h255 (by omega) (by omega)


theorem exit_own_succ (st : State) (d6 fuel a0 : Nat) :
    exit_own st d6 (fuel + 1) a0 =
      if peek st a0 % 16 = d6 then some (some (peek st a0, peek st ((a0 + 1) % 65536)))
      else if peek st a0 / 128 % 2 = 0 then exit_own st d6 fuel ((a0 + 2) % 65536)
      else some none := rfl

/-- The scan of a group returns its first record for the direction `d6`. -/
theorem exit_own_found (E : State) (b j d6 : Nat) (F T : Nat → Nat)
    (hF : ∀ k, k ≤ j → peek E (b + 2 * k) = F k)
    (hT : ∀ k, k ≤ j → peek E (b + 2 * k + 1) = T k)
    (hb : b + 2 * j + 1 < 65536) (hmatch : F j % 16 = d6) (n : Nat) :
    ∀ (fuel k : Nat), k + n = j → (∀ i, k ≤ i → i < j → F i < 128 ∧ F i % 16 ≠ d6) →
      n < fuel → exit_own E d6 fuel (b + 2 * k) = some (some (F j, T j)) := by
  induction n with
  | zero =>
    intro fuel k hk _ hf
    obtain ⟨f, rfl⟩ : ∃ f, fuel = f + 1 := ⟨fuel - 1, by omega⟩
    have e : k = j := by omega
    have e1 : (b + 2 * j + 1) % 65536 = b + 2 * j + 1 := by omega
    rw [e, exit_own_succ, e1, hF j (Nat.le_refl _), hT j (Nat.le_refl _), if_pos hmatch]
  | succ m ih =>
    intro fuel k hk hg hf
    obtain ⟨f, rfl⟩ : ∃ f, fuel = f + 1 := ⟨fuel - 1, by omega⟩
    have e2 : (b + 2 * k + 2) % 65536 = b + 2 * (k + 1) := by omega
    have h := hg k (Nat.le_refl _) (by omega)
    rw [exit_own_succ, hF k (by omega), if_neg h.2, if_pos (by omega), e2]
    exact ih f (k + 1) (by omega) (fun i h1 h2 => hg i (by omega) h2) (by omega)

/-- The scan of a group without a record for the direction `d6` ends at the record
that ends the group. -/
theorem exit_own_none (E : State) (b e d6 : Nat) (F : Nat → Nat)
    (hF : ∀ k, k ≤ e → peek E (b + 2 * k) = F k)
    (hb : b + 2 * e + 1 < 65536) (hbyte : ∀ k, F k < 256) (hend : 128 ≤ F e) (n : Nat) :
    ∀ (fuel k : Nat), k + n = e → (∀ i, k ≤ i → i ≤ e → F i % 16 ≠ d6) →
      (∀ i, k ≤ i → i < e → F i < 128) → n < fuel →
      exit_own E d6 fuel (b + 2 * k) = some none := by
  induction n with
  | zero =>
    intro fuel k hk hd _ hf
    obtain ⟨f, rfl⟩ : ∃ f, fuel = f + 1 := ⟨fuel - 1, by omega⟩
    have e0 : k = e := by omega
    have hbe := hbyte e
    rw [e0, exit_own_succ, hF e (Nat.le_refl _), if_neg (hd e (by omega) (Nat.le_refl _)),
      if_neg (by omega)]
  | succ m ih =>
    intro fuel k hk hd hg hf
    obtain ⟨f, rfl⟩ : ∃ f, fuel = f + 1 := ⟨fuel - 1, by omega⟩
    have e2 : (b + 2 * k + 2) % 65536 = b + 2 * (k + 1) := by omega
    have h := hg k (Nat.le_refl _) (by omega)
    rw [exit_own_succ, hF k (by omega), if_neg (hd k (Nat.le_refl _) (by omega)),
      if_pos (by omega), e2]
    exact ih f (k + 1) (by omega) (fun i h1 h2 => hd i (by omega) h2)
      (fun i h1 h2 => hg i (by omega) h2) (by omega)

theorem exit_reverse_succ (st : State) (d6 d7 fuel a0 d5 : Nat) :
    exit_reverse st d6 d7 (fuel + 1) a0 d5 =
      if peek st a0 / 16 % 2 = 1 ∧ peek st a0 % 16 = d6 ∧ peek st ((a0 + 1) % 65536) = d7 then
        some (peek st a0, d5)
      else if peek st a0 ≠ 0 then
        exit_reverse st d6 d7 fuel ((a0 + 2) % 65536)
          (if peek st a0 / 128 % 2 = 1 then (d5 + 1) % 256 else d5)
      else some (peek st a0, 0) := rfl

/-- The reverse scan that finds no record ends at the zero flags byte with
`*d4 = 0` and `*d5 = 0`. -/
theorem exit_reverse_none (E : State) (b z d6 d7 : Nat) (F T : Nat → Nat)
    (hF : ∀ k, k ≤ z → peek E (b + 2 * k) = F k)
    (hT : ∀ k, k ≤ z → peek E (b + 2 * k + 1) = T k)
    (hb : b + 2 * z + 1 < 65536) (hzero : F z = 0) (n : Nat) :
    ∀ (fuel k d5 : Nat), k + n = z →
      (∀ i, k ≤ i → i < z → F i ≠ 0 ∧ ¬ (F i / 16 % 2 = 1 ∧ F i % 16 = d6 ∧ T i = d7)) →
      n < fuel → exit_reverse E d6 d7 fuel (b + 2 * k) d5 = some (0, 0) := by
  induction n with
  | zero =>
    intro fuel k d5 hk _ hf
    obtain ⟨f, rfl⟩ : ∃ f, fuel = f + 1 := ⟨fuel - 1, by omega⟩
    have e0 : k = z := by omega
    rw [e0, exit_reverse_succ, hF z (Nat.le_refl _), hzero,
      if_neg (fun h => absurd h.1 (by decide)), if_neg (fun h => h rfl)]
  | succ m ih =>
    intro fuel k d5 hk hg hf
    obtain ⟨f, rfl⟩ : ∃ f, fuel = f + 1 := ⟨fuel - 1, by omega⟩
    have e1 : (b + 2 * k + 1) % 65536 = b + 2 * k + 1 := by omega
    have e2 : (b + 2 * k + 2) % 65536 = b + 2 * (k + 1) := by omega
    have h := hg k (Nat.le_refl _) (by omega)
    rw [exit_reverse_succ, e1, e2, hF k (by omega), hT k (by omega), if_neg h.2, if_pos h.1]
    exact ih f (k + 1) _ (by omega) (fun i h1 h2 => hg i (by omega) h2) (by omega)


theorem peek_effective_window (st : State) (q k : Nat)
    (hk : (effective st q).1 + k < 16384) :
    peek (effective st q).2 ((effective st q).1 + k) = story_byte st (q % 65536 + k) := by
  simp only [peek, effective, phys, story_byte, PAGE_SIZE, MEMORY_BASE_PAGE] at hk ⊢
  split
  · exact congrArg (rd8 st.ram) (by omega)
  · exact congrArg (rd8 st.ram) (by omega)

theorem exit_flags_peek (st : State) (k : Nat)
    (hk : (effective st st.abs_data_block).1 + 2 * k + 1 < 16384) :
    peek (effective (exit_operands st) st.abs_data_block).2
      ((effective st st.abs_data_block).1 + 2 * k) = exit_flags st k :=
  peek_effective_window (exit_operands st) st.abs_data_block (2 * k) (by
    show (effective st st.abs_data_block).1 + 2 * k < 16384
    omega)

theorem exit_target_peek (st : State) (k : Nat)
    (hk : (effective st st.abs_data_block).1 + 2 * k + 1 < 16384) :
    peek (effective (exit_operands st) st.abs_data_block).2
      ((effective st st.abs_data_block).1 + 2 * k + 1) = exit_target st k := by
  rw [Nat.add_assoc (effective st st.abs_data_block).1]
  exact peek_effective_window (exit_operands st) st.abs_data_block (2 * k + 1) (by
    show (effective st st.abs_data_block).1 + (2 * k + 1) < 16384
    omega)

theorem exit_flags_lt (st : State) (k : Nat) : exit_flags st k < 256 := story_byte_lt _ _

/-- The first loop of `do_exit`, or its absence for room 1, leaves `a0` at the first
record of the group of the room. -/
theorem do_exit_skip (fuel : Nat) (st : State) (s : Nat)
    (hroom : 1 ≤ exit_room st)
    (hs : group_ends (exit_flags st) s = exit_room st - 1)
    (hstart : s = 0 ∨ 128 ≤ exit_flags st (s - 1))
    (hv4 : st.game_type = 4 → ∀ k, k < s → ¬ (exit_flags st k = 0 ∧ exit_target st k = 0))
    (hwin : (effective st st.abs_data_block).1 + 2 * s + 1 < 16384) (hfuel : s ≤ fuel) :
    (if (exit_room st + 255) % 256 ≠ 0 then
        exit_skip (effective (exit_operands st) st.abs_data_block).2 fuel
          (effective st st.abs_data_block).1 ((exit_room st + 255) % 256)
      else some (SkipResult.at_group (effective st st.abs_data_block).1)) =
    some (SkipResult.at_group ((effective st st.abs_data_block).1 + 2 * s)) := by
  have hr : exit_room st < 256 := Nat.mod_lt _ (by decide)
  by_cases hd : (exit_room st + 255) % 256 = 0
  · rw [if_neg (by simpa using hd)]
    have h1 : exit_room st = 1 := by omega
    rw [h1] at hs
    rcases hstart with h0 | h0
    · rw [h0]
      rfl
    · by_cases hs0 : s = 0
      · rw [hs0]
        rfl
      · exfalso
        have hm := group_ends_mono (exit_flags st) 0 (s - 1)
        have hl : group_ends (exit_flags st) (s - 1 + 1) =
            group_ends (exit_flags st) (s - 1) + 1 := by
          show group_ends (exit_flags st) (s - 1) + _ = _
          rw [if_pos h0]
        rw [show s - 1 + 1 = s by omega] at hl
        omega
  · rw [if_pos hd]
    have hs0 : s ≠ 0 := by
      intro h0
      rw [h0] at hs
      have : group_ends (exit_flags st) 0 = 0 := rfl
      omega
    have hlast : 128 ≤ exit_flags st (s - 1) := by
      rcases hstart with h0 | h0
      · exact absurd h0 hs0
      · exact h0
    have key := exit_skip_spec (effective (exit_operands st) st.abs_data_block).2
      (effective st st.abs_data_block).1 s (exit_flags st) (exit_target st)
      (fun k hk => exit_flags_peek st k (by omega))
      (fun k hk => exit_target_peek st k (by omega))
      (by omega) hlast (exit_flags_lt st) hv4 s fuel 0 ((exit_room st + 255) % 256)
      (by omega) (by omega) (by omega)
      (by
        have : group_ends (exit_flags st) 0 = 0 := rfl
        omega)
      hfuel
    rw [Nat.mul_zero, Nat.add_zero] at key
    exact key


theorem do_exit_of_skip (fuel : Nat) (st : State) (d6 d7 a0 : Nat)
    (h : (if (d7 + 255) % 256 ≠ 0 then
        exit_skip (effective st st.abs_data_block).2 fuel (effective st st.abs_data_block).1
          ((d7 + 255) % 256)
      else some (SkipResult.at_group (effective st st.abs_data_block).1)) =
      some (SkipResult.at_group a0)) :
    do_exit fuel st d6 d7 =
      match exit_own (effective st st.abs_data_block).2 d6 fuel a0 with
      | none => none
      | some (some r) => some (r.1, r.2, (effective st st.abs_data_block).2)
      | some none => notfn4 fuel (effective st st.abs_data_block).2 d6 d7 := by
  unfold do_exit
  simp only []
  rw [h]

theorem int_exit_eq (fuel : Nat) (st : State) :
    int_exit fuel st =
      match do_exit fuel (exit_operands st) (exit_dir st) (exit_room st) with
      | none => none
      | some r => some (exit_store r.2.2 r.1 r.2.1) := rfl

theorem exit_store_workspace (st : State) (d4 d5 : Nat) :
    (exit_store st d4 d5).workspace =
      set_var (set_var st.workspace (get_var st).1 (d4 / 16 % 8))
        (get_var (get_var st).2).1 d5 := rfl

/-- C29 (amended): when the group of the room (the records from number `s` on, `s` being the
record after the `room - 1`-th record whose flags byte has its top bit set) holds at
`j` its first record with `flags & 0x0f = dir`, `do_exit` returns the flags and the
target of record `j`, and `int_exit` stores `(flags & 0x70) >> 4` and the target in
the variables named by its next two operand bytes. The records lie in the bottom 16K
of the paged window, as `do_exit` assumes, and in a V4 game no record before the
group is the pair (0, 0) that ends the block. -/
theorem C29_exit_lookup (fuel : Nat) (st : State) (s j : Nat)
    (hroom : 1 ≤ exit_room st)
    (hs : group_ends (exit_flags st) s = exit_room st - 1)
    (hstart : s = 0 ∨ 128 ≤ exit_flags st (s - 1))
    (hv4 : st.game_type = 4 → ∀ k, k < s → ¬ (exit_flags st k = 0 ∧ exit_target st k = 0))
    (hsj : s ≤ j)
    (hgroup : ∀ k, k < j → s ≤ k → exit_flags st k < 128 ∧ exit_flags st k % 16 ≠ exit_dir st)
    (hmatch : exit_flags st j % 16 = exit_dir st)
    (hwin : (effective st st.abs_data_block).1 + 2 * j + 1 < 16384)
    (hfuel : j < fuel) :
    do_exit fuel (exit_operands st) (exit_dir st) (exit_room st) =
      some (exit_flags st j, exit_target st j,
        (effective (exit_operands st) st.abs_data_block).2) ∧
    int_exit fuel st =
      some (exit_store (effective (exit_operands st) st.abs_data_block).2
        (exit_flags st j) (exit_target st j)) ∧
    (exit_store (effective (exit_operands st) st.abs_data_block).2
        (exit_flags st j) (exit_target st j)).workspace =
      set_var (set_var st.workspace
          (get_var (effective (exit_operands st) st.abs_data_block).2).1
          (exit_flags st j / 16 % 8))
        (get_var (get_var (effective (exit_operands st) st.abs_data_block).2).2).1
        (exit_target st j) := by
  have hskip := do_exit_skip fuel st s hroom hs hstart hv4 (by omega) (by omega)
  have hown := exit_own_found (effective (exit_operands st) st.abs_data_block).2
    (effective st st.abs_data_block).1 j (exit_dir st) (exit_flags st) (exit_target st)
    (fun k hk => exit_flags_peek st k (by omega))
    (fun k hk => exit_target_peek st k (by omega))
    (by omega) hmatch (j - s) fuel s (by omega) (fun k h1 h2 => hgroup k h2 h1) (by omega)
  have hdo : do_exit fuel (exit_operands st) (exit_dir st) (exit_room st) =
      some (exit_flags st j, exit_target st j,
        (effective (exit_operands st) st.abs_data_block).2) := by
    rw [do_exit_of_skip fuel (exit_operands st) (exit_dir st) (exit_room st) _ hskip]
    have hown2 : exit_own (effective (exit_operands st) (exit_operands st).abs_data_block).2
        (exit_dir st) fuel ((effective st st.abs_data_block).1 + 2 * s) =
        some (some (exit_flags st j, exit_target st j)) := hown
    rw [hown2]
    rfl
  refine ⟨hdo, ?_, exit_store_workspace _ _ _⟩
  rw [int_exit_eq, hdo]


theorem C29_exit_lookup_witness :
    do_exit 3 (exit_operands (exit_state 3)) (exit_dir (exit_state 3))
        (exit_room (exit_state 3)) =
      some (exit_flags (exit_state 3) 2, exit_target (exit_state 3) 2,
        (effective (exit_operands (exit_state 3)) (exit_state 3).abs_data_block).2) ∧
    int_exit 3 (exit_state 3) =
      some (exit_store (effective (exit_operands (exit_state 3))
          (exit_state 3).abs_data_block).2
        (exit_flags (exit_state 3) 2) (exit_target (exit_state 3) 2)) ∧
    (exit_store (effective (exit_operands (exit_state 3)) (exit_state 3).abs_data_block).2
        (exit_flags (exit_state 3) 2) (exit_target (exit_state 3) 2)).workspace =
      set_var (set_var (exit_state 3).workspace
          (get_var (effective (exit_operands (exit_state 3))
            (exit_state 3).abs_data_block).2).1
          (exit_flags (exit_state 3) 2 / 16 % 8))
        (get_var (get_var (effective (exit_operands (exit_state 3))
            (exit_state 3).abs_data_block).2).2).1
        (exit_target (exit_state 3) 2) :=
  C29_exit_lookup 3 (exit_state 3) 1 2 (by decide) (by decide) (Or.inr (by decide))
    (by decide) (by decide) (by decide) (by decide) (by decide) (by decide)


/-! ## C40: the seed update is a bijection -/

theorem random_seed_eq (st : State) :
    (random st).random_seed = (1021 * (st.random_seed % 65536) + 41) % 65536 := by
  have hseed : (random st).random_seed =
      (((st.random_seed % 65536 * 256 % 65536 + 0x0a + 65536 - st.random_seed % 65536) % 65536 * 4)
        % 65536 + st.random_seed % 65536 + 1) % 65536 := rfl
  rw [hseed]
  omega

/-- C40: the seed `random` computes is a bijection on the 16-bit values: two states
with different 16-bit seeds get different new seeds, and every 16-bit value is the
new seed of some 16-bit seed (of `29013 * (u - 41) mod 2^16`). -/
theorem C40_random_bijection (st1 st2 : State) (u : Nat)
    (h1 : st1.random_seed < 65536) (h2 : st2.random_seed < 65536) (hu : u < 65536) :
    ((random st1).random_seed = (random st2).random_seed → st1.random_seed = st2.random_seed) ∧
    (random { st1 with random_seed := 29013 * (u + 65536 - 41) % 65536 }).random_seed = u := by
  constructor
  · intro h
    rw [random_seed_eq, random_seed_eq] at h
    omega
  · rw [random_seed_eq]
    show (1021 * (29013 * (u + 65536 - 41) % 65536 % 65536) + 41) % 65536 = u
    omega

theorem C40_random_bijection_witness :
    ((random { zero_state with random_seed := 1000 }).random_seed =
        (random { zero_state with random_seed := 2000 }).random_seed →
      ({ zero_state with random_seed := 1000 } : State).random_seed =
        ({ zero_state with random_seed := 2000 } : State).random_seed) ∧
    (random { ({ zero_state with random_seed := 1000 } : State) with
      random_seed := 29013 * (38001 + 65536 - 41) % 65536 }).random_seed = 38001 :=
  C40_random_bijection { zero_state with random_seed := 1000 }
    { zero_state with random_seed := 2000 } 38001 (by decide) (by decide) (by decide)


/-! ## C36: gosub and return -/

theorem get_addr_code_ptr (st : State) :
    (get_addr st).2.code_ptr =
      (st.code_ptr + (if st.code / 32 % 2 = 1 then 1 else 2)) % 65536 := by
  unfold get_addr
  by_cases h : st.code / 32 % 2 = 1
  · rw [if_pos h, if_pos h]
    rfl
  · rw [if_neg h, if_neg h]

theorem execute_instruction_gosub (env : Env) (fuel : Nat) (st : State)
    (h7 : st.code < 128) (hop : st.code % 32 = 1) :
    execute_instruction env fuel st = some (int_gosub false st) := by
  have hb : ¬ st.code / 128 % 2 = 1 := by omega
  unfold execute_instruction
  simp only []
  rw [if_neg hb, hop]
  simp

theorem execute_instruction_return (env : Env) (fuel : Nat) (st : State)
    (h7 : st.code < 128) (hop : st.code % 32 = 2) :
    execute_instruction env fuel st = some (int_return false st) := by
  have hb : ¬ st.code / 128 % 2 = 1 := by omega
  unfold execute_instruction
  simp only []
  rw [if_neg hb, hop]
  simp

theorem int_gosub_false (st : State) :
    int_gosub false st =
      { (get_addr st).2 with
        workspace := wr16 (wr16 st.workspace (OFF_STACK + 2 * stack_ptr st.workspace)
          (get_addr st).2.code_ptr) OFF_STACK_PTR (stack_ptr st.workspace + 1),
        code_ptr := (get_addr st).1 } := by
  unfold int_gosub
  rw [if_neg (by simp)]
  simp only []
  rw [get_addr_workspace]

theorem int_return_false (st : State) :
    int_return false st =
      { st with
        workspace := wr16 st.workspace OFF_STACK_PTR ((stack_ptr st.workspace + 65535) % 65536),
        code_ptr := stack (wr16 st.workspace OFF_STACK_PTR
          ((stack_ptr st.workspace + 65535) % 65536))
          ((stack_ptr st.workspace + 65535) % 65536) } := by
  unfold int_return
  rw [if_neg (by simp)]

/-- A gosub pushes the return address and the return behind it pops it again. -/
theorem gosub_then_return (ws : Mem) (cp : Nat) (hsp : stack_ptr ws < 128) (hcp : cp < 65536) :
    stack_ptr (wr16 (wr16 ws (OFF_STACK + 2 * stack_ptr ws) cp) OFF_STACK_PTR
      (stack_ptr ws + 1)) = stack_ptr ws + 1 ∧
    stack_ptr (wr16 (wr16 (wr16 ws (OFF_STACK + 2 * stack_ptr ws) cp) OFF_STACK_PTR
      (stack_ptr ws + 1)) OFF_STACK_PTR (stack_ptr ws)) = stack_ptr ws ∧
    (∀ i, stack (wr16 (wr16 (wr16 ws (OFF_STACK + 2 * stack_ptr ws) cp) OFF_STACK_PTR
      (stack_ptr ws + 1)) OFF_STACK_PTR (stack_ptr ws)) i =
        if i = stack_ptr ws then cp else stack ws i) := by
  have h1 : ∀ (m : Mem) (v : Nat), v < 65536 → stack_ptr (wr16 m OFF_STACK_PTR v) = v := by
    intro m v hv
    unfold stack_ptr
    rw [rd16_wr16_same, Nat.mod_eq_of_lt hv]
  refine ⟨h1 _ _ (by omega), h1 _ _ (by omega), ?_⟩
  intro i
  unfold stack rd16
  simp only [rd8_wr16, OFF_STACK, OFF_STACK_PTR]
  by_cases hi : i = stack_ptr ws
  · rw [if_pos hi, hi]
    rw [if_neg (by omega), if_neg (by omega), if_neg (by omega), if_neg (by omega),
      if_neg (by omega), if_pos rfl, if_neg (by omega), if_neg (by omega), if_neg (by omega),
      if_neg (by omega), if_pos rfl]
    omega
  · rw [if_neg hi]
    repeat rw [if_neg (by omega)]


theorem get_addr_ram (st : State) : (get_addr st).2.ram = st.ram := by
  unfold get_addr
  split <;> rfl

theorem get_addr_lt (st : State) : (get_addr st).1 < 65536 := by
  unfold get_addr
  split
  · exact Nat.mod_lt _ (by decide)
  · exact Nat.mod_lt _ (by decide)

theorem run_game_eq (env : Env) (fuel : Nat) (st : State) :
    run_game env fuel st =
      (execute_instruction env fuel { (fetch st).2 with code := (fetch st).1 }).map
        (fun t => (t.running, t)) := rfl

/-- C36: in a state with `stack_ptr < 128` whose `code_ptr = a` points at a gosub
opcode, with a return opcode at the target of the gosub, two rounds of `run_game` (the
gosub and then the return) leave `code_ptr` just behind the address operand of the
gosub (`a + 2` in the short form, `a + 3` in the long form, mod 2^16), `stack_ptr` at
its first value and every stack entry below it unchanged. -/
theorem C36_gosub_return (env : Env) (fuel : Nat) (st : State)
    (ha : st.code_ptr < 65536) (hsp : stack_ptr st.workspace < 128)
    (hg7 : story_byte st st.code_ptr < 128) (hgop : story_byte st st.code_ptr % 32 = 1)
    (hr7 : story_byte st (gosub_target st) < 128)
    (hrop : story_byte st (gosub_target st) % 32 = 2) :
    ∃ b1 s1 b2 s2, run_game env fuel st = some (b1, s1) ∧ run_game env fuel s1 = some (b2, s2) ∧
      s2.code_ptr =
        (st.code_ptr + (if story_byte st st.code_ptr / 32 % 2 = 1 then 2 else 3)) % 65536 ∧
      stack_ptr s2.workspace = stack_ptr st.workspace ∧
      ∀ i, i < stack_ptr st.workspace → stack s2.workspace i = stack st.workspace i := by
  have hc : (fetch st).1 = story_byte st st.code_ptr := fetch_fst st ha
  have hrun1 : run_game env fuel st =
      some ((int_gosub false { (fetch st).2 with code := (fetch st).1 }).running,
        int_gosub false { (fetch st).2 with code := (fetch st).1 }) := by
    rw [run_game_eq, execute_instruction_gosub env fuel _
      (by show (fetch st).1 < 128; rw [hc]; exact hg7)
      (by show (fetch st).1 % 32 = 1; rw [hc]; exact hgop)]
    rfl
  have hcp := get_addr_code_ptr { (fetch st).2 with code := (fetch st).1 }
  have hcp2 : (get_addr { (fetch st).2 with code := (fetch st).1 }).2.code_ptr =
      (st.code_ptr + (if story_byte st st.code_ptr / 32 % 2 = 1 then 2 else 3)) % 65536 := by
    rw [hcp]
    show ((st.code_ptr + 1) % 65536 + (if (fetch st).1 / 32 % 2 = 1 then 1 else 2)) % 65536 = _
    rw [hc]
    split <;> omega
  have hlt : (get_addr { (fetch st).2 with code := (fetch st).1 }).2.code_ptr < 65536 := by
    rw [hcp2]
    exact Nat.mod_lt _ (by decide)
  generalize hcpv : (get_addr { (fetch st).2 with code := (fetch st).1 }).2.code_ptr = cp
    at hcp2 hlt
  have hs1 := int_gosub_false { (fetch st).2 with code := (fetch st).1 }
  rw [hcpv] at hs1
  have hws : ({ (fetch st).2 with code := (fetch st).1 } : State).workspace = st.workspace := rfl
  rw [hws] at hs1
  generalize int_gosub false { (fetch st).2 with code := (fetch st).1 } = s1 at hrun1 hs1
  have hs1ws : s1.workspace = wr16 (wr16 st.workspace (OFF_STACK + 2 * stack_ptr st.workspace) cp)
      OFF_STACK_PTR (stack_ptr st.workspace + 1) := by rw [hs1]
  have hs1cp : s1.code_ptr = gosub_target st := by rw [hs1]; rfl
  have hs1ram : s1.ram = st.ram := by
    rw [hs1]
    exact get_addr_ram _
  obtain ⟨g1, g2, g3⟩ := gosub_then_return st.workspace cp hsp hlt
  have hc2 : (fetch s1).1 = story_byte st (gosub_target st) := by
    rw [fetch_fst s1 (by rw [hs1cp]; exact get_addr_lt _), hs1cp]
    unfold story_byte
    rw [hs1ram]
  have hrun2 : run_game env fuel s1 =
      some ((int_return false { (fetch s1).2 with code := (fetch s1).1 }).running,
        int_return false { (fetch s1).2 with code := (fetch s1).1 }) := by
    rw [run_game_eq, execute_instruction_return env fuel _
      (by show (fetch s1).1 < 128; rw [hc2]; exact hr7)
      (by show (fetch s1).1 % 32 = 2; rw [hc2]; exact hrop)]
    rfl
  have hs2 := int_return_false { (fetch s1).2 with code := (fetch s1).1 }
  have hws2 : ({ (fetch s1).2 with code := (fetch s1).1 } : State).workspace = s1.workspace :=
    rfl
  rw [hws2, hs1ws, g1, show (stack_ptr st.workspace + 1 + 65535) % 65536 =
    stack_ptr st.workspace by omega] at hs2
  generalize int_return false { (fetch s1).2 with code := (fetch s1).1 } = s2 at hrun2 hs2
  refine ⟨_, s1, _, s2, hrun1, hrun2, ?_, ?_, ?_⟩
  · rw [hs2]
    show stack _ _ = _
    rw [g3, if_pos rfl, hcp2]
  · rw [hs2]
    exact g2
  · intro i hi
    rw [hs2]
    show stack _ i = _
    rw [g3, if_neg (by omega)]

theorem C36_gosub_return_witness :
    ∃ b1 s1 b2 s2, run_game idle_env 1 gosub_state = some (b1, s1) ∧
      run_game idle_env 1 s1 = some (b2, s2) ∧
      s2.code_ptr =
        (gosub_state.code_ptr +
          (if story_byte gosub_state gosub_state.code_ptr / 32 % 2 = 1 then 2 else 3)) % 65536 ∧
      stack_ptr s2.workspace = stack_ptr gosub_state.workspace ∧
      ∀ i, i < stack_ptr gosub_state.workspace →
        stack s2.workspace i = stack gosub_state.workspace i :=
  C36_gosub_return idle_env 1 gosub_state (by decide) (by decide) (by decide) (by decide)
    (by decide) (by decide)


/-! ## C35: driver sub-function 0x0E -/

/-- C35 (the claim fails): with `list9[0] = 0x0E` and `list9[1] = 7`, `call_driver`
leaves `list9[0]` at `0x0E` and sets `list9[1]` to 0: the pointer `a6` that `driver_14`
stores through was advanced past the first byte when `d0` was read. -/
theorem C35_counterexample :
    rd8 driver14_state.workspace (list9 driver14_state) = 0x0e ∧
    rd8 driver14_state.workspace (list9 driver14_state + 1) = 7 ∧
    rd8 (call_driver ⟨0, id⟩ driver14_state).workspace (list9 driver14_state) = 0x0e ∧
    rd8 (call_driver ⟨0, id⟩ driver14_state).workspace (list9 driver14_state + 1) = 0 := by
  refine ⟨by decide, by decide, by decide, by decide⟩

/-- C35 (amended): when the first byte of the list9 area is `0x0E`, `call_driver`
writes 0 to the byte at list9 base + 1 and changes nothing else: no other byte of the
workspace, and no host service is called (no key read, nothing printed, saved or
shown). -/
theorem C35_driver_14 (env : DriverEnv) (st : State)
    (hd0 : rd8 st.workspace (list9 st) = 0x0e) :
    call_driver env st = { st with workspace := wr8 st.workspace (list9 st + 1) 0 } ∧
    rd8 (call_driver env st).workspace (list9 st + 1) = 0 ∧
    (∀ a, a ≠ list9 st + 1 → rd8 (call_driver env st).workspace a = rd8 st.workspace a) ∧
    (call_driver env st).keys = st.keys ∧ (call_driver env st).output = st.output ∧
    (call_driver env st).saved = st.saved ∧ (call_driver env st).bitmaps = st.bitmaps ∧
    (call_driver env st).ram = st.ram := by
  have hcall : call_driver env st = { st with workspace := wr8 st.workspace (list9 st + 1) 0 } := by
    have h : rd8 st.workspace (OFF_LIST_AREA + st.list9_start_ptr) = 0x0e := hd0
    unfold call_driver
    simp only []
    rw [h, if_neg (by decide), if_neg (by decide)]
    unfold driver
    rw [if_neg (by decide), if_neg (by decide), if_neg (by decide), if_pos rfl]
    rfl
  rw [hcall]
  refine ⟨rfl, ?_, ?_, rfl, rfl, rfl, rfl, rfl⟩
  · show rd8 (wr8 st.workspace (list9 st + 1) 0) (list9 st + 1) = 0
    rw [rd8_wr8, if_pos rfl]
  · intro a ha
    show rd8 (wr8 st.workspace (list9 st + 1) 0) a = _
    rw [rd8_wr8, if_neg ha]

theorem C35_driver_14_witness :
    call_driver ⟨0, id⟩ driver14_state =
      { driver14_state with
        workspace := wr8 driver14_state.workspace (list9 driver14_state + 1) 0 } ∧
    rd8 (call_driver ⟨0, id⟩ driver14_state).workspace (list9 driver14_state + 1) = 0 ∧
    (∀ a, a ≠ list9 driver14_state + 1 →
      rd8 (call_driver ⟨0, id⟩ driver14_state).workspace a = rd8 driver14_state.workspace a) ∧
    (call_driver ⟨0, id⟩ driver14_state).keys = driver14_state.keys ∧
    (call_driver ⟨0, id⟩ driver14_state).output = driver14_state.output ∧
    (call_driver ⟨0, id⟩ driver14_state).saved = driver14_state.saved ∧
    (call_driver ⟨0, id⟩ driver14_state).bitmaps = driver14_state.bitmaps ∧
    (call_driver ⟨0, id⟩ driver14_state).ram = driver14_state.ram :=
  C35_driver_14 ⟨0, id⟩ driver14_state (by decide)


/-! ## C31 and C39: the operands of the exit opcode -/

theorem notfn4_some (fuel : Nat) (st : State) (d6 d7 : Nat) (r : Nat × Nat × State)
    (h : notfn4 fuel st d6 d7 = some r) : r.2.2 = (effective st st.abs_data_block).2 := by
  unfold notfn4 at h
  simp only [] at h
  split at h
  · cases h
  · rw [← Option.some.inj h]

theorem do_exit_some (fuel : Nat) (st : State) (d6 d7 : Nat) (r : Nat × Nat × State)
    (h : do_exit fuel st d6 d7 = some r) : r.2.2 = (effective st st.abs_data_block).2 := by
  unfold do_exit at h
  simp only [] at h
  split at h
  · cases h
  · exact notfn4_some _ _ _ _ _ h
  · split at h
    · cases h
    · rw [← Option.some.inj h]
    · exact notfn4_some _ _ _ _ _ h

/-- C31 (the claim fails): with the first operand variable 1 and the second 2,
`int_exit` looks up room 1 and direction 2 and stores the target 5 of the record
`(0x82, 5)`; read as the claim has it (direction 1, room 2) the target stored would be
6, of the record `(0x81, 6)`. -/
theorem C31_counterexample :
    (int_exit 3 order_state).map (fun s => var_table s.workspace 3) = some 5 ∧
    (int_exit_as_claimed 3 order_state).map (fun s => var_table s.workspace 3) = some 6 := by
  decide


theorem exit_operands_code_ptr (st : State) :
    (exit_operands st).code_ptr = ((st.code_ptr + 1) % 65536 + 1) % 65536 := rfl

theorem exit_room_eq (st : State) (hc : st.code_ptr < 65536) :
    exit_room st = var_table st.workspace (story_byte st st.code_ptr) % 256 := by
  show var_table st.workspace (fetch st).1 % 256 = _
  rw [fetch_fst st hc]

theorem exit_dir_eq (st : State) (hc : st.code_ptr + 1 < 65536) :
    exit_dir st = var_table st.workspace (story_byte st (st.code_ptr + 1)) % 256 := by
  show var_table st.workspace (fetch (fetch st).2).1 % 256 = _
  rw [fetch_fst (fetch st).2 (Nat.mod_lt _ (by decide))]
  show var_table st.workspace (story_byte st ((st.code_ptr + 1) % 65536)) % 256 = _
  rw [Nat.mod_eq_of_lt hc]

/-- The two result variables of `int_exit` are named by the third and the fourth
operand byte. -/
theorem exit_store_operands (st E : State) (d4 d5 : Nat) (hc : st.code_ptr + 3 < 65536)
    (hE : E = (effective (exit_operands st) st.abs_data_block).2) :
    (exit_store E d4 d5).workspace =
      set_var (set_var st.workspace (story_byte st (st.code_ptr + 2)) (d4 / 16 % 8))
        (story_byte st (st.code_ptr + 3)) d5 ∧
    (exit_store E d4 d5).code_ptr = (st.code_ptr + 4) % 65536 := by
  have e2 : E.code_ptr = st.code_ptr + 2 := by
    rw [hE]
    show ((st.code_ptr + 1) % 65536 + 1) % 65536 = _
    omega
  have hv1 : (get_var E).1 = story_byte st (st.code_ptr + 2) := by
    show (fetch E).1 = _
    rw [fetch_fst E (by omega), e2, hE]
    rfl
  have e3 : (get_var E).2.code_ptr = st.code_ptr + 3 := by
    show (E.code_ptr + 1) % 65536 = _
    omega
  have hv2 : (get_var (get_var E).2).1 = story_byte st (st.code_ptr + 3) := by
    show (fetch (get_var E).2).1 = _
    rw [fetch_fst (get_var E).2 (by omega), e3, hE]
    rfl
  have hws : E.workspace = st.workspace := by rw [hE]; rfl
  constructor
  · rw [exit_store_workspace, hv1, hv2, hws]
  · show ((get_var E).2.code_ptr + 1) % 65536 = _
    rw [e3]

/-- C31 (amended): `int_exit` takes the room from the first operand variable it reads
and the direction from the second (their low bytes, passed to `do_exit` as `d7` and
`d6`), and writes `(d4 & 0x70) >> 4` and `d5` to the third and the fourth operand
variable, leaving `code_ptr` behind the four operand bytes. -/
theorem C31_exit_operands (fuel : Nat) (st : State) (hc : st.code_ptr + 3 < 65536) :
    exit_room st = var_table st.workspace (story_byte st st.code_ptr) % 256 ∧
    exit_dir st = var_table st.workspace (story_byte st (st.code_ptr + 1)) % 256 ∧
    int_exit fuel st =
      (do_exit fuel (exit_operands st) (exit_dir st) (exit_room st)).map
        (fun r => exit_store r.2.2 r.1 r.2.1) ∧
    ∀ r, do_exit fuel (exit_operands st) (exit_dir st) (exit_room st) = some r →
      (exit_store r.2.2 r.1 r.2.1).workspace =
        set_var (set_var st.workspace (story_byte st (st.code_ptr + 2)) (r.1 / 16 % 8))
          (story_byte st (st.code_ptr + 3)) r.2.1 ∧
      (exit_store r.2.2 r.1 r.2.1).code_ptr = (st.code_ptr + 4) % 65536 := by
  refine ⟨exit_room_eq st (by omega), exit_dir_eq st (by omega), ?_, ?_⟩
  · rw [int_exit_eq]
    cases do_exit fuel (exit_operands st) (exit_dir st) (exit_room st) with
    | none => rfl
    | some r => rfl
  · intro r hr
    exact exit_store_operands st r.2.2 r.1 r.2.1 hc (do_exit_some _ _ _ _ _ hr)

theorem C31_exit_operands_witness :
    exit_room order_state =
      var_table order_state.workspace (story_byte order_state order_state.code_ptr) % 256 ∧
    exit_dir order_state =
      var_table order_state.workspace (story_byte order_state (order_state.code_ptr + 1))
        % 256 ∧
    int_exit 3 order_state =
      (do_exit 3 (exit_operands order_state) (exit_dir order_state)
        (exit_room order_state)).map (fun r => exit_store r.2.2 r.1 r.2.1) ∧
    ∀ r, do_exit 3 (exit_operands order_state) (exit_dir order_state)
        (exit_room order_state) = some r →
      (exit_store r.2.2 r.1 r.2.1).workspace =
        set_var (set_var order_state.workspace
            (story_byte order_state (order_state.code_ptr + 2)) (r.1 / 16 % 8))
          (story_byte order_state (order_state.code_ptr + 3)) r.2.1 ∧
      (exit_store r.2.2 r.1 r.2.1).code_ptr = (order_state.code_ptr + 4) % 65536 :=
  C31_exit_operands 3 order_state (by decide)


/-! ## C33 and C34: `check_number` -/

theorem atol_run_spec (m : Mem) (ds : List Nat) :
    ∀ (fuel p acc : Nat), ds.length < fuel →
      (∀ i, i < ds.length → ds.getD i 0 < 10 ∧ rd8 m (p + i) = 48 + ds.getD i 0) →
      isdigit (rd8 m (p + ds.length)) = false →
      atol_run m fuel p acc = ds.foldl (fun a d => 10 * a + d) acc := by
  induction ds with
  | nil =>
    intro fuel p acc hf _ hend
    obtain ⟨f, rfl⟩ : ∃ f, fuel = f + 1 := ⟨fuel - 1, by simp at hf; omega⟩
    unfold atol_run
    rw [show p = p + ([] : List Nat).length from rfl, hend]
    rfl
  | cons d t ih =>
    intro fuel p acc hf hd hend
    have hlen : (d :: t).length = t.length + 1 := rfl
    rw [hlen] at hf hend
    obtain ⟨f, rfl⟩ : ∃ f, fuel = f + 1 := ⟨fuel - 1, by omega⟩
    have h0 := hd 0 (by rw [hlen]; omega)
    have h0a : d < 10 := h0.1
    have h0b : rd8 m p = 48 + d := h0.2
    unfold atol_run
    have hdig : isdigit (rd8 m p) = true := by
      rw [h0b]
      unfold isdigit
      exact decide_eq_true (by omega)
    rw [hdig, if_pos rfl, h0b]
    show atol_run m f (p + 1) (10 * acc + (48 + d - 48)) = t.foldl _ (10 * acc + d)
    rw [show 48 + d - 48 = d by omega]
    exact ih f (p + 1) _ (by omega)
      (fun i hi => by
        have h := hd (i + 1) (by rw [hlen]; omega)
        rw [show p + 1 + i = p + (i + 1) by omega]
        exact h)
      (by rw [show p + 1 + t.length = p + (t.length + 1) by omega]; exact hend)

theorem atol_spec (m : Mem) (ds : List Nat) (hlen : ds.length < OUT_BUFFER_SIZE)
    (h : holds_number m ds) : atol m = decimal ds := by
  unfold atol decimal
  exact atol_run_spec m ds OUT_BUFFER_SIZE 0 0 hlen
    (fun i hi => by rw [Nat.zero_add]; exact h.1 i hi) (by rw [Nat.zero_add]; exact h.2)

/-- C33: when `out_buffer` begins with a digit run `ds` (not empty, shorter than the
buffer) of the value `n < 2^31`, `check_number` writes at the list9 cursor, in a V4
game, the bytes `0x01, n mod 256, (n div 256) mod 256, 0, 0`, and else (V3) the four
little-endian bytes of `n` and then `0, 0`. -/
theorem C33_check_number (st : State) (l9 : Nat) (ds : List Nat) (hne : ds ≠ [])
    (hlen : ds.length < OUT_BUFFER_SIZE) (hds : holds_number st.out_buffer ds)
    (hn : decimal ds < 2 ^ 31) :
    (st.game_type = 4 →
      rd8 (check_number st l9).workspace (OFF_LIST_AREA + l9) = 0x01 ∧
      rd8 (check_number st l9).workspace (OFF_LIST_AREA + l9 + 1) = decimal ds % 256 ∧
      rd8 (check_number st l9).workspace (OFF_LIST_AREA + l9 + 2) = decimal ds / 256 % 256 ∧
      rd8 (check_number st l9).workspace (OFF_LIST_AREA + l9 + 3) = 0 ∧
      rd8 (check_number st l9).workspace (OFF_LIST_AREA + l9 + 4) = 0) ∧
    (st.game_type ≠ 4 →
      rd8 (check_number st l9).workspace (OFF_LIST_AREA + l9) = decimal ds % 256 ∧
      rd8 (check_number st l9).workspace (OFF_LIST_AREA + l9 + 1) = decimal ds / 256 % 256 ∧
      rd8 (check_number st l9).workspace (OFF_LIST_AREA + l9 + 2) = decimal ds / 65536 % 256 ∧
      rd8 (check_number st l9).workspace (OFF_LIST_AREA + l9 + 3) =
        decimal ds / 16777216 % 256 ∧
      rd8 (check_number st l9).workspace (OFF_LIST_AREA + l9 + 4) = 0 ∧
      rd8 (check_number st l9).workspace (OFF_LIST_AREA + l9 + 5) = 0 ∧
      decimal ds % 256 + 256 * (decimal ds / 256 % 256) + 65536 * (decimal ds / 65536 % 256) +
        16777216 * (decimal ds / 16777216 % 256) = decimal ds) := by
  have hat := atol_spec st.out_buffer ds hlen hds
  have h0 : 0x30 ≤ rd8 st.out_buffer 0 ∧ rd8 st.out_buffer 0 < 0x3a := by
    have hpos : 0 < ds.length := List.length_pos.mpr hne
    have h := hds.1 0 hpos
    omega
  constructor
  · intro hv
    have e : (check_number st l9).workspace =
        wr16 (wr16 (wr8 st.workspace (OFF_LIST_AREA + l9) 1) (OFF_LIST_AREA + l9 + 1)
          (atol st.out_buffer)) (OFF_LIST_AREA + l9 + 3) 0 := by
      unfold check_number
      rw [if_pos h0, if_pos hv]
    rw [e, hat]
    refine ⟨?_, ?_, ?_, ?_, ?_⟩
    all_goals simp [rd8_wr16, rd8_wr8]
    all_goals try split_ifs
    all_goals omega
  · intro hv
    have e : (check_number st l9).workspace =
        wr16 (wr32 st.workspace (OFF_LIST_AREA + l9) (atol st.out_buffer))
          (OFF_LIST_AREA + l9 + 4) 0 := by
      unfold check_number
      rw [if_pos h0, if_neg hv]
    rw [e, hat]
    refine ⟨?_, ?_, ?_, ?_, ?_, ?_, by norm_num at hn; omega⟩
    all_goals simp [rd8_wr16, rd8_wr32]
    all_goals intros
    all_goals omega

theorem C33_check_number_witness :
    (rd8 (check_number (number_state 4) 0).workspace (OFF_LIST_AREA + 0) = 0x01 ∧
      rd8 (check_number (number_state 4) 0).workspace (OFF_LIST_AREA + 0 + 1) =
        decimal [1, 2, 3, 4] % 256 ∧
      rd8 (check_number (number_state 4) 0).workspace (OFF_LIST_AREA + 0 + 2) =
        decimal [1, 2, 3, 4] / 256 % 256 ∧
      rd8 (check_number (number_state 4) 0).workspace (OFF_LIST_AREA + 0 + 3) = 0 ∧
      rd8 (check_number (number_state 4) 0).workspace (OFF_LIST_AREA + 0 + 4) = 0) ∧
    (rd8 (check_number (number_state 3) 0).workspace (OFF_LIST_AREA + 0) =
        decimal [1, 2, 3, 4] % 256 ∧
      rd8 (check_number (number_state 3) 0).workspace (OFF_LIST_AREA + 0 + 1) =
        decimal [1, 2, 3, 4] / 256 % 256 ∧
      rd8 (check_number (number_state 3) 0).workspace (OFF_LIST_AREA + 0 + 2) =
        decimal [1, 2, 3, 4] / 65536 % 256 ∧
      rd8 (check_number (number_state 3) 0).workspace (OFF_LIST_AREA + 0 + 3) =
        decimal [1, 2, 3, 4] / 16777216 % 256 ∧
      rd8 (check_number (number_state 3) 0).workspace (OFF_LIST_AREA + 0 + 4) = 0 ∧
      rd8 (check_number (number_state 3) 0).workspace (OFF_LIST_AREA + 0 + 5) = 0 ∧
      decimal [1, 2, 3, 4] % 256 + 256 * (decimal [1, 2, 3, 4] / 256 % 256) +
        65536 * (decimal [1, 2, 3, 4] / 65536 % 256) +
        16777216 * (decimal [1, 2, 3, 4] / 16777216 % 256) = decimal [1, 2, 3, 4]) ∧
    decimal [1, 2, 3, 4] = 1234 :=
  ⟨(C33_check_number (number_state 4) 0 [1, 2, 3, 4] (by decide) (by decide)
      ⟨by decide, by decide⟩ (by decide)).1 rfl,
    (C33_check_number (number_state 3) 0 [1, 2, 3, 4] (by decide) (by decide)
      ⟨by decide, by decide⟩ (by decide)).2 (by decide), by decide⟩

/-- C34 (the claim fails): for the word `x`, which begins with no digit,
`check_number` writes at the list9 base the bytes `0x00, 0x80, 0x00, 0x00`: the store
`L9SETWORD(list9_ptr, 0x8000)` is little-endian, so `0x80` is the second byte, not
the first. -/
theorem C34_counterexample :
    rd8 unknown_word_state.out_buffer 0 = 0x78 ∧
    (List.range 4).map
      (fun i => rd8 (check_number unknown_word_state 0).workspace (OFF_LIST_AREA + i)) =
      [0x00, 0x80, 0x00, 0x00] := by
  decide

/-- C34 (amended): when the word in `out_buffer` does not begin with a decimal digit,
the four bytes `check_number` writes at the list9 cursor are, in address order,
`0x00, 0x80, 0x00, 0x00` (the 16-bit words `0x8000` and 0, low byte first), and no
other byte of the workspace changes. -/
theorem C34_unknown_word (st : State) (l9 : Nat)
    (h : ¬ (0x30 ≤ rd8 st.out_buffer 0 ∧ rd8 st.out_buffer 0 < 0x3a)) :
    rd8 (check_number st l9).workspace (OFF_LIST_AREA + l9) = 0x00 ∧
    rd8 (check_number st l9).workspace (OFF_LIST_AREA + l9 + 1) = 0x80 ∧
    rd8 (check_number st l9).workspace (OFF_LIST_AREA + l9 + 2) = 0x00 ∧
    rd8 (check_number st l9).workspace (OFF_LIST_AREA + l9 + 3) = 0x00 ∧
    ∀ a, (a < OFF_LIST_AREA + l9 ∨ OFF_LIST_AREA + l9 + 4 ≤ a) →
      rd8 (check_number st l9).workspace a = rd8 st.workspace a := by
  have e : (check_number st l9).workspace =
      wr16 (wr16 st.workspace (OFF_LIST_AREA + l9) 0x8000) (OFF_LIST_AREA + l9 + 2) 0 := by
    unfold check_number
    rw [if_neg h]
  rw [e]
  refine ⟨?_, ?_, ?_, ?_, ?_⟩
  · simp [rd8_wr16]
  · simp [rd8_wr16]
  · simp [rd8_wr16]
  · simp [rd8_wr16]
  · intro a ha
    rw [rd8_wr16, rd8_wr16, if_neg (by omega), if_neg (by omega), if_neg (by omega),
      if_neg (by omega)]

theorem C34_unknown_word_witness :
    rd8 (check_number unknown_word_state 0).workspace (OFF_LIST_AREA + 0) = 0x00 ∧
    rd8 (check_number unknown_word_state 0).workspace (OFF_LIST_AREA + 0 + 1) = 0x80 ∧
    rd8 (check_number unknown_word_state 0).workspace (OFF_LIST_AREA + 0 + 2) = 0x00 ∧
    rd8 (check_number unknown_word_state 0).workspace (OFF_LIST_AREA + 0 + 3) = 0x00 ∧
    ∀ a, (a < OFF_LIST_AREA + 0 ∨ OFF_LIST_AREA + 0 + 4 ≤ a) →
      rd8 (check_number unknown_word_state 0).workspace a = rd8 unknown_word_state.workspace a :=
  C34_unknown_word unknown_word_state 0 (by decide)


/-! ## C32: `find_msg_equiv` -/

theorem story_of_lt (ram : Mem) (q : Nat) : story_of ram q < 256 := rd8_lt _ _

theorem read_story_eq (s : State) (a : Nat) (ha : a < 65536) :
    read_story s a = story_of s.ram a := by
  unfold read_story
  rw [peek_effective_mod, Nat.mod_eq_of_lt ha]
  rfl

theorem read_story_effective (s : State) (p a : Nat) :
    read_story (effective s p).2 a = read_story s a := rfl

theorem md_len_succ (m : Mem) (fuel p tot : Nat) :
    md_len m (fuel + 1) p tot =
      if (m p + 65535) % 65536 % 64 = 0x3f then md_len m fuel (p + 1) (tot + 0x3f)
      else some (tot + (m p + 65535) % 65536 % 64, p + 1) := rfl

theorem md_len_mono (m : Mem) (fuel : Nat) :
    ∀ (p tot len q : Nat), md_len m fuel p tot = some (len, q) → tot ≤ len ∧ p < q := by
  induction fuel with
  | zero => intro p tot len q h; cases h
  | succ f ih =>
    intro p tot len q h
    rw [md_len_succ] at h
    by_cases hc : (m p + 65535) % 65536 % 64 = 0x3f
    · rw [if_pos hc] at h
      have := ih _ _ _ _ h
      omega
    · rw [if_neg hc] at h
      obtain ⟨e1, e2⟩ := Prod.mk.inj (Option.some.inj h)
      omega

theorem get_md_length_loop_md_len (fuel : Nat) :
    ∀ (s : State) (p tot len q : Nat),
      md_len (story_of s.ram) fuel p tot = some (len, q) → q ≤ 65536 → len < 65536 →
      ∃ s1, get_md_length_loop fuel s p tot = some (len, q % 65536, s1) ∧
        same_but_paging s1 s := by
  induction fuel with
  | zero => intro s p tot len q h; cases h
  | succ f ih =>
    intro s p tot len q h hq hlen
    have hm := md_len_mono _ _ _ _ _ _ h
    rw [md_len_succ] at h
    rw [get_md_length_loop_succ]
    have hr : peek (effective s p).2 (effective s p).1 = story_of s.ram p :=
      read_story_eq s p (by omega)
    rw [hr]
    by_cases hc : (story_of s.ram p + 65535) % 65536 % 64 = 0x3f
    · rw [if_pos hc] at h
      rw [if_pos hc, hc]
      have hm2 := md_len_mono _ _ _ _ _ _ h
      have h2 : md_len (story_of (effective s p).2.ram) f (p + 1) (tot + 0x3f) =
          some (len, q) := h
      obtain ⟨s1, h1, hs1⟩ := ih (effective s p).2 (p + 1) (tot + 0x3f) len q h2 hq hlen
      rw [Nat.mod_eq_of_lt (show p + 1 < 65536 by omega),
        Nat.mod_eq_of_lt (show tot + 0x3f < 65536 by omega)]
      exact ⟨s1, h1, same_but_paging_trans _ _ _ hs1
        (same_but_paging_effective s s p (same_but_paging_refl s))⟩
    · rw [if_neg hc] at h
      rw [if_neg hc]
      obtain ⟨e1, e2⟩ := Prod.mk.inj (Option.some.inj h)
      rw [e1, e2, Nat.mod_eq_of_lt hlen]
      exact ⟨_, rfl, same_but_paging_effective s s p (same_but_paging_refl s)⟩

theorem same_but_paging_more (s t : State) (h : same_but_paging s t) :
    s.ram = t.ram ∧ s.end_md = t.end_md ∧ s.list9_start_ptr = t.list9_start_ptr ∧
      s.workspace = t.workspace := by
  obtain ⟨a, b, c, rfl⟩ := h
  exact ⟨rfl, rfl, rfl, rfl⟩

theorem fme_refs_succ (d7 d4 fuel : Nat) (st : State) (a2 d6 list9_ptr : Nat) :
    fme_refs d7 d4 (fuel + 1) st a2 d6 list9_ptr =
      if d6 = 0 then some (false, a2, list9_ptr, st)
      else if read_story st a2 / 128 % 2 = 1 then
        if read_story st a2 < 0x90 then
          fme_refs d7 d4 fuel (effective st a2).2 ((a2 + 2) % 65536) ((d6 + 65534) % 65536)
            list9_ptr
        else if d7 = (read_story st a2 * 256 + read_story (effective st a2).2 (a2 + 1))
            % 65536 % 4096 then
          if st.list9_start_ptr + 0x20 ≤ list9_ptr + 2 then
            some (true, (a2 + 2) % 65536, list9_ptr + 2,
              store_equiv (effective (effective st a2).2 (a2 + 1)).2 list9_ptr
                (msg_equiv ((read_story st a2 * 256 + read_story (effective st a2).2 (a2 + 1))
                  % 65536) d4))
          else
            fme_refs d7 d4 fuel
              (store_equiv (effective (effective st a2).2 (a2 + 1)).2 list9_ptr
                (msg_equiv ((read_story st a2 * 256 + read_story (effective st a2).2 (a2 + 1))
                  % 65536) d4))
              ((a2 + 2) % 65536) ((d6 + 65534) % 65536) (list9_ptr + 2)
        else
          fme_refs d7 d4 fuel (effective (effective st a2).2 (a2 + 1)).2 ((a2 + 2) % 65536)
            ((d6 + 65534) % 65536) list9_ptr
      else
        fme_refs d7 d4 fuel (effective st a2).2 ((a2 + 1) % 65536) ((d6 + 65535) % 65536)
          list9_ptr := rfl

theorem body_refs_succ (m : Mem) (fuel p len : Nat) :
    body_refs m (fuel + 1) p len =
      if len = 0 then some []
      else if m p < 128 then body_refs m fuel (p + 1) (len - 1)
      else if len < 2 then none
      else (body_refs m fuel (p + 2) (len - 2)).map
        (fun l => (m p * 256 + m (p + 1)) :: l) := rfl

theorem body_equivs_cons (w idx r : Nat) (l : List Nat) :
    body_equivs w idx (r :: l) =
      if 0x9000 ≤ r ∧ w = r % 4096 then msg_equiv r idx :: body_equivs w idx l
      else body_equivs w idx l := rfl

/-- The values packed for the word `d7` with the index value `d4` in a list of
long-form references. -/
theorem fme_refs_spec (d7 d4 : Nat) (fuel : Nat) :
    ∀ (s : State) (q len k : Nat) (refs : List Nat),
      body_refs (story_of s.ram) fuel q len = some refs → q + len < 65536 → k < 16 →
      ∃ b p1 s1, fme_refs d7 d4 fuel s q len (s.list9_start_ptr + 2 * k) =
          some (b, p1, s.list9_start_ptr + 2 * min 16 (k +
            (body_equivs d7 d4 refs).length), s1) ∧
        (b = true ↔ 16 ≤ k + (body_equivs d7 d4 refs).length) ∧
        (b = false → p1 = q + len) ∧
        s1.ram = s.ram ∧ s1.end_md = s.end_md ∧ s1.list9_start_ptr = s.list9_start_ptr ∧
        s1.workspace = write_entries s.workspace (OFF_LIST_AREA + (s.list9_start_ptr + 2 * k))
          ((body_equivs d7 d4 refs).take (16 - k)) := by
  induction fuel with
  | zero => intro s q len k refs h; cases h
  | succ f ih =>
    intro s q len k refs h hq hk
    rw [body_refs_succ] at h
    rw [fme_refs_succ]
    by_cases h0 : len = 0
    · rw [if_pos h0] at h
      rw [if_pos h0]
      have e : refs = [] := (Option.some.inj h).symm
      subst e
      refine ⟨false, q, s, ?_, ?_, ?_, rfl, rfl, rfl, ?_⟩
      · show _ = some (false, q, s.list9_start_ptr + 2 * min 16 (k + 0), s)
        rw [Nat.add_zero, Nat.min_eq_right (by omega)]
      · show false = true ↔ 16 ≤ k + 0
        constructor
        · intro hb; cases hb
        · intro hb; omega
      · intro _; omega
      · rw [show body_equivs d7 d4 [] = [] from rfl, List.take_nil]
        rfl
    · rw [if_neg h0] at h
      rw [if_neg h0]
      have hb := story_of_lt s.ram q
      have hb1 := story_of_lt s.ram (q + 1)
      rw [read_story_effective, read_story_eq s q (by omega)]
      by_cases h1 : story_of s.ram q < 128
      · rw [if_pos h1] at h
        rw [if_neg (by omega)]
        have h2 : body_refs (story_of (effective s q).2.ram) f (q + 1) (len - 1) = some refs := h
        obtain ⟨b, p1, s1, e1, e2, e3, e4, e5, e6, e7⟩ :=
          ih (effective s q).2 (q + 1) (len - 1) k refs h2 (by omega) hk
        rw [Nat.mod_eq_of_lt (show q + 1 < 65536 by omega),
          show (len + 65535) % 65536 = len - 1 by omega]
        exact ⟨b, p1, s1, e1, e2, fun hb => by rw [e3 hb]; omega, e4, e5, e6, e7⟩
      · rw [if_neg h1] at h
        rw [if_pos (by omega)]
        by_cases h2 : len < 2
        · rw [if_pos h2] at h
          cases h
        · rw [if_neg h2] at h
          rw [Nat.mod_eq_of_lt (show q + 2 < 65536 by omega),
            show (len + 65534) % 65536 = len - 2 by omega,
            read_story_eq s (q + 1) (by omega),
            Nat.mod_eq_of_lt (show story_of s.ram q * 256 + story_of s.ram (q + 1) < 65536
              by omega)]
          cases hr : body_refs (story_of s.ram) f (q + 2) (len - 2) with
          | none => rw [hr] at h; cases h
          | some l =>
            rw [hr] at h
            have e : refs = (story_of s.ram q * 256 + story_of s.ram (q + 1)) :: l :=
              (Option.some.inj h).symm
            subst e
            by_cases h3 : story_of s.ram q < 0x90
            · rw [if_pos h3]
              have hr2 : body_refs (story_of (effective s q).2.ram) f (q + 2) (len - 2) =
                  some l := hr
              obtain ⟨b, p1, s1, e1, e2, e3, e4, e5, e6, e7⟩ :=
                ih (effective s q).2 (q + 2) (len - 2) k l hr2 (by omega) hk
              have hc : ¬ (0x9000 ≤ story_of s.ram q * 256 + story_of s.ram (q + 1) ∧
                  d7 = (story_of s.ram q * 256 + story_of s.ram (q + 1)) % 4096) := by omega
              rw [body_equivs_cons, if_neg hc]
              exact ⟨b, p1, s1, e1, e2, fun hb => by rw [e3 hb]; omega, e4, e5, e6, e7⟩
            · rw [if_neg h3]
              by_cases h4 : d7 = (story_of s.ram q * 256 + story_of s.ram (q + 1)) % 4096
              · rw [if_pos h4]
                have hc : 0x9000 ≤ story_of s.ram q * 256 + story_of s.ram (q + 1) ∧
                    d7 = (story_of s.ram q * 256 + story_of s.ram (q + 1)) % 4096 :=
                  ⟨by omega, h4⟩
                rw [body_equivs_cons, if_pos hc, List.length_cons]
                by_cases h5 : s.list9_start_ptr + 0x20 ≤ s.list9_start_ptr + 2 * k + 2
                · rw [if_pos h5]
                  have hk15 : k = 15 := by omega
                  subst hk15
                  refine ⟨true, q + 2, store_equiv (effective (effective s q).2 (q + 1)).2
                    (s.list9_start_ptr + 2 * 15)
                    (msg_equiv (story_of s.ram q * 256 + story_of s.ram (q + 1)) d4),
                    ?_, ?_, ?_, rfl, rfl, rfl, rfl⟩
                  · rw [Nat.min_eq_left (by omega),
                      show s.list9_start_ptr + 2 * 15 + 2 = s.list9_start_ptr + 2 * 16 by omega]
                  · constructor
                    · intro _; omega
                    · intro _; rfl
                  · intro hb; cases hb
                · rw [if_neg h5]
                  obtain ⟨b, p1, s1, e1, e2, e3, e4, e5, e6, e7⟩ :=
                    ih (store_equiv (effective (effective s q).2 (q + 1)).2
                        (s.list9_start_ptr + 2 * k)
                        (msg_equiv (story_of s.ram q * 256 + story_of s.ram (q + 1)) d4))
                      (q + 2) (len - 2) (k + 1) l hr (by omega) (by omega)
                  change fme_refs d7 d4 f _ (q + 2) (len - 2)
                    (s.list9_start_ptr + 2 * (k + 1)) = some (b, p1, s.list9_start_ptr +
                      2 * min 16 (k + 1 + (body_equivs d7 d4 l).length), s1) at e1
                  change s1.workspace = write_entries
                    (wr8 (wr8 s.workspace (OFF_LIST_AREA + (s.list9_start_ptr + 2 * k) + 1) _)
                      (OFF_LIST_AREA + (s.list9_start_ptr + 2 * k)) _)
                    (OFF_LIST_AREA + (s.list9_start_ptr + 2 * (k + 1))) _ at e7
                  refine ⟨b, p1, s1, ?_, ?_, fun hb => by rw [e3 hb]; omega, e4, e5, e6, ?_⟩
                  · rw [show s.list9_start_ptr + 2 * k + 2 = s.list9_start_ptr + 2 * (k + 1)
                      by omega, show k + ((body_equivs d7 d4 l).length + 1) =
                      k + 1 + (body_equivs d7 d4 l).length by omega]
                    exact e1
                  · rw [e2]; omega
                  · rw [e7, show 16 - k = (16 - (k + 1)) + 1 by omega, List.take_succ_cons]
                    show _ = write_entries _ (OFF_LIST_AREA + (s.list9_start_ptr + 2 * k) + 2) _
                    rw [show OFF_LIST_AREA + (s.list9_start_ptr + 2 * (k + 1)) =
                      OFF_LIST_AREA + (s.list9_start_ptr + 2 * k) + 2 by omega]
              · rw [if_neg h4]
                have hr2 : body_refs (story_of (effective (effective s q).2 (q + 1)).2.ram) f
                    (q + 2) (len - 2) = some l := hr
                obtain ⟨b, p1, s1, e1, e2, e3, e4, e5, e6, e7⟩ :=
                  ih (effective (effective s q).2 (q + 1)).2 (q + 2) (len - 2) k l hr2
                    (by omega) hk
                have hc : ¬ (0x9000 ≤ story_of s.ram q * 256 + story_of s.ram (q + 1) ∧
                    d7 = (story_of s.ram q * 256 + story_of s.ram (q + 1)) % 4096) :=
                  fun hh => h4 hh.2
                rw [body_equivs_cons, if_neg hc]
                exact ⟨b, p1, s1, e1, e2, fun hb => by rw [e3 hb]; omega, e4, e5, e6, e7⟩

theorem fme_loop_succ (d7 fuel : Nat) (st : State) (a2 d4 list9_ptr : Nat) :
    fme_loop d7 (fuel + 1) st a2 d4 list9_ptr =
      if st.end_md < a2 then some (list9_ptr, st)
      else if read_story st a2 / 128 % 2 = 1 then
        fme_loop d7 fuel (effective st a2).2 ((a2 + 1) % 65536)
          (((d4 + 1) % 65536 + read_story st a2 % 128) % 65536) list9_ptr
      else if read_story st a2 / 64 % 2 = 1 then
        match get_md_length fuel (effective st a2).2 a2 with
        | none => none
        | some (d6, p, s) =>
          match fme_refs d7 ((d4 + 1) % 65536) fuel s p d6 list9_ptr with
          | none => none
          | some (true, _, l9, s1) => some (l9, s1)
          | some (false, p1, l9, s1) => fme_loop d7 fuel s1 p1 ((d4 + 1) % 65536) l9
      else
        match get_md_length fuel (effective st a2).2 a2 with
        | none => none
        | some (len, p, s) =>
          fme_loop d7 fuel s ((p + len) % 65536) ((d4 + 1) % 65536) list9_ptr := rfl

theorem md_records_succ (m : Mem) (end_md fuel p idx : Nat) :
    md_records m end_md (fuel + 1) p idx =
      if end_md < p then some []
      else if 128 ≤ m p then
        (md_records m end_md fuel (p + 1) (idx + m p % 128 + 1)).map
          (fun l => ⟨p, idx, m p, none⟩ :: l)
      else
        match md_len m fuel p 0 with
        | none => none
        | some (len, q) =>
          if end_md + 1 < q + len then none
          else
            match body_refs m fuel q len with
            | none => none
            | some refs =>
              (md_records m end_md fuel (q + len) (idx + 1)).map
                (fun l => ⟨p, idx, m p, some refs⟩ :: l) := rfl

theorem write_entries_append (l1 : List Nat) :
    ∀ (ws : Mem) (a : Nat) (l2 : List Nat),
      write_entries ws a (l1 ++ l2) =
        write_entries (write_entries ws a l1) (a + 2 * l1.length) l2 := by
  induction l1 with
  | nil => intro ws a l2; rfl
  | cons v l ih =>
    intro ws a l2
    show write_entries _ (a + 2) (l ++ l2) = write_entries (write_entries _ (a + 2) l) _ l2
    rw [ih, List.length_cons, show a + 2 * (l.length + 1) = a + 2 + 2 * l.length by omega]

theorem write_entries_frame (l : List Nat) :
    ∀ (ws : Mem) (a i : Nat), (i < a ∨ a + 2 * l.length ≤ i) →
      write_entries ws a l i = ws i := by
  induction l with
  | nil => intro ws a i _; rfl
  | cons v l ih =>
    intro ws a i h
    rw [List.length_cons] at h
    show write_entries _ (a + 2) l i = ws i
    rw [ih _ _ _ (by omega)]
    unfold wr8
    rw [if_neg (by omega), if_neg (by omega)]

theorem write_entries_get (l : List Nat) :
    ∀ (ws : Mem) (a j : Nat) (hj : j < l.length),
      write_entries ws a l (a + 2 * j) = l.get ⟨j, hj⟩ / 256 % 256 ∧
      write_entries ws a l (a + 2 * j + 1) = l.get ⟨j, hj⟩ % 256 := by
  induction l with
  | nil => intro ws a j hj; cases hj
  | cons v l ih =>
    intro ws a j hj
    cases j with
    | zero =>
      show write_entries _ (a + 2) l (a + 2 * 0) = v / 256 % 256 ∧
        write_entries _ (a + 2) l (a + 2 * 0 + 1) = v % 256
      rw [write_entries_frame _ _ _ _ (by omega), write_entries_frame _ _ _ _ (by omega)]
      unfold wr8
      rw [if_pos (by omega), if_neg (by omega), if_pos (by omega)]
      exact ⟨rfl, rfl⟩
    | succ n =>
      have h := ih (wr8 (wr8 ws (a + 1) v) a (v / 256)) (a + 2) n
        (by rw [List.length_cons] at hj; omega)
      rw [show a + 2 * (n + 1) = a + 2 + 2 * n by omega]
      exact h

theorem equivs_cons_skip (w p idx b : Nat) (l : List MdRecord) :
    equivs w (⟨p, idx, b, none⟩ :: l) = equivs w l := rfl

theorem equivs_cons_body (w p idx b : Nat) (refs : List Nat) (l : List MdRecord) :
    equivs w (⟨p, idx, b, some refs⟩ :: l) =
      (if b / 64 % 2 = 1 then body_equivs w (idx % 65536) refs else []) ++ equivs w l := rfl

/-- The outer loop of `find_msg_equiv` on a well-formed message block: with `k < 16`
entries stored so far it stores the values of the records from `p` on, up to 16
entries in all. -/
theorem fme_loop_spec (d7 : Nat) (fuel : Nat) :
    ∀ (s : State) (p idx k : Nat) (recs : List MdRecord),
      md_records (story_of s.ram) s.end_md fuel p idx = some recs → s.end_md < 65535 →
      k < 16 →
      ∃ s1, fme_loop d7 fuel s p ((idx + 65535) % 65536) (s.list9_start_ptr + 2 * k) =
          some (s.list9_start_ptr + 2 * min 16 (k + (equivs d7 recs).length), s1) ∧
        s1.ram = s.ram ∧ s1.end_md = s.end_md ∧ s1.list9_start_ptr = s.list9_start_ptr ∧
        s1.workspace = write_entries s.workspace (OFF_LIST_AREA + (s.list9_start_ptr + 2 * k))
          ((equivs d7 recs).take (16 - k)) := by
  induction fuel with
  | zero => intro s p idx k recs h; cases h
  | succ f ih =>
    intro s p idx k recs h hend hk
    rw [md_records_succ] at h
    rw [fme_loop_succ]
    by_cases h0 : s.end_md < p
    · rw [if_pos h0] at h
      rw [if_pos h0]
      have e : recs = [] := (Option.some.inj h).symm
      subst e
      refine ⟨s, ?_, rfl, rfl, rfl, ?_⟩
      · show _ = some (s.list9_start_ptr + 2 * min 16 (k + 0), s)
        rw [Nat.add_zero, Nat.min_eq_right (by omega)]
      · rw [show equivs d7 [] = [] from rfl, List.take_nil]
        rfl
    · rw [if_neg h0] at h
      rw [if_neg h0, read_story_eq s p (by omega)]
      have hb := story_of_lt s.ram p
      by_cases h1 : 128 ≤ story_of s.ram p
      · rw [if_pos h1] at h
        rw [if_pos (by omega)]
        cases hr : md_records (story_of s.ram) s.end_md f (p + 1)
            (idx + story_of s.ram p % 128 + 1) with
        | none => rw [hr] at h; cases h
        | some l =>
          rw [hr] at h
          have e : recs = ⟨p, idx, story_of s.ram p, none⟩ :: l := (Option.some.inj h).symm
          subst e
          rw [equivs_cons_skip]
          have hr2 : md_records (story_of (effective s p).2.ram) (effective s p).2.end_md f
              (p + 1) (idx + story_of s.ram p % 128 + 1) = some l := hr
          obtain ⟨s1, e1, e2, e3, e4, e5⟩ := ih (effective s p).2 (p + 1)
            (idx + story_of s.ram p % 128 + 1) k l hr2 hend hk
          rw [Nat.mod_eq_of_lt (show p + 1 < 65536 by omega),
            show (((idx + 65535) % 65536 + 1) % 65536 + story_of s.ram p % 128) % 65536 =
              (idx + story_of s.ram p % 128 + 1 + 65535) % 65536 by omega]
          exact ⟨s1, e1, e2, e3, e4, e5⟩
      · rw [if_neg h1] at h
        rw [if_neg (by omega)]
        cases hl : md_len (story_of s.ram) f p 0 with
        | none => rw [hl] at h; cases h
        | some lq =>
          obtain ⟨len, q⟩ := lq
          rw [hl] at h
          have h' : (if s.end_md + 1 < q + len then none
              else match body_refs (story_of s.ram) f q len with
                | none => none
                | some refs => (md_records (story_of s.ram) s.end_md f (q + len) (idx + 1)).map
                    (fun l => ⟨p, idx, story_of s.ram p, some refs⟩ :: l)) = some recs := h
          by_cases h2 : s.end_md + 1 < q + len
          · rw [if_pos h2] at h'
            cases h'
          · rw [if_neg h2] at h'
            cases hbr : body_refs (story_of s.ram) f q len with
            | none => rw [hbr] at h'; cases h'
            | some refs =>
              rw [hbr] at h'
              cases hr : md_records (story_of s.ram) s.end_md f (q + len) (idx + 1) with
              | none => rw [hr] at h'; cases h'
              | some l =>
                rw [hr] at h'
                have e : recs = ⟨p, idx, story_of s.ram p, some refs⟩ :: l :=
                  (Option.some.inj h').symm
                subst e
                have hmono := md_len_mono _ _ _ _ _ _ hl
                obtain ⟨s1, hg, hs1⟩ := get_md_length_loop_md_len f (effective s p).2 p 0 len q
                  hl (by omega) (by omega)
                obtain ⟨g1, g2, g3, g4⟩ := same_but_paging_more _ _
                  (same_but_paging_trans _ _ _ hs1
                    (same_but_paging_effective s s p (same_but_paging_refl s)))
                have hg2 : get_md_length f (effective s p).2 p = some (len, q % 65536, s1) := hg
                rw [hg2, Nat.mod_eq_of_lt (show q < 65536 by omega)]
                rw [equivs_cons_body]
                by_cases h3 : story_of s.ram p / 64 % 2 = 1
                · rw [if_pos h3]
                  show ∃ s1_1, (match fme_refs d7 (((idx + 65535) % 65536 + 1) % 65536) f s1
                        q len (s.list9_start_ptr + 2 * k) with
                      | none => none
                      | some (true, _, l9, s1) => some (l9, s1)
                      | some (false, p1, l9, s1) =>
                        fme_loop d7 f s1 p1 (((idx + 65535) % 65536 + 1) % 65536) l9) = _ ∧ _
                  rw [if_pos h3]
                  have hbr2 : body_refs (story_of s1.ram) f q len = some refs := by
                    rw [g1]; exact hbr
                  obtain ⟨b, p1, s2, e1, e2, e3, e4, e5, e6, e7⟩ :=
                    fme_refs_spec d7 (idx % 65536) f s1 q len k refs hbr2 (by omega) hk
                  rw [g3] at e1
                  rw [g3, g4] at e7
                  rw [show ((idx + 65535) % 65536 + 1) % 65536 = idx % 65536 by omega, e1]
                  cases b with
                  | true =>
                    have hfull := e2.mp rfl
                    refine ⟨s2, ?_, by rw [e4, g1], by rw [e5, g2], by rw [e6, g3], ?_⟩
                    · show some _ = some _
                      rw [List.length_append, Nat.min_eq_left (by omega),
                        Nat.min_eq_left (by omega)]
                    · rw [e7, List.take_append_of_le_length (by omega)]
                  | false =>
                    have hnot : ¬ 16 ≤ k + (body_equivs d7 (idx % 65536) refs).length :=
                      fun hh => Bool.noConfusion (e2.mpr hh)
                    have hp1 := e3 rfl
                    subst hp1
                    have hr2 : md_records (story_of s2.ram) s2.end_md f (q + len) (idx + 1) =
                        some l := by
                      rw [e4, g1, e5, g2]; exact hr
                    obtain ⟨s3, i1, i2, i3, i4, i5⟩ := ih s2 (q + len) (idx + 1)
                      (k + (body_equivs d7 (idx % 65536) refs).length) l hr2
                      (by rw [e5, g2]; exact hend) (by omega)
                    rw [e6, g3] at i1 i5
                    refine ⟨s3, ?_, by rw [i2, e4, g1], by rw [i3, e5, g2],
                      by rw [i4, e6, g3], ?_⟩
                    · show fme_loop d7 f s2 (q + len) (idx % 65536) _ = _
                      rw [show (idx + 1 + 65535) % 65536 = idx % 65536 by omega] at i1
                      rw [Nat.min_eq_right (by omega), i1, List.length_append, Nat.add_assoc]
                    · rw [i5, e7, List.take_of_length_le (by omega),
                        List.take_append_eq_append_take,
                        List.take_of_length_le (show (body_equivs d7 (idx % 65536) refs).length
                          ≤ 16 - k by omega), write_entries_append]
                      rw [show OFF_LIST_AREA + (s.list9_start_ptr + 2 * k) +
                          2 * (body_equivs d7 (idx % 65536) refs).length =
                        OFF_LIST_AREA + (s.list9_start_ptr +
                          2 * (k + (body_equivs d7 (idx % 65536) refs).length)) by omega,
                        show 16 - k - (body_equivs d7 (idx % 65536) refs).length =
                          16 - (k + (body_equivs d7 (idx % 65536) refs).length) by omega]
                · rw [if_neg h3]
                  show ∃ s1_1, fme_loop d7 f s1 ((q + len) % 65536)
                    (((idx + 65535) % 65536 + 1) % 65536) (s.list9_start_ptr + 2 * k) = _ ∧ _
                  rw [if_neg h3]
                  have hr2 : md_records (story_of s1.ram) s1.end_md f (q + len) (idx + 1) =
                      some l := by
                    rw [g1, g2]; exact hr
                  obtain ⟨s3, i1, i2, i3, i4, i5⟩ := ih s1 (q + len) (idx + 1) k l hr2
                    (by rw [g2]; exact hend) hk
                  rw [g3] at i1
                  rw [g3, g4] at i5
                  rw [Nat.mod_eq_of_lt (show q + len < 65536 by omega),
                    show ((idx + 65535) % 65536 + 1) % 65536 = (idx + 1 + 65535) % 65536
                      by omega]
                  exact ⟨s3, i1, by rw [i2, g1], by rw [i3, g2], by rw [i4, g3], i5⟩

/-- C32 (the claim fails): the message block of `equiv_state` holds three long-form
references `ref` with `ref & 0xfff = 0x123`, in the records 0, 1 and 2, for which the
claim lists the values `0x2000`, `0x0001` and `0x2002`. `find_msg_equiv(0x123)` appends
one entry only, the bytes `0x20, 0x02` of the last: it passes over the record 0, whose
first byte has bit `0x40` clear, and over the reference `0x8123`, whose first byte is
below `0x90`. -/
theorem C32_counterexample :
    md_records (story_of equiv_state.ram) equiv_state.end_md 8 equiv_state.start_md 0 =
      some equiv_records ∧
    equivs_as_claimed 0x123 equiv_records = [0x2000, 0x0001, 0x2002] ∧
    (find_msg_equiv 8 equiv_state 0x123 equiv_state.list9_start_ptr).map
      (fun r => (r.1, (List.range 4).map (fun i => rd8 r.2.workspace (list9 equiv_state + i)))) =
      some (equiv_state.list9_start_ptr + 2, [0x20, 0x02, 0, 0]) := by
  refine ⟨rfl, ?_, ?_⟩
  · decide
  · decide

/-- C32 (amended): on a message block of well-formed records that ends below the
address `0xffff`, `find_msg_equiv(w)`, started with the list9 cursor at the list9 base,
returns with the values `equivs w recs` stored from the list9 base on, in message-block
order and high byte first, up to 16 of them, and the cursor behind the last; these are
the values `((ref << 1) & 0xe000) | message_index` of the long-form references
`ref` with `ref & 0xfff = w` whose first byte is at least `0x90`, in the body records
whose first byte has bit `0x40` set. No byte before the list9 base, and none at or
beyond the list9 base + 32, is written. -/
theorem C32_find_msg_equiv (fuel : Nat) (st : State) (w : Nat) (recs : List MdRecord)
    (hend : st.end_md < 65535)
    (hrecs : md_records (story_of st.ram) st.end_md fuel st.start_md 0 = some recs) :
    ∃ s, find_msg_equiv fuel st w st.list9_start_ptr =
        some (st.list9_start_ptr + 2 * min 16 (equivs w recs).length, s) ∧
      s.workspace = write_entries st.workspace (list9 st) ((equivs w recs).take 16) ∧
      (∀ (j : Nat) (hj : j < ((equivs w recs).take 16).length),
        rd8 s.workspace (list9 st + 2 * j) = ((equivs w recs).take 16).get ⟨j, hj⟩ / 256 % 256 ∧
        rd8 s.workspace (list9 st + 2 * j + 1) = ((equivs w recs).take 16).get ⟨j, hj⟩ % 256) ∧
      (∀ a, a < list9 st ∨ list9 st + 32 ≤ a → s.workspace a = st.workspace a) := by
  obtain ⟨s, e1, _, _, _, e5⟩ := fme_loop_spec w fuel st st.start_md 0 0 recs hrecs hend
    (by omega)
  rw [Nat.mul_zero, Nat.add_zero, Nat.zero_add] at e1
  rw [Nat.mul_zero, Nat.add_zero, Nat.sub_zero] at e5
  have e6 : s.workspace = write_entries st.workspace (list9 st) ((equivs w recs).take 16) := e5
  refine ⟨s, e1, e6, ?_, ?_⟩
  · intro j hj
    have h := write_entries_get _ st.workspace (list9 st) j hj
    unfold rd8
    rw [e6, h.1, h.2, Nat.mod_mod, Nat.mod_mod]
    exact ⟨rfl, rfl⟩
  · intro a ha
    rw [e6]
    have hl : ((equivs w recs).take 16).length ≤ 16 := by
      rw [List.length_take]
      exact Nat.min_le_left _ _
    exact write_entries_frame _ _ _ _ (by omega)

theorem C32_find_msg_equiv_witness :
    ∃ s, find_msg_equiv 8 equiv_state 0x123 equiv_state.list9_start_ptr =
        some (equiv_state.list9_start_ptr + 2 * min 16 (equivs 0x123 equiv_records).length, s) ∧
      s.workspace = write_entries equiv_state.workspace (list9 equiv_state)
        ((equivs 0x123 equiv_records).take 16) ∧
      (∀ (j : Nat) (hj : j < ((equivs 0x123 equiv_records).take 16).length),
        rd8 s.workspace (list9 equiv_state + 2 * j) =
          ((equivs 0x123 equiv_records).take 16).get ⟨j, hj⟩ / 256 % 256 ∧
        rd8 s.workspace (list9 equiv_state + 2 * j + 1) =
          ((equivs 0x123 equiv_records).take 16).get ⟨j, hj⟩ % 256) ∧
      (∀ a, a < list9 equiv_state ∨ list9 equiv_state + 32 ≤ a →
        s.workspace a = equiv_state.workspace a) :=
  C32_find_msg_equiv 8 equiv_state 0x123 equiv_records (by decide) rfl


/-! ## C37: message numbers of `find_msg_equiv` and of `print_message` -/

theorem md_walk_succ (fuel : Nat) (st : State) (msg msg_ptr : Nat) :
    md_walk (fuel + 1) st msg msg_ptr =
      if 0 < msg ∧ msg < 0x8000 ∧ msg_ptr ≤ st.end_md then
        if peek (effective st msg_ptr).2 (effective st msg_ptr).1 / 128 % 2 = 1 then
          md_walk fuel (effective st msg_ptr).2
            ((msg + 65536 - peek (effective st msg_ptr).2 (effective st msg_ptr).1 % 128 + 65535)
              % 65536)
            ((msg_ptr + 1) % 65536)
        else
          match get_md_length fuel (effective st msg_ptr).2 msg_ptr with
          | none => none
          | some (len, p, s) => md_walk fuel s ((msg + 65535) % 65536) ((p + len) % 65536)
      else some (msg, msg_ptr, st) := rfl

theorem peek_story (s : State) (p : Nat) (hp : p < 65536) :
    peek (effective s p).2 (effective s p).1 = story_of s.ram p := read_story_eq s p hp

/-- The three shapes of a well-formed message block from `p` on: empty, a skip record
first, or a body record first. -/
theorem md_records_cases (m : Mem) (end_md f p idx : Nat) (recs : List MdRecord)
    (h : md_records m end_md (f + 1) p idx = some recs) :
    (end_md < p ∧ recs = []) ∨
    (p ≤ end_md ∧ 128 ≤ m p ∧ ∃ l, md_records m end_md f (p + 1) (idx + m p % 128 + 1) = some l ∧
      recs = ⟨p, idx, m p, none⟩ :: l) ∨
    (p ≤ end_md ∧ m p < 128 ∧ ∃ len q refs l, md_len m f p 0 = some (len, q) ∧
      q + len ≤ end_md + 1 ∧ body_refs m f q len = some refs ∧
      md_records m end_md f (q + len) (idx + 1) = some l ∧
      recs = ⟨p, idx, m p, some refs⟩ :: l) := by
  rw [md_records_succ] at h
  by_cases h0 : end_md < p
  · rw [if_pos h0] at h
    exact Or.inl ⟨h0, (Option.some.inj h).symm⟩
  · rw [if_neg h0] at h
    by_cases h1 : 128 ≤ m p
    · rw [if_pos h1] at h
      cases hr : md_records m end_md f (p + 1) (idx + m p % 128 + 1) with
      | none => rw [hr] at h; cases h
      | some l =>
        rw [hr] at h
        exact Or.inr (Or.inl ⟨by omega, h1, l, rfl, (Option.some.inj h).symm⟩)
    · rw [if_neg h1] at h
      cases hl : md_len m f p 0 with
      | none => rw [hl] at h; cases h
      | some lq =>
        obtain ⟨len, q⟩ := lq
        rw [hl] at h
        have h' : (if end_md + 1 < q + len then none
            else match body_refs m f q len with
              | none => none
              | some refs => (md_records m end_md f (q + len) (idx + 1)).map
                  (fun l => ⟨p, idx, m p, some refs⟩ :: l)) = some recs := h
        by_cases h2 : end_md + 1 < q + len
        · rw [if_pos h2] at h'
          cases h'
        · rw [if_neg h2] at h'
          cases hbr : body_refs m f q len with
          | none => rw [hbr] at h'; cases h'
          | some refs =>
            rw [hbr] at h'
            cases hr : md_records m end_md f (q + len) (idx + 1) with
            | none => rw [hr] at h'; cases h'
            | some l =>
              rw [hr] at h'
              exact Or.inr (Or.inr ⟨by omega, by omega, len, q, refs, l, rfl, by omega, hbr, hr,
                (Option.some.inj h').symm⟩)

theorem md_records_ge (m : Mem) (end_md : Nat) (fuel : Nat) :
    ∀ (p idx : Nat) (recs : List MdRecord), md_records m end_md fuel p idx = some recs →
      ∀ r, r ∈ recs → p ≤ r.addr ∧ idx ≤ r.index := by
  induction fuel with
  | zero => intro p idx recs h; cases h
  | succ f ih =>
    intro p idx recs h r hr
    rcases md_records_cases m end_md f p idx recs h with ⟨_, e⟩ | ⟨_, _, l, hl, e⟩ |
      ⟨_, _, len, q, refs, l, hlen, _, _, hl, e⟩
    · subst e
      cases hr
    · subst e
      rcases List.mem_cons.mp hr with e | hm
      · subst e
        exact ⟨Nat.le_refl _, Nat.le_refl _⟩
      · have := ih _ _ _ hl r hm
        omega
    · subst e
      rcases List.mem_cons.mp hr with e | hm
      · subst e
        exact ⟨Nat.le_refl _, Nat.le_refl _⟩
      · have := ih _ _ _ hl r hm
        have := md_len_mono _ _ _ _ _ _ hlen
        omega

/-- The walk of `print_message` over a well-formed message block, started at the
record with the index `idx` and with the distance `r.index - idx` to the record `r` as
the value of `msg`, ends at the address of `r` with `msg` counted down to 0. -/
theorem md_walk_hit (fuel : Nat) :
    ∀ (s : State) (p idx : Nat) (recs : List MdRecord) (r : MdRecord),
      md_records (story_of s.ram) s.end_md fuel p idx = some recs → s.end_md < 65535 →
      r ∈ recs → r.index < idx + 0x8000 →
      ∃ s1, md_walk fuel s (r.index - idx) p = some (0, r.addr, s1) ∧ same_but_paging s1 s := by
  induction fuel with
  | zero => intro s p idx recs r h; cases h
  | succ f ih =>
    intro s p idx recs r h hend hr hidx
    rw [md_walk_succ]
    rcases md_records_cases _ _ f p idx recs h with ⟨_, e⟩ | ⟨hp, hb, l, hl, e⟩ |
      ⟨hp, hb, len, q, refs, l, hlen, hq, _, hl, e⟩
    · subst e
      cases hr
    · subst e
      rcases List.mem_cons.mp hr with e | hm
      · subst e
        rw [if_neg (by simp)]
        refine ⟨s, ?_, same_but_paging_refl s⟩
        show some (idx - idx, p, s) = some (0, p, s)
        rw [Nat.sub_self]
      · have hge := md_records_ge _ _ _ _ _ _ hl r hm
        have hlt := story_of_lt s.ram p
        rw [if_pos ⟨by omega, by omega, hp⟩, peek_story s p (by omega), if_pos (by omega),
          Nat.mod_eq_of_lt (show p + 1 < 65536 by omega),
          show (r.index - idx + 65536 - story_of s.ram p % 128 + 65535) % 65536 =
            r.index - (idx + story_of s.ram p % 128 + 1) by omega]
        have hl2 : md_records (story_of (effective s p).2.ram) (effective s p).2.end_md f
            (p + 1) (idx + story_of s.ram p % 128 + 1) = some l := hl
        obtain ⟨s1, e1, e2⟩ := ih (effective s p).2 _ _ l r hl2 hend hm (by omega)
        exact ⟨s1, e1, same_but_paging_trans _ _ _ e2
          (same_but_paging_effective s s p (same_but_paging_refl s))⟩
    · subst e
      rcases List.mem_cons.mp hr with e | hm
      · subst e
        rw [if_neg (by simp)]
        refine ⟨s, ?_, same_but_paging_refl s⟩
        show some (idx - idx, p, s) = some (0, p, s)
        rw [Nat.sub_self]
      · have hge := md_records_ge _ _ _ _ _ _ hl r hm
        have hmono := md_len_mono _ _ _ _ _ _ hlen
        rw [if_pos ⟨by omega, by omega, hp⟩, peek_story s p (by omega), if_neg (by omega)]
        obtain ⟨s1, hg, hs1⟩ := get_md_length_loop_md_len f (effective s p).2 p 0 len q
          hlen (by omega) (by omega)
        have hg2 : get_md_length f (effective s p).2 p = some (len, q % 65536, s1) := hg
        have hs2 := same_but_paging_trans _ _ _ hs1
          (same_but_paging_effective s s p (same_but_paging_refl s))
        obtain ⟨g1, g2, _, _⟩ := same_but_paging_more _ _ hs2
        rw [hg2]
        show ∃ s1_1, md_walk f s1 ((r.index - idx + 65535) % 65536)
          ((q % 65536 + len) % 65536) = _ ∧ _
        rw [Nat.mod_eq_of_lt (show q < 65536 by omega),
          Nat.mod_eq_of_lt (show q + len < 65536 by omega),
          show (r.index - idx + 65535) % 65536 = r.index - (idx + 1) by omega]
        have hl2 : md_records (story_of s1.ram) s1.end_md f (q + len) (idx + 1) = some l := by
          rw [g1, g2]; exact hl
        obtain ⟨s3, e1, e2⟩ := ih s1 _ _ l r hl2 (by rw [g2]; exact hend) hm (by omega)
        exact ⟨s3, e1, same_but_paging_trans _ _ _ e2 hs2⟩

theorem md_records_at (m : Mem) (end_md fuel p idx : Nat) (recs : List MdRecord)
    (h : md_records m end_md fuel p idx = some recs) (r : MdRecord) (hr : r ∈ recs)
    (ha : r.addr = p) : r.index = idx := by
  cases fuel with
  | zero => cases h
  | succ f =>
    rcases md_records_cases m end_md f p idx recs h with ⟨_, e⟩ | ⟨_, _, l, hl, e⟩ |
      ⟨_, _, len, q, refs, l, hlen, _, _, hl, e⟩
    · subst e
      cases hr
    · subst e
      rcases List.mem_cons.mp hr with e | hm
      · subst e
        rfl
      · have := md_records_ge _ _ _ _ _ _ hl r hm
        omega
    · subst e
      rcases List.mem_cons.mp hr with e | hm
      · subst e
        rfl
      · have := md_records_ge _ _ _ _ _ _ hl r hm
        have := md_len_mono _ _ _ _ _ _ hlen
        omega

theorem md_walk_big (fuel : Nat) (s : State) (m p : Nat) (r : Nat × Nat × State)
    (hm : 0x8000 ≤ m) (h : md_walk fuel s m p = some r) : r.1 = m ∧ r.2.1 = p := by
  cases fuel with
  | zero => cases h
  | succ f =>
    rw [md_walk_succ, if_neg (by omega)] at h
    have e := Option.some.inj h
    rw [← e]
    exact ⟨rfl, rfl⟩

/-- The walk of `print_message` over a well-formed message block never goes back, and
when it ends with `msg` counted down to 0 at the address of a record, the index of
that record is the message number. -/
theorem md_walk_unique (fuel : Nat) :
    ∀ (s : State) (p idx : Nat) (recs : List MdRecord) (m : Nat) (res : Nat × Nat × State),
      md_records (story_of s.ram) s.end_md fuel p idx = some recs → s.end_md < 65535 →
      m < 65536 → md_walk fuel s m p = some res →
      p ≤ res.2.1 ∧
        (res.1 = 0 → ∀ r, r ∈ recs → r.addr = res.2.1 → r.index = idx + m) := by
  induction fuel with
  | zero => intro s p idx recs m res h; cases h
  | succ f ih =>
    intro s p idx recs m res h hend hm hw
    rw [md_walk_succ] at hw
    by_cases hc : 0 < m ∧ m < 0x8000 ∧ p ≤ s.end_md
    · rw [if_pos hc, peek_story s p (by omega)] at hw
      have hlt := story_of_lt s.ram p
      rcases md_records_cases _ _ f p idx recs h with ⟨_, e⟩ | ⟨hp, hb, l, hl, e⟩ |
        ⟨hp, hb, len, q, refs, l, hlen, hq, _, hl, e⟩
      · omega
      · subst e
        rw [if_pos (by omega), Nat.mod_eq_of_lt (show p + 1 < 65536 by omega)] at hw
        by_cases hmn : story_of s.ram p % 128 + 1 ≤ m
        · rw [show (m + 65536 - story_of s.ram p % 128 + 65535) % 65536 =
            m - (story_of s.ram p % 128 + 1) by omega] at hw
          have hl2 : md_records (story_of (effective s p).2.ram) (effective s p).2.end_md f
              (p + 1) (idx + story_of s.ram p % 128 + 1) = some l := hl
          obtain ⟨i1, i2⟩ := ih (effective s p).2 _ _ l _ res hl2 hend (by omega) hw
          refine ⟨by omega, fun h0 r hr ha => ?_⟩
          rcases List.mem_cons.mp hr with e | hmem
          · subst e
            have : p = res.2.1 := ha
            omega
          · have := i2 h0 r hmem ha
            omega
        · have hbig := md_walk_big _ _ _ _ _ (by omega) hw
          refine ⟨by omega, fun h0 => ?_⟩
          omega
      · subst e
        have hmono := md_len_mono _ _ _ _ _ _ hlen
        rw [if_neg (by omega)] at hw
        obtain ⟨s1, hg, hs1⟩ := get_md_length_loop_md_len f (effective s p).2 p 0 len q
          hlen (by omega) (by omega)
        have hg2 : get_md_length f (effective s p).2 p = some (len, q % 65536, s1) := hg
        have hs2 := same_but_paging_trans _ _ _ hs1
          (same_but_paging_effective s s p (same_but_paging_refl s))
        obtain ⟨g1, g2, _, _⟩ := same_but_paging_more _ _ hs2
        rw [hg2] at hw
        have hw2 : md_walk f s1 ((m + 65535) % 65536) ((q % 65536 + len) % 65536) =
          some res := hw
        rw [Nat.mod_eq_of_lt (show q < 65536 by omega),
          Nat.mod_eq_of_lt (show q + len < 65536 by omega),
          show (m + 65535) % 65536 = m - 1 by omega] at hw2
        have hl2 : md_records (story_of s1.ram) s1.end_md f (q + len) (idx + 1) = some l := by
          rw [g1, g2]; exact hl
        obtain ⟨i1, i2⟩ := ih s1 _ _ l _ res hl2 (by rw [g2]; exact hend) (by omega) hw2
        refine ⟨by omega, fun h0 r hr ha => ?_⟩
        rcases List.mem_cons.mp hr with e | hmem
        · subst e
          have : p = res.2.1 := ha
          omega
        · have := i2 h0 r hmem ha
          omega
    · rw [if_neg hc] at hw
      have e := Option.some.inj hw
      rw [← e]
      refine ⟨Nat.le_refl _, fun h0 r hr ha => ?_⟩
      have h1 : m = 0 := h0
      have := md_records_at _ _ _ _ _ _ h r hr ha
      omega

theorem md_len_fuel (m : Mem) (f : Nat) :
    ∀ (g p tot : Nat) (r : Nat × Nat), md_len m f p tot = some r → f ≤ g →
      md_len m g p tot = some r := by
  induction f with
  | zero => intro g p tot r h; cases h
  | succ f ih =>
    intro g p tot r h hg
    obtain ⟨g1, rfl⟩ : ∃ g1, g = g1 + 1 := ⟨g - 1, by omega⟩
    rw [md_len_succ] at h
    rw [md_len_succ]
    by_cases hc : (m p + 65535) % 65536 % 64 = 0x3f
    · rw [if_pos hc] at h
      rw [if_pos hc]
      exact ih _ _ _ _ h (by omega)
    · rw [if_neg hc] at h
      rw [if_neg hc]
      exact h

/-- The header of a body record of a well-formed message block. -/
theorem md_records_body (m : Mem) (end_md : Nat) (fuel : Nat) :
    ∀ (p idx : Nat) (recs : List MdRecord), md_records m end_md fuel p idx = some recs →
      ∀ (r : MdRecord) (refs : List Nat), r ∈ recs → r.refs = some refs →
        r.addr ≤ end_md ∧ r.first = m r.addr ∧ m r.addr < 128 ∧
        ∃ len q, md_len m fuel r.addr 0 = some (len, q) ∧ q + len ≤ end_md + 1 := by
  induction fuel with
  | zero => intro p idx recs h; cases h
  | succ f ih =>
    intro p idx recs h r refs hr hb
    rcases md_records_cases m end_md f p idx recs h with ⟨_, e⟩ | ⟨_, _, l, hl, e⟩ |
      ⟨hp, hlt, len, q, refs1, l, hlen, hq, _, hl, e⟩
    · subst e
      cases hr
    · subst e
      rcases List.mem_cons.mp hr with e | hm
      · subst e
        cases hb
      · obtain ⟨h1, h2, h3, len, q, h4, h5⟩ := ih _ _ _ hl r refs hm hb
        exact ⟨h1, h2, h3, len, q, md_len_fuel _ _ _ _ _ _ h4 (by omega), h5⟩
    · subst e
      rcases List.mem_cons.mp hr with e | hm
      · subst e
        exact ⟨hp, rfl, hlt, len, q, md_len_fuel _ _ _ _ _ _ hlen (by omega), hq⟩
      · obtain ⟨h1, h2, h3, len, q, h4, h5⟩ := ih _ _ _ hl r refs hm hb
        exact ⟨h1, h2, h3, len, q, md_len_fuel _ _ _ _ _ _ h4 (by omega), h5⟩

/-- The values `find_msg_equiv` packs for a block contain, for a body record with
bit `0x40` set, the values of its references with the index of the record. -/
theorem equivs_of_mem (w : Nat) (recs : List MdRecord) :
    ∀ (r : MdRecord) (refs : List Nat), r ∈ recs → r.refs = some refs →
      r.first / 64 % 2 = 1 →
      ∃ pre post, equivs w recs = pre ++ body_equivs w (r.index % 65536) refs ++ post := by
  induction recs with
  | nil => intro r refs hr; cases hr
  | cons x l ih =>
    intro r refs hr hb hf
    rcases List.mem_cons.mp hr with e | hm
    · subst e
      refine ⟨[], equivs w l, ?_⟩
      show (match r.refs with
        | some refs =>
          if r.first / 64 % 2 = 1 then body_equivs w (r.index % 65536) refs else []
        | none => []) ++ equivs w l = _
      rw [hb]
      show (if r.first / 64 % 2 = 1 then body_equivs w (r.index % 65536) refs else []) ++
        equivs w l = _
      rw [if_pos hf]
      rfl
    · obtain ⟨pre, post, e⟩ := ih r refs hm hb hf
      obtain ⟨hd, ehd⟩ : ∃ hd, equivs w (x :: l) = hd ++ equivs w l := ⟨_, rfl⟩
      refine ⟨hd ++ pre, post, ?_⟩
      rw [ehd, e]
      simp only [List.append_assoc]

set_option maxRecDepth 1000000 in
/-- C37 (the claim fails): `far_state` has a well-formed message block whose last
record, at the address 256, has the message index `0x8000`, after 256 skip records of
128 indices each. `find_msg_equiv` packs the reference `0x9123` of that record with
the index `0x8000` (the value `0xa000`), but `print_message(0x8000)` takes its 16-bit
argument for a negative number: its walk does not leave `start_md`, and it prints
nothing. -/
theorem C37_counterexample :
    (md_records (story_of far_state.ram) far_state.end_md 300 far_state.start_md 0).map
      (fun l => l.getLast?.map (fun r => (r.addr, r.index, r.first, r.refs))) =
      some (some (256, 0x8000, 0x43, some [0x9123])) ∧
    (find_msg_equiv 300 far_state 0x123 far_state.list9_start_ptr).map
      (fun r => (r.1, rd8 r.2.workspace (list9 far_state),
        rd8 r.2.workspace (list9 far_state + 1))) =
      some (far_state.list9_start_ptr + 2, 0xa0, 0x00) ∧
    (md_walk 300 far_state 0x8000 far_state.start_md).map (fun r => (r.1, r.2.1)) =
      some (0x8000, 0) ∧
    (print_message 300 far_state 0x8000).map (fun r => r.output) = some [] := by
  refine ⟨?_, ?_, ?_, ?_⟩
  · decide
  · decide
  · decide
  · decide

/-- C37 (amended): in a message block of well-formed records that ends below the
address `0xffff`, take a body record `r` with a message index below `0x8000`.
`find_msg_equiv(w)` stores the values `equivs w recs` (up to 16), among which, when
the first byte of `r` has bit `0x40` set, the references of `r` carry the index of `r`.
The walk of `print_message(r.index)` ends at the address of `r` with the count at 0,
and `print_message` goes on to print the body of `r`, the `len` bytes from `q` on that
its length bytes give. No other message number below `0x10000` makes the walk end
there with the count at 0. -/
theorem C37_message_numbering (fuel : Nat) (st : State) (w : Nat) (recs : List MdRecord)
    (r : MdRecord) (refs : List Nat) (hend : st.end_md < 65535)
    (hrecs : md_records (story_of st.ram) st.end_md fuel st.start_md 0 = some recs)
    (hr : r ∈ recs) (hbody : r.refs = some refs) (hidx : r.index < 0x8000) :
    (∃ s, find_msg_equiv fuel st w st.list9_start_ptr =
        some (st.list9_start_ptr + 2 * min 16 (equivs w recs).length, s) ∧
      s.workspace = write_entries st.workspace (list9 st) ((equivs w recs).take 16)) ∧
    (r.first / 64 % 2 = 1 →
      ∃ pre post, equivs w recs = pre ++ body_equivs w r.index refs ++ post) ∧
    (∃ s0 len q s1, md_walk fuel st r.index st.start_md = some (0, r.addr, s0) ∧
      md_len (story_of st.ram) fuel r.addr 0 = some (len, q) ∧ same_but_paging s1 st ∧
      print_message fuel st r.index = md_words fuel s1 q len) ∧
    (∀ (m : Nat) (res : Nat × Nat × State), m < 65536 →
      md_walk fuel st m st.start_md = some res → res.1 = 0 → res.2.1 = r.addr →
      m = r.index) := by
  refine ⟨?_, ?_, ?_, ?_⟩
  · obtain ⟨s, e1, _, _, _, e5⟩ := fme_loop_spec w fuel st st.start_md 0 0 recs hrecs hend
      (by omega)
    rw [Nat.mul_zero, Nat.add_zero, Nat.zero_add] at e1
    rw [Nat.mul_zero, Nat.add_zero, Nat.sub_zero] at e5
    exact ⟨s, e1, e5⟩
  · intro hf
    have h := equivs_of_mem w recs r refs hr hbody hf
    rw [Nat.mod_eq_of_lt (show r.index < 65536 by omega)] at h
    exact h
  · obtain ⟨s0, hw, hs0⟩ := md_walk_hit fuel st st.start_md 0 recs r hrecs hend hr (by omega)
    rw [Nat.sub_zero] at hw
    obtain ⟨ha, _, hlt, len, q, hlen, hq⟩ := md_records_body _ _ _ _ _ _ hrecs r refs hr hbody
    obtain ⟨f1, _, _, _, _, _, _⟩ := same_but_paging_fields _ _ hs0
    have hmono := md_len_mono _ _ _ _ _ _ hlen
    have hlen2 : md_len (story_of (effective s0 r.addr).2.ram) fuel r.addr 0 = some (len, q) := by
      show md_len (story_of s0.ram) fuel r.addr 0 = some (len, q)
      rw [f1]; exact hlen
    obtain ⟨s1, hg, hs1⟩ := get_md_length_loop_md_len fuel (effective s0 r.addr).2 r.addr 0 len q
      hlen2 (by omega) (by omega)
    have hg2 : get_md_length fuel (effective s0 r.addr).2 r.addr = some (len, q % 65536, s1) := hg
    refine ⟨s0, len, q, s1, hw, hlen, same_but_paging_trans _ _ _ hs1
      (same_but_paging_effective s0 st r.addr hs0), ?_⟩
    unfold print_message
    rw [hw]
    simp only []
    rw [if_neg (by decide), peek_story s0 r.addr (by omega), f1, if_neg (by omega), hg2,
      Nat.mod_eq_of_lt (show q < 65536 by omega)]
  · intro m res hm hw h0 ha
    have h := (md_walk_unique fuel st st.start_md 0 recs m res hrecs hend hm hw).2 h0 r hr
      ha.symm
    omega

theorem C37_message_numbering_witness :
    (∃ s, find_msg_equiv 8 equiv_state 0x123 equiv_state.list9_start_ptr =
        some (equiv_state.list9_start_ptr + 2 * min 16 (equivs 0x123 equiv_records).length, s) ∧
      s.workspace = write_entries equiv_state.workspace (list9 equiv_state)
        ((equivs 0x123 equiv_records).take 16)) ∧
    ((0x43 : Nat) / 64 % 2 = 1 →
      ∃ pre post, equivs 0x123 equiv_records = pre ++ body_equivs 0x123 2 [0x9123] ++ post) ∧
    (∃ s0 len q s1, md_walk 8 equiv_state 2 equiv_state.start_md = some (0, 6, s0) ∧
      md_len (story_of equiv_state.ram) 8 6 0 = some (len, q) ∧
      same_but_paging s1 equiv_state ∧
      print_message 8 equiv_state 2 = md_words 8 s1 q len) ∧
    (∀ (m : Nat) (res : Nat × Nat × State), m < 65536 →
      md_walk 8 equiv_state m equiv_state.start_md = some res → res.1 = 0 → res.2.1 = 6 →
      m = 2) :=
  C37_message_numbering 8 equiv_state 0x123 equiv_records ⟨6, 2, 0x43, some [0x9123]⟩ [0x9123]
    (by decide) rfl
    (List.mem_cons_of_mem _ (List.mem_cons_of_mem _ (List.mem_cons_self _ _))) rfl (by decide)


/-! ## C38: the writes of the word lookup into the list area -/

theorem same_ws_refl (s : State) : same_ws s s := ⟨rfl, rfl⟩

theorem same_ws_trans (s t u : State) (h1 : same_ws s t) (h2 : same_ws t u) : same_ws s u :=
  ⟨h1.1.trans h2.1, h1.2.trans h2.2⟩

theorem same_ws_of_paging (s t : State) (h : same_but_paging s t) : same_ws s t := by
  obtain ⟨a, b, c, rfl⟩ := h
  exact ⟨rfl, rfl⟩

theorem ws_window_refl (n : Nat) (s : State) : ws_window n s s := ⟨rfl, fun _ _ => rfl⟩

theorem ws_window_trans (n : Nat) (s t u : State) (h1 : ws_window n s t)
    (h2 : ws_window n t u) : ws_window n s u := by
  have e : list9 t = list9 u := by
    unfold list9
    rw [h2.1]
  refine ⟨h1.1.trans h2.1, fun a ha => ?_⟩
  rw [h1.2 a (by rw [e]; exact ha), h2.2 a ha]

theorem ws_window_mono (n m : Nat) (s t : State) (hnm : n ≤ m) (h : ws_window n s t) :
    ws_window m s t :=
  ⟨h.1, fun a ha => h.2 a (by omega)⟩

theorem ws_window_of_same (n : Nat) (s t : State) (h : same_ws s t) : ws_window n s t :=
  ⟨h.2, fun a _ => by rw [h.1]⟩

theorem same_ws_get_dictionary_code (s : State) : same_ws (get_dictionary_code s).2 s := by
  unfold get_dictionary_code
  by_cases h : s.unpack_count ≠ 8
  · rw [if_pos h]
    exact ⟨rfl, rfl⟩
  · rw [if_neg h]
    exact ⟨rfl, rfl⟩

theorem same_ws_get_long_code (fuel : Nat) :
    ∀ (s : State) (r : Nat × State), get_long_code fuel s = some r → same_ws r.2 s := by
  induction fuel with
  | zero =>
    intro s r h
    unfold get_long_code at h
    simp only [] at h
    have h1 := same_ws_get_dictionary_code s
    by_cases hc : (get_dictionary_code s).1 = 0x10
    · rw [if_pos hc] at h
      unfold get_dictionary at h
      split at h
      · cases h
      · have e := Option.some.inj h
        rw [← e]
        exact same_ws_trans _ _ _
          (same_ws_get_dictionary_code { (get_dictionary_code s).2 with word_case := true })
          ⟨h1.1, h1.2⟩
    · rw [if_neg hc] at h
      have e := Option.some.inj h
      rw [← e]
      exact same_ws_trans _ _ _ (same_ws_get_dictionary_code (get_dictionary_code s).2) h1
  | succ f ih =>
    intro s r h
    unfold get_long_code at h
    simp only [] at h
    have h1 := same_ws_get_dictionary_code s
    by_cases hc : (get_dictionary_code s).1 = 0x10
    · rw [if_pos hc, get_dictionary_eq] at h
      have h2 : same_ws
          (get_dictionary_code { (get_dictionary_code s).2 with word_case := true }).2 s :=
        same_ws_trans _ _ _
          (same_ws_get_dictionary_code { (get_dictionary_code s).2 with word_case := true })
          ⟨h1.1, h1.2⟩
      split at h
      · exact same_ws_trans _ _ _ (ih _ _ h) h2
      · have e := Option.some.inj h
        rw [← e]
        exact h2
    · rw [if_neg hc] at h
      have e := Option.some.inj h
      rw [← e]
      exact same_ws_trans _ _ _ (same_ws_get_dictionary_code (get_dictionary_code s).2) h1

theorem same_ws_get_dictionary (fuel : Nat) (s : State) (d0 : Nat) (r : Nat × State)
    (h : get_dictionary fuel s d0 = some r) : same_ws r.2 s := by
  cases fuel with
  | zero =>
    unfold get_dictionary at h
    split at h
    · cases h
    · have e := Option.some.inj h
      rw [← e]
      exact same_ws_refl s
  | succ f =>
    rw [get_dictionary_eq] at h
    split at h
    · exact same_ws_get_long_code f s r h
    · have e := Option.some.inj h
      rw [← e]
      exact same_ws_refl s

theorem unpack_loop_succ (fuel : Nat) (st : State) (a3 : Nat) :
    unpack_loop (fuel + 1) st a3 =
      if (get_dictionary_code st).2.end_wdp5 ≤ (get_dictionary_code st).2.dict_ptr then
        some (true, (get_dictionary_code st).2)
      else if 0x1b ≤ (get_dictionary_code st).1 then
        if OUT_BUFFER_SIZE ≤ a3 then none
        else some (false, { (get_dictionary_code st).2 with
          three_chars := wr8 (get_dictionary_code st).2.three_chars a3 0,
          unpack_d3 := (get_dictionary_code st).1 % 256 })
      else
        match get_dictionary fuel (get_dictionary_code st).2 (get_dictionary_code st).1 with
        | none => none
        | some (c, s) =>
          if OUT_BUFFER_SIZE ≤ a3 then none
          else unpack_loop fuel { s with three_chars := wr8 s.three_chars a3 c } (a3 + 1) := rfl

theorem same_ws_unpack_loop (fuel : Nat) :
    ∀ (s : State) (a3 : Nat) (r : Bool × State), unpack_loop fuel s a3 = some r →
      same_ws r.2 s := by
  induction fuel with
  | zero => intro s a3 r h; cases h
  | succ f ih =>
    intro s a3 r h
    rw [unpack_loop_succ] at h
    have h1 := same_ws_get_dictionary_code s
    split at h
    · have e := Option.some.inj h
      rw [← e]
      exact h1
    · split at h
      · split at h
        · cases h
        · have e := Option.some.inj h
          rw [← e]
          exact ⟨h1.1, h1.2⟩
      · split at h
        · cases h
        · rename_i c s1 hg
          have h2 := same_ws_get_dictionary _ _ _ _ hg
          split at h
          · cases h
          · have h3 := ih _ _ _ h
            exact same_ws_trans _ _ _ h3 (same_ws_trans _ _ _ ⟨h2.1, h2.2⟩ h1)

theorem same_ws_unpack_word (fuel : Nat) (s : State) (r : Bool × State)
    (h : unpack_word fuel s = some r) : same_ws r.2 s := by
  unfold unpack_word at h
  split at h
  · have e := Option.some.inj h
    rw [← e]
    exact same_ws_refl s
  · exact same_ws_unpack_loop _ _ _ _ h

theorem same_ws_init_unpack (fuel : Nat) (s : State) (ptr : Nat) (r : Bool × State)
    (h : init_unpack fuel s ptr = some r) : same_ws r.2 s := by
  unfold init_unpack at h
  have h1 := same_ws_unpack_word _ _ _ h
  exact ⟨h1.1, h1.2⟩

theorem wr8_other (m : Mem) (a v i : Nat) (h : i ≠ a) : wr8 m a v i = m i := by
  unfold wr8
  rw [if_neg h]

theorem wr16_other (m : Mem) (a v i : Nat) (h : i < a ∨ a + 2 ≤ i) : wr16 m a v i = m i := by
  unfold wr16
  rw [wr8_other _ _ _ _ (by omega), wr8_other _ _ _ _ (by omega)]

theorem wr32_other (m : Mem) (a v i : Nat) (h : i < a ∨ a + 4 ≤ i) : wr32 m a v i = m i := by
  unfold wr32
  rw [wr8_other _ _ _ _ (by omega), wr8_other _ _ _ _ (by omega),
    wr8_other _ _ _ _ (by omega), wr8_other _ _ _ _ (by omega)]

theorem ws_window_store_equiv (s : State) (k v : Nat) (hk : k < 16) :
    ws_window 32 (store_equiv s (s.list9_start_ptr + 2 * k) v) s := by
  refine ⟨rfl, fun a ha => ?_⟩
  show wr8 (wr8 s.workspace (OFF_LIST_AREA + (s.list9_start_ptr + 2 * k) + 1) v)
    (OFF_LIST_AREA + (s.list9_start_ptr + 2 * k)) (v / 256) a = s.workspace a
  unfold list9 at ha
  unfold wr8
  rw [if_neg (by omega), if_neg (by omega)]

theorem ws_window_effective (n : Nat) (s t : State) (p : Nat) (h : ws_window n s t) :
    ws_window n s (effective t p).2 := h

/-- The inner loop of `find_msg_equiv`, entered with the cursor at an even offset
below 32 from the list9 base, leaves it at an even offset of at most 32, and below 32
unless it returns from the function; it writes inside the 32 bytes only. -/
theorem fme_refs_frame (d7 d4 : Nat) (fuel : Nat) :
    ∀ (s : State) (a2 d6 k : Nat) (r : Bool × Nat × Nat × State), k < 16 →
      fme_refs d7 d4 fuel s a2 d6 (s.list9_start_ptr + 2 * k) = some r →
      (∃ k1, r.2.2.1 = s.list9_start_ptr + 2 * k1 ∧ k1 ≤ 16 ∧ (r.1 = false → k1 < 16)) ∧
        ws_window 32 r.2.2.2 s := by
  induction fuel with
  | zero => intro s a2 d6 k r _ h; cases h
  | succ f ih =>
    intro s a2 d6 k r hk h
    rw [fme_refs_succ] at h
    by_cases h0 : d6 = 0
    · rw [if_pos h0] at h
      have e := Option.some.inj h
      rw [← e]
      exact ⟨⟨k, rfl, by omega, fun _ => hk⟩, ws_window_refl _ _⟩
    · rw [if_neg h0] at h
      by_cases h1 : read_story s a2 / 128 % 2 = 1
      · rw [if_pos h1] at h
        by_cases h2 : read_story s a2 < 0x90
        · rw [if_pos h2] at h
          exact ih (effective s a2).2 _ _ k r hk h
        · rw [if_neg h2] at h
          by_cases h3 : d7 = (read_story s a2 * 256 + read_story (effective s a2).2 (a2 + 1))
              % 65536 % 4096
          · rw [if_pos h3] at h
            by_cases h4 : s.list9_start_ptr + 0x20 ≤ s.list9_start_ptr + 2 * k + 2
            · rw [if_pos h4] at h
              have e := Option.some.inj h
              rw [← e]
              exact ⟨⟨k + 1, by show s.list9_start_ptr + 2 * k + 2 = _; omega, by omega,
                fun hb => Bool.noConfusion hb⟩,
                ws_window_store_equiv (effective (effective s a2).2 (a2 + 1)).2 k _ hk⟩
            · rw [if_neg h4, show s.list9_start_ptr + 2 * k + 2 =
                s.list9_start_ptr + 2 * (k + 1) by omega] at h
              have h5 := ih (store_equiv (effective (effective s a2).2 (a2 + 1)).2
                (s.list9_start_ptr + 2 * k) (msg_equiv ((read_story s a2 * 256 +
                  read_story (effective s a2).2 (a2 + 1)) % 65536) d4)) _ _ (k + 1) r
                (by omega) h
              exact ⟨h5.1, ws_window_trans _ _ _ _ h5.2
                (ws_window_store_equiv (effective (effective s a2).2 (a2 + 1)).2 k _ hk)⟩
          · rw [if_neg h3] at h
            exact ih (effective (effective s a2).2 (a2 + 1)).2 _ _ k r hk h
      · rw [if_neg h1] at h
        exact ih (effective s a2).2 _ _ k r hk h

/-- The outer loop of `find_msg_equiv`, entered with the cursor at an even offset below
32 from the list9 base, returns with it at an even offset of at most 32, and writes
inside the 32 bytes only, whatever the message block holds. -/
theorem fme_loop_frame (d7 : Nat) (fuel : Nat) :
    ∀ (s : State) (a2 d4 k : Nat) (r : Nat × State), k < 16 →
      fme_loop d7 fuel s a2 d4 (s.list9_start_ptr + 2 * k) = some r →
      (∃ k1, r.1 = s.list9_start_ptr + 2 * k1 ∧ k1 ≤ 16) ∧ ws_window 32 r.2 s := by
  induction fuel with
  | zero => intro s a2 d4 k r _ h; cases h
  | succ f ih =>
    intro s a2 d4 k r hk h
    rw [fme_loop_succ] at h
    by_cases h0 : s.end_md < a2
    · rw [if_pos h0] at h
      have e := Option.some.inj h
      rw [← e]
      exact ⟨⟨k, rfl, by omega⟩, ws_window_refl _ _⟩
    · rw [if_neg h0] at h
      by_cases h1 : read_story s a2 / 128 % 2 = 1
      · rw [if_pos h1] at h
        exact ih (effective s a2).2 _ _ k r hk h
      · rw [if_neg h1] at h
        cases hg : get_md_length f (effective s a2).2 a2 with
        | none =>
          rw [hg] at h
          by_cases h2 : read_story s a2 / 64 % 2 = 1
          · rw [if_pos h2] at h; cases h
          · rw [if_neg h2] at h; cases h
        | some g =>
          obtain ⟨d6, p, s1⟩ := g
          have hs1 := same_ws_of_paging _ _ (same_but_paging_trans _ _ _
            (get_md_length_loop_frame _ _ _ _ _ hg)
            (same_but_paging_effective s s a2 (same_but_paging_refl s)))
          rw [hg] at h
          by_cases h2 : read_story s a2 / 64 % 2 = 1
          · rw [if_pos h2] at h
            have h' : (match fme_refs d7 ((d4 + 1) % 65536) f s1 p d6
                  (s.list9_start_ptr + 2 * k) with
                | none => none
                | some (true, _, l9, s2) => some (l9, s2)
                | some (false, p1, l9, s2) => fme_loop d7 f s2 p1 ((d4 + 1) % 65536) l9) =
                some r := h
            cases hr : fme_refs d7 ((d4 + 1) % 65536) f s1 p d6
                (s.list9_start_ptr + 2 * k) with
            | none => rw [hr] at h'; cases h'
            | some r1 =>
              obtain ⟨b, p1, l9, s2⟩ := r1
              rw [hr] at h'
              rw [← hs1.2] at hr
              obtain ⟨⟨k1, e1, e2, e3⟩, hw⟩ := fme_refs_frame d7 _ f s1 p d6 k _ hk hr
              have hw2 : ws_window 32 s2 s :=
                ws_window_trans _ _ _ _ hw (ws_window_of_same _ _ _ hs1)
              have e1' : l9 = s1.list9_start_ptr + 2 * k1 := e1
              cases b with
              | true =>
                have e := Option.some.inj h'
                rw [← e]
                exact ⟨⟨k1, by show l9 = _; rw [e1', hs1.2], e2⟩, hw2⟩
              | false =>
                have hk1 : k1 < 16 := e3 rfl
                have h'' : fme_loop d7 f s2 p1 ((d4 + 1) % 65536) l9 = some r := h'
                rw [e1', ← hw.1] at h''
                obtain ⟨⟨k2, i1, i2⟩, i3⟩ := ih s2 _ _ k1 r hk1 h''
                exact ⟨⟨k2, by rw [i1, hw2.1], i2⟩, ws_window_trans _ _ _ _ i3 hw2⟩
          · rw [if_neg h2] at h
            have h' : fme_loop d7 f s1 ((p + d6) % 65536) ((d4 + 1) % 65536)
                (s.list9_start_ptr + 2 * k) = some r := h
            rw [← hs1.2] at h'
            obtain ⟨⟨k2, i1, i2⟩, i3⟩ := ih s1 _ _ k r hk h'
            exact ⟨⟨k2, by rw [i1, hs1.2], i2⟩,
              ws_window_trans _ _ _ _ i3 (ws_window_of_same _ _ _ hs1)⟩

theorem ws_window_check_number (s : State) :
    ws_window 34 (check_number s s.list9_start_ptr) s := by
  refine ⟨?_, fun a ha => ?_⟩
  · unfold check_number
    split_ifs <;> rfl
  · unfold list9 at ha
    unfold check_number
    split_ifs
    · show wr16 (wr16 (wr8 s.workspace (OFF_LIST_AREA + s.list9_start_ptr) 1)
        (OFF_LIST_AREA + s.list9_start_ptr + 1) _) (OFF_LIST_AREA + s.list9_start_ptr + 3) 0 a
        = s.workspace a
      rw [wr16_other _ _ _ _ (by omega), wr16_other _ _ _ _ (by omega),
        wr8_other _ _ _ _ (by omega)]
    · show wr16 (wr32 s.workspace (OFF_LIST_AREA + s.list9_start_ptr) _)
        (OFF_LIST_AREA + s.list9_start_ptr + 4) 0 a = s.workspace a
      rw [wr16_other _ _ _ _ (by omega), wr32_other _ _ _ _ (by omega)]
    · show wr16 (wr16 s.workspace (OFF_LIST_AREA + s.list9_start_ptr) 0x8000)
        (OFF_LIST_AREA + s.list9_start_ptr + 2) 0 a = s.workspace a
      rw [wr16_other _ _ _ _ (by omega), wr16_other _ _ _ _ (by omega)]

theorem ws_window_ip18b (fuel : Nat) (s : State) (d1 : Nat) (r : Bool × Nat × State)
    (h : ip18b fuel s d1 s.list9_start_ptr = some r) :
    ws_window 34 r.2.2 s ∧ (r.1 = false → r.2.1 = s.list9_start_ptr) := by
  unfold ip18b at h
  cases hf : find_msg_equiv fuel s d1 s.list9_start_ptr with
  | none => rw [hf] at h; cases h
  | some r1 =>
    obtain ⟨l9, s1⟩ := r1
    rw [hf] at h
    have hf2 : fme_loop d1 fuel s s.start_md 0xffff (s.list9_start_ptr + 2 * 0) =
        some (l9, s1) := hf
    obtain ⟨⟨k1, e1, e2⟩, hw⟩ := fme_loop_frame d1 fuel s _ _ 0 _ (by omega) hf2
    have e1' : l9 = s.list9_start_ptr + 2 * k1 := e1
    have h' : (if l9 ≠ s1.list9_start_ptr then
        some (true, l9, { s1 with workspace := wr16 s1.workspace (OFF_LIST_AREA + l9) 0 })
        else some (false, l9, s1)) = some r := h
    by_cases hc : l9 ≠ s1.list9_start_ptr
    · rw [if_pos hc] at h'
      have e := Option.some.inj h'
      rw [← e]
      refine ⟨⟨hw.1, fun a ha => ?_⟩, fun hb => Bool.noConfusion hb⟩
      show wr16 s1.workspace (OFF_LIST_AREA + l9) 0 a = s.workspace a
      have ha2 := ha
      unfold list9 at ha2
      rw [wr16_other _ _ _ _ (by omega)]
      exact hw.2 a (by omega)
    · rw [if_neg hc] at h'
      have e := Option.some.inj h'
      rw [← e]
      refine ⟨ws_window_mono 32 34 _ _ (by omega) hw, fun _ => ?_⟩
      show l9 = s.list9_start_ptr
      rw [← hw.1]
      exact Classical.not_not.mp hc

theorem ip14_succ (fuel : Nat) (st : State) (d1 abrev_word list9_ptr : Nat) :
    ip14 (fuel + 1) st d1 abrev_word list9_ptr =
      match unpack_word fuel st with
      | none => none
      | some (true, s) =>
        if abrev_word = 0xffff then some (check_number s list9_ptr)
        else
          match ip18b fuel s ((d1 + 1) % 65536) list9_ptr with
          | none => none
          | some (true, _, s1) => some s1
          | some (false, l9, s1) => ip14 fuel s1 ((d1 + 1) % 65536) 0xffff l9
      | some (false, s) =>
        match ip15 s.three_chars s.out_buffer OUT_BUFFER_SIZE 0 with
        | none => none
        | some (d6, d0, d2) =>
          match word_step d0 d2 d6 ((d1 + 1) % 65536) abrev_word with
          | .next a => ip14 fuel s ((d1 + 1) % 65536) a list9_ptr
          | .stop => some (check_number s list9_ptr)
          | .found =>
            match ip18b fuel s ((d1 + 1) % 65536) list9_ptr with
            | none => none
            | some (true, _, s1) => some s1
            | some (false, l9, s1) => ip14 fuel s1 ((d1 + 1) % 65536) 0xffff l9 := rfl

/-- The statements from `ip18b` on, followed by the loop `ip14` when they do not
return, write inside the 34 bytes at the list9 base only, when the loop does. -/
theorem ws_window_after_ip18b (f : Nat) (s : State) (d1 : Nat) (r : State)
    (ih : ∀ (s : State) (d1 abrev_word : Nat) (r : State),
      ip14 f s d1 abrev_word s.list9_start_ptr = some r → ws_window 34 r s)
    (h : (match ip18b f s d1 s.list9_start_ptr with
      | none => none
      | some (true, _, s1) => some s1
      | some (false, l9, s1) => ip14 f s1 d1 0xffff l9) = some r) :
    ws_window 34 r s := by
  cases hi : ip18b f s d1 s.list9_start_ptr with
  | none => rw [hi] at h; cases h
  | some r1 =>
    obtain ⟨b, l9, s1⟩ := r1
    rw [hi] at h
    obtain ⟨hw, hl⟩ := ws_window_ip18b f s d1 _ hi
    cases b with
    | true =>
      have e : s1 = r := Option.some.inj h
      rw [← e]
      exact hw
    | false =>
      have h' : ip14 f s1 d1 0xffff l9 = some r := h
      have e : l9 = s1.list9_start_ptr := by
        have := hl rfl
        show l9 = s1.list9_start_ptr
        rw [hw.1]
        exact this
      rw [e] at h'
      exact ws_window_trans _ _ _ _ (ih _ _ _ _ h') hw

/-- The loop `ip14`, entered with the cursor at the list9 base, writes inside the 34
bytes at the list9 base only. -/
theorem ws_window_ip14 (fuel : Nat) :
    ∀ (s : State) (d1 abrev_word : Nat) (r : State),
      ip14 fuel s d1 abrev_word s.list9_start_ptr = some r → ws_window 34 r s := by
  induction fuel with
  | zero => intro s d1 ab r h; cases h
  | succ f ih =>
    intro s d1 ab r h
    rw [ip14_succ] at h
    cases hu : unpack_word f s with
    | none => rw [hu] at h; cases h
    | some u =>
      obtain ⟨b, s1⟩ := u
      have hs1 := same_ws_unpack_word f s _ hu
      have hs1w : ws_window 34 s1 s := ws_window_of_same _ _ _ hs1
      have hl : s.list9_start_ptr = s1.list9_start_ptr := hs1.2.symm
      rw [hu, hl] at h
      cases b with
      | true =>
        have h' : (if ab = 0xffff then some (check_number s1 s1.list9_start_ptr)
            else match ip18b f s1 ((d1 + 1) % 65536) s1.list9_start_ptr with
              | none => none
              | some (true, _, s2) => some s2
              | some (false, l9, s2) => ip14 f s2 ((d1 + 1) % 65536) 0xffff l9) = some r := h
        by_cases hab : ab = 0xffff
        · rw [if_pos hab] at h'
          have e := Option.some.inj h'
          rw [← e]
          exact ws_window_trans _ _ _ _ (ws_window_check_number s1) hs1w
        · rw [if_neg hab] at h'
          exact ws_window_trans _ _ _ _ (ws_window_after_ip18b f s1 _ r ih h') hs1w
      | false =>
        have h' : (match ip15 s1.three_chars s1.out_buffer OUT_BUFFER_SIZE 0 with
            | none => none
            | some (d6, d0, d2) =>
              match word_step d0 d2 d6 ((d1 + 1) % 65536) ab with
              | .next a => ip14 f s1 ((d1 + 1) % 65536) a s1.list9_start_ptr
              | .stop => some (check_number s1 s1.list9_start_ptr)
              | .found =>
                match ip18b f s1 ((d1 + 1) % 65536) s1.list9_start_ptr with
                | none => none
                | some (true, _, s2) => some s2
                | some (false, l9, s2) => ip14 f s2 ((d1 + 1) % 65536) 0xffff l9) =
            some r := h
        cases hc : ip15 s1.three_chars s1.out_buffer OUT_BUFFER_SIZE 0 with
        | none => rw [hc] at h'; cases h'
        | some c =>
          obtain ⟨d6, d0, d2⟩ := c
          rw [hc] at h'
          have h2 : (match word_step d0 d2 d6 ((d1 + 1) % 65536) ab with
              | .next a => ip14 f s1 ((d1 + 1) % 65536) a s1.list9_start_ptr
              | .stop => some (check_number s1 s1.list9_start_ptr)
              | .found =>
                match ip18b f s1 ((d1 + 1) % 65536) s1.list9_start_ptr with
                | none => none
                | some (true, _, s2) => some s2
                | some (false, l9, s2) => ip14 f s2 ((d1 + 1) % 65536) 0xffff l9) =
              some r := h'
          cases hws : word_step d0 d2 d6 ((d1 + 1) % 65536) ab with
          | next a =>
            rw [hws] at h2
            exact ws_window_trans _ _ _ _ (ih _ _ _ _ h2) hs1w
          | stop =>
            rw [hws] at h2
            have e := Option.some.inj h2
            rw [← e]
            exact ws_window_trans _ _ _ _ (ws_window_check_number s1) hs1w
          | found =>
            rw [hws] at h2
            exact ws_window_trans _ _ _ _ (ws_window_after_ip18b f s1 _ r ih h2) hs1w

theorem ip05_succ (fuel : Nat) (st : State) (a6 list9_ptr : Nat) :
    ip05 (fuel + 1) st a6 list9_ptr =
      if rd8 st.in_buffer a6 = 0 then
        some (.returned { st with
          in_buffer_ptr := none,
          workspace := wr16 st.workspace (OFF_LIST_AREA + list9_ptr) 0 })
      else if part_word (rd8 st.in_buffer a6) = false then some (.word (a6 + 1))
      else if rd8 st.in_buffer a6 ≠ 0x20 then
        some (.returned { st with
          in_buffer_ptr := some (a6 + 1),
          workspace := wr8 (wr16 (wr16 st.workspace (OFF_LIST_AREA + list9_ptr) 0)
            (OFF_LIST_AREA + list9_ptr + 2) 0) (OFF_LIST_AREA + list9_ptr + 1)
            (rd8 st.in_buffer a6),
          out_buffer := wr8 st.out_buffer 0 0x20 })
      else ip05 fuel st (a6 + 1) list9_ptr := rfl

theorem ws_window_ip05 (fuel : Nat) (st : State) :
    ∀ (a6 : Nat) (r : State), ip05 fuel st a6 st.list9_start_ptr = some (.returned r) →
      ws_window 34 r st := by
  induction fuel with
  | zero => intro a6 r h; cases h
  | succ f ih =>
    intro a6 r h
    rw [ip05_succ] at h
    by_cases h0 : rd8 st.in_buffer a6 = 0
    · rw [if_pos h0] at h
      have e := Ip05Result.returned.inj (Option.some.inj h)
      rw [← e]
      refine ⟨rfl, fun a ha => ?_⟩
      show wr16 st.workspace (OFF_LIST_AREA + st.list9_start_ptr) 0 a = st.workspace a
      unfold list9 at ha
      rw [wr16_other _ _ _ _ (by omega)]
    · rw [if_neg h0] at h
      by_cases h1 : part_word (rd8 st.in_buffer a6) = false
      · rw [if_pos h1] at h
        cases Option.some.inj h
      · rw [if_neg h1] at h
        by_cases h2 : rd8 st.in_buffer a6 ≠ 0x20
        · rw [if_pos h2] at h
          have e := Ip05Result.returned.inj (Option.some.inj h)
          rw [← e]
          refine ⟨rfl, fun a ha => ?_⟩
          show wr8 (wr16 (wr16 st.workspace (OFF_LIST_AREA + st.list9_start_ptr) 0)
            (OFF_LIST_AREA + st.list9_start_ptr + 2) 0) (OFF_LIST_AREA + st.list9_start_ptr + 1)
            (rd8 st.in_buffer a6) a = st.workspace a
          unfold list9 at ha
          rw [wr8_other _ _ _ _ (by omega), wr16_other _ _ _ _ (by omega),
            wr16_other _ _ _ _ (by omega)]
        · rw [if_neg h2] at h
          exact ih _ _ h

theorem ws_window_setindex (fuel : Nat) (st r : State) (h : setindex fuel st = some r) :
    ws_window 34 r st := by
  unfold setindex at h
  simp only [] at h
  split at h
  · split at h
    · cases h
    · rename_i b s hi
      have hs := same_ws_init_unpack _ _ _ _ hi
      have hs2 : same_ws s st := ⟨hs.1, hs.2⟩
      have e : st.list9_start_ptr = s.list9_start_ptr := hs2.2.symm
      rw [e] at h
      exact ws_window_trans _ _ _ _ (ws_window_ip14 _ _ _ _ _ h) (ws_window_of_same _ _ _ hs2)
  · split at h
    · have e := Option.some.inj h
      rw [← e]
      exact ws_window_check_number (effective st st.dict_data).2
    · split at h
      · cases h
      · rename_i b s hi
        have hs := same_ws_init_unpack _ _ _ _ hi
        have hs2 : same_ws s st := ⟨hs.1, hs.2⟩
        have e : st.list9_start_ptr = s.list9_start_ptr := hs2.2.symm
        rw [e] at h
        exact ws_window_trans _ _ _ _ (ws_window_ip14 _ _ _ _ _ h)
          (ws_window_of_same _ _ _ hs2)

theorem ws_window_word_lookup (fuel : Nat) (st : State) (r : Bool × State)
    (h : word_lookup fuel st = some r) : r.1 = true ∧ ws_window 34 r.2 st := by
  unfold word_lookup at h
  split at h
  · cases h
  · split at h
    · cases h
    · rename_i s hi
      have e := Option.some.inj h
      rw [← e]
      exact ⟨rfl, ws_window_ip05 _ _ _ _ hi⟩
    · rename_i a hi
      simp only [] at h
      generalize ip06loop st.in_buffer 0x1f st.out_buffer (a - 1) 0 = r1 at h
      cases hs : setindex fuel { st with
          out_buffer := wr8 r1.1 r1.2.2 0x20, in_buffer_ptr := some (r1.2.1 - 1) } with
      | none => rw [hs] at h; cases h
      | some s =>
        rw [hs] at h
        have e := Option.some.inj h
        rw [← e]
        have hw := ws_window_setindex fuel { st with
          out_buffer := wr8 r1.1 r1.2.2 0x20, in_buffer_ptr := some (r1.2.1 - 1) } s hs
        exact ⟨rfl, hw.1, fun a ha => hw.2 a ha⟩

/-- C38 (amended): every byte of the workspace that the word lookup of
`corrupting_input` writes lies in the 34 bytes from the list9 base on: when
`corrupting_input` returns, it returns true after a word lookup, or false without
one, and the workspace after the lookup differs from the workspace before it (the
one of the call when the input buffer was not used up, else the one after the line
was fetched) inside the 34 bytes at most; the pointer `list9_start_ptr` is as
before. -/
theorem C38_list9_window (env : Env) (fuel : Nat) (st : State) (b : Bool) (s : State)
    (h : corrupting_input (word_env env fuel) st = some (b, s)) :
    (∀ a6, st.in_buffer_ptr = some a6 →
      b = true ∧ s.list9_start_ptr = st.list9_start_ptr ∧
      ∀ a, (a < list9 st ∨ list9 st + 34 ≤ a) → s.workspace a = st.workspace a) ∧
    (st.in_buffer_ptr = none →
      (b = false ∧ fetch_line (word_env env fuel) st = some (false, s)) ∨
      ∃ st1, fetch_line (word_env env fuel) st = some (true, st1) ∧ b = true ∧
        s.list9_start_ptr = st1.list9_start_ptr ∧
        ∀ a, (a < list9 st1 ∨ list9 st1 + 34 ≤ a) → s.workspace a = st1.workspace a) := by
  constructor
  · intro a6 ha6
    have e : corrupting_input (word_env env fuel) st = word_lookup fuel st := by
      unfold corrupting_input
      rw [ha6]
      rfl
    rw [e] at h
    exact ws_window_word_lookup _ _ _ h
  · intro hnone
    rw [corrupting_input_none _ _ hnone] at h
    cases hf : fetch_line (word_env env fuel) st with
    | none => rw [hf] at h; cases h
    | some r =>
      obtain ⟨c, st1⟩ := r
      rw [hf] at h
      cases c with
      | false =>
        have e : (false, st1) = (b, s) := Option.some.inj h
        obtain ⟨e1, e2⟩ := Prod.mk.inj e
        rw [← e1, ← e2]
        exact Or.inl ⟨rfl, rfl⟩
      | true =>
        have h' : word_lookup fuel { st1 with in_buffer_ptr := some 0 } = some (b, s) := h
        have hw := ws_window_word_lookup _ _ _ h'
        exact Or.inr ⟨st1, rfl, hw.1, hw.2.1, hw.2.2⟩

set_option maxRecDepth 1000000 in
theorem C38_list9_window_witness :
    (∀ a6, lookup_state.in_buffer_ptr = some a6 →
      lookup_result.1 = true ∧
      lookup_result.2.list9_start_ptr = lookup_state.list9_start_ptr ∧
      ∀ a, (a < list9 lookup_state ∨ list9 lookup_state + 34 ≤ a) →
        lookup_result.2.workspace a = lookup_state.workspace a) ∧
    (lookup_state.in_buffer_ptr = none →
      (lookup_result.1 = false ∧
        fetch_line (word_env idle_env 40) lookup_state = some (false, lookup_result.2)) ∨
      ∃ st1, fetch_line (word_env idle_env 40) lookup_state = some (true, st1) ∧
        lookup_result.1 = true ∧
        lookup_result.2.list9_start_ptr = st1.list9_start_ptr ∧
        ∀ a, (a < list9 st1 ∨ list9 st1 + 34 ≤ a) →
          lookup_result.2.workspace a = st1.workspace a) :=
  C38_list9_window idle_env 40 lookup_state lookup_result.1 lookup_result.2 rfl

set_option maxRecDepth 1000000 in
/-- C38 (the claim fails): in `lookup_state` the input word `a` is the dictionary word
5, to which the message block holds 16 references. `find_msg_equiv` fills the 32 bytes
of the window with 16 entries `0x20, 0x00` and returns with the cursor at the list9
base + 32, and `corrupting_input` then writes its zero terminator there: the bytes at
the list9 base + 32 and + 33, `0xff` before, are 0 after. -/
theorem C38_counterexample :
    lookup_state.in_buffer_ptr = some 0 ∧
    (List.range 4).map (fun i => rd8 lookup_state.workspace (list9 lookup_state + 30 + i)) =
      [0xff, 0xff, 0xff, 0xff] ∧
    (corrupting_input (word_env idle_env 40) lookup_state).map
      (fun r => (r.1,
        (List.range 4).map (fun i => rd8 r.2.workspace (list9 lookup_state + 30 + i)))) =
      some (true, [0x20, 0x00, 0x00, 0x00]) := by
  refine ⟨rfl, ?_, ?_⟩
  · decide
  · decide


/-! ## C29, C30 and C39: exits outside the assumptions of `do_exit` -/

/-- The scan of a group passes over records that neither match the direction nor end
the group. -/
theorem exit_own_run (E : State) (d6 : Nat) (n : Nat) :
    ∀ (fuel b : Nat), b + 2 * n < 65536 →
      (∀ i, i < n → peek E (b + 2 * i) % 16 ≠ d6 ∧ peek E (b + 2 * i) / 128 % 2 = 0) →
      exit_own E d6 (fuel + n) b = exit_own E d6 fuel (b + 2 * n) := by
  induction n with
  | zero => intro fuel b _ _; rfl
  | succ m ih =>
    intro fuel b hb h
    have h0 := h 0 (by omega)
    rw [Nat.mul_zero, Nat.add_zero] at h0
    rw [show fuel + (m + 1) = (fuel + m) + 1 by omega, exit_own_succ, if_neg h0.1,
      if_pos h0.2, Nat.mod_eq_of_lt (show b + 2 < 65536 by omega),
      ih fuel (b + 2) (by omega) (fun i hi => by
        have := h (i + 1) (by omega)
        rw [show b + 2 + 2 * i = b + 2 * (i + 1) by omega]
        exact this)]
    rw [show b + 2 + 2 * m = b + 2 * (m + 1) by omega]

theorem exit_far_state_flags (flags target i : Nat) (hi : i < 4097) :
    exit_flags (exit_far_state flags target) i = 1 := by
  show (exit_far_state flags target).ram (327680 + (0x3ffe % 65536 + 2 * i)) % 256 = 1
  show (if 327680 + (0x3ffe % 65536 + 2 * i) = 0 then 0x83
    else if 327680 + (0x3ffe % 65536 + 2 * i) = 1 then 9
    else if 327680 + (0x3ffe % 65536 + 2 * i) = 327681 then 1
    else if 327680 + (0x3ffe % 65536 + 2 * i) = 327682 then 2
    else if 327680 + (0x3ffe % 65536 + 2 * i) = 327683 then 3
    else if 344062 ≤ 327680 + (0x3ffe % 65536 + 2 * i) ∧
        327680 + (0x3ffe % 65536 + 2 * i) < 352256 then
      (if (327680 + (0x3ffe % 65536 + 2 * i)) % 2 = 0 then 1 else 0)
    else if 327680 + (0x3ffe % 65536 + 2 * i) = 352256 then flags
    else if 327680 + (0x3ffe % 65536 + 2 * i) = 352257 then target
    else 0) % 256 = 1
  rw [if_neg (by omega), if_neg (by omega), if_neg (by omega), if_neg (by omega),
    if_neg (by omega), if_pos ⟨by omega, by omega⟩, if_pos (by omega)]

theorem exit_far_state_records (flags target i : Nat) (hi : i < 4097) :
    peek (effective (exit_operands (exit_far_state flags target)) 0x3ffe).2 (8190 + 2 * i) = 1 := by
  have h := peek_effective_window (exit_operands (exit_far_state flags target)) 0x3ffe (2 * i)
    (by show 8190 + 2 * i < 16384; omega)
  have e : (effective (exit_operands (exit_far_state flags target)) 0x3ffe).1 = 8190 := rfl
  rw [e] at h
  rw [h]
  exact exit_far_state_flags flags target i hi

/-- In `exit_far_state` the scan of the group of room 1 leaves the two pages of the
paged window after 4097 records and reads the next record from the page in MMU slot
2: `do_exit` returns the values of the record `(0x83, 9)` found there, whatever the
record 4097 of the data block is. -/
theorem exit_far_state_run (flags target : Nat)
    (hroom : exit_room (exit_far_state flags target) = 1)
    (hdir : exit_dir (exit_far_state flags target) = 3)
    (habs : (exit_operands (exit_far_state flags target)).abs_data_block = 0x3ffe)
    (h83 : peek (effective (exit_operands (exit_far_state flags target)) 0x3ffe).2 16384 = 0x83)
    (h9 : peek (effective (exit_operands (exit_far_state flags target)) 0x3ffe).2 16385 = 9) :
    do_exit 5000 (exit_operands (exit_far_state flags target))
        (exit_dir (exit_far_state flags target)) (exit_room (exit_far_state flags target)) =
      some (0x83, 9, (effective (exit_operands (exit_far_state flags target)) 0x3ffe).2) := by
  rw [hroom, hdir]
  have hskip : (if (1 + 255) % 256 ≠ 0 then
        exit_skip (effective (exit_operands (exit_far_state flags target))
            (exit_operands (exit_far_state flags target)).abs_data_block).2 5000
          (effective (exit_operands (exit_far_state flags target))
            (exit_operands (exit_far_state flags target)).abs_data_block).1
          ((1 + 255) % 256)
      else some (SkipResult.at_group (effective (exit_operands (exit_far_state flags target))
            (exit_operands (exit_far_state flags target)).abs_data_block).1)) =
      some (SkipResult.at_group 8190) := by
    rw [if_neg (by decide), habs]
    rfl
  have hown : exit_own (effective (exit_operands (exit_far_state flags target)) 0x3ffe).2
      3 5000 8190 = some (some (0x83, 9)) := by
    rw [show (5000 : Nat) = 902 + 1 + 4097 from rfl,
      exit_own_run _ 3 4097 (902 + 1) 8190 (by omega) (fun i hi => by
        rw [exit_far_state_records flags target i hi]
        exact ⟨by decide, by decide⟩)]
    rw [show 8190 + 2 * 4097 = 16384 from rfl, exit_own_succ, h83, if_pos (by decide),
      show (16384 + 1) % 65536 = 16385 from rfl, h9]
  rw [do_exit_of_skip 5000 _ _ _ 8190 hskip, habs, hown]

set_option maxRecDepth 100000 in
/-- C29 (the claim fails), in two ways. In the V4 game of `exit_v4_state 3` the group of
room 2 holds the record `(0xb3, 9)` for the direction 3, for which the claim has
`int_exit` store 3 and 9; but the first loop of `do_exit` meets the pair `(0, 0)` in
the group of room 1 and leaves for the reverse scan, and 0 and 0 are stored. In
`exit_far_state 0xb3 7` the group of room 1 holds the records 0 to 4096 `(0x01, 0)`
and then its first record for the direction 3, `(0xb3, 7)`, for which the claim has
3 and 7 stored; that record lies behind the two pages of the paged window, where
`do_exit` reads the bytes `0x83, 9` of another page through its pointer, and 0 and 9
are stored. -/
theorem C29_counterexample :
    ((exit_v4_state 3).game_type = 4 ∧ exit_room (exit_v4_state 3) = 2 ∧
      exit_dir (exit_v4_state 3) = 3 ∧
      group_ends (exit_flags (exit_v4_state 3)) 2 = exit_room (exit_v4_state 3) - 1 ∧
      128 ≤ exit_flags (exit_v4_state 3) 1 ∧
      exit_flags (exit_v4_state 3) 2 % 16 = exit_dir (exit_v4_state 3) ∧
      exit_flags (exit_v4_state 3) 2 / 16 % 8 = 3 ∧ exit_target (exit_v4_state 3) 2 = 9 ∧
      (int_exit 5 (exit_v4_state 3)).map
        (fun s => (var_table s.workspace 2, var_table s.workspace 3)) = some (0, 0)) ∧
    (exit_room (exit_far_state 0xb3 7) = 1 ∧ exit_dir (exit_far_state 0xb3 7) = 3 ∧
      (∀ k, k < 4097 → exit_flags (exit_far_state 0xb3 7) k = 1) ∧
      exit_flags (exit_far_state 0xb3 7) 4097 % 16 = exit_dir (exit_far_state 0xb3 7) ∧
      exit_flags (exit_far_state 0xb3 7) 4097 / 16 % 8 = 3 ∧
      exit_target (exit_far_state 0xb3 7) 4097 = 7 ∧
      (int_exit 5000 (exit_far_state 0xb3 7)).map
        (fun s => (var_table s.workspace 2, var_table s.workspace 3)) = some (0, 9)) := by
  refine ⟨⟨rfl, by decide, by decide, by decide, by decide, by decide, by decide, by decide,
    by decide⟩, by decide, by decide, fun k hk => exit_far_state_flags _ _ k hk, by decide,
    by decide, by decide, ?_⟩
  rw [int_exit_eq, exit_far_state_run 0xb3 7 (by decide) (by decide) (by decide) (by decide)
    (by decide)]
  decide

/-- The first loop of `do_exit` on a block whose record `s` follows the `d1`-th group
end: it stops at record `s`, or in a V4 game it is left at an earlier pair
`(0, 0)`. -/
theorem exit_skip_cases (E : State) (b s : Nat) (F T : Nat → Nat)
    (hF : ∀ k, k < s → peek E (b + 2 * k) = F k)
    (hT : ∀ k, k < s → peek E (b + 2 * k + 1) = T k)
    (hb : b + 2 * s < 65536) (hlast : 128 ≤ F (s - 1)) (hbyte : ∀ k, F k < 256) (n : Nat) :
    ∀ (fuel k d1 : Nat), k + n = s → 1 ≤ d1 → d1 ≤ 255 →
      group_ends F s = group_ends F k + d1 → n ≤ fuel →
      exit_skip E fuel (b + 2 * k) d1 = some (SkipResult.at_group (b + 2 * s)) ∨
      exit_skip E fuel (b + 2 * k) d1 = some SkipResult.notfn4 := by
  induction n with
  | zero =>
    intro fuel k d1 hk h1 _ hg _
    have e : k = s := by omega
    rw [e] at hg
    omega
  | succ m ih =>
    intro fuel k d1 hk h1 h255 hg hf
    obtain ⟨f, rfl⟩ : ∃ f, fuel = f + 1 := ⟨fuel - 1, by omega⟩
    have e1 : (b + 2 * k + 1) % 65536 = b + 2 * k + 1 := by omega
    have e2 : (b + 2 * k + 2) % 65536 = b + 2 * (k + 1) := by omega
    have hstep : group_ends F (k + 1) = group_ends F k + (if 128 ≤ F k then 1 else 0) := rfl
    have hmono := group_ends_mono F (k + 1) (s - (k + 1))
    rw [show k + 1 + (s - (k + 1)) = s by omega] at hmono
    rw [exit_skip_succ, e1, e2, hF k (by omega), hT k (by omega)]
    have hbk := hbyte k
    by_cases hz : E.game_type = 4 ∧ F k = 0 ∧ T k = 0
    · rw [if_pos hz]
      exact Or.inr rfl
    rw [if_neg hz]
    by_cases htop : 128 ≤ F k
    · rw [if_pos htop] at hstep
      rw [if_neg (by omega)]
      by_cases hd : (d1 + 255) % 256 = 0
      · rw [if_neg (by simpa using hd)]
        have hd1 : d1 = 1 := by omega
        by_cases hs : k + 1 = s
        · rw [hs]
          exact Or.inl rfl
        · exfalso
          have hm2 := group_ends_mono F (k + 1) (s - 1 - (k + 1))
          rw [show k + 1 + (s - 1 - (k + 1)) = s - 1 by omega] at hm2
          have hlast2 : group_ends F (s - 1 + 1) = group_ends F (s - 1) + 1 := by
            show group_ends F (s - 1) + _ = _
            rw [if_pos hlast]
          rw [show s - 1 + 1 = s by omega] at hlast2
          omega
      · rw [if_pos hd]
        exact ih f (k + 1) ((d1 + 255) % 256) (by omega) (by omega) (by omega) (by omega)
          (by omega)
    · rw [if_neg htop] at hstep
      rw [if_pos (by omega)]
      exact ih f (k + 1) d1 (by omega) h1 h255 (by omega) (by omega)

/-- The first loop of `do_exit`, or its absence for room 1, leaves `a0` at the first
record of the group of the room, or is left for the label `notfn4`. -/
theorem do_exit_skip_cases (fuel : Nat) (st : State) (s : Nat)
    (hs : group_ends (exit_flags st) s = (exit_room st + 255) % 256)
    (hstart : s = 0 ∨ 128 ≤ exit_flags st (s - 1))
    (hwin : (effective st st.abs_data_block).1 + 2 * s + 1 < 16384) (hfuel : s ≤ fuel) :
    (if (exit_room st + 255) % 256 ≠ 0 then
        exit_skip (effective (exit_operands st) st.abs_data_block).2 fuel
          (effective st st.abs_data_block).1 ((exit_room st + 255) % 256)
      else some (SkipResult.at_group (effective st st.abs_data_block).1)) =
      some (SkipResult.at_group ((effective st st.abs_data_block).1 + 2 * s)) ∨
    (if (exit_room st + 255) % 256 ≠ 0 then
        exit_skip (effective (exit_operands st) st.abs_data_block).2 fuel
          (effective st st.abs_data_block).1 ((exit_room st + 255) % 256)
      else some (SkipResult.at_group (effective st st.abs_data_block).1)) =
      some SkipResult.notfn4 := by
  by_cases hd : (exit_room st + 255) % 256 = 0
  · rw [if_neg (by simpa using hd)]
    rw [hd] at hs
    left
    rcases hstart with h0 | h0
    · rw [h0]
      rfl
    · by_cases hs0 : s = 0
      · rw [hs0]
        rfl
      · exfalso
        have hm := group_ends_mono (exit_flags st) 0 (s - 1)
        have hl : group_ends (exit_flags st) (s - 1 + 1) =
            group_ends (exit_flags st) (s - 1) + 1 := by
          show group_ends (exit_flags st) (s - 1) + _ = _
          rw [if_pos h0]
        rw [show s - 1 + 1 = s by omega] at hl
        omega
  · rw [if_pos hd]
    have hs0 : s ≠ 0 := by
      intro h0
      rw [h0] at hs
      have : group_ends (exit_flags st) 0 = 0 := rfl
      omega
    have hlast : 128 ≤ exit_flags st (s - 1) := by
      rcases hstart with h0 | h0
      · exact absurd h0 hs0
      · exact h0
    have key := exit_skip_cases (effective (exit_operands st) st.abs_data_block).2
      (effective st st.abs_data_block).1 s (exit_flags st) (exit_target st)
      (fun k hk => exit_flags_peek st k (by omega))
      (fun k hk => exit_target_peek st k (by omega))
      (by omega) hlast (exit_flags_lt st) s fuel 0 ((exit_room st + 255) % 256)
      (by omega) (by omega) (by omega)
      (by
        have : group_ends (exit_flags st) 0 = 0 := rfl
        omega)
      hfuel
    rw [Nat.mul_zero, Nat.add_zero] at key
    exact key

/-- When `do_exit` reaches the label `notfn4`, from the first loop or at the end of
the scan of the group, and the reverse scan finds no record, it returns 0 for both
values. -/
theorem do_exit_not_found (fuel : Nat) (st : State) (d6 d7 a0 : Nat)
    (hskip : ((if (d7 + 255) % 256 ≠ 0 then
          exit_skip (effective st st.abs_data_block).2 fuel (effective st st.abs_data_block).1
            ((d7 + 255) % 256)
        else some (SkipResult.at_group (effective st st.abs_data_block).1)) =
        some (SkipResult.at_group a0) ∧
        exit_own (effective st st.abs_data_block).2 d6 fuel a0 = some none) ∨
      (if (d7 + 255) % 256 ≠ 0 then
          exit_skip (effective st st.abs_data_block).2 fuel (effective st st.abs_data_block).1
            ((d7 + 255) % 256)
        else some (SkipResult.at_group (effective st st.abs_data_block).1)) =
        some SkipResult.notfn4)
    (hrev : exit_reverse (effective st st.abs_data_block).2 (exit_reversed st d6) d7
      fuel (effective st st.abs_data_block).1 1 = some (0, 0)) :
    do_exit fuel st d6 d7 = some (0, 0, (effective st st.abs_data_block).2) := by
  have hrev2 : exit_reverse
      (effective (effective st st.abs_data_block).2
        (effective st st.abs_data_block).2.abs_data_block).2
      (exit_reversed (effective st st.abs_data_block).2 d6) d7 fuel
      (effective (effective st st.abs_data_block).2
        (effective st st.abs_data_block).2.abs_data_block).1 1 = some (0, 0) := hrev
  have hn : notfn4 fuel (effective st st.abs_data_block).2 d6 d7 =
      some (0, 0, (effective st st.abs_data_block).2) := by
    unfold notfn4
    simp only []
    rw [hrev2]
    rfl
  rcases hskip with ⟨h1, h2⟩ | h1
  · rw [do_exit_of_skip fuel st d6 d7 a0 h1, h2]
    exact hn
  · unfold do_exit
    simp only []
    rw [h1]
    exact hn

/-- C30 (amended): when the group of the room (the records `s` to `e`, `e` being its
first record with the top bit of the flags byte set) has no record with
`flags & 0x0f = dir`, and no record before the first zero flags byte (record `z`) has
flag `0x10` set, its low nibble equal to the reversed direction
`exit_reversal_table[dir]` and its target equal to the room, `do_exit` returns 0 for
both values and `int_exit` stores 0 in both result variables, provided the records
lie in the bottom 16K of the paged window. Room and direction are any bytes; the
group of room 0 is the one after 255 group ends, as the 8-bit counter of the code has
it. -/
theorem C30_exit_not_found (fuel : Nat) (st : State) (s e z : Nat)
    (hs : group_ends (exit_flags st) s = (exit_room st + 255) % 256)
    (hstart : s = 0 ∨ 128 ≤ exit_flags st (s - 1))
    (hse : s ≤ e)
    (hown : ∀ k, k ≤ e → s ≤ k → exit_flags st k % 16 ≠ exit_dir st)
    (hin : ∀ k, k < e → s ≤ k → exit_flags st k < 128)
    (hend : 128 ≤ exit_flags st e)
    (hzero : exit_flags st z = 0)
    (hrev : ∀ k, k < z → exit_flags st k ≠ 0 ∧
      ¬ (exit_flags st k / 16 % 2 = 1 ∧
        exit_flags st k % 16 = exit_reversed st (exit_dir st) ∧
        exit_target st k = exit_room st))
    (hwin_e : (effective st st.abs_data_block).1 + 2 * e + 1 < 16384)
    (hwin_z : (effective st st.abs_data_block).1 + 2 * z + 1 < 16384)
    (hfuel_e : e < fuel) (hfuel_z : z < fuel) :
    do_exit fuel (exit_operands st) (exit_dir st) (exit_room st) =
      some (0, 0, (effective (exit_operands st) st.abs_data_block).2) ∧
    int_exit fuel st =
      some (exit_store (effective (exit_operands st) st.abs_data_block).2 0 0) ∧
    (exit_store (effective (exit_operands st) st.abs_data_block).2 0 0).workspace =
      set_var (set_var st.workspace
          (get_var (effective (exit_operands st) st.abs_data_block).2).1 0)
        (get_var (get_var (effective (exit_operands st) st.abs_data_block).2).2).1 0 := by
  have hskip := do_exit_skip_cases fuel st s hs hstart (by omega) (by omega)
  have hown2 := exit_own_none (effective (exit_operands st) st.abs_data_block).2
    (effective st st.abs_data_block).1 e (exit_dir st) (exit_flags st)
    (fun k hk => exit_flags_peek st k (by omega))
    (by omega) (exit_flags_lt st) hend (e - s) fuel s (by omega)
    (fun k h1 h2 => hown k h2 h1) (fun k h1 h2 => hin k h2 h1) (by omega)
  have hrev2 := exit_reverse_none (effective (exit_operands st) st.abs_data_block).2
    (effective st st.abs_data_block).1 z (exit_reversed st (exit_dir st))
    (exit_room st) (exit_flags st) (exit_target st)
    (fun k hk => exit_flags_peek st k (by omega))
    (fun k hk => exit_target_peek st k (by omega))
    (by omega) hzero z fuel 0 1 (by omega) (fun k _ h2 => hrev k h2) (by omega)
  rw [Nat.mul_zero, Nat.add_zero] at hrev2
  have hdo : do_exit fuel (exit_operands st) (exit_dir st) (exit_room st) =
      some (0, 0, (effective (exit_operands st) st.abs_data_block).2) :=
    do_exit_not_found fuel (exit_operands st) (exit_dir st) (exit_room st)
      ((effective st st.abs_data_block).1 + 2 * s)
      (hskip.elim (fun h => Or.inl ⟨h, hown2⟩) Or.inr) hrev2
  refine ⟨hdo, ?_, exit_store_workspace _ _ _⟩
  rw [int_exit_eq, hdo]

theorem C30_exit_not_found_witness :
    (do_exit 5 (exit_operands (exit_state 5)) (exit_dir (exit_state 5))
        (exit_room (exit_state 5)) =
      some (0, 0, (effective (exit_operands (exit_state 5)) (exit_state 5).abs_data_block).2) ∧
    int_exit 5 (exit_state 5) =
      some (exit_store (effective (exit_operands (exit_state 5))
        (exit_state 5).abs_data_block).2 0 0) ∧
    (exit_store (effective (exit_operands (exit_state 5))
        (exit_state 5).abs_data_block).2 0 0).workspace =
      set_var (set_var (exit_state 5).workspace
          (get_var (effective (exit_operands (exit_state 5))
            (exit_state 5).abs_data_block).2).1 0)
        (get_var (get_var (effective (exit_operands (exit_state 5))
            (exit_state 5).abs_data_block).2).2).1 0) ∧
    ((exit_v4_state 5).game_type = 4 ∧
      int_exit 5 (exit_v4_state 5) =
        some (exit_store (effective (exit_operands (exit_v4_state 5))
          (exit_v4_state 5).abs_data_block).2 0 0)) :=
  ⟨C30_exit_not_found 5 (exit_state 5) 1 3 4 (by decide)
      (Or.inr (by decide)) (by decide) (by decide) (by decide) (by decide) (by decide)
      (by decide) (by decide) (by decide) (by decide) (by decide),
    rfl,
    (C30_exit_not_found 5 (exit_v4_state 5) 2 2 0 (by decide)
      (Or.inr (by decide)) (by decide) (by decide) (by decide) (by decide) (by decide)
      (by decide) (by decide) (by decide) (by decide) (by decide)).2.1⟩

set_option maxRecDepth 100000 in
/-- C30 (the claim fails): in `exit_far_state 0x80 0` the group of room 1 is the
records 0 to 4096, `(0x01, 0)`, and the record 4097, `(0x80, 0)`, that ends it, and
the zero flags byte of record 4098 ends the data block: no record is one for the
direction 3 and none has flag `0x10` set, so that the claim has 0 and 0 stored. The
record 4097 lies behind the two pages of the paged window, where `do_exit` reads the
bytes `0x83, 9` of another page through its pointer and takes them for a record for
the direction 3: 0 and 9 are stored. -/
theorem C30_counterexample :
    exit_room (exit_far_state 0x80 0) = 1 ∧ exit_dir (exit_far_state 0x80 0) = 3 ∧
    (∀ k, k < 4097 → exit_flags (exit_far_state 0x80 0) k = 1) ∧
    exit_flags (exit_far_state 0x80 0) 4097 = 0x80 ∧
    exit_flags (exit_far_state 0x80 0) 4098 = 0 ∧
    (int_exit 5000 (exit_far_state 0x80 0)).map
      (fun s => (var_table s.workspace 2, var_table s.workspace 3)) = some (0, 9) := by
  refine ⟨by decide, by decide, fun k hk => exit_far_state_flags _ _ k hk, by decide,
    by decide, ?_⟩
  rw [int_exit_eq, exit_far_state_run 0x80 0 (by decide) (by decide) (by decide) (by decide)
    (by decide)]
  decide

/-- C39 (the code departs from the claim): in `exit_state 200` the direction is 200,
the low byte of a 16-bit variable. No record of the group of the room matches it, the
scan of the group ends and the not-found path of `do_exit` evaluates
`exit_reversal_table[200]`: the index is not below the 16 entries of the table, and
the value used as the reversed direction is byte 184 of what follows the table in
memory. The reverse scan then runs with that value; here it finds nothing and 0 and 0
are stored. -/
theorem C39_reversal_index_out_of_range :
    exit_dir (exit_state 200) = 200 ∧ exit_reversal_table.length = 16 ∧
    exit_own (effective (exit_operands (exit_state 200)) 16).2 200 5
      ((effective (exit_state 200) 16).1 + 2) = some none ∧
    ¬ exit_dir (exit_state 200) < exit_reversal_table.length ∧
    exit_reversed (exit_operands (exit_state 200)) (exit_dir (exit_state 200)) =
      rd8 (exit_state 200).exit_table_tail (200 - 16) ∧
    do_exit 5 (exit_operands (exit_state 200)) (exit_dir (exit_state 200))
        (exit_room (exit_state 200)) =
      notfn4 5 (effective (exit_operands (exit_state 200)) 16).2 200 2 ∧
    (int_exit 5 (exit_state 200)).map
      (fun s => (var_table s.workspace 2, var_table s.workspace 3)) = some (0, 0) := by
  refine ⟨by decide, by decide, by decide, by decide, by decide, ?_, by decide⟩
  rw [do_exit_of_skip 5 (exit_operands (exit_state 200)) (exit_dir (exit_state 200))
    (exit_room (exit_state 200)) ((effective (exit_state 200) 16).1 + 2) rfl]
  rw [show exit_dir (exit_state 200) = 200 by decide]
  rw [show exit_own (effective (exit_operands (exit_state 200))
      (exit_operands (exit_state 200)).abs_data_block).2 200 5
      ((effective (exit_state 200) 16).1 + 2) = some none by decide]
  rfl


/-! ## C17: the word lookups leave `code_ptr` alone -/

end Level9
